import Mathlib

/-!
Architecture-aware C/C++ type model (package cpp_types)

A shallow embedding of android_api/libvulkan/proxy/cpp_types.go:
the type nodes, their per-architecture queries, the struct and union
layout constructors and the input-compatibility predicate.

Conventions of the embedding

* A Go panic is the value `none` of an `Option` (queries, constructors) or
  `Result.panic` (compatibility check).
* Go `uint` is 64 bits wide: additions and multiplications on sizes and offsets
  are taken modulo `2 ^ 64`; a remainder by zero panics.
* `Arch` is the closed enumeration of the six architectures, so the
  `Unknown arch` panics of the source cannot occur.
* Type nodes are finite trees (`Ty`); a pointer holds its pointee.
* The compatibility check recurses on fuel; `IsInputCompatible` supplies fuel
  bounded by the size of the type, which is shown to be enough
  (`IsInputCompatible_ne_outOfFuel`).
* `ReplaceElem` assigns to the field `pointee` of a pointer node and so builds
  cycles. For it the nodes are repeated as `Node`, in which a pointer node is an
  address and a `Store` holds the pointees; the queries the compatibility check
  makes and the check itself are given on `Node` as well. There the fuel is a
  parameter, and some amount of it is shown to be enough in every store a
  program can build (`Node.isInputCompatible_finished`, `Store.Built.ranked`).

Registry loader (vulkan_xml.go, vulkan_types.go)

The parts of the loader that decide values and types are embedded after the
type model: the values of enum members (`enumFieldValue`, with Go's
`strconv.ParseInt` and `int64` arithmetic), `parseEnumValues`,
`vulkanEnumTypeFromXML`, `vulkanHandleTypeFromXML` with the handle predicates,
`vulkanDefineTypeFromXML` with its four tables, the check of
`vulkanStructTypeFromXML`, and the pass of `VulkanTypesfromXML` that replaces
opaque pointees (`resolveOpaquePointees`, on `Node` and `Store`).

* A loader function that returns `(T, error)` has an `Outcome`: the value, the
  error, a panic, or exhausted fuel; only the recursion of `enumFieldValue`
  through aliases takes fuel.
* The records are those that `Unmarshal` hands over; decoding the XML text is
  not embedded.
* A Go map is the list of its entries; a loop over a map is a loop over the
  list, and what is proved of it holds for every order of the entries.

The definitions come first, the theorems after them.
-/

namespace CppTypes

/-! ## Data model -/

/-- Arches, both host and guest (`type Arch uint` and its six constants). -/
inductive Arch
  | Arm | Arm64 | Riscv32 | Riscv64 | X86 | X86_64
  deriving DecidableEq, Repr

def FirstArch : Arch := Arch.Arm

def LastArch : Arch := Arch.X86_64

/-- The range `FirstArch .. LastArch` in the order the source loops over it. -/
def Arch.all : List Arch :=
  [Arch.Arm, Arch.Arm64, Arch.Riscv32, Arch.Riscv64, Arch.X86, Arch.X86_64]

/-- Type kinds (`type Kind uint`); the zero kind is `Invalid`. -/
inductive Kind
  | Invalid | Opaque | Alias | Void | Bool | Char16T | Char32T | Char | SChar | UChar
  | Short | UShort | Int | UInt | Long | ULong | LongLong | ULongLong
  | SSizeT | SizeT | IntPtrT | UIntPtrT
  | Int8T | UInt8T | Int16T | UInt16T | Int32T | UInt32T | Int64T | UInt64T
  | Float32 | Float64 | Array | Struct | Union | Ptr | Enum | Func | Const
  deriving DecidableEq, Repr

/-- Width of Go `uint` arithmetic. -/
def uintModulus : Nat := 2 ^ 64

mutual
/-- Type nodes: one constructor per Go struct implementing `Type`.
`fixedType` carries `sign = none` for a bare `fixedType`, `some true` for
`signedFixedType` and `some false` for `unsignedFixedType`. -/
inductive Ty : Type
  | opaqueType (kind : Kind) (name : String)
  | aliasType (name : String) (base_type : Ty)
  | fixedType (size align : Nat) (kind : Kind) (name : String) (sign : Option Bool)
  | archDependentType (arm_type arm64_type riscv32_type riscv64_type x86_type x86_64_type : Ty)
  | constType (base : Ty)
  | pointerType (pointee : Ty)
  | functionType (result : Ty) (params : List FieldInfo)
  | arrayType (elem : Ty) (size : Nat)
  | structType (name : String) (fields : List StructFieldInfo) (align bits : Nat)
  | unionType (name : String) (fields : List FieldInfo) (align bits : Nat)
  | enumType (name : String) (basetype : Ty) (fields : List EnumFieldInfo)
/-- Plain field description (`fieldInfo`). -/
inductive FieldInfo : Type
  | mk (name : String) (typ : Ty)
/-- Field of a struct with its computed offset (`structFieldInfo`). -/
inductive StructFieldInfo : Type
  | mk (base_field_info : FieldInfo) (offset : Nat)
/-- Member of an enum (`enumFieldInfo`). -/
inductive EnumFieldInfo : Type
  | mk (name : String) (typ : Ty) (aliasName : String) (value : Int)
end

def FieldInfo.Name : FieldInfo → String
  | .mk n _ => n

def FieldInfo.Typ : FieldInfo → Ty
  | .mk _ t => t

def StructFieldInfo.BaseFieldInfo : StructFieldInfo → FieldInfo
  | .mk b _ => b

def StructFieldInfo.Name (f : StructFieldInfo) : String := f.BaseFieldInfo.Name

def StructFieldInfo.Typ (f : StructFieldInfo) : Ty := f.BaseFieldInfo.Typ

def StructFieldInfo.Offset : StructFieldInfo → Nat
  | .mk _ o => o

def EnumFieldInfo.Name : EnumFieldInfo → String
  | .mk n _ _ _ => n

def EnumFieldInfo.Typ : EnumFieldInfo → Ty
  | .mk _ t _ _ => t

def EnumFieldInfo.Alias : EnumFieldInfo → String
  | .mk _ _ al _ => al

def EnumFieldInfo.Value : EnumFieldInfo → Int
  | .mk _ _ _ v => v

/-- What `Field(i, arch)` hands back: the interface value together with its
dynamic type, which the type assertions of the source inspect. -/
inductive AnyFieldInfo : Type
  | field (f : FieldInfo)
  | structField (f : StructFieldInfo)
  | enumField (f : EnumFieldInfo)

def AnyFieldInfo.Name : AnyFieldInfo → String
  | .field f => f.Name
  | .structField f => f.Name
  | .enumField f => f.Name

def AnyFieldInfo.Typ : AnyFieldInfo → Ty
  | .field f => f.Typ
  | .structField f => f.Typ
  | .enumField f => f.Typ

/-- Type assertion `.(StructFieldInfo)`; `none` is the failed assertion. -/
def AnyFieldInfo.asStructFieldInfo : AnyFieldInfo → Option StructFieldInfo
  | .structField f => some f
  | _ => none

/-- Type assertion `.(EnumFieldInfo)`; `none` is the failed assertion. -/
def AnyFieldInfo.asEnumFieldInfo : AnyFieldInfo → Option EnumFieldInfo
  | .enumField f => some f
  | _ => none

/-! ## Queries -/

/-- Pointer width, the body of `pointerType.Align` and `pointerType.Bits`. -/
def pointerBits : Arch → Nat
  | .Arm => 32
  | .Arm64 => 64
  | .Riscv32 => 32
  | .Riscv64 => 64
  | .X86 => 32
  | .X86_64 => 64

def Ty.Align : Ty → Arch → Option Nat
  | .opaqueType _ _, _ => none
  | .aliasType _ base_type, arch => base_type.Align arch
  | .fixedType _ align _ _ _, _ => some align
  | .archDependentType t0 t1 t2 t3 t4 t5, arch =>
    match arch with
    | .Arm => t0.Align arch
    | .Arm64 => t1.Align arch
    | .Riscv32 => t2.Align arch
    | .Riscv64 => t3.Align arch
    | .X86 => t4.Align arch
    | .X86_64 => t5.Align arch
  | .constType base, arch => base.Align arch
  | .pointerType _, arch => some (pointerBits arch)
  | .functionType _ _, _ => none
  | .arrayType elem _, arch => elem.Align arch
  | .structType _ _ align _, _ => some align
  | .unionType _ _ align _, _ => some align
  | .enumType _ basetype _, arch => basetype.Align arch

def Ty.Bits : Ty → Arch → Option Nat
  | .opaqueType _ _, _ => none
  | .aliasType _ base_type, arch => base_type.Bits arch
  | .fixedType size _ _ _ _, _ => some size
  | .archDependentType t0 t1 t2 t3 t4 t5, arch =>
    match arch with
    | .Arm => t0.Bits arch
    | .Arm64 => t1.Bits arch
    | .Riscv32 => t2.Bits arch
    | .Riscv64 => t3.Bits arch
    | .X86 => t4.Bits arch
    | .X86_64 => t5.Bits arch
  | .constType base, arch => base.Bits arch
  | .pointerType _, arch => some (pointerBits arch)
  | .functionType _ _, _ => none
  | .arrayType elem size, arch => (elem.Bits arch).map (fun b => (b * size) % uintModulus)
  | .structType _ _ _ bits, _ => some bits
  | .unionType _ _ _ bits, _ => some bits
  | .enumType _ basetype _, arch => basetype.Bits arch

def Ty.Kind : Ty → Arch → Kind
  | .opaqueType kind _, _ => kind
  | .aliasType _ _, _ => Kind.Alias
  | .fixedType _ _ kind _ _, _ => kind
  | .archDependentType t0 t1 t2 t3 t4 t5, arch =>
    match arch with
    | .Arm => t0.Kind arch
    | .Arm64 => t1.Kind arch
    | .Riscv32 => t2.Kind arch
    | .Riscv64 => t3.Kind arch
    | .X86 => t4.Kind arch
    | .X86_64 => t5.Kind arch
  | .constType _, _ => Kind.Const
  | .pointerType _, _ => Kind.Ptr
  | .functionType _ _, _ => Kind.Func
  | .arrayType _ _, _ => Kind.Array
  | .structType _ _ _ _, _ => Kind.Struct
  | .unionType _ _ _ _, _ => Kind.Union
  | .enumType _ _ _, _ => Kind.Enum

def Ty.Signed : Ty → Arch → Option Bool
  | .fixedType _ _ _ _ sign, _ => sign
  | .archDependentType t0 t1 t2 t3 t4 t5, arch =>
    match arch with
    | .Arm => t0.Signed arch
    | .Arm64 => t1.Signed arch
    | .Riscv32 => t2.Signed arch
    | .Riscv64 => t3.Signed arch
    | .X86 => t4.Signed arch
    | .X86_64 => t5.Signed arch
  | _, _ => none

def Ty.Elem : Ty → Arch → Option Ty
  | .aliasType _ base_type, _ => some base_type
  | .archDependentType t0 t1 t2 t3 t4 t5, arch =>
    match arch with
    | .Arm => t0.Elem arch
    | .Arm64 => t1.Elem arch
    | .Riscv32 => t2.Elem arch
    | .Riscv64 => t3.Elem arch
    | .X86 => t4.Elem arch
    | .X86_64 => t5.Elem arch
  | .constType base, _ => some base
  | .pointerType pointee, _ => some pointee
  | .functionType result _, _ => some result
  | .arrayType elem _, _ => some elem
  | .enumType _ basetype _, _ => some basetype
  | _, _ => none

def Ty.NumField : Ty → Arch → Option Nat
  | .archDependentType t0 t1 t2 t3 t4 t5, arch =>
    match arch with
    | .Arm => t0.NumField arch
    | .Arm64 => t1.NumField arch
    | .Riscv32 => t2.NumField arch
    | .Riscv64 => t3.NumField arch
    | .X86 => t4.NumField arch
    | .X86_64 => t5.NumField arch
  | .functionType _ params, _ => some params.length
  | .arrayType _ size, _ => some size
  | .structType _ fields _ _, _ => some fields.length
  | .unionType _ fields _ _, _ => some fields.length
  | .enumType _ _ fields, _ => some fields.length
  | _, _ => none

/-- Method `Field(i, arch)`; an index out of range panics like any other misuse. -/
def Ty.Field : Ty → Nat → Arch → Option AnyFieldInfo
  | .archDependentType t0 t1 t2 t3 t4 t5, i, arch =>
    match arch with
    | .Arm => t0.Field i arch
    | .Arm64 => t1.Field i arch
    | .Riscv32 => t2.Field i arch
    | .Riscv64 => t3.Field i arch
    | .X86 => t4.Field i arch
    | .X86_64 => t5.Field i arch
  | .functionType _ params, i, _ => params[i]?.map AnyFieldInfo.field
  | .structType _ fields _ _, i, _ => fields[i]?.map AnyFieldInfo.structField
  | .unionType _ fields _ _, i, _ => fields[i]?.map AnyFieldInfo.field
  | .enumType _ _ fields, i, _ => fields[i]?.map AnyFieldInfo.enumField
  | _, _, _ => none

/-! ## Rendering of names and declarations -/

/-- Condition `len(var_name) >= 1 && (var_name[0] == '(' || var_name[0] == '[')`
of `constType.DeclareVar`. -/
def startsWithBracket (var_name : String) : Bool :=
  match var_name.data with
  | c :: _ => c == '(' || c == '['
  | [] => false

/-- Rendering `fmt.Sprintf("%s[%d]", s, size)`. -/
def sprintfIndex (s : String) (size : Nat) : String :=
  s ++ "[" ++ toString size ++ "]"

/-- Body of `functionType.DeclareVar` once the parameters are rendered:
`void` results are written out, other results wrap the declarator. -/
def declareFunction (result_kind : Kind) (result_declare : String → Option String)
    (params : Option (List String)) (var_name : String) : Option String :=
  match params with
  | none => none
  | some ps =>
    if result_kind = Kind.Void then
      some ("void " ++ var_name ++ "(" ++ ", ".intercalate ps ++ ")")
    else
      result_declare (var_name ++ "(" ++ ", ".intercalate ps ++ ")")

mutual
def Ty.DeclareVar : Ty → String → Arch → Option String
  | .opaqueType _ _, _, _ => none
  | .aliasType name _, var_name, _ => some (name ++ " " ++ var_name)
  | .fixedType _ _ _ name _, var_name, _ => some (name ++ " " ++ var_name)
  | .archDependentType t0 t1 t2 t3 t4 t5, var_name, arch =>
    match arch with
    | .Arm => t0.DeclareVar var_name arch
    | .Arm64 => t1.DeclareVar var_name arch
    | .Riscv32 => t2.DeclareVar var_name arch
    | .Riscv64 => t3.DeclareVar var_name arch
    | .X86 => t4.DeclareVar var_name arch
    | .X86_64 => t5.DeclareVar var_name arch
  | .constType base, var_name, arch =>
    if base.Kind arch = Kind.Ptr then
      if startsWithBracket var_name then
        base.DeclareVar ("const" ++ var_name) arch
      else
        base.DeclareVar ("const " ++ var_name) arch
    else
      (base.DeclareVar var_name arch).map (fun s => "const " ++ s)
  | .pointerType pointee, var_name, arch =>
    if pointee.Kind arch = Kind.Array ∨ pointee.Kind arch = Kind.Func then
      pointee.DeclareVar ("(*" ++ var_name ++ ")") arch
    else
      (pointee.Name arch).map (fun s => s ++ " *" ++ var_name)
  | .functionType result params, var_name, arch =>
    declareFunction (result.Kind arch) (fun v => result.DeclareVar v arch)
      (declareParams params arch) var_name
  | .arrayType elem size, var_name, arch =>
    (elem.DeclareVar var_name arch).map (fun s => sprintfIndex s size)
  | .structType name _ _ _, var_name, _ => some ("struct " ++ name ++ " " ++ var_name)
  | .unionType name _ _ _, var_name, _ => some ("union " ++ name ++ " " ++ var_name)
  | .enumType name _ _, var_name, _ => some (name ++ " " ++ var_name)
/-- Method `Name(arch)`. For a function type the source calls
`DeclareVar("", arch)` on the same node; the body is repeated here. -/
def Ty.Name : Ty → Arch → Option String
  | .opaqueType _ name, _ => some name
  | .aliasType name _, _ => some name
  | .fixedType _ _ _ name _, _ => some name
  | .archDependentType t0 t1 t2 t3 t4 t5, arch =>
    match arch with
    | .Arm => t0.Name arch
    | .Arm64 => t1.Name arch
    | .Riscv32 => t2.Name arch
    | .Riscv64 => t3.Name arch
    | .X86 => t4.Name arch
    | .X86_64 => t5.Name arch
  | .constType base, arch =>
    if base.Kind arch = Kind.Ptr then
      base.DeclareVar "const" arch
    else
      (base.Name arch).map (fun s => "const " ++ s)
  | .pointerType pointee, arch =>
    if pointee.Kind arch = Kind.Array ∨ pointee.Kind arch = Kind.Func then
      pointee.DeclareVar "(*)" arch
    else
      (pointee.Name arch).map (fun s => s ++ " *")
  | .functionType result params, arch =>
    declareFunction (result.Kind arch) (fun v => result.DeclareVar v arch)
      (declareParams params arch) ""
  | .arrayType elem size, arch => (elem.Name arch).map (fun s => sprintfIndex s size)
  | .structType name _ _ _, _ => some ("struct " ++ name)
  | .unionType name _ _ _, _ => some ("union " ++ name)
  | .enumType name _ _, _ => some name
/-- The loop `params[i] = param.Type().DeclareVar(param.Name(), arch)`. -/
def declareParams : List FieldInfo → Arch → Option (List String)
  | [], _ => some []
  | .mk name typ :: rest, arch =>
    match typ.DeclareVar name arch, declareParams rest arch with
    | some s, some ss => some (s :: ss)
    | _, _ => none
end

def Ty.BaseName : Ty → Arch → Option String
  | .opaqueType _ name, _ => some name
  | .aliasType name _, _ => some name
  | .fixedType _ _ _ name _, _ => some name
  | .archDependentType t0 t1 t2 t3 t4 t5, arch =>
    match arch with
    | .Arm => t0.BaseName arch
    | .Arm64 => t1.BaseName arch
    | .Riscv32 => t2.BaseName arch
    | .Riscv64 => t3.BaseName arch
    | .X86 => t4.BaseName arch
    | .X86_64 => t5.BaseName arch
  | .constType base, arch => base.BaseName arch
  | .pointerType pointee, arch => pointee.BaseName arch
  | .functionType _ _, _ => none
  | .arrayType elem _, arch => elem.Name arch
  | .structType name _ _ _, _ => some name
  | .unionType name _ _ _, _ => some name
  | .enumType name _ _, _ => some name

/-! ## Constructors -/

def AliasType (name : String) (base_type : Ty) : Ty := Ty.aliasType name base_type

def OpaqueType (name : String) : Ty := Ty.opaqueType Kind.Opaque name

def ArchDependentType (arm_type arm64_type riscv32_type riscv64_type x86_type x86_64_type : Ty) :
    Ty :=
  Ty.archDependentType arm_type arm64_type riscv32_type riscv64_type x86_type x86_64_type

def ConstType (base_type : Ty) : Ty := Ty.constType base_type

def PointerType (pointee_type : Ty) : Ty := Ty.pointerType pointee_type

def FunctionType (result : Ty) (field_info : List FieldInfo) : Ty :=
  Ty.functionType result field_info

def ArrayType (elem_type : Ty) (size : Nat) : Ty := Ty.arrayType elem_type size

def Field (name : String) (typ : Ty) : FieldInfo := FieldInfo.mk name typ

def EnumType (name : String) (basetype : Ty) (values : List EnumFieldInfo) : Ty :=
  Ty.enumType name basetype values

def EnumField (name : String) (basetype : Ty) (aliasName : String) (value : Int) :
    EnumFieldInfo :=
  EnumFieldInfo.mk name basetype aliasName value

/-! ## Struct and union layout -/

/-- The local arrays `struct_fields_info`, `offset`, `align` of `StructType`
together with the flag `arch_dependent_layout`. -/
structure StructLayout where
  struct_fields_info : Arch → List StructFieldInfo
  offset : Arch → Nat
  align : Arch → Nat
  arch_dependent_layout : Bool

/-- State of `StructType` before the first field. The slices are filled front
to back, so they are grown by appending. -/
def StructLayout.init : StructLayout :=
  { struct_fields_info := fun _ => []
    offset := fun _ => 0
    align := fun _ => 0
    arch_dependent_layout := false }

/-- Body of the inner loop of `StructType` for one field and one architecture.
`none` is a panic: of `Align`, of `Bits`, or of the remainder by zero. -/
def StructLayout.addField (field_info : FieldInfo) (st : StructLayout) (arch : Arch) :
    Option StructLayout :=
  match field_info.Typ.Align arch with
  | none => none
  | some field_align =>
    let align := if st.align arch < field_align then
      Function.update st.align arch field_align else st.align
    if field_align = 0 then none
    else
      let modulo := st.offset arch % field_align
      let offset := if modulo ≠ 0 then
        Function.update st.offset arch ((st.offset arch + (field_align - modulo)) % uintModulus)
        else st.offset
      let struct_fields_info := Function.update st.struct_fields_info arch
        (st.struct_fields_info arch ++ [StructFieldInfo.mk field_info (offset arch)])
      match field_info.Typ.Bits arch with
      | none => none
      | some bits =>
        let offset := Function.update offset arch ((offset arch + bits) % uintModulus)
        some
          { struct_fields_info := struct_fields_info
            offset := offset
            align := align
            arch_dependent_layout := st.arch_dependent_layout ||
              (decide (align FirstArch ≠ align arch) || decide (offset FirstArch ≠ offset arch)) }

/-- Loop `for arch := FirstArch; arch <= LastArch; arch++` around a fallible body. -/
def forEachArch (body : StructLayout → Arch → Option StructLayout) (st : StructLayout) :
    Option StructLayout :=
  Arch.all.foldlM body st

/-- Loop over the fields of `StructType`. -/
def StructLayout.addFields : List FieldInfo → StructLayout → Option StructLayout
  | [], st => some st
  | field_info :: rest, st =>
    match forEachArch (StructLayout.addField field_info) st with
    | none => none
    | some st1 => StructLayout.addFields rest st1

/-- Body of the closing loop of `StructType`: tail padding on one architecture. -/
def StructLayout.pad (st : StructLayout) (arch : Arch) : Option StructLayout :=
  if st.align arch = 0 then none
  else
    let modulo := st.offset arch % st.align arch
    let offset := if modulo ≠ 0 then
      Function.update st.offset arch ((st.offset arch + (st.align arch - modulo)) % uintModulus)
      else st.offset
    some
      { struct_fields_info := st.struct_fields_info
        offset := offset
        align := st.align
        arch_dependent_layout := st.arch_dependent_layout ||
          decide (offset FirstArch ≠ offset arch) }

def StructLayout.structOn (name : String) (st : StructLayout) (arch : Arch) : Ty :=
  Ty.structType name (st.struct_fields_info arch) (st.align arch) (st.offset arch)

def StructType (name : String) (fields_info : List FieldInfo) : Option Ty :=
  match StructLayout.addFields fields_info StructLayout.init with
  | none => none
  | some st1 =>
    match forEachArch StructLayout.pad st1 with
    | none => none
    | some st =>
      if st.arch_dependent_layout then
        some (Ty.archDependentType
          (st.structOn name Arch.Arm) (st.structOn name Arch.Arm64)
          (st.structOn name Arch.Riscv32) (st.structOn name Arch.Riscv64)
          (st.structOn name Arch.X86) (st.structOn name Arch.X86_64))
      else
        some (st.structOn name FirstArch)

/-- The local arrays `bits`, `align` of `UnionType` and its flag. -/
structure UnionLayout where
  bits : Arch → Nat
  align : Arch → Nat
  arch_dependent_layout : Bool

/-- Inner loop of `UnionType` over the fields, on one architecture, started
from `bits[arch] = 0`, `align[arch] = 0`. -/
def unionFields (arch : Arch) : List FieldInfo → Nat × Nat → Option (Nat × Nat)
  | [], acc => some acc
  | field_info :: rest, (bits, align) =>
    match field_info.Typ.Bits arch, field_info.Typ.Align arch with
    | some b, some al =>
      unionFields arch rest (if bits < b then b else bits, if align < al then al else align)
    | _, _ => none

/-- Body of the outer loop of `UnionType` for one architecture. -/
def UnionLayout.addArch (fields_info : List FieldInfo) (st : UnionLayout) (arch : Arch) :
    Option UnionLayout :=
  match unionFields arch fields_info (0, 0) with
  | none => none
  | some (b, al) =>
    let bits := Function.update st.bits arch b
    let align := Function.update st.align arch al
    some
      { bits := bits
        align := align
        arch_dependent_layout := st.arch_dependent_layout ||
          (decide (align FirstArch ≠ align arch) || decide (bits FirstArch ≠ bits arch)) }

def UnionLayout.unionOn (name : String) (fields_info : List FieldInfo) (st : UnionLayout)
    (arch : Arch) : Ty :=
  Ty.unionType name fields_info (st.align arch) (st.bits arch)

def UnionType (name : String) (fields_info : List FieldInfo) : Option Ty :=
  match Arch.all.foldlM (UnionLayout.addArch fields_info)
      { bits := fun _ => 0, align := fun _ => 0, arch_dependent_layout := false } with
  | none => none
  | some st =>
    if st.arch_dependent_layout then
      some (Ty.archDependentType
        (st.unionOn name fields_info Arch.Arm) (st.unionOn name fields_info Arch.Arm64)
        (st.unionOn name fields_info Arch.Riscv32) (st.unionOn name fields_info Arch.Riscv64)
        (st.unionOn name fields_info Arch.X86) (st.unionOn name fields_info Arch.X86_64))
    else
      some (st.unionOn name fields_info FirstArch)

/-! ## The primitive types -/

def VoidType : Ty := Ty.opaqueType Kind.Void "void"

def BoolType : Ty := Ty.fixedType 8 8 Kind.Bool "bool" none

def CharType : Ty :=
  Ty.archDependentType
    (Ty.fixedType 8 8 Kind.Char "char" (some false))
    (Ty.fixedType 8 8 Kind.Char "char" (some false))
    (Ty.fixedType 8 8 Kind.Char "char" (some false))
    (Ty.fixedType 8 8 Kind.Char "char" (some false))
    (Ty.fixedType 8 8 Kind.Char "char" (some true))
    (Ty.fixedType 8 8 Kind.Char "char" (some true))

def Char16TType : Ty := Ty.fixedType 16 16 Kind.Char16T "char16_t" (some false)

def Char32TType : Ty := Ty.fixedType 32 32 Kind.Char32T "char32_t" (some false)

def SCharType : Ty := Ty.fixedType 8 8 Kind.SChar "signed char" (some true)

def UCharType : Ty := Ty.fixedType 8 8 Kind.UChar "signed char" (some false)

def ShortType : Ty := Ty.fixedType 16 16 Kind.Short "short" (some true)

def UShortType : Ty := Ty.fixedType 16 16 Kind.UShort "unisigned short" (some false)

def IntType : Ty := Ty.fixedType 32 32 Kind.Int "int" (some true)

def UIntType : Ty := Ty.fixedType 32 32 Kind.UInt "unsigned int" (some false)

def LongType : Ty :=
  Ty.archDependentType
    (Ty.fixedType 32 32 Kind.Long "long" (some true))
    (Ty.fixedType 64 64 Kind.Long "long" (some true))
    (Ty.fixedType 32 32 Kind.Long "long" (some true))
    (Ty.fixedType 64 64 Kind.Long "long" (some true))
    (Ty.fixedType 32 32 Kind.Long "long" (some true))
    (Ty.fixedType 64 64 Kind.Long "long" (some true))

def ULongType : Ty :=
  Ty.archDependentType
    (Ty.fixedType 32 32 Kind.ULong "unsigned long" (some false))
    (Ty.fixedType 64 64 Kind.ULong "unsigned long" (some false))
    (Ty.fixedType 32 32 Kind.ULong "unsigned long" (some false))
    (Ty.fixedType 64 64 Kind.ULong "unsigned long" (some false))
    (Ty.fixedType 32 32 Kind.ULong "unsigned long" (some false))
    (Ty.fixedType 64 64 Kind.ULong "unsigned long" (some false))

def LongLongType : Ty :=
  Ty.archDependentType
    (Ty.fixedType 64 64 Kind.LongLong "long long" (some true))
    (Ty.fixedType 64 64 Kind.LongLong "long long" (some true))
    (Ty.fixedType 64 64 Kind.LongLong "long long" (some true))
    (Ty.fixedType 64 64 Kind.LongLong "long long" (some true))
    (Ty.fixedType 64 32 Kind.LongLong "long long" (some true))
    (Ty.fixedType 64 64 Kind.LongLong "long long" (some true))

def ULongLongType : Ty :=
  Ty.archDependentType
    (Ty.fixedType 64 64 Kind.ULongLong "unsigned long long" (some false))
    (Ty.fixedType 64 64 Kind.ULongLong "unsigned long long" (some false))
    (Ty.fixedType 64 64 Kind.ULongLong "unsigned long long" (some false))
    (Ty.fixedType 64 64 Kind.ULongLong "unsigned long long" (some false))
    (Ty.fixedType 64 32 Kind.ULongLong "unsigned long long" (some false))
    (Ty.fixedType 64 64 Kind.ULongLong "unsigned long long" (some false))

def SSizeTType : Ty :=
  Ty.archDependentType
    (Ty.fixedType 32 32 Kind.SSizeT "ssize_t" (some true))
    (Ty.fixedType 64 64 Kind.SSizeT "ssize_t" (some true))
    (Ty.fixedType 32 32 Kind.SSizeT "ssize_t" (some true))
    (Ty.fixedType 64 64 Kind.SSizeT "ssize_t" (some true))
    (Ty.fixedType 32 32 Kind.SSizeT "ssize_t" (some true))
    (Ty.fixedType 64 64 Kind.SSizeT "ssize_t" (some true))

def SizeTType : Ty :=
  Ty.archDependentType
    (Ty.fixedType 32 32 Kind.SizeT "std::size_t" (some false))
    (Ty.fixedType 64 64 Kind.SizeT "std::size_t" (some false))
    (Ty.fixedType 32 32 Kind.SizeT "std::size_t" (some false))
    (Ty.fixedType 64 64 Kind.SizeT "std::size_t" (some false))
    (Ty.fixedType 32 32 Kind.SizeT "std::size_t" (some false))
    (Ty.fixedType 64 64 Kind.SizeT "std::size_t" (some false))

def IntPtrTType : Ty :=
  Ty.archDependentType
    (Ty.fixedType 32 32 Kind.IntPtrT "std::intptr_t" (some true))
    (Ty.fixedType 64 64 Kind.IntPtrT "std::intptr_t" (some true))
    (Ty.fixedType 32 32 Kind.IntPtrT "std::intptr_t" (some true))
    (Ty.fixedType 64 64 Kind.IntPtrT "std::intptr_t" (some true))
    (Ty.fixedType 32 32 Kind.IntPtrT "std::intptr_t" (some true))
    (Ty.fixedType 64 64 Kind.IntPtrT "std::intptr_t" (some true))

def UintPtrTType : Ty :=
  Ty.archDependentType
    (Ty.fixedType 32 32 Kind.UIntPtrT "std::uintptr_t" (some false))
    (Ty.fixedType 64 64 Kind.UIntPtrT "std::uintptr_t" (some false))
    (Ty.fixedType 32 32 Kind.UIntPtrT "std::uintptr_t" (some false))
    (Ty.fixedType 64 64 Kind.UIntPtrT "std::uintptr_t" (some false))
    (Ty.fixedType 32 32 Kind.UIntPtrT "std::uintptr_t" (some false))
    (Ty.fixedType 64 64 Kind.UIntPtrT "std::uintptr_t" (some false))

def Int8TType : Ty := Ty.fixedType 8 8 Kind.Int8T "std::int8_t" (some true)

def UInt8TType : Ty := Ty.fixedType 8 8 Kind.UInt8T "std::uint8_t" (some false)

def Int16TType : Ty := Ty.fixedType 16 16 Kind.Int16T "std::int16_t" (some true)

def UInt16TType : Ty := Ty.fixedType 16 16 Kind.UInt16T "std::uint16_t" (some false)

def Int32TType : Ty := Ty.fixedType 32 32 Kind.Int32T "std::int32_t" (some true)

def UInt32TType : Ty := Ty.fixedType 32 32 Kind.UInt32T "std::uint32_t" (some false)

def Int64TType : Ty :=
  Ty.archDependentType
    (Ty.fixedType 64 64 Kind.Int64T "std::int64_t" (some true))
    (Ty.fixedType 64 64 Kind.Int64T "std::int64_t" (some true))
    (Ty.fixedType 64 64 Kind.Int64T "std::int64_t" (some true))
    (Ty.fixedType 64 64 Kind.Int64T "std::int64_t" (some true))
    (Ty.fixedType 64 32 Kind.Int64T "std::int64_t" (some true))
    (Ty.fixedType 64 64 Kind.Int64T "std::int64_t" (some true))

def UInt64TType : Ty :=
  Ty.archDependentType
    (Ty.fixedType 64 64 Kind.UInt64T "std::uint64_t" (some false))
    (Ty.fixedType 64 64 Kind.UInt64T "std::uint64_t" (some false))
    (Ty.fixedType 64 64 Kind.UInt64T "std::uint64_t" (some false))
    (Ty.fixedType 64 64 Kind.UInt64T "std::uint64_t" (some false))
    (Ty.fixedType 64 32 Kind.UInt64T "std::uint64_t" (some false))
    (Ty.fixedType 64 64 Kind.UInt64T "std::uint64_t" (some false))

def Float32Type : Ty := Ty.fixedType 32 32 Kind.Float32 "float" (some true)

def Float64Type : Ty :=
  Ty.archDependentType
    (Ty.fixedType 64 64 Kind.Float64 "double" (some true))
    (Ty.fixedType 64 64 Kind.Float64 "double" (some true))
    (Ty.fixedType 64 64 Kind.Float64 "double" (some true))
    (Ty.fixedType 64 64 Kind.Float64 "double" (some true))
    (Ty.fixedType 64 32 Kind.Float64 "double" (some true))
    (Ty.fixedType 64 64 Kind.Float64 "double" (some true))

/-- The fixed-size primitive types declared by the package, in source order
(`VoidType` is an opaque node and is not among them). -/
def primitiveTypes : List Ty :=
  [BoolType, CharType, Char16TType, Char32TType, SCharType, UCharType, ShortType, UShortType,
   IntType, UIntType, LongType, ULongType, LongLongType, ULongLongType, SSizeTType, SizeTType,
   IntPtrTType, UintPtrTType, Int8TType, UInt8TType, Int16TType, UInt16TType, Int32TType,
   UInt32TType, Int64TType, UInt64TType, Float32Type, Float64Type]

/-! ## Compatibility check -/

/-- Outcome of a run of the source: a value, a Go panic, or exhausted fuel. -/
inductive Result (α : Type) : Type
  | ok (v : α)
  | panic
  | outOfFuel
  deriving DecidableEq, Repr

def Result.map {α β : Type} (f : α → β) : Result α → Result β
  | .ok v => .ok (f v)
  | .panic => .panic
  | .outOfFuel => .outOfFuel

/-- Counting loop `for i := start; i < start + count; i++` whose body either
lets the loop go on (`true`) or makes the function return `false`. -/
def loopFrom {σ : Type} (body : Nat → σ → Result (Bool × σ)) :
    Nat → Nat → σ → Result (Bool × σ)
  | 0, _, s => Result.ok (true, s)
  | count + 1, i, s =>
    match body i s with
    | .ok (true, s1) => loopFrom body count (i + 1) s1
    | r => r

/-- Type of `isInputCompatible` without its fuel, for the recursive calls. -/
abbrev Checker : Type :=
  Ty → Arch → Ty → Arch → List String → Result (Bool × List String)

/-- Condition `kind == Opaque && host_type.Name(host_arch) == guest_type.Name(guest_arch)`;
the names are only asked for when the kind is `Opaque`. -/
def sameOpaqueName (kind : Kind) (host_type : Ty) (host_arch : Arch) (guest_type : Ty)
    (guest_arch : Arch) : Result Bool :=
  if kind = Kind.Opaque then
    match host_type.Name host_arch, guest_type.Name guest_arch with
    | some n1, some n2 => Result.ok (decide (n1 = n2))
    | _, _ => Result.panic
  else Result.ok false

/-- Body of the loop of the `Enum` case: `false` makes the function return
`false`, `true` lets the loop go on. -/
def compareEnumValue (host_type : Ty) (host_arch : Arch) (guest_type : Ty) (guest_arch : Arch)
    (i : Nat) (processed : List String) : Result (Bool × List String) :=
  match (host_type.Field i host_arch).bind AnyFieldInfo.asEnumFieldInfo,
      (guest_type.Field i guest_arch).bind AnyFieldInfo.asEnumFieldInfo with
  | some host_field_enum, some guest_field_enum =>
    if host_field_enum.Value ≠ guest_field_enum.Value then Result.ok (false, processed)
    else Result.ok (true, processed)
  | _, _ => Result.panic

/-- Condition `host_field_struct.Offset() != guest_field_struct.Offset()` of the
`Struct, Union` case, evaluated for structs only. -/
def offsetsDiffer (kind : Kind) (host_field guest_field : AnyFieldInfo) : Result Bool :=
  if kind = Kind.Struct then
    match host_field.asStructFieldInfo, guest_field.asStructFieldInfo with
    | some host_field_struct, some guest_field_struct =>
      Result.ok (decide (host_field_struct.Offset ≠ guest_field_struct.Offset))
    | _, _ => Result.panic
  else Result.ok false

/-- Body of the loop of the `Struct, Union` case. -/
def compareField (again : Checker) (kind : Kind) (host_type : Ty) (host_arch : Arch)
    (guest_type : Ty) (guest_arch : Arch) (i : Nat) (processed : List String) :
    Result (Bool × List String) :=
  match host_type.Field i host_arch, guest_type.Field i guest_arch with
  | some host_field, some guest_field =>
    match offsetsDiffer kind host_field guest_field with
    | .panic => Result.panic
    | .outOfFuel => Result.outOfFuel
    | .ok true => Result.ok (false, processed)
    | .ok false => again host_field.Typ host_arch guest_field.Typ guest_arch processed
  | _, _ => Result.panic

/-- The `switch kind` of `isInputCompatible` with the `return true` after it. -/
def compareByKind (again : Checker) (kind : Kind) (host_type : Ty) (host_arch : Arch)
    (guest_type : Ty) (guest_arch : Arch) (processed : List String) :
    Result (Bool × List String) :=
  if kind = Kind.Array then
    -- the source compares `host_type.NumField` on both architectures
    match host_type.NumField host_arch, host_type.NumField guest_arch with
    | some n1, some n2 =>
      if n1 ≠ n2 then Result.ok (false, processed)
      else
        match host_type.Elem host_arch, guest_type.Elem guest_arch with
        | some host_elem, some guest_elem =>
          again host_elem host_arch guest_elem guest_arch processed
        | _, _ => Result.panic
    | _, _ => Result.panic
  else if kind = Kind.Enum then
    match host_type.Elem host_arch, guest_type.Elem guest_arch with
    | some host_elem, some guest_elem =>
      match again host_elem host_arch guest_elem guest_arch processed with
      | .ok (true, processed1) =>
        match host_type.NumField host_arch with
        | none => Result.panic
        | some n =>
          loopFrom (compareEnumValue host_type host_arch guest_type guest_arch) n 0 processed1
      | r => r
    | _, _ => Result.panic
  else if kind = Kind.Ptr then
    match host_type.Elem host_arch, guest_type.Elem guest_arch with
    | some host_elem, some guest_elem =>
      again host_elem host_arch guest_elem guest_arch processed
    | _, _ => Result.panic
  else if kind = Kind.Struct ∨ kind = Kind.Union then
    match host_type.Name host_arch, guest_type.Name guest_arch with
    | some name, some guest_name =>
      if name ≠ guest_name then Result.ok (false, processed)
      else if name ∈ processed then Result.ok (true, processed)
      else
        match host_type.NumField host_arch, guest_type.NumField guest_arch with
        | some n, some guest_n =>
          if n ≠ guest_n then Result.ok (false, name :: processed)
          else
            loopFrom (compareField again kind host_type host_arch guest_type guest_arch)
              n 0 (name :: processed)
        | _, _ => Result.panic
    | _, _ => Result.panic
  else Result.ok (true, processed)

/-- Body of `isInputCompatible`, with its recursive calls made through `again`.
`processed` holds the keys of the map `processed_structures` (its values are
never read); the map is shared by all recursive calls, so every call hands the
updated keys back. -/
def isInputCompatibleBody (again : Checker) (host_type : Ty) (host_arch : Arch)
    (guest_type : Ty) (guest_arch : Arch) (processed : List String) :
    Result (Bool × List String) :=
  let kind := host_type.Kind host_arch
  if kind = Kind.Alias then
    match host_type.Elem host_arch with
    | none => Result.panic
    | some host_elem => again host_elem host_arch guest_type guest_arch processed
  else
    let kind2 := guest_type.Kind guest_arch
    if kind2 = Kind.Alias then
      -- the source reads `guest_type.Elem(host_arch)`
      match guest_type.Elem host_arch with
      | none => Result.panic
      | some guest_elem => again host_type host_arch guest_elem guest_arch processed
    else if kind ≠ kind2 then Result.ok (false, processed)
    else if kind = Kind.Func then Result.ok (false, processed)
    else if kind = Kind.Const then
      match host_type.Elem host_arch, guest_type.Elem guest_arch with
      | some host_elem, some guest_elem =>
        again host_elem host_arch guest_elem guest_arch processed
      | _, _ => Result.panic
    else if kind = Kind.Void then Result.ok (true, processed)
    else
      match sameOpaqueName kind host_type host_arch guest_type guest_arch with
      | .panic => Result.panic
      | .outOfFuel => Result.outOfFuel
      | .ok true => Result.ok (true, processed)
      | .ok false =>
        match host_type.Bits host_arch, guest_type.Bits guest_arch with
        | some host_bits, some guest_bits =>
          if host_bits ≠ guest_bits then Result.ok (false, processed)
          else
            match guest_type.Align guest_arch, host_type.Align host_arch with
            | some guest_align, some host_align =>
              if guest_align < host_align then Result.ok (false, processed)
              else compareByKind again kind host_type host_arch guest_type guest_arch processed
            | _, _ => Result.panic
        | _, _ => Result.panic

/-- Function `isInputCompatible`, run with a bound on the depth of recursion. -/
def isInputCompatible : Nat → Ty → Arch → Ty → Arch → List String →
    Result (Bool × List String)
  | 0, _, _, _, _, _ => Result.outOfFuel
  | fuel + 1, host_type, host_arch, guest_type, guest_arch, processed =>
    isInputCompatibleBody (isInputCompatible fuel) host_type host_arch guest_type guest_arch
      processed

mutual
/-- Number of nodes of a type; it bounds the depth of the compatibility check. -/
def Ty.size : Ty → Nat
  | .opaqueType _ _ => 1
  | .aliasType _ base_type => base_type.size + 1
  | .fixedType _ _ _ _ _ => 1
  | .archDependentType t0 t1 t2 t3 t4 t5 =>
    t0.size + t1.size + t2.size + t3.size + t4.size + t5.size + 1
  | .constType base => base.size + 1
  | .pointerType pointee => pointee.size + 1
  | .functionType result params => result.size + fieldsSize params + 1
  | .arrayType elem _ => elem.size + 1
  | .structType _ fields _ _ => structFieldsSize fields + 1
  | .unionType _ fields _ _ => fieldsSize fields + 1
  | .enumType _ basetype fields => basetype.size + enumFieldsSize fields + 1
def FieldInfo.size : FieldInfo → Nat
  | .mk _ typ => typ.size + 1
def StructFieldInfo.size : StructFieldInfo → Nat
  | .mk base_field_info _ => base_field_info.size + 1
def EnumFieldInfo.size : EnumFieldInfo → Nat
  | .mk _ typ _ _ => typ.size + 1
def fieldsSize : List FieldInfo → Nat
  | [] => 0
  | f :: rest => f.size + fieldsSize rest
def structFieldsSize : List StructFieldInfo → Nat
  | [] => 0
  | f :: rest => f.size + structFieldsSize rest
def enumFieldsSize : List EnumFieldInfo → Nat
  | [] => 0
  | f :: rest => f.size + enumFieldsSize rest
end

/-- Fuel handed to `isInputCompatible` for a host and a guest type: every
recursive call descends into the host type or into the guest type. -/
def compatFuel (host_type guest_type : Ty) : Nat := host_type.size + guest_type.size + 1

def IsInputCompatible (typ : Ty) (host_arch guest_arch : Arch) : Result Bool :=
  (isInputCompatible (compatFuel typ typ) typ host_arch typ guest_arch []).map Prod.fst

def IsCompatible (typ : Ty) (host_arch guest_arch : Arch) : Result Bool :=
  match IsInputCompatible typ host_arch guest_arch with
  | .ok true => IsInputCompatible typ guest_arch host_arch
  | r => r

/-! ## Vocabulary of the proofs: the layout loops unfolded -/

/-- Rounding an offset up to the next multiple of an alignment, as both loops
of `StructType` do it (nothing happens when the remainder is zero). -/
def roundUp (offset align : Nat) : Nat :=
  if offset % align ≠ 0 then (offset + (align - offset % align)) % uintModulus else offset

/-- State that `StructLayout.addField` produces when it does not panic. -/
def StructLayout.addFieldPure (field_info : FieldInfo) (st : StructLayout) (arch : Arch) :
    StructLayout :=
  let align := Function.update st.align arch
    (max (st.align arch) ((field_info.Typ.Align arch).getD 0))
  let start := roundUp (st.offset arch) ((field_info.Typ.Align arch).getD 0)
  let offset := Function.update st.offset arch
    ((start + (field_info.Typ.Bits arch).getD 0) % uintModulus)
  { struct_fields_info := Function.update st.struct_fields_info arch
      (st.struct_fields_info arch ++ [StructFieldInfo.mk field_info start])
    offset := offset
    align := align
    arch_dependent_layout := st.arch_dependent_layout ||
      (decide (align FirstArch ≠ align arch) || decide (offset FirstArch ≠ offset arch)) }

/-- State that `StructLayout.pad` produces when it does not panic. -/
def StructLayout.padPure (st : StructLayout) (arch : Arch) : StructLayout :=
  let offset := Function.update st.offset arch (roundUp (st.offset arch) (st.align arch))
  { struct_fields_info := st.struct_fields_info
    offset := offset
    align := st.align
    arch_dependent_layout := st.arch_dependent_layout ||
      decide (offset FirstArch ≠ offset arch) }

/-- A field can be laid out on `arch`: its type has a size and a non-zero alignment. -/
def FieldInfo.Sized (field_info : FieldInfo) (arch : Arch) : Prop :=
  ∃ al b, field_info.Typ.Align arch = some al ∧ al ≠ 0 ∧ field_info.Typ.Bits arch = some b

/-- Chain of preconditions met along a loop over architectures. -/
def okAlong {σ : Type} (ok : σ → Arch → Prop) (step : σ → Arch → σ) : List Arch → σ → Prop
  | [], _ => True
  | a :: l, st => ok st a ∧ okAlong ok step l (step st a)

/-- Offset at which `StructType` places a field on `arch` when the running
offset is `offset`. -/
def fieldStart (field_info : FieldInfo) (arch : Arch) (offset : Nat) : Nat :=
  roundUp offset ((field_info.Typ.Align arch).getD 0)

/-- Running offset on `arch` after a field. -/
def fieldEnd (field_info : FieldInfo) (arch : Arch) (offset : Nat) : Nat :=
  (fieldStart field_info arch offset + (field_info.Typ.Bits arch).getD 0) % uintModulus

/-- State after the field loop of `StructType` when no field panics. -/
def StructLayout.addFieldsPure : List FieldInfo → StructLayout → StructLayout
  | [], st => st
  | field_info :: rest, st =>
    StructLayout.addFieldsPure rest (Arch.all.foldl (StructLayout.addFieldPure field_info) st)

/-- Running alignment on `arch` after a list of fields. -/
def alignAfter (arch : Arch) (fields : List FieldInfo) (align : Nat) : Nat :=
  fields.foldl (fun m f => max m ((f.Typ.Align arch).getD 0)) align

/-- Running offset on `arch` after a list of fields. -/
def offsetAfter (arch : Arch) (fields : List FieldInfo) (offset : Nat) : Nat :=
  fields.foldl (fun o f => fieldEnd f arch o) offset

/-- Field records on `arch` for a list of fields laid out from `offset`. -/
def fieldsFrom (arch : Arch) : List FieldInfo → Nat → List StructFieldInfo
  | [], _ => []
  | f :: rest, offset =>
    StructFieldInfo.mk f (fieldStart f arch offset) :: fieldsFrom arch rest (fieldEnd f arch offset)

/-- State of `StructType` after both loops when nothing panics. -/
def StructLayout.final (fields : List FieldInfo) : StructLayout :=
  Arch.all.foldl StructLayout.padPure (StructLayout.addFieldsPure fields StructLayout.init)

/-- The node `StructType` returns for a final state. -/
def StructLayout.toType (name : String) (st : StructLayout) : Ty :=
  if st.arch_dependent_layout then
    Ty.archDependentType
      (st.structOn name Arch.Arm) (st.structOn name Arch.Arm64)
      (st.structOn name Arch.Riscv32) (st.structOn name Arch.Riscv64)
      (st.structOn name Arch.X86) (st.structOn name Arch.X86_64)
  else st.structOn name FirstArch

/-- A field type answers both `Bits` and `Align` on `arch`. -/
def FieldInfo.HasLayout (field_info : FieldInfo) (arch : Arch) : Prop :=
  ∃ al b, field_info.Typ.Align arch = some al ∧ field_info.Typ.Bits arch = some b

/-- Running maximum of the field sizes on `arch`. -/
def bitsAfter (arch : Arch) (fields : List FieldInfo) (bits : Nat) : Nat :=
  fields.foldl (fun m f => max m ((f.Typ.Bits arch).getD 0)) bits

/-- State that `UnionLayout.addArch` produces when it does not panic. -/
def UnionLayout.addArchPure (fields_info : List FieldInfo) (st : UnionLayout) (arch : Arch) :
    UnionLayout :=
  let bits := Function.update st.bits arch (bitsAfter arch fields_info 0)
  let align := Function.update st.align arch (alignAfter arch fields_info 0)
  { bits := bits
    align := align
    arch_dependent_layout := st.arch_dependent_layout ||
      (decide (align FirstArch ≠ align arch) || decide (bits FirstArch ≠ bits arch)) }

/-- Start state of `UnionType`. -/
def UnionLayout.init : UnionLayout :=
  { bits := fun _ => 0, align := fun _ => 0, arch_dependent_layout := false }

/-- State of `UnionType` after its loop when nothing panics. -/
def UnionLayout.final (fields : List FieldInfo) : UnionLayout :=
  Arch.all.foldl (UnionLayout.addArchPure fields) UnionLayout.init

/-- The node `UnionType` returns for a final state. -/
def UnionLayout.toType (name : String) (fields : List FieldInfo) (st : UnionLayout) : Ty :=
  if st.arch_dependent_layout then
    Ty.archDependentType
      (st.unionOn name fields Arch.Arm) (st.unionOn name fields Arch.Arm64)
      (st.unionOn name fields Arch.Riscv32) (st.unionOn name fields Arch.Riscv64)
      (st.unionOn name fields Arch.X86) (st.unionOn name fields Arch.X86_64)
  else st.unionOn name fields FirstArch

/-! ## Vocabulary of the proofs: types that the package can build -/

/-- Types obtained from the exported constructors and the primitive table. -/
inductive Buildable : Ty → Prop
  | void : Buildable VoidType
  | primitive (t : Ty) : t ∈ primitiveTypes → Buildable t
  | opaqueNamed (name : String) : Buildable (OpaqueType name)
  | aliasOf (name : String) (t : Ty) : Buildable t → Buildable (AliasType name t)
  | archDependent (t0 t1 t2 t3 t4 t5 : Ty) : Buildable t0 → Buildable t1 → Buildable t2 →
      Buildable t3 → Buildable t4 → Buildable t5 →
      Buildable (ArchDependentType t0 t1 t2 t3 t4 t5)
  | const (t : Ty) : Buildable t → Buildable (ConstType t)
  | pointer (t : Ty) : Buildable t → Buildable (PointerType t)
  | function (result : Ty) (params : List FieldInfo) : Buildable result →
      (∀ p ∈ params, Buildable p.Typ) → Buildable (FunctionType result params)
  | array (t : Ty) (size : Nat) : Buildable t → Buildable (ArrayType t size)
  | struct (name : String) (fields : List FieldInfo) (t : Ty) :
      (∀ f ∈ fields, Buildable f.Typ) → StructType name fields = some t → Buildable t
  | union (name : String) (fields : List FieldInfo) (t : Ty) :
      (∀ f ∈ fields, Buildable f.Typ) → UnionType name fields = some t → Buildable t
  | enum (name : String) (basetype : Ty) (values : List EnumFieldInfo) : Buildable basetype →
      (∀ v ∈ values, Buildable v.Typ) → Buildable (EnumType name basetype values)

/-- Alignments that occur in the model: none, or 1, 2, 4 or 8 bytes. -/
def validAlign (al : Nat) : Prop := al = 0 ∨ al = 8 ∨ al = 16 ∨ al = 32 ∨ al = 64

instance (al : Nat) : Decidable (validAlign al) := by
  unfold validAlign; infer_instance

/-! ## Vocabulary of the proofs: maxima -/

/-- Maximum of a list of sizes; 0 for the empty list. -/
def maxOf (l : List Nat) : Nat := l.foldr max 0

/-! ## The struct layout as the specification words it -/

/-- Advance `offset` to the next multiple of `m` unless it is one already. -/
def nextMultiple (offset m : Nat) : Nat :=
  if offset % m ≠ 0 then (offset / m + 1) * m else offset

/-- Struct layout algorithm of the specification on one architecture, from a
running `offset` and `align`: for each field in order
`fa = field.type.align(arch)`, `align = max(align, fa)`, `offset` is advanced to
the next multiple of `fa`, the field gets `offset`, and `offset` grows by
`field.type.bits(arch)`; after the last field `offset` is rounded up to a
multiple of `align`. The result lists the field offsets, the struct alignment
and the struct size. -/
def specLayout (arch : Arch) : List FieldInfo → Nat → Nat → Option (List Nat × Nat × Nat)
  | [], offset, align => some ([], align, nextMultiple offset align)
  | field :: rest, offset, align =>
    match field.Typ.Align arch, field.Typ.Bits arch with
    | some fa, some bits =>
      (specLayout arch rest (nextMultiple offset fa + bits) (max align fa)).map
        (fun r => (nextMultiple offset fa :: r.1, r.2))
    | _, _ => none

/-! ## Vocabulary of the proofs: classes of types for the compatibility check -/

/-- Removes the typedef layers on top of a type. -/
def Ty.stripAlias : Ty → Ty
  | .aliasType _ base_type => base_type.stripAlias
  | t => t

/-- A function type, or a pointer to one, with any `Alias` and `Const`
wrappers around the function type and around the pointers. -/
inductive ReachesFunction : Ty → Prop
  | function (t : Ty) : (∀ a, t.Kind a = Kind.Func) → ReachesFunction t
  | aliasOf (name : String) (t : Ty) : ReachesFunction t → ReachesFunction (Ty.aliasType name t)
  | const (t : Ty) : ReachesFunction t → ReachesFunction (Ty.constType t)
  | pointer (t : Ty) : ReachesFunction t → ReachesFunction (Ty.pointerType t)

/-- The node that answers the queries of a type on architecture `a`: the
variant of `a` under any `archDependentType` nodes. -/
def Ty.resolve (a : Arch) : Ty → Ty
  | .archDependentType t0 t1 t2 t3 t4 t5 =>
    match a with
    | .Arm => t0.resolve a
    | .Arm64 => t1.resolve a
    | .Riscv32 => t2.resolve a
    | .Riscv64 => t3.resolve a
    | .X86 => t4.resolve a
    | .X86_64 => t5.resolve a
  | t => t

/-- The node is an `archDependentType`. -/
def Ty.isArchDependent : Ty → Bool
  | .archDependentType _ _ _ _ _ _ => true
  | _ => false

/-- Selection of the variant of architecture `a` among six. -/
def Arch.pick {α : Type} (a : Arch) (x0 x1 x2 x3 x4 x5 : α) : α :=
  match a with
  | .Arm => x0
  | .Arm64 => x1
  | .Riscv32 => x2
  | .Riscv64 => x3
  | .X86 => x4
  | .X86_64 => x5

/-- The node reached on architecture `a` under typedefs and `archDependentType` nodes. -/
def Ty.core (a : Arch) : Ty → Ty
  | .archDependentType t0 t1 t2 t3 t4 t5 =>
    match a with
    | .Arm => t0.core a
    | .Arm64 => t1.core a
    | .Riscv32 => t2.core a
    | .Riscv64 => t3.core a
    | .X86 => t4.core a
    | .X86_64 => t5.core a
  | .aliasType _ base_type => base_type.core a
  | t => t

/-- Kinds of the primitive types, `Bool` to `Float64`. -/
def isPrimitiveKind : Kind → Bool
  | .Invalid | .Opaque | .Alias | .Void | .Array | .Struct | .Union | .Ptr | .Enum | .Func
  | .Const => false
  | _ => true

/-- Types the check can compare on architecture `a` without meeting a function
type and without asking an opaque, void or function type for its size: every
array element type and every enum underlying type has a size. -/
inductive Comparable (a : Arch) : Ty → Prop
  | opaqueNode (name : String) : Comparable a (Ty.opaqueType Kind.Opaque name)
  | void (name : String) : Comparable a (Ty.opaqueType Kind.Void name)
  | fixed (size align : Nat) (kind : Kind) (name : String) (sign : Option Bool) :
      isPrimitiveKind kind = true → Comparable a (Ty.fixedType size align kind name sign)
  | aliasOf (name : String) (t : Ty) : Comparable a t → Comparable a (Ty.aliasType name t)
  | archDependent (t0 t1 t2 t3 t4 t5 : Ty) : Comparable a (a.pick t0 t1 t2 t3 t4 t5) →
      Comparable a (Ty.archDependentType t0 t1 t2 t3 t4 t5)
  | const (t : Ty) : Comparable a t → Comparable a (Ty.constType t)
  | pointer (t : Ty) : Comparable a t → Comparable a (Ty.pointerType t)
  | array (t : Ty) (size : Nat) : Comparable a t → (t.Bits a).isSome →
      Comparable a (Ty.arrayType t size)
  | enum (name : String) (basetype : Ty) (fields : List EnumFieldInfo) :
      Comparable a basetype → (basetype.Bits a).isSome →
      Comparable a (Ty.enumType name basetype fields)
  | struct (name : String) (fields : List StructFieldInfo) (align bits : Nat) :
      (∀ f ∈ fields, Comparable a f.Typ) → Comparable a (Ty.structType name fields align bits)
  | union (name : String) (fields : List FieldInfo) (align bits : Nat) :
      (∀ f ∈ fields, Comparable a f.Typ) → Comparable a (Ty.unionType name fields align bits)

/-- The type is a struct node on architecture `a`. -/
def Ty.IsStructOn (t : Ty) (a : Arch) : Prop :=
  ∃ name fields align bits, t.resolve a = Ty.structType name fields align bits

/-! ## Concrete inputs -/

/-- An array type that is `uint8_t[3]` everywhere except on x86, where it is
`int16_t[1]`: smaller there, but with a larger alignment. -/
def threeBytesOrShort : Ty :=
  ArchDependentType (ArrayType UInt8TType 3) (ArrayType UInt8TType 3) (ArrayType UInt8TType 3)
    (ArrayType UInt8TType 3) (ArrayType Int16TType 1) (ArrayType UInt8TType 3)

/-- Fields whose sizes and alignments differ on x86 while the running offset
and alignment after every field are the same on all architectures. -/
def mixedFields : List FieldInfo :=
  [Field "a" Int16TType, Field "b" Int8TType, Field "c" threeBytesOrShort]

/-- What `StructType` returns for `mixedFields`: one node for all architectures. -/
def mixedStruct : Ty :=
  Ty.structType "S"
    [StructFieldInfo.mk (Field "a" Int16TType) 0, StructFieldInfo.mk (Field "b" Int8TType) 16,
     StructFieldInfo.mk (Field "c" threeBytesOrShort) 24] 16 48

/-- A non-dispatchable handle as the registry loader builds it
(`VK_DEFINE_NON_DISPATCHABLE_HANDLE(VkFence)`): `uint64_t` on the 32-bit
architectures, a pointer to an opaque struct on the 64-bit ones. -/
def vkFence : Ty :=
  ArchDependentType
    (AliasType "VkFence" UInt64TType)
    (AliasType "VkFence" (PointerType (OpaqueType "struct VkFence_T")))
    (AliasType "VkFence" UInt64TType)
    (AliasType "VkFence" (PointerType (OpaqueType "struct VkFence_T")))
    (AliasType "VkFence" UInt64TType)
    (AliasType "VkFence" (PointerType (OpaqueType "struct VkFence_T")))

/-- An enum that has one member on most architectures and a second one on x86. -/
def openFlagsGrown : Ty :=
  ArchDependentType
    (EnumType "open_flags" IntType [EnumField "open" IntType "" 1])
    (EnumType "open_flags" IntType [EnumField "open" IntType "" 1])
    (EnumType "open_flags" IntType [EnumField "open" IntType "" 1])
    (EnumType "open_flags" IntType [EnumField "open" IntType "" 1])
    (EnumType "open_flags" IntType [EnumField "open" IntType "" 1, EnumField "close" IntType "" 2])
    (EnumType "open_flags" IntType [EnumField "open" IntType "" 1])

/-- The enum of the package test: the two members swap their values on x86. -/
def openFlagsSwapped : Ty :=
  ArchDependentType
    (EnumType "open_flags" IntType [EnumField "open" IntType "" 1, EnumField "close" IntType "" 2])
    (EnumType "open_flags" IntType [EnumField "open" IntType "" 1, EnumField "close" IntType "" 2])
    (EnumType "open_flags" IntType [EnumField "open" IntType "" 1, EnumField "close" IntType "" 2])
    (EnumType "open_flags" IntType [EnumField "open" IntType "" 1, EnumField "close" IntType "" 2])
    (EnumType "open_flags" IntType [EnumField "open" IntType "" 2, EnumField "close" IntType "" 1])
    (EnumType "open_flags" IntType [EnumField "open" IntType "" 1, EnumField "close" IntType "" 2])

/-- The struct `{uint64_t a; uint32_t b;}` of the package test on one architecture. -/
def testStructAOn (offset_b align bits : Nat) : Ty :=
  Ty.structType "Test"
    [StructFieldInfo.mk (Field "a" UInt64TType) 0,
     StructFieldInfo.mk (Field "b" UInt32TType) offset_b] align bits

/-- What `StructType` returns for `{uint64_t a; uint32_t b;}`. -/
def testStructA : Ty :=
  Ty.archDependentType (testStructAOn 64 64 128) (testStructAOn 64 64 128)
    (testStructAOn 64 64 128) (testStructAOn 64 64 128) (testStructAOn 64 32 96)
    (testStructAOn 64 64 128)

/-- The struct `{uint32_t a; uint64_t b;}` of the package test on one architecture. -/
def testStructBOn (offset_b align bits : Nat) : Ty :=
  Ty.structType "Test"
    [StructFieldInfo.mk (Field "a" UInt32TType) 0,
     StructFieldInfo.mk (Field "b" UInt64TType) offset_b] align bits

/-- What `StructType` returns for `{uint32_t a; uint64_t b;}`. -/
def testStructB : Ty :=
  Ty.archDependentType (testStructBOn 64 64 128) (testStructBOn 64 64 128)
    (testStructBOn 64 64 128) (testStructBOn 64 64 128) (testStructBOn 32 32 96)
    (testStructBOn 64 64 128)

/-- An array type that is `uint8_t[8]` everywhere except on x86, where it is `uint8_t[12]`. -/
def eightOrTwelveBytes : Ty :=
  ArchDependentType (ArrayType UInt8TType 8) (ArrayType UInt8TType 8) (ArrayType UInt8TType 8)
    (ArrayType UInt8TType 8) (ArrayType UInt8TType 12) (ArrayType UInt8TType 8)

/-- Fields of a struct that has the same size on x86 and ARM, places `b` at
different offsets there, and starts with a pointer to an array of an opaque type. -/
def opaqueArrayFields : List FieldInfo :=
  [Field "p" (PointerType (ArrayType (OpaqueType "X") 3)), Field "b" UInt64TType,
   Field "c" eightOrTwelveBytes]

/-- The struct of `opaqueArrayFields` on one architecture. -/
def opaqueArrayStructOn (offset_b offset_c align : Nat) : Ty :=
  Ty.structType "P"
    [StructFieldInfo.mk (Field "p" (PointerType (ArrayType (OpaqueType "X") 3))) 0,
     StructFieldInfo.mk (Field "b" UInt64TType) offset_b,
     StructFieldInfo.mk (Field "c" eightOrTwelveBytes) offset_c] align 192

/-- What `StructType` returns for `opaqueArrayFields`. -/
def opaqueArrayStruct : Ty :=
  Ty.archDependentType (opaqueArrayStructOn 64 128 64) (opaqueArrayStructOn 64 128 64)
    (opaqueArrayStructOn 64 128 64) (opaqueArrayStructOn 64 128 64)
    (opaqueArrayStructOn 32 96 32) (opaqueArrayStructOn 64 128 64)

/-! ## Vocabulary of the proofs: types that are written by their name -/

/-- Types whose declaration is their name followed by the variable: primitive,
alias, enum, struct and union nodes, alone or as the six variants of an
`archDependentType` (as `LongType` or an architecture-dependent struct are). -/
def Ty.isNamed : Ty → Bool
  | .fixedType _ _ kind _ _ => isPrimitiveKind kind
  | .aliasType _ _ => true
  | .enumType _ _ _ => true
  | .structType _ _ _ _ => true
  | .unionType _ _ _ _ => true
  | .archDependentType t0 t1 t2 t3 t4 t5 =>
    t0.isNamed && t1.isNamed && t2.isNamed && t3.isNamed && t4.isNamed && t5.isNamed
  | _ => false

/-- Kinds of the types that answer `NumField` and `Field` alike. -/
def hasFieldsKind : Kind → Bool
  | .Struct | .Union | .Enum | .Func => true
  | _ => false

/-- Kinds of the primitive types whose alignment on x86 is smaller than their size. -/
def isUnderAlignedKind : Kind → Bool
  | .LongLong | .ULongLong | .Int64T | .UInt64T | .Float64 => true
  | _ => false

/-! ## Concrete inputs: rendering -/

/-- The type of `signal` in the package test: pointer to a function
`(int sig2, void (*handler)(int sig3))` returning a pointer to a function
`(int sig1)` returning void. -/
def signal : Ty :=
  PointerType (FunctionType
    (PointerType (FunctionType VoidType [Field "sig1" IntType]))
    [Field "sig2" IntType,
     Field "handler" (PointerType (FunctionType VoidType [Field "sig3" IntType]))])

/-- Pointer to a function without parameters returning void. -/
def voidCallback : Ty := PointerType (FunctionType VoidType [])

/-- What `StructType("Foo", {Field("i", UInt32TType)})` returns. -/
def fooStruct : Ty :=
  Ty.structType "Foo" [StructFieldInfo.mk (Field "i" UInt32TType) 0] 32 32

/-! ## Type graphs: pointer nodes with a replaceable pointee -/

mutual
/-- Type nodes of a graph. They are the nodes of `Ty`, except that a pointer
node is the address of a `pointerType` object: its field `pointee`, the only
field `ReplaceElem` assigns to, is kept in the store. -/
inductive Node : Type
  | opaqueType (kind : Kind) (name : String)
  | aliasType (name : String) (base_type : Node)
  | fixedType (size align : Nat) (kind : Kind) (name : String) (sign : Option Bool)
  | archDependentType
      (arm_type arm64_type riscv32_type riscv64_type x86_type x86_64_type : Node)
  | constType (base : Node)
  | pointerType (address : Nat)
  | functionType (result : Node) (params : List NodeFieldInfo)
  | arrayType (elem : Node) (size : Nat)
  | structType (name : String) (fields : List NodeStructFieldInfo) (align bits : Nat)
  | unionType (name : String) (fields : List NodeFieldInfo) (align bits : Nat)
  | enumType (name : String) (basetype : Node) (fields : List NodeEnumFieldInfo)
/-- Plain field description (`fieldInfo`) over graph nodes. -/
inductive NodeFieldInfo : Type
  | mk (name : String) (typ : Node)
/-- Field of a struct with its offset (`structFieldInfo`) over graph nodes. -/
inductive NodeStructFieldInfo : Type
  | mk (base_field_info : NodeFieldInfo) (offset : Nat)
/-- Member of an enum (`enumFieldInfo`) over graph nodes. -/
inductive NodeEnumFieldInfo : Type
  | mk (name : String) (typ : Node) (aliasName : String) (value : Int)
end

def NodeFieldInfo.Name : NodeFieldInfo → String
  | .mk n _ => n

def NodeFieldInfo.Typ : NodeFieldInfo → Node
  | .mk _ t => t

def NodeStructFieldInfo.BaseFieldInfo : NodeStructFieldInfo → NodeFieldInfo
  | .mk b _ => b

def NodeStructFieldInfo.Typ (f : NodeStructFieldInfo) : Node := f.BaseFieldInfo.Typ

def NodeStructFieldInfo.Offset : NodeStructFieldInfo → Nat
  | .mk _ o => o

def NodeEnumFieldInfo.Typ : NodeEnumFieldInfo → Node
  | .mk _ t _ _ => t

def NodeEnumFieldInfo.Value : NodeEnumFieldInfo → Int
  | .mk _ _ _ v => v

/-- What `Field(i, arch)` hands back on a graph node, with its dynamic type. -/
inductive NodeAnyFieldInfo : Type
  | field (f : NodeFieldInfo)
  | structField (f : NodeStructFieldInfo)
  | enumField (f : NodeEnumFieldInfo)

def NodeAnyFieldInfo.Typ : NodeAnyFieldInfo → Node
  | .field f => f.Typ
  | .structField f => f.Typ
  | .enumField f => f.Typ

/-- Type assertion `.(StructFieldInfo)`; `none` is the failed assertion. -/
def NodeAnyFieldInfo.asStructFieldInfo : NodeAnyFieldInfo → Option NodeStructFieldInfo
  | .structField f => some f
  | _ => none

/-- Type assertion `.(EnumFieldInfo)`; `none` is the failed assertion. -/
def NodeAnyFieldInfo.asEnumFieldInfo : NodeAnyFieldInfo → Option NodeEnumFieldInfo
  | .enumField f => some f
  | _ => none

/-- The pointer nodes of a program run: entry `address` is the current value of
the field `pointee` of the pointer node at that address. -/
abbrev Store : Type := List Node

/-- Constructor `PointerType(pointee_type)` on graphs: a new pointer node is
allocated; the node and the store with it are returned. -/
def Store.PointerType (store : Store) (pointee_type : Node) : Node × Store :=
  (Node.pointerType store.length, store ++ [pointee_type])

def Node.Kind : Node → Arch → Kind
  | .opaqueType kind _, _ => kind
  | .aliasType _ _, _ => Kind.Alias
  | .fixedType _ _ kind _ _, _ => kind
  | .archDependentType t0 t1 t2 t3 t4 t5, arch =>
    match arch with
    | .Arm => t0.Kind arch
    | .Arm64 => t1.Kind arch
    | .Riscv32 => t2.Kind arch
    | .Riscv64 => t3.Kind arch
    | .X86 => t4.Kind arch
    | .X86_64 => t5.Kind arch
  | .constType _, _ => Kind.Const
  | .pointerType _, _ => Kind.Ptr
  | .functionType _ _, _ => Kind.Func
  | .arrayType _ _, _ => Kind.Array
  | .structType _ _ _ _, _ => Kind.Struct
  | .unionType _ _ _ _, _ => Kind.Union
  | .enumType _ _ _, _ => Kind.Enum

def Node.Align : Node → Arch → Option Nat
  | .opaqueType _ _, _ => none
  | .aliasType _ base_type, arch => base_type.Align arch
  | .fixedType _ align _ _ _, _ => some align
  | .archDependentType t0 t1 t2 t3 t4 t5, arch =>
    match arch with
    | .Arm => t0.Align arch
    | .Arm64 => t1.Align arch
    | .Riscv32 => t2.Align arch
    | .Riscv64 => t3.Align arch
    | .X86 => t4.Align arch
    | .X86_64 => t5.Align arch
  | .constType base, arch => base.Align arch
  | .pointerType _, arch => some (pointerBits arch)
  | .functionType _ _, _ => none
  | .arrayType elem _, arch => elem.Align arch
  | .structType _ _ align _, _ => some align
  | .unionType _ _ align _, _ => some align
  | .enumType _ basetype _, arch => basetype.Align arch

def Node.Bits : Node → Arch → Option Nat
  | .opaqueType _ _, _ => none
  | .aliasType _ base_type, arch => base_type.Bits arch
  | .fixedType size _ _ _ _, _ => some size
  | .archDependentType t0 t1 t2 t3 t4 t5, arch =>
    match arch with
    | .Arm => t0.Bits arch
    | .Arm64 => t1.Bits arch
    | .Riscv32 => t2.Bits arch
    | .Riscv64 => t3.Bits arch
    | .X86 => t4.Bits arch
    | .X86_64 => t5.Bits arch
  | .constType base, arch => base.Bits arch
  | .pointerType _, arch => some (pointerBits arch)
  | .functionType _ _, _ => none
  | .arrayType elem size, arch => (elem.Bits arch).map (fun b => (b * size) % uintModulus)
  | .structType _ _ _ bits, _ => some bits
  | .unionType _ _ _ bits, _ => some bits
  | .enumType _ basetype _, arch => basetype.Bits arch

/-- Method `Elem(arch)`; a pointer node reads its field `pointee` from the store. -/
def Node.Elem (store : Store) : Node → Arch → Option Node
  | .aliasType _ base_type, _ => some base_type
  | .archDependentType t0 t1 t2 t3 t4 t5, arch =>
    match arch with
    | .Arm => t0.Elem store arch
    | .Arm64 => t1.Elem store arch
    | .Riscv32 => t2.Elem store arch
    | .Riscv64 => t3.Elem store arch
    | .X86 => t4.Elem store arch
    | .X86_64 => t5.Elem store arch
  | .constType base, _ => some base
  | .pointerType address, _ => store[address]?
  | .functionType result _, _ => some result
  | .arrayType elem _, _ => some elem
  | .enumType _ basetype _, _ => some basetype
  | _, _ => none

def Node.NumField : Node → Arch → Option Nat
  | .archDependentType t0 t1 t2 t3 t4 t5, arch =>
    match arch with
    | .Arm => t0.NumField arch
    | .Arm64 => t1.NumField arch
    | .Riscv32 => t2.NumField arch
    | .Riscv64 => t3.NumField arch
    | .X86 => t4.NumField arch
    | .X86_64 => t5.NumField arch
  | .functionType _ params, _ => some params.length
  | .arrayType _ size, _ => some size
  | .structType _ fields _ _, _ => some fields.length
  | .unionType _ fields _ _, _ => some fields.length
  | .enumType _ _ fields, _ => some fields.length
  | _, _ => none

def Node.Field : Node → Nat → Arch → Option NodeAnyFieldInfo
  | .archDependentType t0 t1 t2 t3 t4 t5, i, arch =>
    match arch with
    | .Arm => t0.Field i arch
    | .Arm64 => t1.Field i arch
    | .Riscv32 => t2.Field i arch
    | .Riscv64 => t3.Field i arch
    | .X86 => t4.Field i arch
    | .X86_64 => t5.Field i arch
  | .functionType _ params, i, _ => params[i]?.map NodeAnyFieldInfo.field
  | .structType _ fields _ _, i, _ => fields[i]?.map NodeAnyFieldInfo.structField
  | .unionType _ fields _ _, i, _ => fields[i]?.map NodeAnyFieldInfo.field
  | .enumType _ _ fields, i, _ => fields[i]?.map NodeAnyFieldInfo.enumField
  | _, _, _ => none

/-- Method `Name(arch)` on the nodes that carry their name. The names that const,
pointer, function and array nodes compose from their elements are those of
`Ty.Name`; they are left out of the graph model (`none`), in which names are asked
only of nodes of kind `Opaque`, `Struct` or `Union`, and such nodes carry their
name (`Node.Name_isSome`). -/
def Node.Name : Node → Arch → Option String
  | .opaqueType _ name, _ => some name
  | .aliasType name _, _ => some name
  | .fixedType _ _ _ name _, _ => some name
  | .archDependentType t0 t1 t2 t3 t4 t5, arch =>
    match arch with
    | .Arm => t0.Name arch
    | .Arm64 => t1.Name arch
    | .Riscv32 => t2.Name arch
    | .Riscv64 => t3.Name arch
    | .X86 => t4.Name arch
    | .X86_64 => t5.Name arch
  | .structType name _ _ _, _ => some ("struct " ++ name)
  | .unionType name _ _ _, _ => some ("union " ++ name)
  | .enumType name _ _, _ => some name
  | _, _ => none

/-- Condition `typе.pointee.Kind(arch) == Const && typе.pointee.Elem(arch).Kind(arch) == Opaque`
of `ReplaceElem`; `none` is a panic of `Elem`. -/
def isConstOpaque (store : Store) (pointee : Node) (arch : Arch) : Option Bool :=
  if pointee.Kind arch = Kind.Const then
    (pointee.Elem store arch).map (fun e => decide (e.Kind arch = Kind.Opaque))
  else some false

/-- Last check of a turn of the loop of `ReplaceElem`:
`real_pointee_type_kind != Struct && real_pointee_type_kind != Union` panics. -/
def checkStructural (real_pointee_type_kind : Kind) : Option Unit :=
  if real_pointee_type_kind ≠ Kind.Struct ∧ real_pointee_type_kind ≠ Kind.Union then none
  else some ()

/-- One turn of the loop of `ReplaceElem`; `none` is a panic. -/
def replaceElemTurn (store : Store) (pointee pointee_type : Node) (arch : Arch) : Option Unit :=
  match isConstOpaque store pointee arch with
  | none => none
  | some true =>
    if pointee_type.Kind arch ≠ Kind.Const then none
    else
      match pointee_type.Elem store arch with
      | none => none
      | some elem => checkStructural (elem.Kind arch)
  | some false =>
    if pointee.Kind arch ≠ Kind.Opaque then none
    else checkStructural (pointee_type.Kind arch)

/-- Loop `for arch := FirstArch; arch <= LastArch; arch++` around checks that may panic. -/
def checkEachArch (body : Arch → Option Unit) : Option Unit :=
  Arch.all.foldlM (fun _ arch => body arch) ()

/-- Method `ReplaceElem(pointee_type)` of the pointer node at `address`. The
result is the outcome of the call (`none` is a panic) and the store after it:
the field is assigned after the loop, so a panic leaves the store as it was. A
call on an address that holds no pointer node is counted as a panic. -/
def ReplaceElem (store : Store) (address : Nat) (pointee_type : Node) : Option Unit × Store :=
  match store[address]? with
  | none => (none, store)
  | some pointee =>
    match checkEachArch (replaceElemTurn store pointee pointee_type) with
    | none => (none, store)
    | some _ => (some (), store.set address pointee_type)

/-! ## Compatibility check on type graphs -/

/-- Type of `isInputCompatible` on graph nodes without its fuel. -/
abbrev NodeChecker : Type :=
  Node → Arch → Node → Arch → List String → Result (Bool × List String)

/-- Condition `kind == Opaque && host_type.Name(host_arch) == guest_type.Name(guest_arch)`. -/
def Node.sameOpaqueName (kind : CppTypes.Kind) (host_type : Node) (host_arch : Arch) (guest_type : Node)
    (guest_arch : Arch) : Result Bool :=
  if kind = Kind.Opaque then
    match host_type.Name host_arch, guest_type.Name guest_arch with
    | some n1, some n2 => Result.ok (decide (n1 = n2))
    | _, _ => Result.panic
  else Result.ok false

/-- Body of the loop of the `Enum` case. -/
def Node.compareEnumValue (host_type : Node) (host_arch : Arch) (guest_type : Node)
    (guest_arch : Arch) (i : Nat) (processed : List String) : Result (Bool × List String) :=
  match (host_type.Field i host_arch).bind NodeAnyFieldInfo.asEnumFieldInfo,
      (guest_type.Field i guest_arch).bind NodeAnyFieldInfo.asEnumFieldInfo with
  | some host_field_enum, some guest_field_enum =>
    if host_field_enum.Value ≠ guest_field_enum.Value then Result.ok (false, processed)
    else Result.ok (true, processed)
  | _, _ => Result.panic

/-- Condition `host_field_struct.Offset() != guest_field_struct.Offset()`, for structs only. -/
def Node.offsetsDiffer (kind : CppTypes.Kind) (host_field guest_field : NodeAnyFieldInfo) : Result Bool :=
  if kind = Kind.Struct then
    match host_field.asStructFieldInfo, guest_field.asStructFieldInfo with
    | some host_field_struct, some guest_field_struct =>
      Result.ok (decide (host_field_struct.Offset ≠ guest_field_struct.Offset))
    | _, _ => Result.panic
  else Result.ok false

/-- Body of the loop of the `Struct, Union` case. -/
def Node.compareField (again : NodeChecker) (kind : CppTypes.Kind) (host_type : Node) (host_arch : Arch)
    (guest_type : Node) (guest_arch : Arch) (i : Nat) (processed : List String) :
    Result (Bool × List String) :=
  match host_type.Field i host_arch, guest_type.Field i guest_arch with
  | some host_field, some guest_field =>
    match Node.offsetsDiffer kind host_field guest_field with
    | .panic => Result.panic
    | .outOfFuel => Result.outOfFuel
    | .ok true => Result.ok (false, processed)
    | .ok false => again host_field.Typ host_arch guest_field.Typ guest_arch processed
  | _, _ => Result.panic

/-- The `switch kind` of `isInputCompatible` with the `return true` after it. -/
def Node.compareByKind (store : Store) (again : NodeChecker) (kind : CppTypes.Kind) (host_type : Node)
    (host_arch : Arch) (guest_type : Node) (guest_arch : Arch) (processed : List String) :
    Result (Bool × List String) :=
  if kind = Kind.Array then
    -- the source compares `host_type.NumField` on both architectures
    match host_type.NumField host_arch, host_type.NumField guest_arch with
    | some n1, some n2 =>
      if n1 ≠ n2 then Result.ok (false, processed)
      else
        match host_type.Elem store host_arch, guest_type.Elem store guest_arch with
        | some host_elem, some guest_elem =>
          again host_elem host_arch guest_elem guest_arch processed
        | _, _ => Result.panic
    | _, _ => Result.panic
  else if kind = Kind.Enum then
    match host_type.Elem store host_arch, guest_type.Elem store guest_arch with
    | some host_elem, some guest_elem =>
      match again host_elem host_arch guest_elem guest_arch processed with
      | .ok (true, processed1) =>
        match host_type.NumField host_arch with
        | none => Result.panic
        | some n =>
          loopFrom (Node.compareEnumValue host_type host_arch guest_type guest_arch) n 0
            processed1
      | r => r
    | _, _ => Result.panic
  else if kind = Kind.Ptr then
    match host_type.Elem store host_arch, guest_type.Elem store guest_arch with
    | some host_elem, some guest_elem =>
      again host_elem host_arch guest_elem guest_arch processed
    | _, _ => Result.panic
  else if kind = Kind.Struct ∨ kind = Kind.Union then
    match host_type.Name host_arch, guest_type.Name guest_arch with
    | some name, some guest_name =>
      if name ≠ guest_name then Result.ok (false, processed)
      else if name ∈ processed then Result.ok (true, processed)
      else
        match host_type.NumField host_arch, guest_type.NumField guest_arch with
        | some n, some guest_n =>
          if n ≠ guest_n then Result.ok (false, name :: processed)
          else
            loopFrom (Node.compareField again kind host_type host_arch guest_type guest_arch)
              n 0 (name :: processed)
        | _, _ => Result.panic
    | _, _ => Result.panic
  else Result.ok (true, processed)

/-- Body of `isInputCompatible` on graph nodes, with its recursive calls made
through `again`. `processed` holds the keys of the map `processed_structures`
in the order in which they were added, newest first. -/
def Node.isInputCompatibleBody (store : Store) (again : NodeChecker) (host_type : Node)
    (host_arch : Arch) (guest_type : Node) (guest_arch : Arch) (processed : List String) :
    Result (Bool × List String) :=
  let kind := host_type.Kind host_arch
  if kind = Kind.Alias then
    match host_type.Elem store host_arch with
    | none => Result.panic
    | some host_elem => again host_elem host_arch guest_type guest_arch processed
  else
    let kind2 := guest_type.Kind guest_arch
    if kind2 = Kind.Alias then
      -- the source reads `guest_type.Elem(host_arch)`
      match guest_type.Elem store host_arch with
      | none => Result.panic
      | some guest_elem => again host_type host_arch guest_elem guest_arch processed
    else if kind ≠ kind2 then Result.ok (false, processed)
    else if kind = Kind.Func then Result.ok (false, processed)
    else if kind = Kind.Const then
      match host_type.Elem store host_arch, guest_type.Elem store guest_arch with
      | some host_elem, some guest_elem =>
        again host_elem host_arch guest_elem guest_arch processed
      | _, _ => Result.panic
    else if kind = Kind.Void then Result.ok (true, processed)
    else
      match Node.sameOpaqueName kind host_type host_arch guest_type guest_arch with
      | .panic => Result.panic
      | .outOfFuel => Result.outOfFuel
      | .ok true => Result.ok (true, processed)
      | .ok false =>
        match host_type.Bits host_arch, guest_type.Bits guest_arch with
        | some host_bits, some guest_bits =>
          if host_bits ≠ guest_bits then Result.ok (false, processed)
          else
            match guest_type.Align guest_arch, host_type.Align host_arch with
            | some guest_align, some host_align =>
              if guest_align < host_align then Result.ok (false, processed)
              else
                Node.compareByKind store again kind host_type host_arch guest_type guest_arch
                  processed
            | _, _ => Result.panic
        | _, _ => Result.panic

/-- Function `isInputCompatible` on the graph held by `store`, run with a bound
on the depth of recursion. -/
def Node.isInputCompatible (store : Store) : Nat → NodeChecker
  | 0, _, _, _, _, _ => Result.outOfFuel
  | fuel + 1, host_type, host_arch, guest_type, guest_arch, processed =>
    Node.isInputCompatibleBody store (Node.isInputCompatible store fuel) host_type host_arch
      guest_type guest_arch processed

/-- Function `IsInputCompatible` on the graph held by `store`, run with a bound
on the depth of recursion. -/
def Node.IsInputCompatible (store : Store) (fuel : Nat) (typ : Node) (host_arch guest_arch : Arch) :
    Result Bool :=
  (Node.isInputCompatible store fuel typ host_arch typ guest_arch []).map Prod.fst

/-! ## Vocabulary of the proofs: runs of a program on a store -/

/-- The condition under which a turn of the loop of `ReplaceElem` passes on
architecture `a`: the current pointee is opaque and the new one a struct or a
union, or the current pointee is a const opaque type and the new one a const
struct or union. -/
def replaceable (store : Store) (pointee pointee_type : Node) (a : Arch) : Prop :=
  (pointee.Kind a = Kind.Opaque ∧
      (pointee_type.Kind a = Kind.Struct ∨ pointee_type.Kind a = Kind.Union)) ∨
    (pointee.Kind a = Kind.Const ∧
      (∃ e, pointee.Elem store a = some e ∧ e.Kind a = Kind.Opaque) ∧
      pointee_type.Kind a = Kind.Const ∧
      ∃ q, pointee_type.Elem store a = some q ∧ (q.Kind a = Kind.Struct ∨ q.Kind a = Kind.Union))

/-- Stores that a program reaches from `store` by allocating pointer nodes and
by calls of `ReplaceElem`, whether they return or panic. -/
inductive Store.Later (store : Store) : Store → Prop
  | now : Store.Later store store
  | pointer (later : Store) (pointee_type : Node) :
      Store.Later store later → Store.Later store (later.PointerType pointee_type).2
  | replaceElem (later : Store) (address : Nat) (pointee_type : Node) :
      Store.Later store later → Store.Later store (ReplaceElem later address pointee_type).2

/-! ## Vocabulary of the proofs: termination of the check on type graphs -/

mutual
/-- The nodes inside a node, field types included; a pointer node has none, its
pointee is in the store. -/
def Node.inner : Node → List Node
  | .opaqueType _ _ => []
  | .aliasType _ base_type => base_type :: base_type.inner
  | .fixedType _ _ _ _ _ => []
  | .archDependentType t0 t1 t2 t3 t4 t5 =>
    (t0 :: t0.inner) ++ (t1 :: t1.inner) ++ (t2 :: t2.inner) ++ (t3 :: t3.inner) ++
      (t4 :: t4.inner) ++ (t5 :: t5.inner)
  | .constType base => base :: base.inner
  | .pointerType _ => []
  | .functionType result params => (result :: result.inner) ++ fieldsInner params
  | .arrayType elem _ => elem :: elem.inner
  | .structType _ fields _ _ => structFieldsInner fields
  | .unionType _ fields _ _ => fieldsInner fields
  | .enumType _ basetype fields => (basetype :: basetype.inner) ++ enumFieldsInner fields
def NodeFieldInfo.inner : NodeFieldInfo → List Node
  | .mk _ typ => typ :: typ.inner
def NodeStructFieldInfo.inner : NodeStructFieldInfo → List Node
  | .mk base_field_info _ => base_field_info.inner
def NodeEnumFieldInfo.inner : NodeEnumFieldInfo → List Node
  | .mk _ typ _ _ => typ :: typ.inner
def fieldsInner : List NodeFieldInfo → List Node
  | [] => []
  | f :: rest => f.inner ++ fieldsInner rest
def structFieldsInner : List NodeStructFieldInfo → List Node
  | [] => []
  | f :: rest => f.inner ++ structFieldsInner rest
def enumFieldsInner : List NodeEnumFieldInfo → List Node
  | [] => []
  | f :: rest => f.inner ++ enumFieldsInner rest
end

/-- A node with all the nodes inside it. -/
def Node.subterms (t : Node) : List Node := t :: t.inner

/-- The direct components of a node. -/
inductive Node.Child : Node → Node → Prop
  | aliasBase (name : String) (base_type : Node) :
      Node.Child base_type (Node.aliasType name base_type)
  | variant (a : Arch) (t0 t1 t2 t3 t4 t5 : Node) :
      Node.Child (a.pick t0 t1 t2 t3 t4 t5) (Node.archDependentType t0 t1 t2 t3 t4 t5)
  | constBase (base : Node) : Node.Child base (Node.constType base)
  | result (result : Node) (params : List NodeFieldInfo) :
      Node.Child result (Node.functionType result params)
  | param (result : Node) (params : List NodeFieldInfo) (f : NodeFieldInfo) : f ∈ params →
      Node.Child f.Typ (Node.functionType result params)
  | elem (elem : Node) (size : Nat) : Node.Child elem (Node.arrayType elem size)
  | structField (name : String) (fields : List NodeStructFieldInfo) (align bits : Nat)
      (f : NodeStructFieldInfo) : f ∈ fields →
      Node.Child f.Typ (Node.structType name fields align bits)
  | unionField (name : String) (fields : List NodeFieldInfo) (align bits : Nat)
      (f : NodeFieldInfo) : f ∈ fields → Node.Child f.Typ (Node.unionType name fields align bits)
  | basetype (name : String) (basetype : Node) (fields : List NodeEnumFieldInfo) :
      Node.Child basetype (Node.enumType name basetype fields)
  | enumField (name : String) (basetype : Node) (fields : List NodeEnumFieldInfo)
      (f : NodeEnumFieldInfo) : f ∈ fields → Node.Child f.Typ (Node.enumType name basetype fields)

/-- The nodes reached from a node through direct components. -/
inductive Node.Within (s : Node) : Node → Prop
  | self : Node.Within s s
  | step (c t : Node) : Node.Child c t → Node.Within s c → Node.Within s t

/-- Every pointer node inside the node has an address below `n`. -/
def Node.addressesBelow (n : Nat) (t : Node) : Prop :=
  ∀ c, Node.pointerType c ∈ t.subterms → c < n

/-- A struct or union node, alone or as the six variants of an `archDependentType`. -/
def Node.isStructNode : Node → Bool
  | .structType _ _ _ _ => true
  | .unionType _ _ _ _ => true
  | .archDependentType t0 t1 t2 t3 t4 t5 =>
    t0.isStructNode && t1.isStructNode && t2.isStructNode && t3.isStructNode &&
      t4.isStructNode && t5.isStructNode
  | _ => false

/-- A struct or union node or the const of one, alone or as the six variants
of an `archDependentType`. -/
def Node.isStructural : Node → Bool
  | .structType _ _ _ _ => true
  | .unionType _ _ _ _ => true
  | .constType base => base.isStructNode
  | .archDependentType t0 t1 t2 t3 t4 t5 =>
    t0.isStructural && t1.isStructural && t2.isStructural && t3.isStructural &&
      t4.isStructural && t5.isStructural
  | _ => false

/-- The stores a program can build: pointer nodes are allocated for pointees
whose pointer nodes exist already, and `ReplaceElem` gives a pointer node a
struct or union (or the const of one) whose pointer nodes exist, this pointer
node possibly among them. -/
inductive Store.Built : Store → Prop
  | empty : Store.Built []
  | pointer (store : Store) (pointee_type : Node) : Store.Built store →
      pointee_type.addressesBelow store.length →
      Store.Built (store.PointerType pointee_type).2
  | replaceElem (store : Store) (address : Nat) (pointee_type : Node) : Store.Built store →
      pointee_type.addressesBelow store.length → pointee_type.isStructural = true →
      (ReplaceElem store address pointee_type).1 = some () →
      Store.Built (ReplaceElem store address pointee_type).2

/-- Number of steps the check can take from a node before it expands a struct
or union, returns or panics, when `weight c` bounds that number for the pointee
of the pointer node at `c`. -/
def Node.potential (weight : Nat → Nat) : Node → Nat
  | .aliasType _ base_type => base_type.potential weight + 1
  | .archDependentType t0 t1 t2 t3 t4 t5 =>
    maxOf [t0.potential weight, t1.potential weight, t2.potential weight,
      t3.potential weight, t4.potential weight, t5.potential weight]
  | .constType base => base.potential weight + 1
  | .pointerType address => weight address + 1
  | .functionType result _ => result.potential weight + 1
  | .arrayType elem _ => elem.potential weight + 1
  | .enumType _ basetype _ => basetype.potential weight + 1
  | _ => 0

/-- The weights bound the potentials of the pointees in the store. -/
def Store.RankedBy (store : Store) (weight : Nat → Nat) : Prop :=
  ∀ c p, store[c]? = some p → p.potential weight ≤ weight c ∧ 1 ≤ weight c

/-- The names that a node reports on the six architectures. -/
def Node.names (t : Node) : List String := Arch.all.filterMap (fun a => t.Name a)

/-- The nodes the check can reach from `root` in `store`. -/
def reachable (store : Store) (root : Node) (t : Node) : Prop :=
  ∃ u ∈ root :: store, t.Within u

/-- All nodes inside `root` and inside the pointees of `store`. -/
def allSubterms (store : Store) (root : Node) : List Node :=
  (root :: store).flatMap Node.subterms

/-- Bound on the potential of the nodes the check can reach. -/
def potentialBound (store : Store) (weight : Nat → Nat) (root : Node) : Nat :=
  maxOf ((allSubterms store root).map (Node.potential weight))

/-- The names of the nodes the check can reach. -/
def allNames (store : Store) (root : Node) : List String :=
  (allSubterms store root).flatMap Node.names

/-- Number of names of `names` that are not yet keys of `processed_structures`. -/
def unprocessed (names processed : List String) : Nat :=
  (names.filter (fun n => decide (n ∉ processed))).length

/-- The measure that decreases along the recursion of the check: the names still
to expand weigh more than any walk between two expansions. -/
def checkMeasure (weight : Nat → Nat) (bound : Nat) (names : List String)
    (processed : List String) (host_type guest_type : Node) : Nat :=
  unprocessed names processed * (2 * bound + 1) + host_type.potential weight +
    guest_type.potential weight

/-- The keys added by a call: `later` is `earlier` with new, different keys in front. -/
def addsKeys (earlier later : List String) : Prop :=
  (∃ l, later = l ++ earlier) ∧ (earlier.Nodup → later.Nodup)

/-- The result `later` is the result `earlier`, unless `earlier` ran out of fuel. -/
def Result.keptBy {α : Type} (earlier later : Result α) : Prop :=
  earlier ≠ Result.outOfFuel → later = earlier

/-- A call entered with the keys `processed` has returned or panicked, and if it
has returned it has only added keys. -/
def finishedFrom (processed : List String) (r : Result (Bool × List String)) : Prop :=
  r ≠ Result.outOfFuel ∧ ∀ b ps, r = Result.ok (b, ps) → addsKeys processed ps

/-! ## Concrete inputs: type graphs -/

/-- The node of `Int32TType`. -/
def nodeInt32T : Node := Node.fixedType 32 32 Kind.Int32T "std::int32_t" (some true)

/-- The struct `VkBaseInStructure {int32_t sType; const VkBaseInStructure* pNext;}`
on one architecture; `pNext` is the pointer node at address 0. -/
def baseInOn (offset_pNext align bits : Nat) : Node :=
  Node.structType "VkBaseInStructure"
    [NodeStructFieldInfo.mk (NodeFieldInfo.mk "sType" nodeInt32T) 0,
     NodeStructFieldInfo.mk (NodeFieldInfo.mk "pNext" (Node.pointerType 0)) offset_pNext]
    align bits

/-- The struct `VkBaseInStructure` with its layout on the six architectures. -/
def baseIn : Node :=
  Node.archDependentType (baseInOn 32 32 64) (baseInOn 64 64 128) (baseInOn 32 32 64)
    (baseInOn 64 64 128) (baseInOn 32 32 64) (baseInOn 64 64 128)

/-- The store after `PointerType(ConstType(OpaqueType("struct VkBaseInStructure")))`. -/
def baseInDeclared : Store :=
  [Node.constType (Node.opaqueType Kind.Opaque "struct VkBaseInStructure")]

/-- The store after `ReplaceElem(ConstType(baseIn))` on the pointer node at
address 0: the struct now refers to itself. -/
def baseInPatched : Store := [Node.constType baseIn]

/-- A struct `Chain {Chain* next; X (*data)[3];}` on one architecture, where `X`
is an opaque type; `next` is the pointer node at address 0, `data` the one at
address 1. -/
def chainOn (offset_data align bits : Nat) : Node :=
  Node.structType "Chain"
    [NodeStructFieldInfo.mk (NodeFieldInfo.mk "next" (Node.pointerType 0)) 0,
     NodeStructFieldInfo.mk (NodeFieldInfo.mk "data" (Node.pointerType 1)) offset_data]
    align bits

/-- The struct `Chain` with its layout on the six architectures. -/
def chain : Node :=
  Node.archDependentType (chainOn 32 32 64) (chainOn 64 64 128) (chainOn 32 32 64)
    (chainOn 64 64 128) (chainOn 32 32 64) (chainOn 64 64 128)

/-- The store after `PointerType(OpaqueType("struct Chain"))` and
`PointerType(ArrayType(OpaqueType("X"), 3))`. -/
def chainDeclared : Store :=
  [Node.opaqueType Kind.Opaque "struct Chain",
   Node.arrayType (Node.opaqueType Kind.Opaque "X") 3]

/-- The store after `ReplaceElem(chain)` on the pointer node at address 0. -/
def chainPatched : Store :=
  [chain, Node.arrayType (Node.opaqueType Kind.Opaque "X") 3]

/-! ## Registry loader: records and outcomes -/

/-- Outcome of a loader function returning `(T, error)`: the value, the error
handed back to the caller (with the text that decides it), a Go panic, or
exhausted fuel. -/
inductive Outcome (α : Type) : Type
  | ok (v : α)
  | error (msg : String)
  | panic
  | outOfFuel
  deriving DecidableEq, Repr

/-- Record of an `enum` element (`type enumFieldInfo struct`); the two `int64`
fields hold values of the `int64` range. -/
structure enumFieldInfo where
  Name : String
  Alias : String
  Value : String
  BitPos : String
  Dir : String
  Extends : String
  ExtID : Int
  Offset : Int
  deriving DecidableEq, Repr

/-- Record of an `enums` element (`type enumInfo struct`). -/
structure enumInfo where
  Name : String
  EnumFields : List enumFieldInfo
  deriving DecidableEq, Repr

/-- Record of a `member` or `param` element (`type structuralMemberInfo struct`);
the field `Type` of the source is written `Typ`. -/
structure structuralMemberInfo where
  Name : String
  Typ : String
  Value : String
  Length : String
  AltLength : String
  Validstructs : String
  RawXML : String
  Comment : String
  Api : String
  deriving DecidableEq, Repr

/-- Record of a `type` element (`type typeInfo struct`). -/
structure typeInfo where
  Name : String
  Category : String
  Requires : String
  Alias : String
  Members : List structuralMemberInfo
  StructExtends : String
  RawXML : String
  Comment : String
  Api : String
  deriving DecidableEq, Repr

/-- Element of the field `Requires` of an extension (an unnamed struct in the source). -/
structure requireInfo where
  EnumFields : List enumFieldInfo
  deriving DecidableEq, Repr

/-- Element of the field `Extensions` of the registry (an unnamed struct in the source). -/
structure extensionInfo where
  Name : String
  ID : Int
  Requires : List requireInfo
  deriving DecidableEq, Repr

/-- Element of the field `Features` of the registry (an unnamed struct in the source). -/
structure featureInfo where
  EnumFields : List enumFieldInfo
  deriving DecidableEq, Repr

/-- The fields of `type registry struct` that the functions below read. -/
structure registry where
  Types : List typeInfo
  Enums : List enumInfo
  Extensions : List extensionInfo
  Features : List featureInfo
  deriving DecidableEq, Repr

/-- Map `map[string]*enumFieldInfo` as the list of its entries, oldest first; the
`nil` map is the empty list. -/
abbrev EnumValues : Type := List (String × enumFieldInfo)

/-- Map `map[string][]*enumFieldInfo` as the list of its entries, oldest first. -/
abbrev EnumTypes : Type := List (String × List enumFieldInfo)

/-! ## Integer arithmetic and number parsing of the loader -/

/-- Value of an `int64` expression whose exact value is `x`: the number of the
range `-2^63 .. 2^63 - 1` congruent to `x` modulo `2^64`. -/
def wrapInt64 (x : Int) : Int := (x + 2 ^ 63) % 2 ^ 64 - 2 ^ 63

/-- Conversion `int64(int32(value))`. -/
def truncInt32 (value : Int) : Int := (value + 2 ^ 31) % 2 ^ 32 - 2 ^ 31

/-- Conversion `int64(uint32(value))`. -/
def truncUInt32 (value : Int) : Int := value % 2 ^ 32

/-- Digit that a byte stands for in `strconv.ParseUint`: `0`..`9`, and the letters
of either case from ten on (the source folds the case with `lower`). Bytes of
characters outside ASCII are no digits. -/
def strconv.digit (c : Char) : Option Nat :=
  if 48 ≤ c.toNat ∧ c.toNat ≤ 57 then some (c.toNat - 48)
  else if 97 ≤ c.toNat ∧ c.toNat ≤ 122 then some (c.toNat - 97 + 10)
  else if 65 ≤ c.toNat ∧ c.toNat ≤ 90 then some (c.toNat - 65 + 10)
  else none

/-- Loop of `strconv.ParseUint(s, base, 64)` over the bytes of `s`, with the
number `n` read so far; `cutoff` is `maxUint64/base + 1`. -/
def strconv.parseUintLoop (base cutoff : Nat) : List Char → Nat → Outcome Nat
  | [], n => Outcome.ok n
  | c :: s, n =>
    match strconv.digit c with
    | none => Outcome.error "invalid syntax"
    | some d =>
      if d ≥ base then Outcome.error "invalid syntax"
      else if n ≥ cutoff then Outcome.error "value out of range"
      else
        let n := (n * base) % uintModulus
        let n1 := (n + d) % uintModulus
        if n1 < n ∨ n1 > uintModulus - 1 then Outcome.error "value out of range"
        else strconv.parseUintLoop base cutoff s n1

/-- Library function `strconv.ParseUint(s, base, 64)` of Go for an explicit base
`2 ≤ base ≤ 36`; the error carries the text of the field `Err` of the `NumError`. -/
def strconv.ParseUint (s : List Char) (base : Nat) : Outcome Nat :=
  if s = [] then Outcome.error "invalid syntax"
  else if 2 ≤ base ∧ base ≤ 36 then
    strconv.parseUintLoop base ((uintModulus - 1) / base + 1) s 0
  else Outcome.error "invalid base"

/-- Library function `strconv.ParseInt(s, base, 64)` of Go for an explicit base:
an optional sign, then `ParseUint`, then the check of the `int64` range. -/
def strconv.ParseInt (s : String) (base : Nat) : Outcome Int :=
  match s.data with
  | [] => Outcome.error "invalid syntax"
  | c :: rest =>
    let neg := decide (c = '-')
    let s := if c = '+' ∨ c = '-' then rest else c :: rest
    match strconv.ParseUint s base with
    | Outcome.ok un =>
      if neg = false ∧ un ≥ 2 ^ 63 then Outcome.error "value out of range"
      else if neg = true ∧ un > 2 ^ 63 then Outcome.error "value out of range"
      else
        let n := wrapInt64 un
        Outcome.ok (if neg then wrapInt64 (-n) else n)
    | Outcome.error msg => Outcome.error msg
    | Outcome.panic => Outcome.panic
    | Outcome.outOfFuel => Outcome.outOfFuel

/-- Expression `1 << result` of type `int64`: a negative count panics, a count of
64 or more shifts the bit out. -/
def shiftLeftOne (result : Int) : Outcome Int :=
  if result < 0 then Outcome.panic
  else if result ≥ 64 then Outcome.ok 0
  else Outcome.ok (wrapInt64 (2 ^ result.toNat))

/-! ## Values of enum members -/

/-- Body of `enumFieldValue` with its recursive call as the argument `recurse`;
`none` as the member is the `nil` pointer that a map returns for a missing key,
whose field `Value` cannot be read. -/
def enumFieldValueBody (recurse : Option enumFieldInfo → Outcome Int) :
    Option enumFieldInfo → EnumValues → Outcome Int
  | none, _ => Outcome.panic
  | some enum_field, all_enum_fields =>
    if enum_field.Value ≠ "" then
      if "0x".data.isPrefixOf enum_field.Value.data then
        strconv.ParseInt (String.mk (enum_field.Value.data.drop 2)) 16
      else strconv.ParseInt enum_field.Value 10
    else if enum_field.BitPos ≠ "" then
      match strconv.ParseInt enum_field.BitPos 10 with
      | Outcome.ok result => shiftLeftOne result
      | err => err
    else if enum_field.Alias ≠ "" then
      recurse (all_enum_fields.lookup enum_field.Alias)
    else
      let result :=
        wrapInt64 (wrapInt64 (1000000000 + wrapInt64 (wrapInt64 (enum_field.ExtID - 1) * 1000))
          + enum_field.Offset)
      if enum_field.Dir = "" then Outcome.ok result
      else Outcome.ok (wrapInt64 (-result))

/-- Function `enumFieldValue`; the first argument bounds the depth of the
recursion through aliases. -/
def enumFieldValue : Nat → Option enumFieldInfo → EnumValues → Outcome Int
  | 0, enum_field, all_enum_fields =>
    enumFieldValueBody (fun _ => Outcome.outOfFuel) enum_field all_enum_fields
  | fuel + 1, enum_field, all_enum_fields =>
    enumFieldValueBody (fun target => enumFieldValue fuel target all_enum_fields)
      enum_field all_enum_fields

/-- First loop of `vulkanEnumTypeFromXML`: the flags `fits_in_int32` and
`fits_in_uint32` after the members, or the outcome that ends the function. -/
def enumFits (fuel : Nat) (enum_values : EnumValues) :
    List enumFieldInfo → Bool × Bool → Outcome (Bool × Bool)
  | [], fits => Outcome.ok fits
  | element :: rest, (fits_in_int32, fits_in_uint32) =>
    match enumFieldValue fuel (some element) enum_values with
    | Outcome.ok value =>
      enumFits fuel enum_values rest
        (if truncInt32 value ≠ value then false else fits_in_int32,
         if truncUInt32 value ≠ value then false else fits_in_uint32)
    | Outcome.error msg => Outcome.error msg
    | Outcome.panic => Outcome.panic
    | Outcome.outOfFuel => Outcome.outOfFuel

/-- Statement `value, _ := enumFieldValue(element, enum_values)` of the second
loop of `vulkanEnumTypeFromXML`, which is reached only when the same call gave
a value in the first loop. -/
def enumFieldValueOrZero (fuel : Nat) (element : enumFieldInfo) (enum_values : EnumValues) : Int :=
  match enumFieldValue fuel (some element) enum_values with
  | Outcome.ok value => value
  | _ => 0

/-- Function `vulkanEnumTypeFromXML`; a missing entry of `enum_types` is the
`nil` slice. -/
def vulkanEnumTypeFromXML (fuel : Nat) (typ : typeInfo) (enum_values : EnumValues)
    (enum_types : EnumTypes) : Outcome Ty :=
  let elements := (enum_types.lookup typ.Name).getD []
  match enumFits fuel enum_values elements (true, true) with
  | Outcome.ok (fits_in_int32, fits_in_uint32) =>
    let basetype :=
      if fits_in_int32 = false then
        if fits_in_uint32 then UInt32TType else Int64TType
      else Int32TType
    let values := elements.map (fun element =>
      EnumField element.Name basetype element.Alias
        (enumFieldValueOrZero fuel element enum_values))
    Outcome.ok (EnumType typ.Name basetype values)
  | Outcome.error msg => Outcome.error msg
  | Outcome.panic => Outcome.panic
  | Outcome.outOfFuel => Outcome.outOfFuel

/-- Statement `enum_types[name] = append(enum_types[name], enum_field)`. -/
def appendEnumType : EnumTypes → String → enumFieldInfo → EnumTypes
  | [], name, enum_field => [(name, [enum_field])]
  | (key, value) :: rest, name, enum_field =>
    if key = name then (key, value ++ [enum_field]) :: rest
    else (key, value) :: appendEnumType rest name enum_field

/-- Loop `for ... range xs` whose body either goes on with a new state or ends
the function with an error or a panic. -/
def forRange {α σ : Type} (body : σ → α → Outcome σ) : List α → σ → Outcome σ
  | [], st => Outcome.ok st
  | x :: xs, st =>
    match body st x with
    | Outcome.ok st => forRange body xs st
    | Outcome.error msg => Outcome.error msg
    | Outcome.panic => Outcome.panic
    | Outcome.outOfFuel => Outcome.outOfFuel

/-- Body of the loop of `parseEnumValues` over the members of one `enums` element. -/
def parseEnumsField (enum : enumInfo) (st : EnumValues × EnumTypes) (enum_field : enumFieldInfo) :
    Outcome (EnumValues × EnumTypes) :=
  if (st.1.lookup enum_field.Name).isSome then
    Outcome.error ("Duplicated enum value \"" ++ enum.Name ++ "\"")
  else Outcome.ok (st.1 ++ [(enum_field.Name, enum_field)], appendEnumType st.2 enum.Name enum_field)

/-- Body of the loop of `parseEnumValues` over the members of one feature. -/
def parseFeatureField (st : EnumValues × EnumTypes) (enum_field : enumFieldInfo) :
    Outcome (EnumValues × EnumTypes) :=
  if enum_field.Extends ≠ "" then
    if (st.1.lookup enum_field.Name).isSome then
      Outcome.error ("Duplicated enum value \"" ++ enum_field.Name ++ "\"")
    else
      Outcome.ok (st.1 ++ [(enum_field.Name, enum_field)],
        appendEnumType st.2 enum_field.Extends enum_field)
  else Outcome.ok st

/-- Comparison `value == old_value && err1 == nil && err2 == nil` of the two calls
`enumFieldValue(enum_field, nil)` and `enumFieldValue(old_enum_filed, nil)`; on
the `nil` map no call goes deeper than one alias. -/
def sameValueOnNilMap (enum_field old_enum_filed : enumFieldInfo) : Outcome Bool :=
  match enumFieldValue 1 (some enum_field) [] with
  | Outcome.panic => Outcome.panic
  | Outcome.outOfFuel => Outcome.outOfFuel
  | r1 =>
    match enumFieldValue 1 (some old_enum_filed) [] with
    | Outcome.panic => Outcome.panic
    | Outcome.outOfFuel => Outcome.outOfFuel
    | r2 =>
      match r1, r2 with
      | Outcome.ok value, Outcome.ok old_value => Outcome.ok (decide (value = old_value))
      | _, _ => Outcome.ok false

/-- Body of the loop of `parseEnumValues` over the members of one `require`
element of an extension; the member is first given the number of the extension
when it has none. -/
def parseExtensionField (extension : extensionInfo) (st : EnumValues × EnumTypes)
    (enum_field : enumFieldInfo) : Outcome (EnumValues × EnumTypes) :=
  let enum_field :=
    if enum_field.ExtID = 0 then { enum_field with ExtID := extension.ID } else enum_field
  if enum_field.Extends ≠ "" then
    match st.1.lookup enum_field.Name with
    | some old_enum_filed =>
      if enum_field.Alias ≠ "" ∧ enum_field.Alias = old_enum_filed.Alias then Outcome.ok st
      else if enum_field.Alias = "" ∨ old_enum_filed.Alias = "" then Outcome.ok st
      else
        match sameValueOnNilMap enum_field old_enum_filed with
        | Outcome.ok true => Outcome.ok st
        | Outcome.ok false =>
          Outcome.error ("Duplicated enum value \"" ++ enum_field.Name ++ "\"")
        | Outcome.error msg => Outcome.error msg
        | Outcome.panic => Outcome.panic
        | Outcome.outOfFuel => Outcome.outOfFuel
    | none =>
      Outcome.ok (st.1 ++ [(enum_field.Name, enum_field)],
        appendEnumType st.2 enum_field.Extends enum_field)
  else Outcome.ok st

/-- Function `parseEnumValues`: the maps `enum_values` and `enum_types`, or the error. -/
def parseEnumValues (registry : registry) : Outcome (EnumValues × EnumTypes) :=
  match forRange (fun st (enum : enumInfo) => forRange (parseEnumsField enum) enum.EnumFields st)
      registry.Enums ([], []) with
  | Outcome.ok st =>
    match forRange (fun st (feature : featureInfo) =>
        forRange parseFeatureField feature.EnumFields st) registry.Features st with
    | Outcome.ok st =>
      forRange (fun st (extension : extensionInfo) =>
        forRange (fun st (requires : requireInfo) =>
          forRange (parseExtensionField extension) requires.EnumFields st)
          extension.Requires st) registry.Extensions st
    | err => err
  | err => err
/-! ## Vocabulary of the proofs: numerals -/

/-- Number written by digits in a base after the number `n` written before them,
most significant digit first. -/
def digitsFrom (base : Nat) : Nat → List Char → Nat
  | n, [] => n
  | n, c :: s => digitsFrom base (n * base + (strconv.digit c).getD 0) s

/-- Condition that every character is a digit of the base. -/
def allDigits (base : Nat) (s : List Char) : Bool :=
  s.all (fun c =>
    match strconv.digit c with
    | some d => decide (d < base)
    | none => false)

/-- Number that a text writes in a base: an optional sign `+` or `-` followed by at
least one digit of the base; any other text writes no number. No range is set. -/
def numeralValue (base : Nat) (text : String) : Option Int :=
  match text.data with
  | [] => none
  | c :: rest =>
    let digits := if c = '+' ∨ c = '-' then rest else c :: rest
    if digits ≠ [] ∧ allDigits base digits = true then
      some (if c = '-' then -(digitsFrom base 0 digits : Int) else (digitsFrom base 0 digits : Int))
    else none

/-- Range of `int64`. -/
def inInt64 (v : Int) : Prop := -2 ^ 63 ≤ v ∧ v < 2 ^ 63

instance (v : Int) : Decidable (inInt64 v) := by unfold inInt64; infer_instance
/-! ## Vocabulary of the proofs: values that fit a type -/

/-- A value lies in the range of an integer type on an architecture, as told by
its size and its signedness. -/
def fitsIn (t : Ty) (a : Arch) (v : Int) : Prop :=
  match t.Bits a, t.Signed a with
  | some bits, some true => -2 ^ (bits - 1) ≤ v ∧ v < 2 ^ (bits - 1)
  | some bits, some false => 0 ≤ v ∧ v < 2 ^ bits
  | _, _ => False
/-! ## Concrete inputs: registries -/

/-- Record of an `enum` element that has the attribute `name` only. -/
def enumNamed (name : String) : enumFieldInfo :=
  ⟨name, "", "", "", "", "", 0, 0⟩

/-- Record of a `type` element that has the attributes `name` and `category` only. -/
def typeNamed (name category : String) : typeInfo :=
  ⟨name, category, "", "", [], "", "", "", ""⟩

/-- Member `<enum bitpos="31" name="VK_IMAGE_RESERVED_31_BIT"/>` of `TestEnumUInt32`. -/
def reserved31Bit : enumFieldInfo :=
  { enumNamed "VK_IMAGE_RESERVED_31_BIT" with BitPos := "31" }

/-- Registry of `TestEnumUInt32`. -/
def enumUInt32Registry : registry :=
  ⟨[typeNamed "VkImageCreateFlagBits" "enum"],
   [⟨"VkImageCreateFlagBits", [reserved31Bit]⟩], [], []⟩

/-- Member `<enum value="0x100000000" name="VK_64_BIT_ENUM_TEST_VALUE"/>` of `TestEnum64bit`. -/
def testValue64Bit : enumFieldInfo :=
  { enumNamed "VK_64_BIT_ENUM_TEST_VALUE" with Value := "0x100000000" }

/-- Member whose attribute `value` is no numeral. -/
def malformedValue : enumFieldInfo :=
  { enumNamed "VK_64_BIT_ENUM_TEST_VALUE" with Value := "0x1G" }

/-- Registry of `TestEnum64bit`. -/
def enum64bitRegistry : registry :=
  ⟨[typeNamed "Vk64BitEnum" "enum"], [⟨"Vk64BitEnum", [testValue64Bit]⟩], [], []⟩

/-- Member that names `VK_IMAGE_RESERVED_31_BIT` as its alias. -/
def reserved31BitAlias : enumFieldInfo :=
  { enumNamed "VK_IMAGE_RESERVED_31_BIT_KHR" with Alias := "VK_IMAGE_RESERVED_31_BIT" }

/-- Member of the feature of `TestEnumExtend`. -/
def bindImageMemoryInfo : enumFieldInfo :=
  { enumNamed "VK_STRUCTURE_TYPE_BIND_IMAGE_MEMORY_INFO" with
    Extends := "VkStructureType", ExtID := 158, Offset := 1 }

/-- Member of the extension of `TestEnumExtend` that extends `VkStructureType`. -/
def presentInfoKHR : enumFieldInfo :=
  { enumNamed "VK_STRUCTURE_TYPE_PRESENT_INFO_KHR" with
    Extends := "VkStructureType", Offset := 1 }

/-- Extension `VK_KHR_swapchain` of `TestEnumExtend`. -/
def swapchainExtension : extensionInfo :=
  ⟨"VK_KHR_swapchain", 2,
   [⟨[{ enumNamed "VK_KHR_SWAPCHAIN_SPEC_VERSION" with Value := "70" }, presentInfoKHR]⟩]⟩

/-- Registry of `TestEnumExtend`. -/
def enumExtendRegistry : registry :=
  ⟨[typeNamed "VkStructureType" "enum"], [], [swapchainExtension], [⟨[bindImageMemoryInfo]⟩]⟩

/-- Member with the attributes of `bindImageMemoryInfo` and `dir="+"`. -/
def bindImageMemoryInfoPlus : enumFieldInfo :=
  { bindImageMemoryInfo with Dir := "+" }

/-- Member `VK_ERROR_A` as a feature declares it for `VkResult`: offset 1 of extension 1. -/
def errorAOfFeature : enumFieldInfo :=
  { enumNamed "VK_ERROR_A" with Extends := "VkResult", ExtID := 1, Offset := 1 }

/-- Member `VK_ERROR_A` as extension 1 declares it for `VkResult`: offset 2. -/
def errorAOfExtension : enumFieldInfo :=
  { enumNamed "VK_ERROR_A" with Extends := "VkResult", Offset := 2 }

/-- Registry in which a feature and an extension declare `VK_ERROR_A` for the enum
`VkResult` with the offsets 1 and 2 of extension 1. -/
def repeatedRegistry : registry :=
  ⟨[typeNamed "VkResult" "enum"], [], [⟨"VK_KHR_a", 1, [⟨[errorAOfExtension]⟩]⟩],
   [⟨[errorAOfFeature]⟩]⟩

/-- Registry in which one `enums` element declares `VK_A` twice with the value 1. -/
def repeatedEnumsRegistry : registry :=
  ⟨[typeNamed "VkA" "enum"],
   [⟨"VkA", [{ enumNamed "VK_A" with Value := "1" }, { enumNamed "VK_A" with Value := "1" }]⟩],
   [], []⟩

/-- Registry in which a feature and an extension declare `VK_A` for the enum `VkA`
as aliases of two members. -/
def repeatedAliasRegistry : registry :=
  ⟨[typeNamed "VkA" "enum"],
   [⟨"VkA", [{ enumNamed "VK_B" with Value := "1" }, { enumNamed "VK_C" with Value := "1" }]⟩],
   [⟨"VK_KHR_a", 1, [⟨[{ enumNamed "VK_A" with Extends := "VkA", Alias := "VK_C" }]⟩]⟩],
   [⟨[{ enumNamed "VK_A" with Extends := "VkA", Alias := "VK_B" }]⟩]⟩

/-! ## Handles -/

/-- Function `vulkanHandleTypeFromXML`; its argument `types` is not read. -/
def vulkanHandleTypeFromXML (typ : typeInfo) : Outcome Ty :=
  if typ.RawXML = "<type>VK_DEFINE_HANDLE</type>(<name>" ++ typ.Name ++ "</name>)" then
    Outcome.ok (AliasType typ.Name (PointerType (OpaqueType ("struct " ++ typ.Name ++ "_T"))))
  else if typ.RawXML =
      "<type>VK_DEFINE_NON_DISPATCHABLE_HANDLE</type>(<name>" ++ typ.Name ++ "</name>)" then
    Outcome.ok (ArchDependentType
      (AliasType typ.Name UInt64TType)
      (AliasType typ.Name (PointerType (OpaqueType ("struct " ++ typ.Name ++ "_T"))))
      (AliasType typ.Name UInt64TType)
      (AliasType typ.Name (PointerType (OpaqueType ("struct " ++ typ.Name ++ "_T"))))
      (AliasType typ.Name UInt64TType)
      (AliasType typ.Name (PointerType (OpaqueType ("struct " ++ typ.Name ++ "_T")))))
  else
    Outcome.error ("Unexpected handle \"" ++ typ.Name ++ "\": \"" ++ typ.RawXML ++ "\"\"")

/-- Function `isVulkanHandle` of `vulkan_types.go`; the operands of `&&` are
asked in turn, and `none` is a panic of one of the queries. -/
def isVulkanHandle (typ : Ty) (arch : Arch) : Option Bool :=
  if typ.Kind arch ≠ Kind.Alias then some false
  else
    match typ.Elem arch with
    | none => none
    | some elem =>
      if elem.Kind arch ≠ Kind.Ptr then some false
      else
        match elem.Elem arch with
        | none => none
        | some pointee =>
          if pointee.Kind arch ≠ Kind.Opaque then some false
          else
            match pointee.Name arch, typ.Name arch with
            | some pointee_name, some name =>
              some (decide (pointee_name = "struct " ++ name ++ "_T"))
            | _, _ => none

/-- Function `isVulkanNondispatchableHandle` of `vulkan_types.go`. -/
def isVulkanNondispatchableHandle (typ : Ty) (arch : Arch) : Option Bool :=
  if typ.Kind arch ≠ Kind.Alias then some false
  else
    match typ.Elem arch with
    | none => none
    | some elem => some (decide (elem.Kind arch = Kind.UInt64T))

/-- Loop of `IsVulkanHandle` over the architectures still to visit. -/
def isVulkanHandleOnEach (typ : Ty) : List Arch → Option Bool
  | [] => some true
  | arch :: rest =>
    match isVulkanHandle typ arch with
    | none => none
    | some false => some false
    | some true => isVulkanHandleOnEach typ rest

/-- Function `IsVulkanHandle`. -/
def IsVulkanHandle (typ : Ty) : Option Bool := isVulkanHandleOnEach typ Arch.all

/-- Operator `&&` on conditions that may panic: the right one is asked only when
the left one holds. -/
def andThen (left : Option Bool) (right : Option Bool) : Option Bool :=
  match left with
  | none => none
  | some false => some false
  | some true => right

/-- Function `IsVulkanNondispatchableHandle`. -/
def IsVulkanNondispatchableHandle (typ : Ty) : Option Bool :=
  andThen (isVulkanNondispatchableHandle typ Arch.Arm)
    (andThen (isVulkanNondispatchableHandle typ Arch.X86)
      (andThen (isVulkanHandle typ Arch.Arm64) (isVulkanHandle typ Arch.X86_64)))

/-- Record of `TestHandle` as `Unmarshal` completes it: the name is read from the body. -/
def vkInstanceRecord : typeInfo :=
  { typeNamed "VkInstance" "handle" with
    RawXML := "<type>VK_DEFINE_HANDLE</type>(<name>VkInstance</name>)" }

/-- Record of `TestNondispatchableHandle` as `Unmarshal` completes it. -/
def vkFenceRecord : typeInfo :=
  { typeNamed "VkFence" "handle" with
    RawXML := "<type>VK_DEFINE_NON_DISPATCHABLE_HANDLE</type>(<name>VkFence</name>)" }

/-- Record of a handle with a body that is neither of the two definitions. -/
def vkOtherRecord : typeInfo :=
  { typeNamed "VkOther" "handle" with RawXML := "<type>VK_DEFINE_HANDLE</type>(<name>VkFence</name>)" }

/-! ## Defines -/

/-- Table `known_defines`: the bodies of the defines that every API shares.
The entries stand in the order of the source (lines 304 to 364); a key occurs once. -/
def known_defines : List (String × String) :=
  [
   ("VK_MAKE_VERSION",
      "// DEPRECATED: This define is deprecated. VK_MAKE_API_VERSION should be used instead.\n" ++
      "#define <name>VK_MAKE_VERSION</name>(major, minor, patch) \\\n" ++
      "    ((((uint32_t)(major)) &lt;&lt; 22U) | (((uint32_t)(minor)) &lt;&lt; 12U) | ((uint32_t)(patch)))"),
   ("VK_VERSION_MAJOR",
      "// DEPRECATED: This define is deprecated. VK_API_VERSION_MAJOR should be used instead.\n" ++
      "#define <name>VK_VERSION_MAJOR</name>(version) ((uint32_t)(version) &gt;&gt; 22U)"),
   ("VK_VERSION_MINOR",
      "// DEPRECATED: This define is deprecated. VK_API_VERSION_MINOR should be used instead.\n" ++
      "#define <name>VK_VERSION_MINOR</name>(version) (((uint32_t)(version) &gt;&gt; 12U) &amp; 0x3FFU)"),
   ("VK_VERSION_PATCH",
      "// DEPRECATED: This define is deprecated. VK_API_VERSION_PATCH should be used instead.\n" ++
      "#define <name>VK_VERSION_PATCH</name>(version) ((uint32_t)(version) &amp; 0xFFFU)"),
   ("VK_MAKE_API_VERSION",
      "#define <name>VK_MAKE_API_VERSION</name>(variant, major, minor, patch) \\\n" ++
      "    ((((uint32_t)(variant)) &lt;&lt; 29U) | (((uint32_t)(major)) &lt;&lt; 22U) | (((uint32_t)(minor)) &lt;&lt; 12U) | ((uint32_t)(patch)))"),
   ("VK_API_VERSION_VARIANT",
      "#define <name>VK_API_VERSION_VARIANT</name>(version) ((uint32_t)(version) &gt;&gt; 29U)"),
   ("VK_API_VERSION_MAJOR",
      "#define <name>VK_API_VERSION_MAJOR</name>(version) (((uint32_t)(version) &gt;&gt; 22U) &amp; 0x7FU)"),
   ("VK_API_VERSION_MINOR",
      "#define <name>VK_API_VERSION_MINOR</name>(version) (((uint32_t)(version) &gt;&gt; 12U) &amp; 0x3FFU)"),
   ("VK_API_VERSION_PATCH",
      "#define <name>VK_API_VERSION_PATCH</name>(version) ((uint32_t)(version) &amp; 0xFFFU)"),
   ("VKSC_API_VARIANT",
      "// Vulkan SC variant number\n#define <name>VKSC_API_VARIANT</name> 1"),
   ("VK_API_VERSION",
      "// DEPRECATED: This define has been removed. Specific version defines (e.g. VK_API_VERSION_1_0), or the VK_MAKE_VERSION macro, should be used instead.\n" ++
      "//#define <name>VK_API_VERSION</name> <type>VK_MAKE_API_VERSION</type>(0, 1, 0, 0) // Patch version should always be set to 0"),
   ("VK_API_VERSION_1_0",
      "// Vulkan 1.0 version number\n" ++
      "#define <name>VK_API_VERSION_1_0</name> <type>VK_MAKE_API_VERSION</type>(0, 1, 0, 0)// Patch version should always be set to 0"),
   ("VK_API_VERSION_1_1",
      "// Vulkan 1.1 version number\n" ++
      "#define <name>VK_API_VERSION_1_1</name> <type>VK_MAKE_API_VERSION</type>(0, 1, 1, 0)// Patch version should always be set to 0"),
   ("VK_API_VERSION_1_2",
      "// Vulkan 1.2 version number\n" ++
      "#define <name>VK_API_VERSION_1_2</name> <type>VK_MAKE_API_VERSION</type>(0, 1, 2, 0)// Patch version should always be set to 0"),
   ("VK_API_VERSION_1_3",
      "// Vulkan 1.3 version number\n" ++
      "#define <name>VK_API_VERSION_1_3</name> <type>VK_MAKE_API_VERSION</type>(0, 1, 3, 0)// Patch version should always be set to 0"),
   ("VK_API_VERSION_1_4",
      "// Vulkan 1.4 version number\n" ++
      "#define <name>VK_API_VERSION_1_4</name> <type>VK_MAKE_API_VERSION</type>(0, 1, 4, 0)// Patch version should always be set to 0"),
   ("VKSC_API_VERSION_1_0",
      "// Vulkan SC 1.0 version number\n#define <name>VKSC_API_VERSION_1_0</name> <type>VK_MAKE_API_VERSION</type>(VKSC_API_VARIANT, 1, 0, 0)// Patch version should always be set to 0"),
   ("VK_HEADER_VERSION",
      "// Version of this file\n" ++
      "#define <name>VK_HEADER_VERSION</name> "),
   ("VK_HEADER_VERSION_COMPLETE",
      "// Complete version of this file\n" ++
      "#define <name>VK_HEADER_VERSION_COMPLETE</name> <type>VK_MAKE_API_VERSION</type>"),
   ("VK_DEFINE_HANDLE",
      "\n#define <name>VK_DEFINE_HANDLE</name>(object) typedef struct object##_T* object;"),
   ("VK_USE_64_BIT_PTR_DEFINES",
      "\n" ++
      "#ifndef VK_USE_64_BIT_PTR_DEFINES\n" ++
      "    #if defined(__LP64__) || defined(_WIN64) || (defined(__x86_64__) &amp;&amp; !defined(__ILP32__) ) || defined(_M_X64) || defined(__ia64) || defined (_M_IA64) || defined(__aarch64__) || defined(__powerpc64__) || (defined(__riscv) &amp;&amp; __riscv_xlen == 64)\n" ++
      "        #define VK_USE_64_BIT_PTR_DEFINES 1\n" ++
      "    #else\n" ++
      "        #define VK_USE_64_BIT_PTR_DEFINES 0\n" ++
      "    #endif\n" ++
      "#endif"),
   ("VK_NULL_HANDLE",
      "\n" ++
      "#ifndef VK_DEFINE_NON_DISPATCHABLE_HANDLE\n" ++
      "    #if (VK_USE_64_BIT_PTR_DEFINES==1)\n" ++
      "        #if (defined(__cplusplus) &amp;&amp; (__cplusplus >= 201103L)) || (defined(_MSVC_LANG) &amp;&amp; (_MSVC_LANG >= 201103L))\n" ++
      "            #define VK_NULL_HANDLE nullptr\n" ++
      "        #else\n" ++
      "            #define VK_NULL_HANDLE ((void*)0)\n" ++
      "        #endif\n" ++
      "    #else\n" ++
      "        #define VK_NULL_HANDLE 0ULL\n" ++
      "    #endif\n" ++
      "#endif\n" ++
      "#ifndef VK_NULL_HANDLE\n" ++
      "    #define VK_NULL_HANDLE 0\n" ++
      "#endif")
  ]

/-- Table `vulkan_known_defines`: the bodies of the handle defines of the `vulkan` API.
The entries stand in the order of the source (lines 366 to 376); a key occurs once. -/
def vulkan_known_defines : List (String × String) :=
  [
   ("VK_DEFINE_HANDLE",
      "\n#define <name>VK_DEFINE_HANDLE</name>(object) typedef struct object##_T* object;"),
   ("VK_DEFINE_NON_DISPATCHABLE_HANDLE",
      "\n" ++
      "#ifndef VK_DEFINE_NON_DISPATCHABLE_HANDLE\n" ++
      "    #if (VK_USE_64_BIT_PTR_DEFINES==1)\n" ++
      "        #define VK_DEFINE_NON_DISPATCHABLE_HANDLE(object) typedef struct object##_T *object;\n" ++
      "    #else\n" ++
      "        #define VK_DEFINE_NON_DISPATCHABLE_HANDLE(object) typedef uint64_t object;\n" ++
      "    #endif\n" ++
      "#endif")
  ]

/-- Table `vulkansc_known_defines`: the bodies of the handle defines of the `vulkansc` API.
The entries stand in the order of the source (lines 378 to 388); a key occurs once. -/
def vulkansc_known_defines : List (String × String) :=
  [
   ("VK_DEFINE_HANDLE",
      "\n#define <name>VK_DEFINE_HANDLE</name>(object) typedef struct object##_T* (object);"),
   ("VK_DEFINE_NON_DISPATCHABLE_HANDLE",
      "\n" ++
      "#ifndef VK_DEFINE_NON_DISPATCHABLE_HANDLE\n" ++
      "    #if (VK_USE_64_BIT_PTR_DEFINES==1)\n" ++
      "        #define VK_DEFINE_NON_DISPATCHABLE_HANDLE(object) typedef struct object##_T *(object);\n" ++
      "    #else\n" ++
      "        #define VK_DEFINE_NON_DISPATCHABLE_HANDLE(object) typedef uint64_t (object);\n" ++
      "    #endif\n" ++
      "#endif")
  ]

/-- Table `known_defines_obsoleted`: the bodies of older registries.
The entries stand in the order of the source (lines 390 to 437); a key occurs once. -/
def known_defines_obsoleted : List (String × String) :=
  [
   ("VK_MAKE_VERSION",
      "// DEPRECATED: This define is deprecated. VK_MAKE_API_VERSION should be used instead.\n" ++
      "#define <name>VK_MAKE_VERSION</name>(major, minor, patch) \\\n" ++
      "    ((((uint32_t)(major)) &lt;&lt; 22) | (((uint32_t)(minor)) &lt;&lt; 12) | ((uint32_t)(patch)))"),
   ("VK_VERSION_MAJOR",
      "// DEPRECATED: This define is deprecated. VK_API_VERSION_MAJOR should be used instead.\n" ++
      "#define <name>VK_VERSION_MAJOR</name>(version) ((uint32_t)(version) &gt;&gt; 22)"),
   ("VK_VERSION_MINOR",
      "// DEPRECATED: This define is deprecated. VK_API_VERSION_MINOR should be used instead.\n" ++
      "#define <name>VK_VERSION_MINOR</name>(version) (((uint32_t)(version) &gt;&gt; 12) &amp; 0x3FFU)"),
   ("VK_VERSION_PATCH",
      "// DEPRECATED: This define is deprecated. VK_API_VERSION_PATCH should be used instead.\n" ++
      "#define <name>VK_VERSION_PATCH</name>(version) ((uint32_t)(version) &amp; 0xFFFU)"),
   ("VK_MAKE_API_VERSION",
      "#define <name>VK_MAKE_API_VERSION</name>(variant, major, minor, patch) \\\n" ++
      "    ((((uint32_t)(variant)) &lt;&lt; 29) | (((uint32_t)(major)) &lt;&lt; 22) | (((uint32_t)(minor)) &lt;&lt; 12) | ((uint32_t)(patch)))"),
   ("VKSC_API_VARIANT",
      "// Vulkan SC variant number \n#define <name>VKSC_API_VARIANT</name> 1 // DEPRECATED: This define has been removed. Specific version defines (e.g. VK_API_VERSION_1_0), or the VK_MAKE_VERSION macro, should be used instead."),
   ("VK_API_VERSION_VARIANT",
      "#define <name>VK_API_VERSION_VARIANT</name>(version) ((uint32_t)(version) &gt;&gt; 29)"),
   ("VK_API_VERSION_MAJOR",
      "#define <name>VK_API_VERSION_MAJOR</name>(version) (((uint32_t)(version) &gt;&gt; 22) &amp; 0x7FU)"),
   ("VK_API_VERSION_MINOR",
      "#define <name>VK_API_VERSION_MINOR</name>(version) (((uint32_t)(version) &gt;&gt; 12) &amp; 0x3FFU)"),
   ("VK_API_VERSION_PATCH",
      "#define <name>VK_API_VERSION_PATCH</name>(version) ((uint32_t)(version) &amp; 0xFFFU)"),
   ("VK_API_VERSION",
      "// DEPRECATED: This define has been removed. Specific version defines (e.g. VK_API_VERSION_1_0), or the VK_MAKE_VERSION macro, should be used instead.\n" ++
      "//#define <name>VK_API_VERSION</name> <type>VK_MAKE_VERSION</type>(1, 0, 0) // Patch version should always be set to 0"),
   ("VK_API_VERSION_1_0",
      "// Vulkan 1.0 version number\n" ++
      "#define <name>VK_API_VERSION_1_0</name> <type>VK_MAKE_VERSION</type>(1, 0, 0)// Patch version should always be set to 0"),
   ("VK_API_VERSION_1_1",
      "// Vulkan 1.1 version number\n" ++
      "#define <name>VK_API_VERSION_1_1</name> <type>VK_MAKE_VERSION</type>(1, 1, 0)// Patch version should always be set to 0"),
   ("VK_API_VERSION_1_2",
      "// Vulkan 1.2 version number\n" ++
      "#define <name>VK_API_VERSION_1_2</name> <type>VK_MAKE_VERSION</type>(1, 2, 0)// Patch version should always be set to 0"),
   ("VKSC_API_VERSION_1_0",
      "VK_MAKE_API_VERSION</type>(VKSC_API_VARIANT, 1, 0, 0)// Patch version should always be set to 0"),
   ("VK_HEADER_VERSION",
      "// Version of this file\n" ++
      "#define <name>VK_HEADER_VERSION</name> "),
   ("VK_HEADER_VERSION_COMPLETE",
      "// Complete version of this file\n" ++
      "#define <name>VK_HEADER_VERSION_COMPLETE</name> <type>VK_MAKE_VERSION</type>(1, 2, VK_HEADER_VERSION)"),
   ("VK_USE_64_BIT_PTR_DEFINES",
      "\n" ++
      "#ifndef VK_USE_64_BIT_PTR_DEFINES\n" ++
      "    #if defined(__LP64__) || defined(_WIN64) || (defined(__x86_64__) &amp;&amp; !defined(__ILP32__) ) || defined(_M_X64) || defined(__ia64) || defined (_M_IA64) || defined(__aarch64__) || defined(__powerpc64__)\n" ++
      "        #define VK_USE_64_BIT_PTR_DEFINES 1\n" ++
      "    #else\n" ++
      "        #define VK_USE_64_BIT_PTR_DEFINES 0\n" ++
      "    #endif\n" ++
      "#endif"),
   ("VK_DEFINE_NON_DISPATCHABLE_HANDLE",
      "\n#if !defined(VK_DEFINE_NON_DISPATCHABLE_HANDLE)\n" ++
      "#if defined(__LP64__) || defined(_WIN64) || (defined(__x86_64__) &amp;&amp; !defined(__ILP32__) ) || defined(_M_X64) || defined(__ia64) || defined (_M_IA64) || defined(__aarch64__) || defined(__powerpc64__)\n" ++
      "        #define VK_DEFINE_NON_DISPATCHABLE_HANDLE(object) typedef struct object##_T *object;\n" ++
      "#else\n" ++
      "        #define VK_DEFINE_NON_DISPATCHABLE_HANDLE(object) typedef uint64_t object;\n" ++
      "#endif\n" ++
      "#endif"),
   ("VK_NULL_HANDLE",
      "\n#define <name>VK_NULL_HANDLE</name> 0"),
   ("VK_DEFINE_HANDLE",
      "\n#define <name>VK_DEFINE_HANDLE</name>(object) typedef struct object##_T* (object);")
  ]

/-- Error `"Unmatched define ..."` of `vulkanDefineTypeFromXML`. -/
def unmatchedDefine (typ : typeInfo) : Outcome Unit :=
  Outcome.error ("Unmatched define \"" ++ typ.Name ++ "\": \"" ++ typ.RawXML ++ "\"\"")

/-- Statements of `vulkanDefineTypeFromXML` after the branches on the API: the
check against `known_defines`. The value `()` stands for the `nil` error. -/
def checkKnownDefine (typ : typeInfo) : Outcome Unit :=
  match known_defines.lookup typ.Name with
  | some define =>
    if typ.Name ≠ "VK_HEADER_VERSION" ∧ typ.Name ≠ "VK_HEADER_VERSION_COMPLETE" then
      if define ≠ typ.RawXML then
        match known_defines_obsoleted.lookup typ.Name with
        | some obsolete_define =>
          if obsolete_define = typ.RawXML then Outcome.ok ()
          else unmatchedDefine typ
        | none => Outcome.error ("Unknown obsolete define \"" ++ typ.Name ++ "\"")
      else Outcome.ok ()
    else if ¬ define.data.isPrefixOf typ.RawXML.data then unmatchedDefine typ
    else Outcome.ok ()
  | none => Outcome.error ("Unknown define \"" ++ typ.Name ++ "\"")

/-- Check of a record against a table of one API: a name of the table must have
the body of the table; other names go on to `known_defines`. -/
def checkApiDefine (table : List (String × String)) (typ : typeInfo) : Outcome Unit :=
  match table.lookup typ.Name with
  | some define =>
    if define ≠ typ.RawXML then unmatchedDefine typ
    else Outcome.ok ()
  | none => checkKnownDefine typ

/-- Function `vulkanDefineTypeFromXML`. -/
def vulkanDefineTypeFromXML (typ : typeInfo) : Outcome Unit :=
  if typ.Api = "vulkan" then checkApiDefine vulkan_known_defines typ
  else if typ.Api = "vulkansc" then checkApiDefine vulkansc_known_defines typ
  else
    match vulkan_known_defines.lookup typ.Name with
    | some define =>
      if define = typ.RawXML then Outcome.ok ()
      else checkApiDefine vulkansc_known_defines typ
    | none => checkApiDefine vulkansc_known_defines typ

/-- Record of a `define` element with the given name, API and body. -/
def defineRecord (name api body : String) : typeInfo :=
  { typeNamed name "define" with Api := api, RawXML := body }

/-- Record `VK_NULL_HANDLE` with the body of an older registry. -/
def nullHandleObsolete : typeInfo :=
  defineRecord "VK_NULL_HANDLE" "" "\n#define <name>VK_NULL_HANDLE</name> 0"

/-- Record `VK_DEFINE_HANDLE` of the `vulkan` API with the body of that API. -/
def defineHandleVulkan : typeInfo :=
  defineRecord "VK_DEFINE_HANDLE" "vulkan"
    "\n#define <name>VK_DEFINE_HANDLE</name>(object) typedef struct object##_T* object;"

/-- Record `VK_DEFINE_HANDLE` without API with the body of the `vulkansc` API. -/
def defineHandleNoApi : typeInfo :=
  defineRecord "VK_DEFINE_HANDLE" ""
    "\n#define <name>VK_DEFINE_HANDLE</name>(object) typedef struct object##_T* (object);"

/-- Record `VK_HEADER_VERSION` of a registry with header version 300. -/
def headerVersion300 : typeInfo :=
  defineRecord "VK_HEADER_VERSION" ""
    "// Version of this file\n#define <name>VK_HEADER_VERSION</name> 300"

/-- Record of a define that no table names. -/
def defineUnknown : typeInfo := defineRecord "VK_FOO" "" "#define <name>VK_FOO</name> 1"

/-! ## Resolution of opaque pointees after the types are built -/

/-- The map `types` of `VulkanTypesfromXML` as the list of its entries, in the
order in which the loop `for type_name := range types` meets them. A struct
stands for the `extendedStruct` that wraps it, which passes every query on. -/
abbrev Catalog : Type := List (String × Node)

/-- Statement `if typе.Kind(FirstArch) == Ptr { typе = typе.Elem(FirstArch) }`;
`none` is a panic. -/
def derefPointer (store : Store) (typ : Node) : Option Node :=
  if typ.Kind FirstArch = Kind.Ptr then typ.Elem store FirstArch else some typ

/-- Statement `field.Type().(cpp_types.ModifyablePtrType).ReplaceElem(pointee_type)`:
the assertion holds for a pointer node only; `none` is a panic. -/
def replaceFieldElem (store : Store) (field_type pointee_type : Node) : Option Store :=
  match field_type with
  | Node.pointerType address =>
    match ReplaceElem store address pointee_type with
    | (some _, later) => some later
    | (none, _) => none
  | _ => none

/-- Lookup `types[t.Name(FirstArch)]` for a type `t` of kind Opaque, followed by
the test `ok && field_type.Kind(FirstArch) != Opaque`: the type to put in the
place of `t`, if any; the outer `none` is a panic. -/
def lookupDeclared (types : Catalog) (t : Node) : Option (Option Node) :=
  match t.Name FirstArch with
  | none => none
  | some name =>
    match types.lookup name with
    | some field_type =>
      if field_type.Kind FirstArch ≠ Kind.Opaque then some (some field_type) else some none
    | none => some none

/-- Body of the loop over the fields in the pass of `VulkanTypesfromXML` that
resolves circular references; `none` is a panic. -/
def resolveField (types : Catalog) (typ : Node) (store : Store) (i : Nat) : Option Store :=
  match typ.Field i FirstArch with
  | none => none
  | some field =>
    if field.Typ.Kind FirstArch ≠ Kind.Ptr then some store
    else
      match field.Typ.Elem store FirstArch with
      | none => none
      | some pointee_type =>
        if pointee_type.Kind FirstArch = Kind.Opaque then
          match lookupDeclared types pointee_type with
          | none => none
          | some (some field_type) => replaceFieldElem store field.Typ field_type
          | some none => some store
        else if pointee_type.Kind FirstArch = Kind.Const then
          match pointee_type.Elem store FirstArch with
          | none => none
          | some elem =>
            if elem.Kind FirstArch = Kind.Opaque then
              match lookupDeclared types elem with
              | none => none
              | some (some field_type) =>
                replaceFieldElem store field.Typ (Node.constType field_type)
              | some none => some store
            else some store
        else some store

/-- Body of the loop `for type_name := range types` of the same pass. -/
def resolveEntry (types : Catalog) (store : Store) (entry : String × Node) : Option Store :=
  match derefPointer store entry.2 with
  | none => none
  | some typ =>
    if typ.Kind FirstArch ≠ Kind.Func ∧ typ.Kind FirstArch ≠ Kind.Struct ∧
        typ.Kind FirstArch ≠ Kind.Union then some store
    else
      match typ.NumField FirstArch with
      | none => none
      | some count => (List.range count).foldlM (resolveField types typ) store

/-- The pass of `VulkanTypesfromXML` that resolves circular references (the loop
over `types` after the types are built): the store after it, or `none` for a
panic. -/
def resolveOpaquePointees (types : Catalog) (store : Store) : Option Store :=
  types.foldlM (resolveEntry types) store

/-! ## Vocabulary of the proofs: pointees that the pass replaces -/

/-- The catalog holds under the name of `t`, a type of kind Opaque, the type
`field_type`, whose kind is not Opaque. -/
def Catalog.declares (types : Catalog) (t field_type : Node) : Prop :=
  t.Kind FirstArch = Kind.Opaque ∧
    ∃ name, t.Name FirstArch = some name ∧ types.lookup name = some field_type ∧
      field_type.Kind FirstArch ≠ Kind.Opaque

/-- The pointee is one that the pass replaces, and `replacement` is what it puts in
its place: the pointee is `Opaque(X)` and the replacement the type that the
catalog holds for `X`, or the pointee is `Const(Opaque(X))` and the replacement
the const of that type. -/
def Catalog.replaces (types : Catalog) (store : Store) (pointee replacement : Node) : Prop :=
  types.declares pointee replacement ∨
    (pointee.Kind FirstArch = Kind.Const ∧
      ∃ elem field_type, pointee.Elem store FirstArch = some elem ∧
        types.declares elem field_type ∧ replacement = Node.constType field_type)

/-- The pointee is neither of kind Opaque nor the const of a type of kind Opaque. -/
def Node.isSettled (store : Store) (pointee : Node) : Prop :=
  pointee.Kind FirstArch ≠ Kind.Opaque ∧
    (pointee.Kind FirstArch = Kind.Const →
      ∀ elem, pointee.Elem store FirstArch = some elem → elem.Kind FirstArch ≠ Kind.Opaque)

/-- Address of the pointer node that a type is on the first architecture. -/
def Node.address : Node → Option Nat
  | .pointerType address => some address
  | .archDependentType t0 _ _ _ _ _ => t0.address
  | _ => none

/-- The pointer node at address `a` has a pointee, and the pass does not replace it. -/
def Catalog.settledAt (types : Catalog) (store : Store) (a : Nat) : Prop :=
  ∃ pointee, store[a]? = some pointee ∧ ∀ r, ¬ types.replaces store pointee r

/-- From `store` to `later` every pointer node has kept its pointee or has got,
in the place of a pointee that the pass replaces, the replacement. -/
def Catalog.Resolves (types : Catalog) (store later : Store) : Prop :=
  later.length = store.length ∧
    ∀ (a : Nat) (c : Node), store[a]? = some c →
      later[a]? = some c ∨
        ∃ r, types.replaces store c r ∧ r.isSettled store ∧ later[a]? = some r

/-- Every field of `typ`, when `typ` is a function, a struct or a union, that is a
pointer is a pointer node with a pointee that the pass does not replace. -/
def Catalog.fieldsSettled (types : Catalog) (store : Store) (typ : Node) : Prop :=
  (typ.Kind FirstArch = Kind.Func ∨ typ.Kind FirstArch = Kind.Struct ∨
      typ.Kind FirstArch = Kind.Union) →
    ∀ i field, typ.Field i FirstArch = some field → field.Typ.Kind FirstArch = Kind.Ptr →
      ∃ a, (∀ s : Store, field.Typ.Elem s FirstArch = s[a]?) ∧ types.settledAt store a

/-! ## Structs that extend other structs -/

/-- Type `extendedStruct`: a struct type with the data of its extension; `base`
is the embedded `cpp_types.Type`. -/
structure extendedStruct where
  base : Ty
  extended_with : List Ty
  optional_struct : Bool
  optional_value : String

/-- Constructor `ExtendedStruct`. -/
def ExtendedStruct (base_struct : Ty) (optional_struct : Bool) (optional_value : String) :
    extendedStruct :=
  ⟨base_struct, [], optional_struct, optional_value⟩

/-- Text of the error of `vulkanStructTypeFromXML`. -/
def structExtensionError : String :=
  "Struct extension must have first field named VkStructureType sType and second named pNext"

/-- Last statement of `vulkanStructTypeFromXML`; `StructType` may panic. -/
def extendedStructOf (typ : typeInfo) (fields_info : List FieldInfo) (optional_struct : Bool)
    (optional_enum_value : String) : Outcome extendedStruct :=
  match StructType typ.Name fields_info with
  | none => Outcome.panic
  | some base_struct =>
    Outcome.ok (ExtendedStruct base_struct optional_struct optional_enum_value)

/-- Function `vulkanStructTypeFromXML` from the return of its call of
`vulkanStructuralTypeMembersFromXML` on, whose outcome is the argument `members`;
an index out of range is a panic. -/
def vulkanStructTypeFromXML (members : Outcome (List FieldInfo)) (typ : typeInfo)
    (optional_struct : Bool) : Outcome extendedStruct :=
  match members with
  | Outcome.error msg => Outcome.error msg
  | Outcome.panic => Outcome.panic
  | Outcome.outOfFuel => Outcome.outOfFuel
  | Outcome.ok fields_info =>
    if optional_struct then
      match typ.Members[0]? with
      | none => Outcome.panic
      | some member0 =>
        if member0.Typ ≠ "VkStructureType" then
          Outcome.error structExtensionError
        else
          match fields_info[0]? with
          | none => Outcome.panic
          | some field0 =>
            if field0.Name ≠ "sType" then
              Outcome.error structExtensionError
            else
              match fields_info[1]? with
              | none => Outcome.panic
              | some field1 =>
                if field1.Name ≠ "pNext" then
                  Outcome.error structExtensionError
                else extendedStructOf typ fields_info optional_struct member0.Value
    else extendedStructOf typ fields_info optional_struct ""

/-- Record of a `member` element with a name and a type, as `Unmarshal` completes it. -/
def memberNamed (name typ : String) : structuralMemberInfo :=
  ⟨name, typ, "", "", "", "", "<type>" ++ typ ++ "</type> <name>" ++ name ++ "</name>", "", ""⟩

/-- Record `<type category="struct" name="VkEmptyEXT" structextends="VkDeviceCreateInfo"/>`. -/
def emptyExtension : typeInfo :=
  { typeNamed "VkEmptyEXT" "struct" with StructExtends := "VkDeviceCreateInfo" }

/-- Record of a struct that extends `VkDeviceCreateInfo` and has the member
`VkStructureType sType` only. -/
def sTypeOnlyExtension : typeInfo :=
  { typeNamed "VkShortEXT" "struct" with
    StructExtends := "VkDeviceCreateInfo", Members := [memberNamed "sType" "VkStructureType"] }

/-- Record of a struct that extends `VkDeviceCreateInfo` and has the member
`uint32_t flags` only. -/
def flagsOnlyExtension : typeInfo :=
  { typeNamed "VkFlagsEXT" "struct" with
    StructExtends := "VkDeviceCreateInfo", Members := [memberNamed "flags" "uint32_t"] }

/-! ## Concrete inputs: the catalog of `TestStruct` -/

/-- The enum `VkStructureType` of `TestStruct`, which has no members. -/
def vkStructureTypeNode : Node := Node.enumType "VkStructureType" nodeInt32T []

/-- A struct `{VkStructureType sType; T* pNext;}` on one architecture; `pNext` is the
pointer node at `address`. -/
def baseStructureOn (name : String) (address offset_pNext align bits : Nat) : Node :=
  Node.structType name
    [NodeStructFieldInfo.mk (NodeFieldInfo.mk "sType" vkStructureTypeNode) 0,
     NodeStructFieldInfo.mk (NodeFieldInfo.mk "pNext" (Node.pointerType address)) offset_pNext]
    align bits

/-- The struct with its layout on the six architectures, as `StructType` returns it. -/
def baseStructure (name : String) (address : Nat) : Node :=
  Node.archDependentType (baseStructureOn name address 32 32 64)
    (baseStructureOn name address 64 64 128) (baseStructureOn name address 32 32 64)
    (baseStructureOn name address 64 64 128) (baseStructureOn name address 32 32 64)
    (baseStructureOn name address 64 64 128)

/-- The types of `TestStruct` that matter for the pointers: `pNext` of
`VkBaseOutStructure` is the pointer node at address 0, `pNext` of
`VkBaseInStructure` the one at address 1. -/
def testStructCatalog : Catalog :=
  [("VkStructureType", vkStructureTypeNode),
   ("VkBaseOutStructure", baseStructure "VkBaseOutStructure" 0),
   ("VkBaseInStructure", baseStructure "VkBaseInStructure" 1)]

/-- The pointees as the members were read: `struct VkBaseOutStructure*` and
`const struct VkBaseInStructure*`, both names not yet known. -/
def testStructDeclared : Store :=
  [Node.opaqueType Kind.Opaque "VkBaseOutStructure",
   Node.constType (Node.opaqueType Kind.Opaque "VkBaseInStructure")]

/-- The pointees of `TestStruct` after the pass. -/
def testStructResolved : Store :=
  [baseStructure "VkBaseOutStructure" 0, Node.constType (baseStructure "VkBaseInStructure" 1)]

/-! ## Concrete inputs: layout corner cases -/

/-- A type that is an alias of `uint32_t` on the 32-bit architectures and an alias
of `uint64_t` on the 64-bit ones. -/
def wordAlias : Ty :=
  ArchDependentType
    (AliasType "VkWord" UInt32TType) (AliasType "VkWord" UInt64TType)
    (AliasType "VkWord" UInt32TType) (AliasType "VkWord" UInt64TType)
    (AliasType "VkWord" UInt32TType) (AliasType "VkWord" UInt64TType)

/-- The union without fields, as `UnionType` returns it. -/
def emptyUnion (name : String) : Ty := Ty.unionType name [] 0 0

/-! ## Text functions of the Go library

A Go string is modelled by its characters. The registry is decoded XML, hence valid
UTF-8, so that one text occurs in another at a byte exactly where it occurs at a
character, and every slice of the source is cut next to an ASCII character;
positions and lengths count characters. -/

/-- Sequencing of two steps of a loader function: the second runs on the value of
the first, and an error, a panic or exhausted fuel of the first ends the function. -/
def Outcome.bind {α β : Type} (r : Outcome α) (f : α → Outcome β) : Outcome β :=
  match r with
  | Outcome.ok v => f v
  | Outcome.error msg => Outcome.error msg
  | Outcome.panic => Outcome.panic
  | Outcome.outOfFuel => Outcome.outOfFuel

/-- The first instance of a separator in a text, as `strings.Index` finds it: the
text before the instance and the text after it; `none` when there is no instance. -/
def strings.cut (sep : List Char) : List Char → Option (List Char × List Char)
  | [] => if sep = [] then some ([], []) else none
  | c :: s =>
    if sep.isPrefixOf (c :: s) then some ([], (c :: s).drop sep.length)
    else (strings.cut sep s).map (fun p => (c :: p.1, p.2))

/-- Loop of `strings.Split` for a separator that is not empty: the text before the
first instance, then the parts of the text after it. The fuel bounds the number of
instances; the length of the text is enough. -/
def strings.splitN (sep : List Char) : Nat → List Char → List (List Char)
  | 0, s => [s]
  | fuel + 1, s =>
    match strings.cut sep s with
    | none => [s]
    | some (a, b) => a :: strings.splitN sep fuel b

/-- Library function `strings.Split(s, sep)`; the empty separator splits after each
character. -/
def strings.Split (s sep : String) : List String :=
  if sep.data = [] then s.data.map (fun c => String.mk [c])
  else (strings.splitN sep.data s.data.length s.data).map String.mk

/-- Loop of `strings.Count` for a text that is not empty: the instances are counted
from the left and do not overlap. -/
def strings.countN (substr : List Char) : Nat → List Char → Nat
  | 0, _ => 0
  | fuel + 1, s =>
    match strings.cut substr s with
    | none => 0
    | some (_, b) => 1 + strings.countN substr fuel b

/-- Library function `strings.Count(s, substr)`. -/
def strings.Count (s substr : String) : Nat :=
  if substr.data = [] then s.data.length + 1
  else strings.countN substr.data s.data.length s.data

/-- Library function `strings.Contains(s, substr)`. -/
def strings.Contains (s substr : String) : Bool :=
  (strings.cut substr.data s.data).isSome

/-- Library function `strings.HasPrefix(s, prefix)`. -/
def strings.HasPrefix (s pre : String) : Bool := pre.data.isPrefixOf s.data

/-- Library function `strings.HasSuffix(s, suffix)`. -/
def strings.HasSuffix (s suffix : String) : Bool := suffix.data.isSuffixOf s.data

/-- Position of the last instance of a text in another, `-1` when there is none
(`strings.LastIndex`). -/
def strings.lastIndex (substr : List Char) : List Char → Int
  | [] => if substr = [] then 0 else -1
  | c :: s =>
    if 0 ≤ strings.lastIndex substr s then strings.lastIndex substr s + 1
    else if substr.isPrefixOf (c :: s) then 0 else -1

/-- Library function `strings.LastIndex(s, substr)`. -/
def strings.LastIndex (s substr : String) : Int := strings.lastIndex substr.data s.data

/-- White space of `unicode.IsSpace`. -/
def unicode.IsSpace (c : Char) : Bool :=
  decide (c.toNat = 9 ∨ c.toNat = 10 ∨ c.toNat = 11 ∨ c.toNat = 12 ∨ c.toNat = 13 ∨
    c.toNat = 32 ∨ c.toNat = 0x85 ∨ c.toNat = 0xA0 ∨ c.toNat = 0x1680 ∨
    (0x2000 ≤ c.toNat ∧ c.toNat ≤ 0x200a) ∨ c.toNat = 0x2028 ∨ c.toNat = 0x2029 ∨
    c.toNat = 0x202f ∨ c.toNat = 0x205f ∨ c.toNat = 0x3000)

/-- Library function `strings.TrimSpace(s)`: the text without the white space at its
two ends. -/
def strings.TrimSpace (s : String) : String :=
  String.mk ((s.data.dropWhile unicode.IsSpace).reverse.dropWhile unicode.IsSpace).reverse

/-- Slice expression `s[low:high]` of Go; `none` is the panic of bounds out of range. -/
def sliceString (s : String) (low high : Int) : Option String :=
  if 0 ≤ low ∧ low ≤ high ∧ high ≤ s.data.length then
    some (String.mk ((s.data.take high.toNat).drop low.toNat))
  else none

/-- Characters that the class `\s` of the regular expression `space` matches. -/
def space.matches (c : Char) : Bool :=
  decide (c.toNat = 9 ∨ c.toNat = 10 ∨ c.toNat = 12 ∨ c.toNat = 13 ∨ c.toNat = 32)

/-- Scan of `space.ReplaceAllString`: every run of matching characters, as long as it
can be, is replaced once; the flag tells that the character before belongs to a run. -/
def space.replaceRuns (repl : List Char) : Bool → List Char → List Char
  | _, [] => []
  | inRun, c :: s =>
    if space.matches c then
      if inRun then space.replaceRuns repl true s else repl ++ space.replaceRuns repl true s
    else c :: space.replaceRuns repl false s

/-- Method `space.ReplaceAllString(src, repl)` of the regular expression
`space = regexp.MustCompile("\\s+")`, for a replacement without `$`. -/
def space.ReplaceAllString (src repl : String) : String :=
  String.mk (space.replaceRuns repl.data false src.data)

/-! ## Elements read from the raw XML of a record -/

/-- Function `elementFromRawXML`; an index out of range is a panic. -/
def elementFromRawXML (element_name raw_XML : String) : Outcome String :=
  let opening_tag := "<" ++ element_name ++ ">"
  let closing_tag := "</" ++ element_name ++ ">"
  if strings.Count raw_XML opening_tag ≠ 1 then
    Outcome.error
      ("Couldn't determine element \"" ++ element_name ++ "\" from \"" ++ raw_XML ++ "\"")
  else if strings.Count raw_XML closing_tag ≠ 1 then
    Outcome.error
      ("Couldn't determine element \"" ++ element_name ++ "\" from \"" ++ raw_XML ++ "\"")
  else
    match (strings.Split raw_XML opening_tag)[1]? with
    | none => Outcome.panic
    | some rest =>
      match (strings.Split rest closing_tag)[0]? with
      | none => Outcome.panic
      | some element => Outcome.ok element

/-- Field `Proto` of a command record (an unnamed struct in the source); the field
`Type` of the source is written `Typ`. -/
structure protoInfo where
  Typ : String
  RawXML : String
  Comment : String
  deriving DecidableEq, Repr

/-- Record of a `command` element (`type commandInfo struct`). -/
structure commandInfo where
  Name : String
  Alias : String
  Proto : protoInfo
  Params : List structuralMemberInfo
  RawXML : String
  deriving DecidableEq, Repr

/-- Table `known_types`: the types of platform headers that the registry uses without
declaring a category, each with the value of its `requires` attribute. -/
def known_types : List (String × String) :=
  [("_screen_context", "screen/screen.h"),
   ("_screen_window", "screen/screen.h"),
   ("_screen_buffer", "screen/screen.h"),
   ("NvSciSyncAttrList", "nvscisync.h"),
   ("NvSciSyncObj", "nvscisync.h"),
   ("NvSciSyncFence", "nvscisync.h"),
   ("NvSciBufAttrList", "nvscibuf.h"),
   ("NvSciBufObj", "nvscibuf.h"),
   ("char", "vk_platform"),
   ("Display", "X11/Xlib.h"),
   ("DWORD", "windows.h"),
   ("float", "vk_platform"),
   ("double", "vk_platform"),
   ("GgpFrameToken", "ggp_c/vulkan_types.h"),
   ("GgpStreamDescriptor", "ggp_c/vulkan_types.h"),
   ("HANDLE", "windows.h"),
   ("HINSTANCE", "windows.h"),
   ("HMONITOR", "windows.h"),
   ("HWND", "windows.h"),
   ("IDirectFB", "directfb.h"),
   ("IDirectFBSurface", "directfb.h"),
   ("int", ""),
   ("int8_t", "vk_platform"),
   ("int16_t", "vk_platform"),
   ("int32_t", "vk_platform"),
   ("int64_t", "vk_platform"),
   ("LPCWSTR", "windows.h"),
   ("RROutput", "X11/extensions/Xrandr.h"),
   ("SECURITY_ATTRIBUTES", "windows.h"),
   ("size_t", "vk_platform"),
   ("StdVideoDecodeH264Mvc", "vk_video/vulkan_video_codec_h264std_decode.h"),
   ("StdVideoDecodeH264MvcElement", "vk_video/vulkan_video_codec_h264std_decode.h"),
   ("StdVideoDecodeH264MvcElementFlags", "vk_video/vulkan_video_codec_h264std_decode.h"),
   ("StdVideoDecodeH264PictureInfo", "vk_video/vulkan_video_codec_h264std_decode.h"),
   ("StdVideoDecodeH264PictureInfoFlags", "vk_video/vulkan_video_codec_h264std_decode.h"),
   ("StdVideoDecodeH264ReferenceInfo", "vk_video/vulkan_video_codec_h264std_decode.h"),
   ("StdVideoDecodeH264ReferenceInfoFlags", "vk_video/vulkan_video_codec_h264std_decode.h"),
   ("StdVideoDecodeH265PictureInfo", "vk_video/vulkan_video_codec_h265std_decode.h"),
   ("StdVideoDecodeH265PictureInfoFlags", "vk_video/vulkan_video_codec_h265std_decode.h"),
   ("StdVideoDecodeH265ReferenceInfo", "vk_video/vulkan_video_codec_h265std_decode.h"),
   ("StdVideoDecodeH265ReferenceInfoFlags", "vk_video/vulkan_video_codec_h265std_decode.h"),
   ("StdVideoEncodeH264PictureInfo", "vk_video/vulkan_video_codec_h264std_encode.h"),
   ("StdVideoEncodeH264PictureInfoFlags", "vk_video/vulkan_video_codec_h264std_encode.h"),
   ("StdVideoEncodeH264RefListModEntry", "vk_video/vulkan_video_codec_h264std_encode.h"),
   ("StdVideoEncodeH264RefMemMgmtCtrlOperations", "vk_video/vulkan_video_codec_h264std_encode.h"),
   ("StdVideoEncodeH264RefMgmtFlags", "vk_video/vulkan_video_codec_h264std_encode.h"),
   ("StdVideoEncodeH264RefPicMarkingEntry", "vk_video/vulkan_video_codec_h264std_encode.h"),
   ("StdVideoEncodeH264ReferenceInfo", "vk_video/vulkan_video_codec_h264std_encode.h"),
   ("StdVideoEncodeH264ReferenceListsInfo", "vk_video/vulkan_video_codec_h264std_encode.h"),
   ("StdVideoEncodeH264ReferenceInfoFlags", "vk_video/vulkan_video_codec_h264std_encode.h"),
   ("StdVideoEncodeH264SliceHeader", "vk_video/vulkan_video_codec_h264std_encode.h"),
   ("StdVideoEncodeH264SliceHeaderFlags", "vk_video/vulkan_video_codec_h264std_encode.h"),
   ("StdVideoEncodeH265PictureInfo", "vk_video/vulkan_video_codec_h265std_encode.h"),
   ("StdVideoEncodeH265PictureInfoFlags", "vk_video/vulkan_video_codec_h265std_encode.h"),
   ("StdVideoEncodeH265ReferenceInfo", "vk_video/vulkan_video_codec_h265std_encode.h"),
   ("StdVideoEncodeH265ReferenceListsInfo", "vk_video/vulkan_video_codec_h265std_encode.h"),
   ("StdVideoEncodeH265ReferenceInfoFlags", "vk_video/vulkan_video_codec_h265std_encode.h"),
   ("StdVideoEncodeH265ReferenceModificationFlags", "vk_video/vulkan_video_codec_h265std_encode.h"),
   ("StdVideoEncodeH265ReferenceModifications", "vk_video/vulkan_video_codec_h265std_encode.h"),
   ("StdVideoEncodeH265SliceHeader", "vk_video/vulkan_video_codec_h265std_encode.h"),
   ("StdVideoEncodeH265SliceHeaderFlags", "vk_video/vulkan_video_codec_h265std_encode.h"),
   ("StdVideoEncodeH265SliceSegmentHeader", "vk_video/vulkan_video_codec_h265std_encode.h"),
   ("StdVideoEncodeH265SliceSegmentHeaderFlags", "vk_video/vulkan_video_codec_h265std_encode.h"),
   ("StdVideoH264AspectRatioIdc", "vk_video/vulkan_video_codec_h264std.h"),
   ("StdVideoH264CabacInitIdc", "vk_video/vulkan_video_codec_h264std.h"),
   ("StdVideoH264ChromaFormatIdc", "vk_video/vulkan_video_codec_h264std.h"),
   ("StdVideoH264DisableDeblockingFilterIdc", "vk_video/vulkan_video_codec_h264std.h"),
   ("StdVideoH264HrdParameters", "vk_video/vulkan_video_codec_h264std.h"),
   ("StdVideoH264Level", "vk_video/vulkan_video_codec_h264std.h"),
   ("StdVideoH264LevelIdc", "vk_video/vulkan_video_codec_h264std.h"),
   ("StdVideoH264MemMgmtControlOp", "vk_video/vulkan_video_codec_h264std.h"),
   ("StdVideoH264ModificationOfPicNumsIdc", "vk_video/vulkan_video_codec_h264std.h"),
   ("StdVideoH264PictureParameterSet", "vk_video/vulkan_video_codec_h264std.h"),
   ("StdVideoH264PictureType", "vk_video/vulkan_video_codec_h264std.h"),
   ("StdVideoH264PocType", "vk_video/vulkan_video_codec_h264std.h"),
   ("StdVideoH264PpsFlags", "vk_video/vulkan_video_codec_h264std.h"),
   ("StdVideoH264ProfileIdc", "vk_video/vulkan_video_codec_h264std.h"),
   ("StdVideoH264ScalingLists", "vk_video/vulkan_video_codec_h264std.h"),
   ("StdVideoH264SequenceParameterSet", "vk_video/vulkan_video_codec_h264std.h"),
   ("StdVideoH264SequenceParameterSetVui", "vk_video/vulkan_video_codec_h264std.h"),
   ("StdVideoH264SliceType", "vk_video/vulkan_video_codec_h264std.h"),
   ("StdVideoH264SpsFlags", "vk_video/vulkan_video_codec_h264std.h"),
   ("StdVideoH264SpsVuiFlags", "vk_video/vulkan_video_codec_h264std.h"),
   ("StdVideoH264WeightedBiPredIdc", "vk_video/vulkan_video_codec_h264std.h"),
   ("StdVideoH264WeightedBipredIdc", "vk_video/vulkan_video_codec_h264std.h"),
   ("StdVideoH265PictureParameterSet", "vk_video/vulkan_video_codec_h265std.h"),
   ("StdVideoH265DecPicBufMgr", "vk_video/vulkan_video_codec_h265std.h"),
   ("StdVideoH265HrdFlags", "vk_video/vulkan_video_codec_h265std.h"),
   ("StdVideoH265HrdParameters", "vk_video/vulkan_video_codec_h265std.h"),
   ("StdVideoH265Level", "vk_video/vulkan_video_codec_h265std.h"),
   ("StdVideoH265LevelIdc", "vk_video/vulkan_video_codec_h265std.h"),
   ("StdVideoH265PictureType", "vk_video/vulkan_video_codec_h265std.h"),
   ("StdVideoH265PpsFlags", "vk_video/vulkan_video_codec_h265std.h"),
   ("StdVideoH265PredictorPaletteEntries", "vk_video/vulkan_video_codec_h265std.h"),
   ("StdVideoH265ProfileIdc", "vk_video/vulkan_video_codec_h265std.h"),
   ("StdVideoH265ScalingLists", "vk_video/vulkan_video_codec_h265std.h"),
   ("StdVideoH265SequenceParameterSet", "vk_video/vulkan_video_codec_h265std.h"),
   ("StdVideoH265SequenceParameterSetVui", "vk_video/vulkan_video_codec_h265std.h"),
   ("StdVideoH265SliceType", "vk_video/vulkan_video_codec_h265std.h"),
   ("StdVideoH265SpsFlags", "vk_video/vulkan_video_codec_h265std.h"),
   ("StdVideoH265SpsVuiFlags", "vk_video/vulkan_video_codec_h265std.h"),
   ("StdVideoH265SubLayerHrdParameters", "vk_video/vulkan_video_codec_h265std.h"),
   ("StdVideoH265VideoParameterSet", "vk_video/vulkan_video_codec_h265std.h"),
   ("StdVideoH265VpsFlags", "vk_video/vulkan_video_codec_h265std.h"),
   ("StdVideoAV1Profile", "vk_video/vulkan_video_codec_av1std.h"),
   ("StdVideoAV1Level", "vk_video/vulkan_video_codec_av1std.h"),
   ("StdVideoAV1SequenceHeader", "vk_video/vulkan_video_codec_av1std.h"),
   ("StdVideoDecodeAV1PictureInfo", "vk_video/vulkan_video_codec_av1std_decode.h"),
   ("StdVideoDecodeAV1ReferenceInfo", "vk_video/vulkan_video_codec_av1std_decode.h"),
   ("uint8_t", "vk_platform"),
   ("uint16_t", "vk_platform"),
   ("uint32_t", "vk_platform"),
   ("uint64_t", "vk_platform"),
   ("VisualID", "X11/Xlib.h"),
   ("void", "vk_platform"),
   ("Window", "X11/Xlib.h"),
   ("wl_display", "wayland-client.h"),
   ("wl_surface", "wayland-client.h"),
   ("xcb_connection_t", "xcb/xcb.h"),
   ("xcb_visualid_t", "xcb/xcb.h"),
   ("xcb_window_t", "xcb/xcb.h"),
   ("zx_handle_t", "zircon/types.h")]

/-- Loop `for i := range xs` that rewrites every element in place, or ends the
function at the first element whose body fails. -/
def forEachIndex {α : Type} (body : α → Outcome α) : List α → Outcome (List α)
  | [] => Outcome.ok []
  | x :: xs =>
    (body x).bind (fun y => (forEachIndex body xs).bind (fun ys => Outcome.ok (y :: ys)))

/-- Body of the loop of `Unmarshal` over the members of a struct or a union. -/
def unmarshalMember (member : structuralMemberInfo) : Outcome structuralMemberInfo :=
  (if member.Name = "" then
      (elementFromRawXML "name" member.RawXML).bind
        (fun name => Outcome.ok { member with Name := name })
    else Outcome.ok member).bind (fun member =>
  (if member.Typ = "" then
      (elementFromRawXML "type" member.RawXML).bind
        (fun typ => Outcome.ok { member with Typ := typ })
    else Outcome.ok member).bind (fun member =>
  if member.Comment = "" ∧ strings.Contains member.RawXML "<comment>" = true then
    (elementFromRawXML "comment" member.RawXML).bind
      (fun comment => Outcome.ok { member with Comment := comment })
  else Outcome.ok member))

/-- Body of the loop of `Unmarshal` over `registry.Types`. -/
def unmarshalType (typ : typeInfo) : Outcome typeInfo :=
  (if typ.Name = "" then
      (elementFromRawXML "name" typ.RawXML).bind (fun name => Outcome.ok { typ with Name := name })
    else Outcome.ok typ).bind (fun typ =>
  (if typ.Category = "" then
      match known_types.lookup typ.Name with
      | some requires =>
        if typ.Requires ≠ requires then
          Outcome.error ("Unknown type without category: \"" ++ typ.Name ++ "\"")
        else Outcome.ok { typ with Category := "vk_platform" }
      | none => Outcome.error ("Unknown type without category: \"" ++ typ.Name ++ "\"")
    else Outcome.ok typ).bind (fun typ =>
  if typ.Alias ≠ "" ∨ (typ.Category ≠ "struct" ∧ typ.Category ≠ "union") then
    if typ.Members.length ≠ 0 then
      Outcome.error ("Members in non-struct type : \"" ++ typ.Name ++ "\"")
    else Outcome.ok typ
  else
    (forEachIndex unmarshalMember typ.Members).bind
      (fun members => Outcome.ok { typ with Members := members })))

/-- Body of the loop of `Unmarshal` over the parameters of a command; the presence of
a comment is looked up in the raw XML of the prototype of the command. -/
def unmarshalParam (command : commandInfo) (param : structuralMemberInfo) :
    Outcome structuralMemberInfo :=
  (if param.Name = "" then
      (elementFromRawXML "name" param.RawXML).bind
        (fun name => Outcome.ok { param with Name := name })
    else Outcome.ok param).bind (fun param =>
  (if param.Typ = "" then
      (elementFromRawXML "type" param.RawXML).bind
        (fun typ => Outcome.ok { param with Typ := typ })
    else Outcome.ok param).bind (fun param =>
  if param.Comment = "" ∧ strings.Contains command.Proto.RawXML "<comment>" = true then
    (elementFromRawXML "comment" param.RawXML).bind
      (fun comment => Outcome.ok { param with Comment := comment })
  else Outcome.ok param))

/-- Body of the loop of `Unmarshal` over `registry.Commands`; the text of a comment of
the prototype is stored in the field `Type` of the prototype, as in the source. -/
def unmarshalCommand (command : commandInfo) : Outcome commandInfo :=
  (if command.Name = "" then
      (elementFromRawXML "name" command.Proto.RawXML).bind
        (fun name => Outcome.ok { command with Name := name })
    else Outcome.ok command).bind (fun command =>
  if command.Alias = "" then
    (if command.Proto.Typ = "" then
        (elementFromRawXML "type" command.Proto.RawXML).bind
          (fun typ => Outcome.ok { command with Proto := { command.Proto with Typ := typ } })
      else Outcome.ok command).bind (fun command =>
    (if command.Proto.Comment = "" ∧
          strings.Contains command.Proto.RawXML "<comment>" = true then
        (elementFromRawXML "comment" command.Proto.RawXML).bind
          (fun typ => Outcome.ok { command with Proto := { command.Proto with Typ := typ } })
      else Outcome.ok command).bind (fun command =>
    (forEachIndex (unmarshalParam command) command.Params).bind
      (fun params => Outcome.ok { command with Params := params })))
  else Outcome.ok command)

/-- Function `Unmarshal` from the return of its call of `xml.Unmarshal` on, on the
type records and the command records that this call decoded. -/
def Unmarshal (types : List typeInfo) (commands : List commandInfo) :
    Outcome (List typeInfo × List commandInfo) :=
  (forEachIndex unmarshalType types).bind (fun types =>
  (forEachIndex unmarshalCommand commands).bind (fun commands =>
  Outcome.ok (types, commands)))

/-! ## Vocabulary of the proofs: occurrences of a text -/

/-- Number of the positions of a text at which another text occurs; occurrences that
overlap are counted each. -/
def occurrences (sub : List Char) : List Char → Nat
  | [] => if sub = [] then 1 else 0
  | c :: s => (if sub.isPrefixOf (c :: s) then 1 else 0) + occurrences sub s

/-- Opening tag of an element. -/
def openingTag (element_name : String) : String := "<" ++ element_name ++ ">"

/-- Closing tag of an element. -/
def closingTag (element_name : String) : String := "</" ++ element_name ++ ">"

/-! ## Concrete inputs: records as the XML decoder leaves them -/

/-- Record of `<type>This type is <name>int</name></type>` of `TestUnmarshallNameAsString`
before `Unmarshal` completes it. -/
def decodedIntType : typeInfo :=
  { typeNamed "" "" with RawXML := "This type is <name>int</name>" }

/-- Record of `<type category="test">Here is <name>type_name</name></type>` of
`TestUnmarshallNameAsString` before `Unmarshal` completes it. -/
def decodedTestType : typeInfo :=
  { typeNamed "" "test" with RawXML := "Here is <name>type_name</name>" }

/-- Record of a `member` or `param` element without attributes. -/
def decodedMember (raw : String) : structuralMemberInfo :=
  ⟨"", "", "", "", "", "", raw, "", ""⟩

/-- Record of the union of `TestStructType` before `Unmarshal` completes it. -/
def decodedUnion : typeInfo :=
  { typeNamed "Union" "union" with
    Members := [decodedMember "<type>float</type> <name>float32</name>[4]",
      decodedMember "const <type>int32_t</type> <name>int32</name>[4]"] }

/-- Record of a command whose prototype holds a comment next to its type and its name,
as the XML decoder leaves it. -/
def decodedCommentedCommand : commandInfo :=
  { Name := "", Alias := "",
    Proto := ⟨"", "<type>void</type> <name>vkCmd</name><comment>returns nothing</comment>", ""⟩,
    Params := [], RawXML := "" }

/-! ## Number parsing with a bit size -/

/-- Loop of `strconv.ParseUint(s, base, bitSize)` over the bytes of `s`, with the
number `n` read so far; `cutoff` is `maxUint64/base + 1` and `maxVal` is
`1<<bitSize - 1`. -/
def strconv.parseUintLoopMax (base cutoff maxVal : Nat) : List Char → Nat → Outcome Nat
  | [], n => Outcome.ok n
  | c :: s, n =>
    match strconv.digit c with
    | none => Outcome.error "invalid syntax"
    | some d =>
      if d ≥ base then Outcome.error "invalid syntax"
      else if n ≥ cutoff then Outcome.error "value out of range"
      else
        let n := (n * base) % uintModulus
        let n1 := (n + d) % uintModulus
        if n1 < n ∨ n1 > maxVal then Outcome.error "value out of range"
        else strconv.parseUintLoopMax base cutoff maxVal s n1

/-- Library function `strconv.ParseUint(s, base, bitSize)` of Go for an explicit base
`2 ≤ base ≤ 36` and an explicit bit size `1 ≤ bitSize ≤ 64`; the error carries the text
of the field `Err` of the `NumError`. -/
def strconv.ParseUintBits (s : List Char) (base bitSize : Nat) : Outcome Nat :=
  if s = [] then Outcome.error "invalid syntax"
  else if 2 ≤ base ∧ base ≤ 36 then
    if 1 ≤ bitSize ∧ bitSize ≤ 64 then
      strconv.parseUintLoopMax base ((uintModulus - 1) / base + 1) (2 ^ bitSize - 1) s 0
    else Outcome.error "invalid bit size"
  else Outcome.error "invalid base"

/-- Library function `strconv.ParseInt(s, base, bitSize)` of Go for an explicit base and
an explicit bit size: an optional sign, then `ParseUint`, then the check of the range
of the bit size. A range error of `ParseUint` ends in the range error of `ParseInt`. -/
def strconv.ParseIntBits (s : String) (base bitSize : Nat) : Outcome Int :=
  match s.data with
  | [] => Outcome.error "invalid syntax"
  | c :: rest =>
    let neg := decide (c = '-')
    let s := if c = '+' ∨ c = '-' then rest else c :: rest
    match strconv.ParseUintBits s base bitSize with
    | Outcome.ok un =>
      if neg = false ∧ un ≥ 2 ^ (bitSize - 1) then Outcome.error "value out of range"
      else if neg = true ∧ un > 2 ^ (bitSize - 1) then Outcome.error "value out of range"
      else
        let n := wrapInt64 un
        Outcome.ok (if neg then wrapInt64 (-n) else n)
    | Outcome.error msg => Outcome.error msg
    | Outcome.panic => Outcome.panic
    | Outcome.outOfFuel => Outcome.outOfFuel

/-! ## Members of structs, unions and commands -/

/-- Map `map[string]cpp_types.Type` as the list of its entries, the newest first, so
that a lookup finds the type stored last under a name. -/
abbrev TypeMap : Type := List (String × Ty)

/-- Text of the error `unknownType`, which tells the caller to convert the record
again later. The source compares the error by identity; no other error of the package
has this text. -/
def unknownType : String := "Couldn't find type"

/-- Record `extendedField`: the embedded field, the pointer `length` to another record
of the same call, given by the position of that record in `fields_info`, and the field
`nested_field`; `none` is `nil`. -/
structure extendedField where
  field_info : FieldInfo
  length : Option Nat
  nested_field : Option AnyFieldInfo

/-- Method `Name` that the record takes from the embedded field. -/
def extendedField.Name (field_info : extendedField) : String := field_info.field_info.Name

/-- Method `Type` that the record takes from the embedded field. -/
def extendedField.Typ (field_info : extendedField) : Ty := field_info.field_info.Typ

/-- Method `Length`: the position in `fields_info` of the record pointed to. -/
def extendedField.Length (field_info : extendedField) : Option Nat := field_info.length

/-- Method `NestedField`. -/
def extendedField.NestedField (field_info : extendedField) : Option AnyFieldInfo :=
  field_info.nested_field

/-- Function `ExtendedField`. -/
def ExtendedField (name : String) (typ : Ty) (length : Option Nat)
    (field : Option AnyFieldInfo) : extendedField :=
  ⟨Field name typ, length, field⟩

/-- Error `Unexpected member definition` of `vulkanStructuralTypeMembersFromXML`. -/
def memberDefinitionError (name html : String) : String :=
  "Unexpected member definition in \"" ++ name ++ "\": \"" ++ html ++ "\"\""

/-- Sum `strings.Split(s, opening)[0] + strings.Split(s, closing)[1]`, the text without
an element; an index out of range is a panic. -/
def withoutElement (s opening closing : String) : Outcome String :=
  match (strings.Split s opening)[0]?, (strings.Split s closing)[1]? with
  | some before, some after => Outcome.ok (before ++ after)
  | _, _ => Outcome.panic

/-- First part of the body of the first loop of `vulkanStructuralTypeMembersFromXML`:
the text `html` of the member without its comment, the text before the type and the
text after the type, without the name and with its white space normalised. -/
def memberTexts (name : String) (member : structuralMemberInfo) :
    Outcome (String × String × String) :=
  let html := strings.TrimSpace member.RawXML
  (if member.Comment ≠ "" then
      if strings.Count html "<comment>" > 1 then Outcome.error (memberDefinitionError name html)
      else if strings.Count html "<comment>" = 1 then
        withoutElement html "<comment>" "</comment>"
      else Outcome.ok html
    else Outcome.ok html).bind (fun html =>
  if strings.Count html "<type>" ≠ 1 then Outcome.error (memberDefinitionError name html)
  else
    match (strings.Split html "<type>")[0]?, (strings.Split html "</type>")[1]? with
    | some before, some after =>
      let text_before_type_name := strings.TrimSpace before
      let text_after_type_name := strings.TrimSpace after
      (if strings.Count html "<name>" > 1 then
          Outcome.error (memberDefinitionError name html)
        else if strings.Count html "<name>" = 1 then
          withoutElement text_after_type_name "<name>" "</name>"
        else Outcome.ok text_after_type_name).bind (fun text_after_type_name =>
      Outcome.ok (html, text_before_type_name,
        strings.TrimSpace (space.ReplaceAllString text_after_type_name " ")))
    | _, _ => Outcome.panic)

/-- Condition `len(text) > 0 && text[0] == '*'`. -/
def startsWithStar (text : String) : Bool :=
  match text.data with
  | c :: _ => c == '*'
  | [] => false

/-- Chain of tests on the text after the type of a pointer member. The type `none` is
the `nil` type, and a type built around it is `none` as well. -/
def pointerMemberType (name html text_after_type_name : String) (member_type : Option Ty) :
    Outcome (Option Ty) :=
  if text_after_type_name = "*" then Outcome.ok (member_type.map PointerType)
  else if text_after_type_name = "**" then
    Outcome.ok (member_type.map (fun t => PointerType (PointerType t)))
  else if text_after_type_name = "* const*" ∨ text_after_type_name = "* const *" then
    Outcome.ok (member_type.map (fun t => PointerType (ConstType (PointerType t))))
  else Outcome.error (memberDefinitionError name html)

/-- Text that holds the size of a dimension of an array member: the text between the
brackets, or the value of the enum constant that it names between `<enum>` and
`</enum>`. The constant missing in `enum_values` is the dereference of a `nil` pointer. -/
def arraySizeText (enum_values : EnumValues) (array_size_text : String) : Outcome String :=
  if strings.HasPrefix array_size_text "<enum>" = true then
    if strings.HasSuffix array_size_text "</enum>" = false then
      Outcome.error ("Unsupported array index \"" ++ array_size_text ++ "\"\"")
    else
      match sliceString array_size_text 6 ((array_size_text.data.length : Int) - 7) with
      | none => Outcome.panic
      | some key =>
        match enum_values.lookup key with
        | none => Outcome.panic
        | some enum_field => Outcome.ok enum_field.Value
  else Outcome.ok array_size_text

/-- Body of the loop `for strings.HasSuffix(text_after_type_name, "]")` with the rest of
the loop as `recurse`: the last dimension is cut off the text and its size is appended to
`indexes`. A slice out of range is a panic. -/
def arrayIndexesBody (recurse : String → List Nat → Outcome (String × List Nat))
    (enum_values : EnumValues) (text_after_type_name : String) (indexes : List Nat) :
    Outcome (String × List Nat) :=
  if strings.HasSuffix text_after_type_name "]" = true then
    match sliceString text_after_type_name (strings.LastIndex text_after_type_name "[" + 1)
        ((text_after_type_name.data.length : Int) - 1) with
    | none => Outcome.panic
    | some array_size_text =>
      match sliceString text_after_type_name 0
          ((text_after_type_name.data.length : Int) - (array_size_text.data.length : Int) - 2) with
      | none => Outcome.panic
      | some text_after_type_name =>
        (arraySizeText enum_values array_size_text).bind (fun array_size_text =>
        (strconv.ParseIntBits array_size_text 10 32).bind (fun array_size =>
        recurse text_after_type_name (indexes ++ [(array_size % (uintModulus : Int)).toNat])))
  else Outcome.ok (text_after_type_name, indexes)

/-- Loop `for strings.HasSuffix(text_after_type_name, "]")`: the text that is left and
the dimensions, the rightmost first. Every turn shortens the text, so that fuel above
the length of the text is never exhausted. -/
def arrayIndexes (enum_values : EnumValues) : Nat → String → List Nat → Outcome (String × List Nat)
  | 0 => fun _ _ => Outcome.outOfFuel
  | fuel + 1 => arrayIndexesBody (arrayIndexes enum_values fuel) enum_values

/-- Second part of the body of the first loop of `vulkanStructuralTypeMembersFromXML`:
the type of the member from the texts before and after its type name. The result `none`
is a type built around the `nil` type that `types[member.Validstructs]` may be. -/
def memberType (name : String) (member : structuralMemberInfo) (types : TypeMap)
    (enum_values : EnumValues) (html text_before_type_name text_after_type_name : String) :
    Outcome (Option Ty) :=
  let raw_type_known := (types.lookup member.Typ).isSome
  let member_type : Option Ty :=
    if member.Typ = "VkBaseInStructure" ∨ member.Typ = "VkBaseOutStructure" then
      types.lookup member.Validstructs
    else types.lookup member.Typ
  if startsWithStar text_after_type_name = true then
    if raw_type_known = true then
      if text_before_type_name = "const" ∨ text_before_type_name = "const struct" then
        pointerMemberType name html text_after_type_name (member_type.map ConstType)
      else if text_before_type_name ≠ "" ∧ text_before_type_name ≠ "struct" then
        Outcome.error ("Unexpected prefix in \"" ++ name ++ "\": \"" ++ html ++ "\"\"")
      else pointerMemberType name html text_after_type_name member_type
    else
      if text_before_type_name = "" ∨ text_before_type_name = "const" then
        Outcome.error unknownType
      else if text_before_type_name = "const struct" then
        pointerMemberType name html text_after_type_name
          (some (ConstType (OpaqueType member.Typ)))
      else if text_before_type_name ≠ "struct" then
        Outcome.error (memberDefinitionError name html)
      else pointerMemberType name html text_after_type_name (some (OpaqueType member.Typ))
  else
    if raw_type_known = false then Outcome.error unknownType
    else
      (if text_before_type_name = "const" then Outcome.ok (member_type.map ConstType)
        else if text_before_type_name ≠ "" then
          Outcome.error (memberDefinitionError name html)
        else Outcome.ok member_type).bind (fun member_type =>
      if text_after_type_name = ":8" then
        if member.Typ ≠ "uint32_t" ∧ member.Typ ≠ "VkGeometryInstanceFlagsKHR" then
          Outcome.error ("Unsupported bitfield type name \"" ++ name ++ "\": \"" ++ html ++ "\"\"")
        else Outcome.ok (some UInt8TType)
      else if text_after_type_name = ":24" then
        if member.Typ ≠ "uint32_t" then
          Outcome.error ("Unsupported bitfield type name \"" ++ name ++ "\": \"" ++ html ++ "\"\"")
        else Outcome.ok (some (ArrayType UInt8TType 3))
      else
        (arrayIndexes enum_values (text_after_type_name.data.length + 1)
          text_after_type_name []).bind (fun rest =>
        if rest.1 ≠ "" then Outcome.error (memberDefinitionError name html)
        else
          Outcome.ok (member_type.map (fun member_type =>
            rest.2.reverse.foldl (fun t size => ArrayType t size) member_type))))

/-- Body of the first loop of `vulkanStructuralTypeMembersFromXML` on the slice
`fields_info` and the map `field_map`, whose entries hold the position of a record in
`fields_info`, the newest entry first. A type built around the `nil` type is no value of
`Ty`: where the source records a field of such a type, whose queries panic later, the
model ends with a panic. -/
def declareMember (name : String) (types : TypeMap) (enum_values : EnumValues)
    (st : List extendedField × List (String × Nat)) (member : structuralMemberInfo) :
    Outcome (List extendedField × List (String × Nat)) :=
  (memberTexts name member).bind (fun texts =>
  (memberType name member types enum_values texts.1 texts.2.1 texts.2.2).bind (fun member_type =>
  if member.Api ≠ "vulkansc" then
    match member_type with
    | none => Outcome.panic
    | some member_type =>
      Outcome.ok (st.1 ++ [⟨Field member.Name member_type, none, none⟩],
        (member.Name, st.1.length) :: st.2)
  else Outcome.ok st))

/-- Assignment `field_map[name].length = length`; the record missing in the map is the
dereference of a `nil` pointer. -/
def setLength (field_map : List (String × Nat)) (fields_info : List extendedField)
    (name : String) (length : Nat) : Outcome (List extendedField) :=
  match field_map.lookup name with
  | none => Outcome.panic
  | some i => Outcome.ok (fields_info.modify (fun f => { f with length := some length }) i)

/-- Assignment `field_map[name].nested_field = field`. -/
def setNestedField (field_map : List (String × Nat)) (fields_info : List extendedField)
    (name : String) (field : AnyFieldInfo) : Outcome (List extendedField) :=
  match field_map.lookup name with
  | none => Outcome.panic
  | some i => Outcome.ok (fields_info.modify (fun f => { f with nested_field := some field }) i)

/-- Record `field_map[name]`, read for one of its fields; `nil` is a panic. -/
def recordNamed (field_map : List (String × Nat)) (fields_info : List extendedField)
    (name : String) : Outcome extendedField :=
  match field_map.lookup name with
  | none => Outcome.panic
  | some i =>
    match fields_info[i]? with
    | none => Outcome.panic
    | some f => Outcome.ok f

/-- Method `Elem(cpp_types.FirstArch)` in the loader, where its panic ends the load. -/
def elemFirstArch (t : Ty) : Outcome Ty :=
  match t.Elem FirstArch with
  | none => Outcome.panic
  | some elem => Outcome.ok elem

/-- Error `Unexpected len field` of `vulkanStructuralTypeMembersFromXML`. -/
def lenFieldError (member : structuralMemberInfo) : String :=
  "Unexpected len field in \"" ++ member.Name ++ "\""

/-- Branch of the second loop for a length `P->F`. -/
def nestedLength (member : structuralMemberInfo) (field_map : List (String × Nat))
    (fields_info : List extendedField) : Outcome (List extendedField) :=
  let split_length := strings.Split member.Length "->"
  if split_length.length > 2 then Outcome.error (lenFieldError member)
  else
    match split_length[0]? with
    | none => Outcome.panic
    | some pointer_name =>
      match field_map.lookup pointer_name with
      | none => Outcome.error (lenFieldError member)
      | some length =>
        (setLength field_map fields_info member.Name length).bind (fun fields_info =>
        match fields_info[length]? with
        | none => Outcome.panic
        | some length_field =>
          if length_field.Typ.Kind FirstArch ≠ Kind.Ptr then
            Outcome.error (lenFieldError member)
          else
            (elemFirstArch length_field.Typ).bind (fun length_type =>
            (if length_type.Kind FirstArch = Kind.Const then elemFirstArch length_type
              else Outcome.ok length_type).bind (fun length_type =>
            if length_type.Kind FirstArch ≠ Kind.Struct ∧
                length_type.Kind FirstArch ≠ Kind.Union then
              Outcome.error (lenFieldError member)
            else
              match length_type.NumField FirstArch with
              | none => Outcome.panic
              | some count =>
                (forRange (fun fields_info i =>
                    match length_type.Field i FirstArch, split_length[1]? with
                    | some field, some field_name =>
                      if field.Name = field_name then
                        setNestedField field_map fields_info member.Name field
                      else Outcome.ok fields_info
                    | _, _ => Outcome.panic)
                  (List.range count) fields_info).bind (fun fields_info =>
                (recordNamed field_map fields_info member.Name).bind (fun record =>
                if record.nested_field.isNone then
                  Outcome.error
                    ("Unexpected field referred by len in \"" ++ member.Name ++ "\"")
                else Outcome.ok fields_info)))))

/-- Branch of the second loop for a member with the attribute `altlen`. -/
def altLength (member : structuralMemberInfo) (field_map : List (String × Nat))
    (fields_info : List extendedField) : Outcome (List extendedField) :=
  (recordNamed field_map fields_info member.Name).bind (fun record =>
  if record.Typ.Kind FirstArch ≠ Kind.Ptr then
    Outcome.error ("Unexpected altlen field in \"" ++ member.Name ++ "\"")
  else
    (elemFirstArch record.Typ).bind (fun element_type =>
    (if element_type.Kind FirstArch = Kind.Const then elemFirstArch element_type
      else Outcome.ok element_type).bind (fun element_type =>
    (if element_type.Kind FirstArch = Kind.Alias then elemFirstArch element_type
      else Outcome.ok element_type).bind (fun element_type =>
    if element_type.Kind FirstArch ≠ Kind.UInt8T ∧ element_type.Kind FirstArch ≠ Kind.UInt16T ∧
        element_type.Kind FirstArch ≠ Kind.UInt32T then
      Outcome.error ("Unexpected altlen field in \"" ++ member.Name ++ "\"")
    else Outcome.ok fields_info))))

/-- Body of the second loop of `vulkanStructuralTypeMembersFromXML`: the attribute `len`
of one member. -/
def memberLength (field_map : List (String × Nat)) (fields_info : List extendedField)
    (member : structuralMemberInfo) : Outcome (List extendedField) :=
  if strings.HasSuffix member.Length ",1" = true then
    match sliceString member.Length 0 ((member.Length.data.length : Int) - 2) with
    | none => Outcome.panic
    | some key =>
      match field_map.lookup key with
      | some length => setLength field_map fields_info member.Name length
      | none => Outcome.error (lenFieldError member)
  else if strings.Contains member.Length "->" = true then
    nestedLength member field_map fields_info
  else if member.AltLength ≠ "" then altLength member field_map fields_info
  else if member.Length = "1" then Outcome.ok fields_info
  else if member.Length ≠ "" ∧ member.Length ≠ "null-terminated" ∧
      strings.HasSuffix member.Length ",null-terminated" = false then
    match field_map.lookup member.Length with
    | some length => setLength field_map fields_info member.Name length
    | none => Outcome.error (lenFieldError member)
  else Outcome.ok fields_info

/-- Function `vulkanStructuralTypeMembersFromXML`. -/
def vulkanStructuralTypeMembersFromXML (name : String) (members : List structuralMemberInfo)
    (types : TypeMap) (enum_values : EnumValues) : Outcome (List extendedField) :=
  (forRange (declareMember name types enum_values) members ([], [])).bind (fun st =>
  forRange (memberLength st.2) members st.1)

/-- Loop of `VulkanTypesfromXML` that fills `params_info`: a parameter whose type is an
array is recorded as a pointer to the element of the array. -/
def decayParams : List extendedField → Outcome (List extendedField)
  | [] => Outcome.ok []
  | field_info :: fields_info =>
    (if field_info.Typ.Kind FirstArch = Kind.Array then
        (elemFirstArch field_info.Typ).bind (fun elem =>
          Outcome.ok (ExtendedField field_info.Name (PointerType elem) field_info.Length
            field_info.NestedField))
      else Outcome.ok field_info).bind (fun param =>
    (decayParams fields_info).bind (fun params_info => Outcome.ok (param :: params_info)))

/-- Body of the loop of `VulkanTypesfromXML` over the commands, for a command that is
no alias: the parameters as `vulkanStructuralTypeMembersFromXML` returns them, to which
the pointers `length` refer, and the parameters of the type stored in `commands`, which
is `cpp_types.FunctionType(result_type, params_info)`. -/
def commandSignature (command : commandInfo) (types : TypeMap) (enum_values : EnumValues) :
    Outcome (Ty × List extendedField × List extendedField) :=
  match types.lookup command.Proto.Typ with
  | some result_type =>
    if space.ReplaceAllString command.Proto.RawXML " " ≠
        "<type>" ++ command.Proto.Typ ++ "</type> <name>" ++ command.Name ++ "</name>" then
      Outcome.error ("Unexpected prototype \"" ++ command.Proto.RawXML ++ "\"")
    else
      (vulkanStructuralTypeMembersFromXML command.Name command.Params types enum_values).bind
        (fun fields_info =>
      (decayParams fields_info).bind (fun params_info =>
      Outcome.ok (result_type, fields_info, params_info)))
  | none => Outcome.error ("Unknown return function type \"" ++ command.Proto.Typ ++ "\"")

/-! ## Vocabulary of the proofs: dimensions of an array member -/

/-- Text of a list of dimensions: each dimension between square brackets. -/
def dimensionsText (dims : List String) : String :=
  String.mk (dims.map (fun d => '[' :: (d.data ++ [']']))).flatten

/-- A dimension of an array member and the size that it stands for: a decimal number
below `2^31`, or `<enum>K</enum>` for an enum constant `K` whose value is such a number. -/
inductive IsDimension (enum_values : EnumValues) : String → Nat → Prop
  | number (d : String) (n : Nat) :
      numeralValue 10 d = some (n : Int) → n < 2 ^ 31 → IsDimension enum_values d n
  | constant (K : String) (enum_field : enumFieldInfo) (n : Nat) :
      '[' ∉ K.data → enum_values.lookup K = some enum_field →
      numeralValue 10 enum_field.Value = some (n : Int) → n < 2 ^ 31 →
      IsDimension enum_values ("<enum>" ++ K ++ "</enum>") n
/-! ## The first loop of `VulkanTypesfromXML`: types that need no later record -/

/-- The functions that `VulkanTypesfromXML` calls in its first loop to convert a record
of one category, with the arguments that change from call to call. -/
structure typeConverters where
  vulkanBaseTypeFromXML : typeInfo → Outcome Ty
  vulkanBitmaskTypeFromXML : typeInfo → TypeMap → Outcome Ty
  vulkanDefineTypeFromXML : typeInfo → Outcome Unit
  vulkanEnumTypeFromXML : typeInfo → Outcome Ty
  vulkanFuncPoiterTypeFromXML : typeInfo → TypeMap → Outcome Ty
  vulkanHandleTypeFromXML : typeInfo → TypeMap → Outcome Ty
  vulkanStructTypeFromXML : typeInfo → Bool → TypeMap → Outcome Ty
  vulkanUnionTypeFromXML : typeInfo → TypeMap → Outcome Ty

/-- Statement `switch xml_type.Category` for the categories whose function returns a
type and an error; `none` is a category that the statement handles otherwise. -/
def convertCategory (converters : typeConverters) (types : TypeMap) (xml_type : typeInfo) :
    Option (Outcome Ty) :=
  if xml_type.Category = "basetype" then some (converters.vulkanBaseTypeFromXML xml_type)
  else if xml_type.Category = "bitmask" then
    some (converters.vulkanBitmaskTypeFromXML xml_type types)
  else if xml_type.Category = "enum" then some (converters.vulkanEnumTypeFromXML xml_type)
  else if xml_type.Category = "funcpointer" then
    some (converters.vulkanFuncPoiterTypeFromXML xml_type types)
  else if xml_type.Category = "handle" then
    some (converters.vulkanHandleTypeFromXML xml_type types)
  else if xml_type.Category = "struct" then
    some (converters.vulkanStructTypeFromXML xml_type (decide (xml_type.StructExtends ≠ "")) types)
  else if xml_type.Category = "union" then
    some (converters.vulkanUnionTypeFromXML xml_type types)
  else none

/-- Body of the loop `for _, xml_type := range xml_types_list` of `VulkanTypesfromXML` on
the map `types` and the slice `next_xml_types_list`. -/
def convertType (converters : typeConverters) (st : TypeMap × List typeInfo)
    (xml_type : typeInfo) : Outcome (TypeMap × List typeInfo) :=
  if (st.1.lookup xml_type.Name).isSome then
    if xml_type.Category = "vk_platform" then Outcome.ok st
    else if xml_type.Api = "vulkansc" then Outcome.ok st
    else Outcome.error ("Duplicated type \"" ++ xml_type.Name ++ "\"")
  else if xml_type.Alias ≠ "" then
    match st.1.lookup xml_type.Alias with
    | some alias_target =>
      Outcome.ok ((xml_type.Name, AliasType xml_type.Name alias_target) :: st.1, st.2)
    | none => Outcome.ok (st.1, st.2 ++ [xml_type])
  else if xml_type.Category = "define" then
    (converters.vulkanDefineTypeFromXML xml_type).bind (fun _ => Outcome.ok st)
  else if xml_type.Category = "include" then Outcome.ok st
  else if xml_type.Category = "vk_platform" then
    Outcome.error ("Unknown platform type \"" ++ xml_type.Name ++ "\"")
  else
    match convertCategory converters st.1 xml_type with
    | none => Outcome.error ("Unknown type category \"" ++ xml_type.Category ++ "\"")
    | some (Outcome.ok c_type) => Outcome.ok ((xml_type.Name, c_type) :: st.1, st.2)
    | some (Outcome.error msg) =>
      if msg = unknownType then Outcome.ok (st.1, st.2 ++ [xml_type])
      else Outcome.error msg
    | some Outcome.panic => Outcome.panic
    | some Outcome.outOfFuel => Outcome.outOfFuel

/-- Error `Cannot make any progress` of `VulkanTypesfromXML`. -/
def noProgressError (xml_type : typeInfo) : String :=
  "Cannot make any progress: type \"" ++ xml_type.Name ++ "\" refers to undefined type: \"" ++
    xml_type.RawXML ++ "\"\""

/-- Loop `for len(next_xml_types_list) > 0` of `VulkanTypesfromXML`, from a test of its
condition on; the result is the map `types`. One unit of fuel is spent for each test of
the condition. -/
def convertTypes (converters : typeConverters) :
    Nat → List typeInfo → List typeInfo → TypeMap → Outcome TypeMap
  | 0, _, _, _ => Outcome.outOfFuel
  | fuel + 1, xml_types_list, next_xml_types_list, types =>
    if next_xml_types_list.length > 0 then
      if xml_types_list.length = next_xml_types_list.length then
        match xml_types_list[0]? with
        | none => Outcome.panic
        | some first => Outcome.error (noProgressError first)
      else
        (forRange (convertType converters) next_xml_types_list (types, [])).bind (fun st =>
          convertTypes converters fuel next_xml_types_list st.2 st.1)
    else Outcome.ok types

/-! ## Vocabulary of the proofs: converters that return -/

/-- None of the functions of the converters runs out of fuel: each of them returns. -/
def typeConverters.Returns (converters : typeConverters) : Prop :=
  ∀ (xml_type : typeInfo) (types : TypeMap),
    convertCategory converters types xml_type ≠ some Outcome.outOfFuel ∧
    converters.vulkanDefineTypeFromXML xml_type ≠ Outcome.outOfFuel

/-- Number of the turns of the loop `for len(next_xml_types_list) > 0` that `convertTypes`
starts before it returns, as far as the fuel allows; a turn that ends with the error
`Cannot make any progress` counts. -/
def convertTypes.turns (converters : typeConverters) :
    Nat → List typeInfo → List typeInfo → TypeMap → Nat
  | 0, _, _, _ => 0
  | fuel + 1, xml_types_list, next_xml_types_list, types =>
    if next_xml_types_list.length > 0 then
      if xml_types_list.length = next_xml_types_list.length then 1
      else
        match forRange (convertType converters) next_xml_types_list (types, []) with
        | Outcome.ok st => 1 + convertTypes.turns converters fuel next_xml_types_list st.2 st.1
        | _ => 1
    else 0

/-- Record of a `member` or `param` element with the name and the type that `Unmarshal`
reads from its raw XML. -/
def memberWith (name typ raw : String) : structuralMemberInfo :=
  ⟨name, typ, "", "", "", "", raw, "", ""⟩

/-- Platform types that the members below use, as `PlatformTypes` declares them. -/
def sampleTypes : TypeMap :=
  [("char", CharType), ("float", Float32Type), ("uint32_t", UInt32TType),
    ("uint64_t", UInt64TType), ("void", VoidType)]

/-- Member `const void* pNext`. -/
def pNextMember : structuralMemberInfo :=
  memberWith "pNext" "void" "const <type>void</type>* <name>pNext</name>"

/-- Member `const char* const * ppEnabledLayerNames`, with a blank before the second
asterisk. -/
def spacedNamesMember : structuralMemberInfo :=
  memberWith "ppEnabledLayerNames" "char"
    "const <type>char</type>* const * <name>ppEnabledLayerNames</name>"

/-- Member `struct VkBaseOutStructure* pNext` of `TestStruct`. -/
def pNextOutMember : structuralMemberInfo :=
  memberWith "pNext" "VkBaseOutStructure"
    "struct <type>VkBaseOutStructure</type>* <name>pNext</name>"

/-- Member `float matrix[3][4]` of `TestStruct`. -/
def matrixMember : structuralMemberInfo :=
  memberWith "matrix" "float" "<type>float</type> <name>matrix</name>[3][4]"

/-- Record of the struct `VkTransformMatrixKHR` of `TestStruct`. -/
def transformMatrixRecord : typeInfo :=
  { typeNamed "VkTransformMatrixKHR" "struct" with Members := [matrixMember] }

/-- Members of the struct `VkAccelerationStructureInstanceKHR` of `TestStruct`. -/
def accelerationInstanceMembers : List structuralMemberInfo :=
  [memberWith "transform" "VkTransformMatrixKHR"
      "<type>VkTransformMatrixKHR</type> <name>transform</name>",
    memberWith "instanceCustomIndex" "uint32_t"
      "<type>uint32_t</type> <name>instanceCustomIndex</name>:24",
    memberWith "mask" "uint32_t" "<type>uint32_t</type> <name>mask</name>:8",
    memberWith "instanceShaderBindingTableRecordOffset" "uint32_t"
      "<type>uint32_t</type> <name>instanceShaderBindingTableRecordOffset</name>:24",
    memberWith "flags" "VkGeometryInstanceFlagsKHR"
      "<type>VkGeometryInstanceFlagsKHR</type> <name>flags</name>:8",
    memberWith "accelerationStructureReference" "uint64_t"
      "<type>uint64_t</type> <name>accelerationStructureReference</name>"]

/-- Record of the struct `VkAccelerationStructureInstanceKHR` of `TestStruct`. -/
def accelerationInstanceRecord : typeInfo :=
  { typeNamed "VkAccelerationStructureInstanceKHR" "struct" with
    Members := accelerationInstanceMembers }

/-- Member `uint8_t pipelineCacheUUID[VK_UUID_SIZE]`, whose dimension is an enum
constant. -/
def uuidMember : structuralMemberInfo :=
  memberWith "pipelineCacheUUID" "uint8_t"
    "<type>uint8_t</type> <name>pipelineCacheUUID</name>[<enum>VK_UUID_SIZE</enum>]"

/-- Map of the enum values with the constant `VK_UUID_SIZE`. -/
def uuidSizeValues : EnumValues :=
  [("VK_UUID_SIZE", { enumNamed "VK_UUID_SIZE" with Value := "16" })]
/-! ## The functions of the categories `basetype`, `bitmask` and `funcpointer` -/

/-- Error `Unexpected define` of `vulkanBaseTypeFromXML`. -/
def baseTypeDefineError (typ : typeInfo) : String :=
  "Unexpected define \"" ++ typ.Name ++ "\": \"" ++ typ.RawXML ++ "\"\""

/-- Function `vulkanBaseTypeFromXML`: the platform types that are declared by a text of
their own, then the four forms of a declaration that holds the name of the type. -/
def vulkanBaseTypeFromXML (typ : typeInfo) : Outcome Ty :=
  let RawXML := strings.TrimSpace (space.ReplaceAllString typ.RawXML " ")
  if typ.Name = "CAMetalLayer" then
    if RawXML ≠ "#ifdef __OBJC__ @class CAMetalLayer; #else typedef void <name>CAMetalLayer</name>; #endif" then
      Outcome.error (baseTypeDefineError typ)
    else Outcome.ok (OpaqueType "CAMetalLayer")
  else if typ.Name = "MTLDevice_id" then
    if RawXML ≠ "#ifdef __OBJC__ @protocol MTLDevice; typedef __unsafe_unretained id&lt;MTLDevice&gt; MTLDevice_id; #else typedef void* <name>MTLDevice_id</name>; #endif" then
      Outcome.error (baseTypeDefineError typ)
    else Outcome.ok (PointerType VoidType)
  else if typ.Name = "MTLCommandQueue_id" then
    if RawXML ≠ "#ifdef __OBJC__ @protocol MTLCommandQueue; typedef __unsafe_unretained id&lt;MTLCommandQueue&gt; MTLCommandQueue_id; #else typedef void* <name>MTLCommandQueue_id</name>; #endif" then
      Outcome.error (baseTypeDefineError typ)
    else Outcome.ok (PointerType VoidType)
  else if typ.Name = "MTLBuffer_id" then
    if RawXML ≠ "#ifdef __OBJC__ @protocol MTLBuffer; typedef __unsafe_unretained id&lt;MTLBuffer&gt; MTLBuffer_id; #else typedef void* <name>MTLBuffer_id</name>; #endif" then
      Outcome.error (baseTypeDefineError typ)
    else Outcome.ok (PointerType VoidType)
  else if typ.Name = "MTLTexture_id" then
    if RawXML ≠ "#ifdef __OBJC__ @protocol MTLTexture; typedef __unsafe_unretained id&lt;MTLTexture&gt; MTLTexture_id; #else typedef void* <name>MTLTexture_id</name>; #endif" then
      Outcome.error (baseTypeDefineError typ)
    else Outcome.ok (PointerType VoidType)
  else if typ.Name = "MTLSharedEvent_id" then
    if RawXML ≠ "#ifdef __OBJC__ @protocol MTLSharedEvent; typedef __unsafe_unretained id&lt;MTLSharedEvent&gt; MTLSharedEvent_id; #else typedef void* <name>MTLSharedEvent_id</name>; #endif" then
      Outcome.error (baseTypeDefineError typ)
    else Outcome.ok (PointerType VoidType)
  else if typ.Name = "IOSurfaceRef" then
    if RawXML ≠ "typedef struct __IOSurface* <name>IOSurfaceRef</name>;" then
      Outcome.error (baseTypeDefineError typ)
    else Outcome.ok (PointerType (OpaqueType "__IOSurface"))
  else if RawXML = "struct <name>" ++ typ.Name ++ "</name>;" then
    Outcome.ok (OpaqueType typ.Name)
  else if RawXML = "typedef <type>uint32_t</type> <name>" ++ typ.Name ++ "</name>;" then
    Outcome.ok (AliasType typ.Name UInt32TType)
  else if RawXML = "typedef <type>uint64_t</type> <name>" ++ typ.Name ++ "</name>;" then
    Outcome.ok (AliasType typ.Name UInt64TType)
  else if RawXML = "typedef <type>void</type>* <name>" ++ typ.Name ++ "</name>;" then
    Outcome.ok (AliasType typ.Name (PointerType VoidType))
  else Outcome.error ("Unexpected basetype \"" ++ typ.Name ++ "\": \"" ++ typ.RawXML ++ "\"\"")

/-- Function `vulkanBitmaskTypeFromXML`. The source builds the alias around
`types["VkFlags"]` whether the map has the entry or not; an alias around the `nil` type
is no value of `Ty`, its queries panic, and the model ends with a panic where the source
builds it. -/
def vulkanBitmaskTypeFromXML (typ : typeInfo) (types : TypeMap) : Outcome Ty :=
  let RawXML := strings.TrimSpace (space.ReplaceAllString typ.RawXML " ")
  if RawXML = "typedef <type>VkFlags</type> <name>" ++ typ.Name ++ "</name>;" then
    match types.lookup "VkFlags" with
    | some flags => Outcome.ok (AliasType typ.Name flags)
    | none => Outcome.panic
  else if RawXML = "typedef <type>VkFlags64</type> <name>" ++ typ.Name ++ "</name>;" then
    match types.lookup "VkFlags64" with
    | some flags => Outcome.ok (AliasType typ.Name flags)
    | none => Outcome.panic
  else Outcome.error ("Unexpected bitmask \"" ++ typ.Name ++ "\": \"" ++ typ.RawXML ++ "\"\"")

/-- Body of the loop of `vulkanFuncPoiterTypeFromXML` over the parameters, on the slice
`parameter_types`. A slice expression out of range is a panic. For a parameter
`<type>T</type>` the source builds the field around `types[T]` whether the map has the
entry or not; a field of the `nil` type is no value of the model, which ends with a
panic where the source builds it. -/
def funcPointerParameter (types : TypeMap) (parameter_types : List FieldInfo)
    (parameter : String) : Outcome (List FieldInfo) :=
  let parameter := strings.TrimSpace parameter
  let parameter_type_len := strings.LastIndex parameter " "
  match sliceString parameter 0 parameter_type_len,
      sliceString parameter (parameter_type_len + 1) parameter.data.length with
  | some type_text, some name_text =>
    let parameter_type := strings.TrimSpace type_text
    let parameter_name := strings.TrimSpace name_text
    if strings.HasPrefix parameter_type "<type>" = true ∧
        strings.HasSuffix parameter_type "</type>" = true then
      match sliceString parameter_type 6 ((parameter_type.data.length : Int) - 7) with
      | none => Outcome.panic
      | some type_name =>
        match types.lookup type_name with
        | some parameter_typ => Outcome.ok (parameter_types ++ [Field parameter_name parameter_typ])
        | none => Outcome.panic
    else if strings.HasPrefix parameter_type "const <type>" = true ∧
        strings.HasSuffix parameter_type "</type>*" = true then
      match sliceString parameter_type 12 ((parameter_type.data.length : Int) - 8) with
      | none => Outcome.panic
      | some pointee_type_name =>
        match types.lookup pointee_type_name with
        | some pointee_type =>
          Outcome.ok (parameter_types ++
            [Field parameter_name (PointerType (ConstType pointee_type))])
        | none =>
          Outcome.ok (parameter_types ++
            [Field parameter_name (PointerType (ConstType (OpaqueType pointee_type_name)))])
    else if strings.HasPrefix parameter_type "<type>" = true ∧
        strings.HasSuffix parameter_type "</type>*" = true then
      match sliceString parameter_type 6 ((parameter_type.data.length : Int) - 8) with
      | none => Outcome.panic
      | some pointee_type_name =>
        match types.lookup pointee_type_name with
        | some pointee_type =>
          Outcome.ok (parameter_types ++ [Field parameter_name (PointerType pointee_type)])
        | none =>
          Outcome.ok (parameter_types ++
            [Field parameter_name (PointerType (OpaqueType pointee_type_name))])
    else Outcome.error ("Couldn't determine parameter type \"" ++ parameter_type ++ "\"")
  | _, _ => Outcome.panic

/-- Result type of `vulkanFuncPoiterTypeFromXML` from the text before the name. -/
def funcPointerReturnType (types : TypeMap) (return_type_string : String) : Outcome Ty :=
  if strings.HasSuffix return_type_string "*" = true then
    match sliceString return_type_string 0 ((return_type_string.data.length : Int) - 1) with
    | none => Outcome.panic
    | some type_name =>
      match types.lookup type_name with
      | some return_typ => Outcome.ok (PointerType return_typ)
      | none =>
        Outcome.error ("Couldn't determine function type \"" ++ return_type_string ++ "\"")
  else
    match types.lookup return_type_string with
    | some return_typ => Outcome.ok return_typ
    | none =>
      Outcome.error ("Couldn't determine function type \"" ++ return_type_string ++ "\"")

/-- Function `vulkanFuncPoiterTypeFromXML`; the fields that `ExtendedField` builds with
no length and no nested field are the plain fields of the function type. An index or a
slice expression out of range is a panic. -/
def vulkanFuncPoiterTypeFromXML (typ : typeInfo) (types : TypeMap) : Outcome Ty :=
  let definition := strings.TrimSpace typ.RawXML
  if strings.HasPrefix definition "typedef " = false ∨
      strings.HasSuffix definition ");" = false ∨
      strings.Count definition " (VKAPI_PTR *<name>" ≠ 1 ∨
      strings.Count definition "</name>)(" ≠ 1 then
    Outcome.error ("Couldn't determine function type from \"" ++ definition ++ "\"")
  else
    match sliceString definition 8 ((definition.data.length : Int) - 2) with
    | none => Outcome.panic
    | some body =>
      let split := strings.Split body " (VKAPI_PTR *<name>"
      match split[0]? with
      | none => Outcome.panic
      | some return_type_string =>
        (funcPointerReturnType types return_type_string).bind (fun return_type =>
        match split[1]? with
        | none => Outcome.panic
        | some named_parameters =>
          match (strings.Split named_parameters "</name>)(")[1]? with
          | none => Outcome.panic
          | some parameters =>
            if parameters = "void" then
              Outcome.ok (PointerType (FunctionType return_type []))
            else
              (forRange (funcPointerParameter types) (strings.Split parameters ",") []).bind
                (fun parameter_types =>
                  Outcome.ok (PointerType (FunctionType return_type parameter_types))))

/-! ## Concrete inputs: converters and registries of structs -/

/-- Function `vulkanStructTypeFromXML` with its call of
`vulkanStructuralTypeMembersFromXML`; the result is the struct type that the
`extendedStruct` embeds. -/
def structTypeFromXML (enum_values : EnumValues) (typ : typeInfo) (optional_struct : Bool)
    (types : TypeMap) : Outcome Ty :=
  (vulkanStructTypeFromXML
    ((vulkanStructuralTypeMembersFromXML typ.Name typ.Members types enum_values).bind
      (fun fields_info => Outcome.ok (fields_info.map (fun f => f.field_info))))
    typ optional_struct).bind (fun extended => Outcome.ok extended.base)

/-- Function `vulkanUnionTypeFromXML`; a panic of `UnionType` ends the load. -/
def vulkanUnionTypeFromXML (enum_values : EnumValues) (typ : typeInfo) (types : TypeMap) :
    Outcome Ty :=
  (vulkanStructuralTypeMembersFromXML typ.Name typ.Members types enum_values).bind
    (fun fields_info =>
      match UnionType typ.Name (fields_info.map (fun f => f.field_info)) with
      | none => Outcome.panic
      | some union_type => Outcome.ok union_type)

/-- The functions that `VulkanTypesfromXML` calls in its first loop, with the maps of
`parseEnumValues`; `fuel` bounds the depth of the recursion of `enumFieldValue` through
aliases. -/
def loaderConverters (fuel : Nat) (enum_values : EnumValues) (enum_types : EnumTypes) :
    typeConverters :=
  { vulkanBaseTypeFromXML := vulkanBaseTypeFromXML
    vulkanBitmaskTypeFromXML := vulkanBitmaskTypeFromXML
    vulkanDefineTypeFromXML := vulkanDefineTypeFromXML
    vulkanEnumTypeFromXML := fun typ => vulkanEnumTypeFromXML fuel typ enum_values enum_types
    vulkanFuncPoiterTypeFromXML := vulkanFuncPoiterTypeFromXML
    vulkanHandleTypeFromXML := fun typ _ => vulkanHandleTypeFromXML typ
    vulkanStructTypeFromXML := structTypeFromXML enum_values
    vulkanUnionTypeFromXML := vulkanUnionTypeFromXML enum_values }

/-- Types of `TestStruct` that are in the map when its structs are converted: the
platform types and the bitmask `VkGeometryInstanceFlagsKHR` over `VkFlags`. -/
def instanceTypes : TypeMap :=
  ("VkGeometryInstanceFlagsKHR",
    AliasType "VkGeometryInstanceFlagsKHR" (AliasType "VkFlags" UInt32TType)) :: sampleTypes

/-- The two struct records of `TestStruct` in the order of the registry: the struct that
uses `VkTransformMatrixKHR` comes before the declaration of that type. -/
def instanceRecords : List typeInfo := [accelerationInstanceRecord, transformMatrixRecord]

/-- Offsets of the fields of a type on an architecture, in bits. -/
def fieldOffsets (t : Ty) (arch : Arch) : List (Option (String × Nat)) :=
  (List.range ((t.NumField arch).getD 0)).map (fun i =>
    ((t.Field i arch).bind AnyFieldInfo.asStructFieldInfo).map
      (fun f => (f.Name, f.Offset)))

/-- A struct with a field of 8 bits, a pair of bitfields and a field of 64 bits. -/
def bitfieldPairStruct : Ty :=
  (StructType "VkPair"
    [Field "flag" UInt8TType, Field "instanceCustomIndex" (ArrayType UInt8TType 3),
      Field "mask" UInt8TType, Field "reference" UInt64TType]).getD VoidType

/-! ## Vocabulary of the proofs: fuel of the first loop -/

/-- Fuel that is enough for `convertTypes` from a test of the loop condition on: one
unit more than the records still to convert, or one unit when the test ends the loop
with the error `Cannot make any progress`. -/
def convertTypes.enough (fuel : Nat) (xml_types_list next_xml_types_list : List typeInfo) :
    Prop :=
  next_xml_types_list.length + 1 ≤ fuel ∨
    (xml_types_list.length = next_xml_types_list.length ∧ 1 ≤ fuel)

/-- Type of the struct `VkTransformMatrixKHR` of `TestStruct`. -/
def transformMatrixType : Ty :=
  (StructType "VkTransformMatrixKHR"
    [Field "matrix" (ArrayType (ArrayType Float32Type 3) 4)]).getD VoidType

/-! ## Vocabulary of the proofs: records of the second loop -/

/-- Two slices of records that agree but for the pointers of the record at one
position: the same length, the same records elsewhere, the same fields everywhere. -/
def sameBut (k : Nat) (fields_info changed : List extendedField) : Prop :=
  changed.length = fields_info.length ∧
    (∀ i : Nat, i ≠ k → changed[i]? = fields_info[i]?) ∧
    ∀ i : Nat, (changed[i]?).map (fun f => f.field_info) =
      (fields_info[i]?).map (fun f => f.field_info)

/-- The type `pointer` is a pointer to `target` or to the constant `target`. -/
def pointsTo (pointer target : Ty) : Prop :=
  pointer.Kind FirstArch = Kind.Ptr ∧
    ((pointer.Elem FirstArch = some target ∧ target.Kind FirstArch ≠ Kind.Const) ∨
      ∃ constant, pointer.Elem FirstArch = some constant ∧
        constant.Kind FirstArch = Kind.Const ∧ constant.Elem FirstArch = some target)

/-- The type `pointer` is a pointer to the struct or union `pointee`, which may be
constant. -/
def pointsToStructure (pointer pointee : Ty) : Prop :=
  pointsTo pointer pointee ∧
    (pointee.Kind FirstArch = Kind.Struct ∨ pointee.Kind FirstArch = Kind.Union)

/-- The attribute `len` of a member names `L`: it is `L` followed by `,1`, or it is,
on a member without `altlen`, the word `L` itself, which is none of the texts that
stand for something else. -/
def lengthNames (member : structuralMemberInfo) (L : String) : Prop :=
  member.Length = L ++ ",1" ∨
    (member.Length = L ∧ member.AltLength = "" ∧ L ≠ "" ∧ L ≠ "1" ∧
      ',' ∉ L.data ∧ '-' ∉ L.data)

/-- The attribute `len` of a member is `P->F` for two words `P` and `F`. -/
def lengthNamesField (member : structuralMemberInfo) (P F : String) : Prop :=
  member.Length = P ++ "->" ++ F ∧ ',' ∉ P.data ∧ '-' ∉ P.data ∧
    ',' ∉ F.data ∧ '-' ∉ F.data

/-- The attribute `len` of a member is `1`, `null-terminated` or a text without `->`
that ends with `,null-terminated`. -/
def lengthIsNone (member : structuralMemberInfo) : Prop :=
  member.Length = "1" ∨ member.Length = "null-terminated" ∨
    ∃ X : String, member.Length = X ++ ",null-terminated" ∧ '>' ∉ X.data

/-! ## Concrete inputs: the commands of `TestCommand` and `TestCommandWithComplexLen` -/

/-- Type of a handle that `VK_DEFINE_HANDLE` declares, as `vulkanHandleTypeFromXML`
builds it. -/
def handleNamed (name : String) : Ty :=
  AliasType name (PointerType (OpaqueType ("struct " ++ name ++ "_T")))

/-- Parameters of `vkCmdSetBlendConstants` in `TestCommand`. -/
def blendConstantsParams : List structuralMemberInfo :=
  [memberWith "commandBuffer" "VkCommandBuffer"
      "<type>VkCommandBuffer</type> <name>commandBuffer</name>",
    memberWith "blendConstantsLen" "uint32_t"
      "<type>uint32_t</type> <name>blendConstantsLen</name>",
    { memberWith "blendConstants" "float"
        "const <type>float</type> <name>blendConstants</name>[4]" with
      Length := "blendConstantsLen" }]

/-- Command `vkCmdSetBlendConstants` of `TestCommand`. -/
def setBlendConstantsCommand : commandInfo :=
  { Name := "vkCmdSetBlendConstants", Alias := "",
    Proto := ⟨"void", "<type>void</type> <name>vkCmdSetBlendConstants</name>", ""⟩,
    Params := blendConstantsParams, RawXML := "" }

/-- Types of `TestCommand`: the platform types and the handle `VkCommandBuffer`. -/
def blendConstantsTypes : TypeMap :=
  ("VkCommandBuffer", handleNamed "VkCommandBuffer") :: sampleTypes

/-- Type of the struct `VkDescriptorSetAllocateInfo` of `TestCommandWithComplexLen`,
where `VkStructureType` is a handle. -/
def allocateInfoType : Ty :=
  (StructType "VkDescriptorSetAllocateInfo"
    [Field "sType" (handleNamed "VkStructureType"),
      Field "pNext" (PointerType (ConstType VoidType)),
      Field "descriptorPool" (handleNamed "VkDescriptorPool"),
      Field "descriptorSetCount" UInt32TType,
      Field "pSetLayouts" (PointerType (ConstType (handleNamed "VkDescriptorSetLayout")))]).getD
    VoidType

/-- Types of `TestCommandWithComplexLen` that the parameters of
`vkAllocateDescriptorSets` use. -/
def allocateTypes : TypeMap :=
  ("VkDescriptorSetAllocateInfo", allocateInfoType) ::
    ("VkDescriptorSet", handleNamed "VkDescriptorSet") ::
    ("VkDevice", handleNamed "VkDevice") :: sampleTypes

/-- Parameters of `vkAllocateDescriptorSets` in `TestCommandWithComplexLen`. -/
def allocateParams : List structuralMemberInfo :=
  [memberWith "device" "VkDevice" "<type>VkDevice</type> <name>device</name>",
    memberWith "pAllocateInfo" "VkDescriptorSetAllocateInfo"
      "const <type>VkDescriptorSetAllocateInfo</type>* <name>pAllocateInfo</name>",
    { memberWith "pDescriptorSets" "VkDescriptorSet"
        "<type>VkDescriptorSet</type>* <name>pDescriptorSets</name>" with
      Length := "pAllocateInfo->descriptorSetCount" }]

/-- Records of the parameters of `vkAllocateDescriptorSets`. -/
def allocateFields : List extendedField :=
  [⟨Field "device" (handleNamed "VkDevice"), none, none⟩,
    ⟨Field "pAllocateInfo" (PointerType (ConstType allocateInfoType)), none, none⟩,
    ⟨Field "pDescriptorSets" (PointerType (handleNamed "VkDescriptorSet")), some 1,
      allocateInfoType.Field 3 FirstArch⟩]

/-- Records of the parameters of `vkCmdSetBlendConstants`. -/
def blendConstantsFields : List extendedField :=
  [⟨Field "commandBuffer" (handleNamed "VkCommandBuffer"), none, none⟩,
    ⟨Field "blendConstantsLen" UInt32TType, none, none⟩,
    ⟨Field "blendConstants" (ArrayType (ConstType Float32Type) 4), some 1, none⟩]

/-- Member `const float* pData` whose `len` names `dataCount`. -/
def dataMember : structuralMemberInfo :=
  { memberWith "pData" "float" "const <type>float</type>* <name>pData</name>" with
    Length := "dataCount" }

/-- Member `uint32_t dataCount`. -/
def dataCountMember : structuralMemberInfo :=
  memberWith "dataCount" "uint32_t" "<type>uint32_t</type> <name>dataCount</name>"

/-- Members of a struct whose member `pData` is declared for the API `vulkansc` only:
`uint32_t dataCount` and, with `api="vulkansc"` and `len="dataCount"`,
`const float* pData`. -/
def scOnlyMembers : List structuralMemberInfo :=
  [dataCountMember, { dataMember with Api := "vulkansc" }]

/-- Members of a struct that declares `const float* pData` twice: for the API `vulkan`
with `len="countA"` and for the API `vulkansc` with `len="countB"`. -/
def scVariantMembers : List structuralMemberInfo :=
  [memberWith "countA" "uint32_t" "<type>uint32_t</type> <name>countA</name>",
    memberWith "countB" "uint32_t" "<type>uint32_t</type> <name>countB</name>",
    { dataMember with Length := "countA", Api := "vulkan" },
    { dataMember with Length := "countB", Api := "vulkansc" }]

/-! ## Vocabulary of the proofs: chains of aliases of enum members -/

/-- The member takes its value from the member that its attribute `alias` names: it has
no `value` and no `bitpos`. -/
def enumFieldInfo.isAlias (enum_field : enumFieldInfo) : Prop :=
  enum_field.Value = "" ∧ enum_field.BitPos = "" ∧ enum_field.Alias ≠ ""

/-- The chain of aliases that starts at a member, or at the `nil` of a name that the map
does not have, ends after at most `n` steps: at a member that is no alias or at a name
that the map does not have. -/
inductive aliasEnds (enum_values : EnumValues) : Nat → Option enumFieldInfo → Prop
  | missing (n : Nat) : aliasEnds enum_values n none
  | value (n : Nat) (enum_field : enumFieldInfo) :
      ¬ enum_field.isAlias → aliasEnds enum_values n (some enum_field)
  | step (n : Nat) (enum_field : enumFieldInfo) :
      enum_field.isAlias → aliasEnds enum_values n (enum_values.lookup enum_field.Alias) →
      aliasEnds enum_values (n + 1) (some enum_field)

/-! ## Concrete inputs: an enum whose members are aliases of each other -/

/-- Maps of `parseEnumValues` for the registry with the element
`<enums name="VkLoop"><enum name="VK_A" alias="VK_B"/><enum name="VK_B" alias="VK_A"/></enums>`. -/
def loopEnumValues : EnumValues :=
  [("VK_A", { enumNamed "VK_A" with Alias := "VK_B" }),
    ("VK_B", { enumNamed "VK_B" with Alias := "VK_A" })]

/-- Map `enum_types` of the same registry. -/
def loopEnumTypes : EnumTypes :=
  [("VkLoop", [{ enumNamed "VK_A" with Alias := "VK_B" },
    { enumNamed "VK_B" with Alias := "VK_A" }])]

/-- Record `<type name="VkLoop" category="enum"/>`. -/
def loopEnumRecord : typeInfo := typeNamed "VkLoop" "enum"

/-- Registry with the record of the type `VkLoop` and the element `enums` of its two
members. -/
def loopRegistry : registry :=
  ⟨[loopEnumRecord],
    [⟨"VkLoop", [{ enumNamed "VK_A" with Alias := "VK_B" },
      { enumNamed "VK_B" with Alias := "VK_A" }]⟩], [], []⟩

/-! ## Struct layout: the loops of StructType -/

theorem ite_lt_eq_max (x v : Nat) : (if x < v then v else x) = max x v := by
  split
  · rw [max_eq_right (by omega)]
  · rw [max_eq_left (by omega)]

theorem update_ite {α : Type} {c : Prop} [Decidable c] (f : Arch → α) (a : Arch) (v : α) :
    (if c then Function.update f a v else f) = Function.update f a (if c then v else f a) := by
  split
  · rfl
  · rw [Function.update_eq_self]

theorem addField_eq_some_iff (field_info : FieldInfo) (st st1 : StructLayout) (arch : Arch) :
    st.addField field_info arch = some st1 ↔
      field_info.Sized arch ∧ st1 = st.addFieldPure field_info arch := by
  unfold StructLayout.addField FieldInfo.Sized StructLayout.addFieldPure roundUp
  cases hal : field_info.Typ.Align arch with
  | none => simp
  | some al =>
    by_cases h0 : al = 0
    · simp [h0]
    · cases hb : field_info.Typ.Bits arch with
      | none => simp [h0]
      | some b =>
        simp only [h0, if_false, Option.some.injEq, Option.getD_some, update_ite,
          Function.update_same, Function.update_idem, ite_lt_eq_max,
          exists_and_left, exists_eq_left', not_false_eq_true, true_and,
          exists_eq', ne_eq]
        exact eq_comm

theorem pad_eq_some_iff (st st1 : StructLayout) (arch : Arch) :
    st.pad arch = some st1 ↔ st.align arch ≠ 0 ∧ st1 = st.padPure arch := by
  unfold StructLayout.pad StructLayout.padPure roundUp
  by_cases h0 : st.align arch = 0
  · simp [h0]
  · simp only [h0, if_false, Option.some.injEq, update_ite, Function.update_same, ne_eq,
      not_false_eq_true, true_and]
    exact eq_comm

theorem foldlM_eq_some_iff {σ : Type} (body : σ → Arch → Option σ)
    (ok : σ → Arch → Prop) (step : σ → Arch → σ)
    (h : ∀ st st1 a, body st a = some st1 ↔ ok st a ∧ st1 = step st a)
    (l : List Arch) (st st1 : σ) :
    l.foldlM body st = some st1 ↔ okAlong ok step l st ∧ st1 = l.foldl step st := by
  induction l generalizing st with
  | nil => simp [okAlong, eq_comm]
  | cons a l ih =>
    rw [List.foldlM_cons, List.foldl_cons]
    cases hb : body st a with
    | none =>
      have : ¬ ok st a := fun hk => by
        have := (h st (step st a) a).2 ⟨hk, rfl⟩
        rw [hb] at this; cases this
      simp [okAlong, this]
    | some s1 =>
      obtain ⟨hk, hs⟩ := (h st s1 a).1 hb
      subst hs
      simp [okAlong, hk, ih]

theorem okAlong_addField (field_info : FieldInfo) (l : List Arch) (st : StructLayout) :
    okAlong (fun _ a => field_info.Sized a) (StructLayout.addFieldPure field_info) l st ↔
      ∀ a ∈ l, field_info.Sized a := by
  induction l generalizing st with
  | nil => simp [okAlong]
  | cons a l ih => simp [okAlong, ih]

theorem forEachArch_addField_iff (field_info : FieldInfo) (st st1 : StructLayout) :
    forEachArch (StructLayout.addField field_info) st = some st1 ↔
      (∀ a, field_info.Sized a) ∧ st1 = Arch.all.foldl (StructLayout.addFieldPure field_info) st := by
  unfold forEachArch
  rw [foldlM_eq_some_iff _ _ _ (addField_eq_some_iff field_info), okAlong_addField]
  constructor
  · rintro ⟨h, rfl⟩
    exact ⟨fun a => h a (by cases a <;> simp [Arch.all]), rfl⟩
  · rintro ⟨h, rfl⟩
    exact ⟨fun a _ => h a, rfl⟩

theorem addFieldPure_all_align (field_info : FieldInfo) (st : StructLayout) (a : Arch) :
    (Arch.all.foldl (StructLayout.addFieldPure field_info) st).align a =
      max (st.align a) ((field_info.Typ.Align a).getD 0) := by
  cases a <;> simp [Arch.all, StructLayout.addFieldPure, Function.update]

theorem addFieldPure_all_offset (field_info : FieldInfo) (st : StructLayout) (a : Arch) :
    (Arch.all.foldl (StructLayout.addFieldPure field_info) st).offset a =
      fieldEnd field_info a (st.offset a) := by
  cases a <;> simp [Arch.all, StructLayout.addFieldPure, Function.update, fieldEnd, fieldStart]

theorem addFieldPure_all_fields (field_info : FieldInfo) (st : StructLayout) (a : Arch) :
    (Arch.all.foldl (StructLayout.addFieldPure field_info) st).struct_fields_info a =
      st.struct_fields_info a ++
        [StructFieldInfo.mk field_info (fieldStart field_info a (st.offset a))] := by
  cases a <;> simp [Arch.all, StructLayout.addFieldPure, Function.update, fieldStart]

theorem addFieldPure_all_flag (field_info : FieldInfo) (st : StructLayout)
    (h : (Arch.all.foldl (StructLayout.addFieldPure field_info) st).arch_dependent_layout = false) :
    st.arch_dependent_layout = false ∧
      ∀ a, max (st.align FirstArch) ((field_info.Typ.Align FirstArch).getD 0) =
            max (st.align a) ((field_info.Typ.Align a).getD 0) ∧
          fieldEnd field_info FirstArch (st.offset FirstArch) =
            fieldEnd field_info a (st.offset a) := by
  simp [Arch.all, StructLayout.addFieldPure, Function.update, FirstArch] at h
  refine ⟨h.1.1.1.1.1, fun a => ?_⟩
  cases a <;> simp [fieldEnd, fieldStart, FirstArch] <;> tauto

theorem padPure_all_align (st : StructLayout) :
    (Arch.all.foldl StructLayout.padPure st).align = st.align := by
  simp [Arch.all, StructLayout.padPure]

theorem okAlong_pad (l : List Arch) (st : StructLayout) :
    okAlong (fun s a => s.align a ≠ 0) StructLayout.padPure l st ↔ ∀ a ∈ l, st.align a ≠ 0 := by
  induction l generalizing st with
  | nil => simp [okAlong]
  | cons a l ih =>
    simp only [okAlong, ih, List.mem_cons, forall_eq_or_imp]
    rfl

theorem forEachArch_pad_iff (st st1 : StructLayout) :
    forEachArch StructLayout.pad st = some st1 ↔
      (∀ a, st.align a ≠ 0) ∧ st1 = Arch.all.foldl StructLayout.padPure st := by
  unfold forEachArch
  rw [foldlM_eq_some_iff _ _ _ pad_eq_some_iff, okAlong_pad]
  constructor
  · rintro ⟨h, h1⟩
    exact ⟨fun a => h a (by cases a <;> simp [Arch.all]), h1⟩
  · rintro ⟨h, h1⟩
    exact ⟨fun a _ => h a, h1⟩

theorem padPure_all_offset (st : StructLayout) (a : Arch) :
    (Arch.all.foldl StructLayout.padPure st).offset a = roundUp (st.offset a) (st.align a) := by
  cases a <;> simp [Arch.all, StructLayout.padPure, Function.update]

theorem padPure_all_fields (st : StructLayout) :
    (Arch.all.foldl StructLayout.padPure st).struct_fields_info = st.struct_fields_info := by
  simp [Arch.all, StructLayout.padPure]

theorem padPure_all_flag (st : StructLayout)
    (h : (Arch.all.foldl StructLayout.padPure st).arch_dependent_layout = false) :
    st.arch_dependent_layout = false ∧
      ∀ a, roundUp (st.offset FirstArch) (st.align FirstArch) =
        roundUp (st.offset a) (st.align a) := by
  simp [Arch.all, StructLayout.padPure, Function.update, FirstArch] at h
  refine ⟨h.1.1.1.1.1, fun a => ?_⟩
  cases a <;> simp [FirstArch] <;> tauto

theorem addFields_eq_some_iff (fields : List FieldInfo) (st st1 : StructLayout) :
    StructLayout.addFields fields st = some st1 ↔
      (∀ f ∈ fields, ∀ a, f.Sized a) ∧ st1 = StructLayout.addFieldsPure fields st := by
  induction fields generalizing st with
  | nil => simp [StructLayout.addFields, StructLayout.addFieldsPure, eq_comm]
  | cons f rest ih =>
    unfold StructLayout.addFields StructLayout.addFieldsPure
    cases h : forEachArch (StructLayout.addField f) st with
    | none =>
      have : ¬ ∀ a, f.Sized a := fun hs => by
        have := (forEachArch_addField_iff f st _).2 ⟨hs, rfl⟩
        rw [h] at this; cases this
      simp [this]
    | some s1 =>
      obtain ⟨hs, rfl⟩ := (forEachArch_addField_iff f st s1).1 h
      simp [ih, hs]

theorem addFieldsPure_align (fields : List FieldInfo) (st : StructLayout) (a : Arch) :
    (StructLayout.addFieldsPure fields st).align a = alignAfter a fields (st.align a) := by
  induction fields generalizing st with
  | nil => rfl
  | cons f rest ih =>
    simp [StructLayout.addFieldsPure, ih, addFieldPure_all_align, alignAfter]

theorem addFieldsPure_offset (fields : List FieldInfo) (st : StructLayout) (a : Arch) :
    (StructLayout.addFieldsPure fields st).offset a = offsetAfter a fields (st.offset a) := by
  induction fields generalizing st with
  | nil => rfl
  | cons f rest ih =>
    simp [StructLayout.addFieldsPure, ih, addFieldPure_all_offset, offsetAfter]

theorem addFieldsPure_fields (fields : List FieldInfo) (st : StructLayout) (a : Arch) :
    (StructLayout.addFieldsPure fields st).struct_fields_info a =
      st.struct_fields_info a ++ fieldsFrom a fields (st.offset a) := by
  induction fields generalizing st with
  | nil => simp [StructLayout.addFieldsPure, fieldsFrom]
  | cons f rest ih =>
    simp [StructLayout.addFieldsPure, ih, addFieldPure_all_fields, addFieldPure_all_offset,
      fieldsFrom]

theorem addFieldsPure_flag (fields : List FieldInfo) (st : StructLayout)
    (h : (StructLayout.addFieldsPure fields st).arch_dependent_layout = false) :
    st.arch_dependent_layout = false ∧
      (fields ≠ [] → ∀ a,
        alignAfter FirstArch fields (st.align FirstArch) = alignAfter a fields (st.align a) ∧
        offsetAfter FirstArch fields (st.offset FirstArch) = offsetAfter a fields (st.offset a)) := by
  induction fields generalizing st with
  | nil => exact ⟨h, fun hne => absurd rfl hne⟩
  | cons f rest ih =>
    obtain ⟨h1, h2⟩ := ih _ h
    obtain ⟨h3, h4⟩ := addFieldPure_all_flag f st h1
    refine ⟨h3, fun _ a => ?_⟩
    by_cases hr : rest = []
    · subst hr
      simpa [alignAfter, offsetAfter] using h4 a
    · have := h2 hr a
      simpa [alignAfter, offsetAfter, addFieldPure_all_align, addFieldPure_all_offset] using this

theorem le_alignAfter (arch : Arch) (fields : List FieldInfo) (m : Nat) :
    m ≤ alignAfter arch fields m := by
  induction fields generalizing m with
  | nil => exact le_refl _
  | cons f rest ih => exact le_trans (le_max_left _ _) (ih _)

theorem align_le_alignAfter (arch : Arch) (fields : List FieldInfo) (m : Nat) (f : FieldInfo)
    (hf : f ∈ fields) : (f.Typ.Align arch).getD 0 ≤ alignAfter arch fields m := by
  induction fields generalizing m with
  | nil => cases hf
  | cons g rest ih =>
    rcases List.mem_cons.1 hf with rfl | hf
    · exact le_trans (le_max_right _ _) (le_alignAfter arch rest _)
    · exact ih _ hf

theorem alignAfter_ne_zero (arch : Arch) (fields : List FieldInfo) (hne : fields ≠ [])
    (hs : ∀ f ∈ fields, f.Sized arch) : alignAfter arch fields 0 ≠ 0 := by
  cases fields with
  | nil => exact absurd rfl hne
  | cons f rest =>
    obtain ⟨al, b, hal, h0, _⟩ := hs f (List.mem_cons_self _ _)
    have := align_le_alignAfter arch (f :: rest) 0 f (List.mem_cons_self _ _)
    rw [hal] at this
    simp only [Option.getD_some] at this
    omega

theorem StructType_eq (name : String) (fields : List FieldInfo) :
    StructType name fields =
      ((StructLayout.addFields fields StructLayout.init).bind
        (forEachArch StructLayout.pad)).map (StructLayout.toType name) := by
  unfold StructType StructLayout.toType
  cases StructLayout.addFields fields StructLayout.init with
  | none => rfl
  | some st1 =>
    simp only [Option.some_bind]
    cases forEachArch StructLayout.pad st1 with
    | none => rfl
    | some st => simp only [Option.map_some']; split <;> rfl

theorem StructType_eq_some_iff (name : String) (fields : List FieldInfo) (t : Ty) :
    StructType name fields = some t ↔
      (∀ f ∈ fields, ∀ a, f.Sized a) ∧ fields ≠ [] ∧
        t = (StructLayout.final fields).toType name := by
  rw [StructType_eq]
  simp only [Option.map_eq_some', Option.bind_eq_some, addFields_eq_some_iff,
    forEachArch_pad_iff]
  constructor
  · rintro ⟨st, ⟨st1, ⟨hs, rfl⟩, h0, rfl⟩, rfl⟩
    refine ⟨hs, ?_, rfl⟩
    rintro rfl
    exact h0 Arch.Arm rfl
  · rintro ⟨hs, hne, rfl⟩
    refine ⟨_, ⟨_, ⟨hs, rfl⟩, fun a => ?_, rfl⟩, rfl⟩
    rw [addFieldsPure_align]
    exact alignAfter_ne_zero a fields hne (fun f hf => hs f hf a)

theorem final_align (fields : List FieldInfo) (a : Arch) :
    (StructLayout.final fields).align a = alignAfter a fields 0 := by
  unfold StructLayout.final
  rw [padPure_all_align, addFieldsPure_align]
  rfl

theorem final_offset (fields : List FieldInfo) (a : Arch) :
    (StructLayout.final fields).offset a =
      roundUp (offsetAfter a fields 0) (alignAfter a fields 0) := by
  unfold StructLayout.final
  rw [padPure_all_offset, addFieldsPure_align, addFieldsPure_offset]
  rfl

theorem final_fields (fields : List FieldInfo) (a : Arch) :
    (StructLayout.final fields).struct_fields_info a = fieldsFrom a fields 0 := by
  unfold StructLayout.final
  rw [padPure_all_fields, addFieldsPure_fields]
  rfl

theorem final_flag (fields : List FieldInfo) (hne : fields ≠ [])
    (h : (StructLayout.final fields).arch_dependent_layout = false) (a : Arch) :
    alignAfter FirstArch fields 0 = alignAfter a fields 0 ∧
      roundUp (offsetAfter FirstArch fields 0) (alignAfter FirstArch fields 0) =
        roundUp (offsetAfter a fields 0) (alignAfter a fields 0) := by
  obtain ⟨h1, h2⟩ := padPure_all_flag _ h
  obtain ⟨_, h3⟩ := addFieldsPure_flag fields _ h1
  have h4 := h2 a
  rw [addFieldsPure_align, addFieldsPure_align, addFieldsPure_offset, addFieldsPure_offset] at h4
  exact ⟨(h3 hne a).1, h4⟩

theorem toType_Kind (name : String) (st : StructLayout) (a : Arch) :
    (st.toType name).Kind a = Kind.Struct := by
  unfold StructLayout.toType
  split <;> cases a <;> rfl

theorem toType_Align (name : String) (st : StructLayout) (a : Arch) :
    (st.toType name).Align a =
      some (if st.arch_dependent_layout then st.align a else st.align FirstArch) := by
  unfold StructLayout.toType
  split <;> cases a <;> rfl

theorem toType_Bits (name : String) (st : StructLayout) (a : Arch) :
    (st.toType name).Bits a =
      some (if st.arch_dependent_layout then st.offset a else st.offset FirstArch) := by
  unfold StructLayout.toType
  split <;> cases a <;> rfl

theorem toType_Field (name : String) (st : StructLayout) (i : Nat) (a : Arch) :
    (st.toType name).Field i a =
      ((if st.arch_dependent_layout then st.struct_fields_info a
        else st.struct_fields_info FirstArch)[i]?).map AnyFieldInfo.structField := by
  unfold StructLayout.toType
  split <;> cases a <;> rfl

theorem StructType_Align (name : String) (fields : List FieldInfo) (t : Ty)
    (h : StructType name fields = some t) (a : Arch) :
    t.Align a = some (alignAfter a fields 0) := by
  obtain ⟨_, hne, rfl⟩ := (StructType_eq_some_iff name fields t).1 h
  rw [toType_Align]
  cases hf : (StructLayout.final fields).arch_dependent_layout with
  | true => simp [final_align]
  | false => simp [final_align, (final_flag fields hne hf a).1]

theorem StructType_Bits (name : String) (fields : List FieldInfo) (t : Ty)
    (h : StructType name fields = some t) (a : Arch) :
    t.Bits a = some (roundUp (offsetAfter a fields 0) (alignAfter a fields 0)) := by
  obtain ⟨_, hne, rfl⟩ := (StructType_eq_some_iff name fields t).1 h
  rw [toType_Bits]
  cases hf : (StructLayout.final fields).arch_dependent_layout with
  | true => simp [final_offset]
  | false => simp [final_offset, (final_flag fields hne hf a).2]

/-! ## Union layout: the loops of UnionType -/

theorem unionFields_eq_some_iff (arch : Arch) (fields : List FieldInfo) (acc r : Nat × Nat) :
    unionFields arch fields acc = some r ↔
      (∀ f ∈ fields, f.HasLayout arch) ∧
        r = (bitsAfter arch fields acc.1, alignAfter arch fields acc.2) := by
  induction fields generalizing acc with
  | nil => simp [unionFields, bitsAfter, alignAfter, eq_comm]
  | cons f rest ih =>
    obtain ⟨bits, align⟩ := acc
    unfold unionFields
    cases hb : f.Typ.Bits arch with
    | none => simp [FieldInfo.HasLayout, hb]
    | some b =>
      cases hal : f.Typ.Align arch with
      | none => simp [FieldInfo.HasLayout, hal]
      | some al =>
        simp [ih, FieldInfo.HasLayout, hb, hal, ite_lt_eq_max, bitsAfter, alignAfter]

theorem addArch_eq_some_iff (fields : List FieldInfo) (st st1 : UnionLayout) (arch : Arch) :
    UnionLayout.addArch fields st arch = some st1 ↔
      (∀ f ∈ fields, f.HasLayout arch) ∧ st1 = UnionLayout.addArchPure fields st arch := by
  unfold UnionLayout.addArch UnionLayout.addArchPure
  cases h : unionFields arch fields (0, 0) with
  | none =>
    have : ¬ ∀ f ∈ fields, f.HasLayout arch := fun hs => by
      have := (unionFields_eq_some_iff arch fields (0, 0) _).2 ⟨hs, rfl⟩
      rw [h] at this; cases this
    simp [this]
  | some r =>
    obtain ⟨hs, rfl⟩ := (unionFields_eq_some_iff arch fields (0, 0) r).1 h
    simp only [Option.some.injEq]
    exact ⟨fun h => ⟨hs, h.symm⟩, fun h => h.2.symm⟩

theorem okAlong_addArch (fields : List FieldInfo) (l : List Arch) (st : UnionLayout) :
    okAlong (fun _ a => ∀ f ∈ fields, f.HasLayout a) (UnionLayout.addArchPure fields) l st ↔
      ∀ a ∈ l, ∀ f ∈ fields, f.HasLayout a := by
  induction l generalizing st with
  | nil => simp [okAlong]
  | cons a l ih => simp [okAlong, ih]

theorem UnionType_eq (name : String) (fields : List FieldInfo) :
    UnionType name fields =
      (Arch.all.foldlM (UnionLayout.addArch fields) UnionLayout.init).map
        (UnionLayout.toType name fields) := by
  unfold UnionType UnionLayout.toType UnionLayout.init
  cases Arch.all.foldlM (UnionLayout.addArch fields)
      { bits := fun _ => 0, align := fun _ => 0, arch_dependent_layout := false } with
  | none => rfl
  | some st => simp only [Option.map_some']; split <;> rfl

theorem UnionType_eq_some_iff (name : String) (fields : List FieldInfo) (t : Ty) :
    UnionType name fields = some t ↔
      (∀ f ∈ fields, ∀ a, f.HasLayout a) ∧
        t = (UnionLayout.final fields).toType name fields := by
  rw [UnionType_eq]
  simp only [Option.map_eq_some', foldlM_eq_some_iff _ _ _ (addArch_eq_some_iff fields),
    okAlong_addArch]
  constructor
  · rintro ⟨st, ⟨hs, rfl⟩, rfl⟩
    exact ⟨fun f hf a => hs a (by cases a <;> simp [Arch.all]) f hf, rfl⟩
  · rintro ⟨hs, rfl⟩
    exact ⟨_, ⟨fun a _ f hf => hs f hf a, rfl⟩, rfl⟩

theorem union_final_align (fields : List FieldInfo) (a : Arch) :
    (UnionLayout.final fields).align a = alignAfter a fields 0 := by
  cases a <;>
    simp [UnionLayout.final, Arch.all, UnionLayout.addArchPure, Function.update, UnionLayout.init]

theorem union_final_bits (fields : List FieldInfo) (a : Arch) :
    (UnionLayout.final fields).bits a = bitsAfter a fields 0 := by
  cases a <;>
    simp [UnionLayout.final, Arch.all, UnionLayout.addArchPure, Function.update, UnionLayout.init]

theorem union_final_flag (fields : List FieldInfo)
    (h : (UnionLayout.final fields).arch_dependent_layout = false) (a : Arch) :
    alignAfter FirstArch fields 0 = alignAfter a fields 0 ∧
      bitsAfter FirstArch fields 0 = bitsAfter a fields 0 := by
  simp [UnionLayout.final, Arch.all, UnionLayout.addArchPure, Function.update, FirstArch,
    UnionLayout.init] at h
  cases a <;> simp [FirstArch] <;> tauto

theorem union_toType_Kind (name : String) (fields : List FieldInfo) (st : UnionLayout)
    (a : Arch) : (st.toType name fields).Kind a = Kind.Union := by
  unfold UnionLayout.toType
  split <;> cases a <;> rfl

theorem union_toType_Align (name : String) (fields : List FieldInfo) (st : UnionLayout)
    (a : Arch) : (st.toType name fields).Align a =
      some (if st.arch_dependent_layout then st.align a else st.align FirstArch) := by
  unfold UnionLayout.toType
  split <;> cases a <;> rfl

theorem union_toType_Bits (name : String) (fields : List FieldInfo) (st : UnionLayout)
    (a : Arch) : (st.toType name fields).Bits a =
      some (if st.arch_dependent_layout then st.bits a else st.bits FirstArch) := by
  unfold UnionLayout.toType
  split <;> cases a <;> rfl

theorem union_toType_Field (name : String) (fields : List FieldInfo) (st : UnionLayout)
    (i : Nat) (a : Arch) :
    (st.toType name fields).Field i a = fields[i]?.map AnyFieldInfo.field := by
  unfold UnionLayout.toType
  split <;> cases a <;> rfl

theorem union_toType_NumField (name : String) (fields : List FieldInfo) (st : UnionLayout)
    (a : Arch) : (st.toType name fields).NumField a = some fields.length := by
  unfold UnionLayout.toType
  split <;> cases a <;> rfl

theorem UnionType_Align (name : String) (fields : List FieldInfo) (t : Ty)
    (h : UnionType name fields = some t) (a : Arch) :
    t.Align a = some (alignAfter a fields 0) := by
  obtain ⟨_, rfl⟩ := (UnionType_eq_some_iff name fields t).1 h
  rw [union_toType_Align]
  cases hf : (UnionLayout.final fields).arch_dependent_layout with
  | true => simp [union_final_align]
  | false => simp [union_final_align, (union_final_flag fields hf a).1]

theorem UnionType_Bits (name : String) (fields : List FieldInfo) (t : Ty)
    (h : UnionType name fields = some t) (a : Arch) :
    t.Bits a = some (bitsAfter a fields 0) := by
  obtain ⟨_, rfl⟩ := (UnionType_eq_some_iff name fields t).1 h
  rw [union_toType_Bits]
  cases hf : (UnionLayout.final fields).arch_dependent_layout with
  | true => simp [union_final_bits]
  | false => simp [union_final_bits, (union_final_flag fields hf a).2]

/-! ## Alignments of the types the package can build -/

theorem mem_all (a : Arch) : a ∈ Arch.all := by
  cases a <;> simp [Arch.all]

theorem primitive_align_valid :
    ∀ t ∈ primitiveTypes, ∀ a ∈ Arch.all, ∃ al, t.Align a = some al ∧ validAlign al ∧ al ≠ 0 := by
  intro t ht a _
  simp only [primitiveTypes, List.mem_cons, List.mem_singleton, List.not_mem_nil, or_false] at ht
  rcases ht with h | h | h | h | h | h | h | h | h | h | h | h | h | h | h | h | h | h | h | h |
    h | h | h | h | h | h | h | h <;> subst h <;> cases a <;>
    exact ⟨_, rfl, by decide, by decide⟩

theorem alignAfter_eq (arch : Arch) (fields : List FieldInfo) (m : Nat) :
    alignAfter arch fields m = m ∨
      ∃ f ∈ fields, alignAfter arch fields m = (f.Typ.Align arch).getD 0 := by
  induction fields generalizing m with
  | nil => exact Or.inl rfl
  | cons f rest ih =>
    rcases ih (max m ((f.Typ.Align arch).getD 0)) with h | ⟨g, hg, h⟩
    · rcases max_choice m ((f.Typ.Align arch).getD 0) with h1 | h1
      · left; simp only [alignAfter, List.foldl_cons] at h ⊢; rw [h, h1]
      · right; refine ⟨f, List.mem_cons_self _ _, ?_⟩
        simp only [alignAfter, List.foldl_cons] at h ⊢; rw [h, h1]
    · right; exact ⟨g, List.mem_cons_of_mem _ hg, h⟩

theorem validAlign_pointerBits (a : Arch) : validAlign (pointerBits a) := by
  cases a <;> decide

theorem Buildable.align_valid {t : Ty} (h : Buildable t) :
    ∀ a al, t.Align a = some al → validAlign al := by
  induction h with
  | void => intro a al h; cases h
  | primitive t ht =>
    intro a al h
    obtain ⟨al1, h1, hv, _⟩ := primitive_align_valid t ht a (mem_all a)
    rw [h1] at h; cases h; exact hv
  | opaqueNamed name => intro a al h; cases h
  | aliasOf name t _ ih => exact fun a al h => ih a al h
  | archDependent t0 t1 t2 t3 t4 t5 _ _ _ _ _ _ ih0 ih1 ih2 ih3 ih4 ih5 =>
    intro a al h
    cases a
    · exact ih0 _ al h
    · exact ih1 _ al h
    · exact ih2 _ al h
    · exact ih3 _ al h
    · exact ih4 _ al h
    · exact ih5 _ al h
  | const t _ ih => exact fun a al h => ih a al h
  | pointer t _ _ =>
    intro a al h
    simp only [PointerType, Ty.Align, Option.some.injEq] at h
    subst h; exact validAlign_pointerBits a
  | function result params _ _ _ _ => intro a al h; cases h
  | array t size _ ih => exact fun a al h => ih a al h
  | struct name fields t _ hs ih =>
    intro a al h
    rw [StructType_Align name fields t hs a] at h
    cases h
    rcases alignAfter_eq a fields 0 with h0 | ⟨f, hf, h1⟩
    · rw [h0]; exact Or.inl rfl
    · rw [h1]
      cases hal : f.Typ.Align a with
      | none => exact Or.inl rfl
      | some x => exact ih f hf a x hal
  | union name fields t _ hs ih =>
    intro a al h
    rw [UnionType_Align name fields t hs a] at h
    cases h
    rcases alignAfter_eq a fields 0 with h0 | ⟨f, hf, h1⟩
    · rw [h0]; exact Or.inl rfl
    · rw [h1]
      cases hal : f.Typ.Align a with
      | none => exact Or.inl rfl
      | some x => exact ih f hf a x hal
  | enum name basetype values _ _ ih _ => exact fun a al h => ih a al h

theorem validAlign_dvd (al : Nat) (h : validAlign al) (h0 : al ≠ 0) : al ∣ uintModulus := by
  rcases h with h | h | h | h | h
  · exact absurd h h0
  all_goals subst h; decide

theorem roundUp_dvd (offset al : Nat) (h0 : al ≠ 0) (hM : al ∣ uintModulus) :
    al ∣ roundUp offset al := by
  unfold roundUp
  split
  · rw [Nat.dvd_mod_iff hM]
    have h := Nat.div_add_mod offset al
    have hlt := Nat.mod_lt offset (Nat.pos_of_ne_zero h0)
    refine ⟨offset / al + 1, ?_⟩
    rw [Nat.mul_add, Nat.mul_one]
    generalize al * (offset / al) = x at h ⊢
    omega
  · rename_i h
    exact Nat.dvd_of_mod_eq_zero (by simpa using h)

theorem Ty.bits_isSome_of_align : ∀ (t : Ty) (a : Arch), (t.Align a).isSome → (t.Bits a).isSome
  | .opaqueType _ _, _, h => by cases h
  | .aliasType _ b, a, h => Ty.bits_isSome_of_align b a h
  | .fixedType _ _ _ _ _, _, _ => rfl
  | .archDependentType t0 t1 t2 t3 t4 t5, a, h => by
    cases a
    · exact Ty.bits_isSome_of_align t0 _ h
    · exact Ty.bits_isSome_of_align t1 _ h
    · exact Ty.bits_isSome_of_align t2 _ h
    · exact Ty.bits_isSome_of_align t3 _ h
    · exact Ty.bits_isSome_of_align t4 _ h
    · exact Ty.bits_isSome_of_align t5 _ h
  | .constType b, a, h => Ty.bits_isSome_of_align b a h
  | .pointerType _, _, _ => rfl
  | .functionType _ _, _, h => by cases h
  | .arrayType e n, a, h => by
    have := Ty.bits_isSome_of_align e a h
    simp only [Ty.Bits, Option.isSome_map']
    exact this
  | .structType _ _ _ _, _, _ => rfl
  | .unionType _ _ _ _, _, _ => rfl
  | .enumType _ b _, a, h => Ty.bits_isSome_of_align b a h

/-! ## Maxima -/

theorem le_maxOf (l : List Nat) (x : Nat) (h : x ∈ l) : x ≤ maxOf l := by
  induction l with
  | nil => cases h
  | cons y l ih =>
    rcases List.mem_cons.1 h with rfl | h
    · exact le_max_left _ _
    · exact le_trans (ih h) (le_max_right _ _)

theorem maxOf_mem (l : List Nat) (h : l ≠ []) : maxOf l ∈ l := by
  induction l with
  | nil => exact absurd rfl h
  | cons y l ih =>
    by_cases hl : l = []
    · subst hl; simp [maxOf]
    · rcases max_choice y (maxOf l) with h1 | h1
      · simp only [maxOf, List.foldr_cons] at h1 ⊢; rw [h1]; exact List.mem_cons_self _ _
      · simp only [maxOf, List.foldr_cons] at h1 ⊢; rw [h1]; exact List.mem_cons_of_mem _ (ih hl)

theorem foldl_max_eq (g : FieldInfo → Nat) (fields : List FieldInfo) (m : Nat) :
    fields.foldl (fun m f => max m (g f)) m = max m (maxOf (fields.map g)) := by
  induction fields generalizing m with
  | nil => simp [maxOf]
  | cons f rest ih =>
    simp only [List.foldl_cons, List.map_cons, maxOf, List.foldr_cons] at ih ⊢
    rw [ih, max_assoc]

theorem alignAfter_zero (arch : Arch) (fields : List FieldInfo) :
    alignAfter arch fields 0 = maxOf (fields.map fun f => (f.Typ.Align arch).getD 0) := by
  unfold alignAfter
  rw [foldl_max_eq (fun f => (f.Typ.Align arch).getD 0)]
  exact Nat.zero_max _

theorem bitsAfter_zero (arch : Arch) (fields : List FieldInfo) :
    bitsAfter arch fields 0 = maxOf (fields.map fun f => (f.Typ.Bits arch).getD 0) := by
  unfold bitsAfter
  rw [foldl_max_eq (fun f => (f.Typ.Bits arch).getD 0)]
  exact Nat.zero_max _

/-! ## Struct and union layout: results -/

theorem StructType_mixedFields : StructType "S" mixedFields = some mixedStruct := rfl

/-- C1 (failing input): for the fields `a : int16_t`, `b : int8_t` and `c` of a
type that is `uint8_t[3]` everywhere but `int16_t[1]` on x86, `StructType` returns
a single node whose offsets are those of ARM, so on x86 field `c` is reported at
offset 24 although the layout algorithm run with the x86 sizes and alignments
places it at 32. -/
theorem StructType_reports_arm_offsets_on_x86 :
    ∃ t f, StructType "S" mixedFields = some t ∧
      t.Field 2 Arch.X86 = some (AnyFieldInfo.structField f) ∧ f.Offset = 24 ∧
      specLayout Arch.X86 mixedFields 0 0 = some ([0, 16, 32], 16, 48) ∧
      specLayout Arch.Arm mixedFields 0 0 = some ([0, 16, 24], 16, 48) :=
  ⟨mixedStruct, StructFieldInfo.mk (Field "c" threeBytesOrShort) 24, rfl, rfl, rfl, rfl, rfl⟩

/-- C2 (failing input): in the struct `StructType` builds from `mixedFields`
the offset reported for field `c` on x86, 24, is not a multiple of the x86
alignment of its type, 16. -/
theorem StructType_offset_not_multiple_of_align :
    ∃ t f, StructType "S" mixedFields = some t ∧
      t.Field 2 Arch.X86 = some (AnyFieldInfo.structField f) ∧
      f.Typ.Align Arch.X86 = some 16 ∧ f.Offset = 24 ∧ ¬ 16 ∣ f.Offset :=
  ⟨mixedStruct, StructFieldInfo.mk (Field "c" threeBytesOrShort) 24, rfl, rfl, rfl, rfl,
    by decide⟩

theorem sized_of_align_pos (f : FieldInfo) (a : Arch)
    (h : ∃ al, f.Typ.Align a = some al ∧ 0 < al) : f.Sized a := by
  obtain ⟨al, hal, hpos⟩ := h
  have hb := Ty.bits_isSome_of_align f.Typ a (by rw [hal]; rfl)
  obtain ⟨b, hb⟩ := Option.isSome_iff_exists.1 hb
  exact ⟨al, b, hal, by omega, hb⟩

/-- C3: for a non-empty list of fields whose types are built by the package
and have a positive alignment on every architecture, `StructType` returns a
type whose alignment on each architecture is the maximum of the field
alignments there and whose size is a multiple of that alignment. -/
theorem StructType_size_multiple_of_max_align (name : String) (fields : List FieldInfo)
    (hne : fields ≠ []) (hb : ∀ f ∈ fields, Buildable f.Typ)
    (hal : ∀ f ∈ fields, ∀ a, ∃ al, f.Typ.Align a = some al ∧ 0 < al) :
    ∃ t, StructType name fields = some t ∧
      ∀ a, ∃ al sz, t.Align a = some al ∧ t.Bits a = some sz ∧ al ∣ sz ∧
        al = maxOf (fields.map fun f => (f.Typ.Align a).getD 0) := by
  have hs : ∀ f ∈ fields, ∀ a, f.Sized a := fun f hf a => sized_of_align_pos f a (hal f hf a)
  have ht := (StructType_eq_some_iff name fields _).2 ⟨hs, hne, rfl⟩
  refine ⟨_, ht, fun a => ?_⟩
  refine ⟨_, _, StructType_Align name fields _ ht a, StructType_Bits name fields _ ht a, ?_,
    alignAfter_zero a fields⟩
  have h0 : alignAfter a fields 0 ≠ 0 := alignAfter_ne_zero a fields hne (fun f hf => hs f hf a)
  have hv : validAlign (alignAfter a fields 0) := by
    rcases alignAfter_eq a fields 0 with h | ⟨f, hf, h⟩
    · exact absurd h h0
    · obtain ⟨al, hal1, _⟩ := hal f hf a
      rw [h, hal1]
      exact (hb f hf).align_valid a al hal1
  exact roundUp_dvd _ _ h0 (validAlign_dvd _ hv h0)

/-- C3 on `{int32_t, int64_t}`: alignment 32 and size 96 on x86, 64 and 128 elsewhere. -/
theorem StructType_size_multiple_of_max_align_witness :
    ∃ t, StructType "TestStruct" [Field "field1" Int32TType, Field "field2" Int64TType] = some t ∧
      ∀ a, ∃ al sz, t.Align a = some al ∧ t.Bits a = some sz ∧ al ∣ sz ∧
        al = maxOf ([Field "field1" Int32TType, Field "field2" Int64TType].map
          fun f => (f.Typ.Align a).getD 0) :=
  StructType_size_multiple_of_max_align "TestStruct"
    [Field "field1" Int32TType, Field "field2" Int64TType] (by simp)
    (by
      intro f hf
      simp only [List.mem_cons, List.mem_singleton, List.not_mem_nil, or_false] at hf
      rcases hf with rfl | rfl
      · exact Buildable.primitive Int32TType (by simp [primitiveTypes])
      · exact Buildable.primitive Int64TType (by simp [primitiveTypes]))
    (by
      intro f hf a
      simp only [List.mem_cons, List.mem_singleton, List.not_mem_nil, or_false] at hf
      rcases hf with rfl | rfl <;> cases a <;> exact ⟨_, rfl, by decide⟩)

/-- C4: when every field type has a size and an alignment, `UnionType` returns
a type whose alignment and size on each architecture are the maxima of the
field alignments and of the field sizes there (0 for no fields), whose size is
that maximum as it is, not rounded up to the alignment (a union of
`uint8_t[3]` and `uint16_t` has size 24 and alignment 16), and whose fields are
the input fields on every architecture. -/
theorem UnionType_layout (name : String) (fields : List FieldInfo)
    (h : ∀ f ∈ fields, ∀ a, f.HasLayout a) :
    (∃ t, UnionType name fields = some t ∧
      ∀ a, t.Align a = some (maxOf (fields.map fun f => (f.Typ.Align a).getD 0)) ∧
        t.Bits a = some (maxOf (fields.map fun f => (f.Typ.Bits a).getD 0)) ∧
        t.NumField a = some fields.length ∧
        ∀ i, t.Field i a = fields[i]?.map AnyFieldInfo.field) ∧
    (∃ u, UnionType "U" [Field "a" (ArrayType UInt8TType 3), Field "b" UInt16TType] = some u ∧
      ∀ a, u.Bits a = some 24 ∧ u.Align a = some 16) := by
  constructor
  · have ht := (UnionType_eq_some_iff name fields _).2 ⟨h, rfl⟩
    refine ⟨_, ht, fun a => ⟨?_, ?_, ?_, ?_⟩⟩
    · rw [UnionType_Align name fields _ ht a, alignAfter_zero]
    · rw [UnionType_Bits name fields _ ht a, bitsAfter_zero]
    · exact union_toType_NumField _ _ _ a
    · exact fun i => union_toType_Field _ _ _ i a
  · exact ⟨Ty.unionType "U" [Field "a" (ArrayType UInt8TType 3), Field "b" UInt16TType] 16 24,
      rfl, fun a => ⟨rfl, rfl⟩⟩

/-- C4 on the union of the package test: two `int8_t` fields give size 8, alignment 8. -/
theorem UnionType_layout_witness :
    ∃ t, UnionType "TestStruct" [Field "field1" Int8TType, Field "field2" Int8TType] = some t ∧
      ∀ a, t.Align a = some 8 ∧ t.Bits a = some 8 ∧ t.NumField a = some 2 ∧
        t.Field 1 a = some (AnyFieldInfo.field (Field "field2" Int8TType)) := by
  obtain ⟨t, ht, h⟩ := (UnionType_layout "TestStruct"
    [Field "field1" Int8TType, Field "field2" Int8TType] (by
      intro f hf a
      simp only [List.mem_cons, List.mem_singleton, List.not_mem_nil, or_false] at hf
      rcases hf with rfl | rfl <;> exact ⟨_, _, rfl, rfl⟩)).1
  refine ⟨t, ht, fun a => ?_⟩
  obtain ⟨h1, h2, h3, h4⟩ := h a
  exact ⟨h1, h2, h3, h4 1⟩

/-! ## Compatibility: primitive types -/

/-- C5: for every primitive type of the package and all architectures `h`
(host) and `g` (guest), `IsInputCompatible` returns, and it returns `true`
exactly when the sizes on `h` and `g` are equal and the alignment on `g` is at
least the alignment on `h`. -/
theorem IsInputCompatible_primitive (t : Ty) (ht : t ∈ primitiveTypes) (h g : Arch) :
    (t.Bits h).isSome ∧ (t.Align h).isSome ∧
      IsInputCompatible t h g =
        Result.ok (decide (t.Bits h = t.Bits g ∧ (t.Align h).getD 0 ≤ (t.Align g).getD 0)) := by
  simp only [primitiveTypes, List.mem_cons, List.mem_singleton, List.not_mem_nil, or_false] at ht
  rcases ht with h1 | h1 | h1 | h1 | h1 | h1 | h1 | h1 | h1 | h1 | h1 | h1 | h1 | h1 | h1 | h1 |
    h1 | h1 | h1 | h1 | h1 | h1 | h1 | h1 | h1 | h1 | h1 | h1 <;> subst h1 <;> cases h <;>
    cases g <;> exact ⟨rfl, rfl, rfl⟩

/-- C5 on `uint64_t`: compatible with host x86 and guest ARM (guest alignment
64 against host alignment 32), not with host ARM and guest x86. -/
theorem IsInputCompatible_primitive_witness :
    IsInputCompatible UInt64TType Arch.X86 Arch.Arm = Result.ok true ∧
      IsInputCompatible UInt64TType Arch.Arm Arch.X86 = Result.ok false :=
  ⟨(IsInputCompatible_primitive UInt64TType (by simp [primitiveTypes]) Arch.X86 Arch.Arm).2.2,
   (IsInputCompatible_primitive UInt64TType (by simp [primitiveTypes]) Arch.Arm Arch.X86).2.2⟩

/-! ## Compatibility: function types -/

theorem Ty.size_pos (t : Ty) : 0 < t.size := by
  cases t <;> simp [Ty.size]

theorem Ty.stripAlias_of_kind (t : Ty) (a : Arch) (h : t.Kind a ≠ Kind.Alias) :
    t.stripAlias = t := by
  cases t <;> simp [Ty.stripAlias, Ty.Kind] at h ⊢

theorem isInputCompatibleBody_func (again : Checker) (h g : Ty) (ha ga : Arch)
    (ps : List String) (hk : h.Kind ha = Kind.Func) (hk2 : g.Kind ga = Kind.Func) :
    isInputCompatibleBody again h ha g ga ps = Result.ok (false, ps) := by
  simp [isInputCompatibleBody, hk, hk2]

theorem isInputCompatibleBody_alias_host (again : Checker) (name : String) (t g : Ty)
    (ha ga : Arch) (ps : List String) :
    isInputCompatibleBody again (Ty.aliasType name t) ha g ga ps = again t ha g ga ps := by
  simp [isInputCompatibleBody, Ty.Kind, Ty.Elem]

theorem isInputCompatibleBody_alias_guest (again : Checker) (name : String) (h t : Ty)
    (ha ga : Arch) (ps : List String) (hk : h.Kind ha ≠ Kind.Alias) :
    isInputCompatibleBody again h ha (Ty.aliasType name t) ga ps = again h ha t ga ps := by
  simp [isInputCompatibleBody, Ty.Kind, Ty.Elem, hk]

theorem isInputCompatible_reachesFunction (n : Nat) :
    ∀ (h g : Ty) (ha ga : Arch) (ps : List String), ReachesFunction h → ReachesFunction g →
      h.stripAlias = g.stripAlias → h.size + g.size < n →
      ∃ ps1, isInputCompatible n h ha g ga ps = Result.ok (false, ps1) := by
  induction n with
  | zero => intro h g ha ga ps _ _ _ hn; omega
  | succ n ih =>
    intro h g ha ga ps hh hg hs hn
    rw [isInputCompatible]
    cases hh with
    | aliasOf name t ht =>
      rw [isInputCompatibleBody_alias_host]
      exact ih t g ha ga ps ht hg (by simpa [Ty.stripAlias] using hs)
        (by simp only [Ty.size] at hn; omega)
    | function _ hk =>
      have hka : h.Kind ha ≠ Kind.Alias := by rw [hk ha]; decide
      cases hg with
      | aliasOf name t ht =>
        rw [isInputCompatibleBody_alias_guest _ _ _ _ _ _ _ hka]
        exact ih h t ha ga ps (ReachesFunction.function h hk) ht
          (by simpa [Ty.stripAlias] using hs) (by simp only [Ty.size] at hn ⊢; omega)
      | function _ hk2 => exact ⟨ps, isInputCompatibleBody_func _ _ _ _ _ _ (hk ha) (hk2 ga)⟩
      | const t ht =>
        rw [Ty.stripAlias_of_kind h ha hka] at hs
        subst hs
        exact absurd (hk ha) (by simp [Ty.stripAlias, Ty.Kind])
      | pointer t ht =>
        rw [Ty.stripAlias_of_kind h ha hka] at hs
        subst hs
        exact absurd (hk ha) (by simp [Ty.stripAlias, Ty.Kind])
    | const t ht =>
      cases hg with
      | aliasOf name t2 ht2 =>
        rw [isInputCompatibleBody_alias_guest _ _ _ _ _ _ _ (by simp [Ty.Kind])]
        exact ih (Ty.constType t) t2 ha ga ps (ReachesFunction.const t ht) ht2
          (by simpa [Ty.stripAlias] using hs) (by simp only [Ty.size] at hn ⊢; omega)
      | function _ hk2 =>
        have hka : g.Kind ga ≠ Kind.Alias := by rw [hk2 ga]; decide
        rw [Ty.stripAlias_of_kind g ga hka] at hs
        subst hs
        exact absurd (hk2 ga) (by simp [Ty.stripAlias, Ty.Kind])
      | const t2 ht2 =>
        simp only [Ty.stripAlias, Ty.constType.injEq] at hs
        subst hs
        have := ih t t ha ga ps ht ht rfl (by simp only [Ty.size] at hn; omega)
        simpa [isInputCompatibleBody, Ty.Kind, Ty.Elem] using this
      | pointer t2 ht2 => simp [Ty.stripAlias] at hs
    | pointer t ht =>
      cases hg with
      | aliasOf name t2 ht2 =>
        rw [isInputCompatibleBody_alias_guest _ _ _ _ _ _ _ (by simp [Ty.Kind])]
        exact ih (Ty.pointerType t) t2 ha ga ps (ReachesFunction.pointer t ht) ht2
          (by simpa [Ty.stripAlias] using hs) (by simp only [Ty.size] at hn ⊢; omega)
      | function _ hk2 =>
        have hka : g.Kind ga ≠ Kind.Alias := by rw [hk2 ga]; decide
        rw [Ty.stripAlias_of_kind g ga hka] at hs
        subst hs
        exact absurd (hk2 ga) (by simp [Ty.stripAlias, Ty.Kind])
      | const t2 ht2 => simp [Ty.stripAlias] at hs
      | pointer t2 ht2 =>
        simp only [Ty.stripAlias, Ty.pointerType.injEq] at hs
        subst hs
        obtain ⟨ps1, h1⟩ := ih t t ha ga ps ht ht rfl (by simp only [Ty.size] at hn; omega)
        simp only [isInputCompatibleBody, Ty.Kind, Ty.Elem, sameOpaqueName,
          Ty.Bits, Ty.Align, compareByKind, h1]
        simp only [ne_eq, reduceCtorEq, if_false, if_true]
        split_ifs <;> exact ⟨_, rfl⟩

/-- C9: `IsInputCompatible` is `false` on every function type and on every
pointer to a function type, with or without `Alias` and `Const` wrappers, for
all host and guest architectures, equal ones included. -/
theorem IsInputCompatible_function_false (t : Ty) (ht : ReachesFunction t) (h g : Arch) :
    IsInputCompatible t h g = Result.ok false := by
  obtain ⟨ps1, h1⟩ := isInputCompatible_reachesFunction (compatFuel t t) t t h g [] ht ht rfl
    (by unfold compatFuel; omega)
  simp [IsInputCompatible, h1, Result.map]

/-- C9 on the pointer to `int()` of the package test, wrapped in `const` and a typedef. -/
theorem IsInputCompatible_function_false_witness :
    IsInputCompatible
      (AliasType "callback" (ConstType (PointerType (FunctionType IntType [])))) Arch.X86 Arch.X86
      = Result.ok false :=
  IsInputCompatible_function_false _
    (ReachesFunction.aliasOf _ _ (ReachesFunction.const _ (ReachesFunction.pointer _
      (ReachesFunction.function (FunctionType IntType []) (fun _ => rfl))))) Arch.X86 Arch.X86

/-! ## Compatibility: typedefs that differ by architecture -/

/-- C7 (failing input): the handle `VkFence` is `Alias` of `uint64_t` on ARM
and `Alias` of a pointer on ARM64, so its alias-stripped forms have the kinds
`UInt64T` and `Ptr`; yet with host ARM and guest ARM64 the check answers `true`,
because the guest alias is stripped with `Elem(host_arch)`, which yields the
host's `uint64_t`. The same happens for every 32-bit host with a 64-bit
guest; with a 64-bit host and a 32-bit guest the answer is `false`. -/
theorem IsInputCompatible_handle_32_host_64_guest :
    vkFence.Kind Arch.Arm = Kind.Alias ∧ vkFence.Kind Arch.Arm64 = Kind.Alias ∧
      (vkFence.Elem Arch.Arm).map (fun t => t.Kind Arch.Arm) = some Kind.UInt64T ∧
      (vkFence.Elem Arch.Arm64).map (fun t => t.Kind Arch.Arm64) = some Kind.Ptr ∧
      IsInputCompatible vkFence Arch.Arm Arch.Arm64 = Result.ok true ∧
      (∀ h ∈ [Arch.Arm, Arch.Riscv32, Arch.X86], ∀ g ∈ [Arch.Arm64, Arch.Riscv64, Arch.X86_64],
        IsInputCompatible vkFence h g = Result.ok true) ∧
      (∀ h ∈ [Arch.Arm64, Arch.Riscv64, Arch.X86_64], ∀ g ∈ [Arch.Arm, Arch.Riscv32, Arch.X86],
        IsInputCompatible vkFence h g = Result.ok false) := by
  decide

/-! ## Compatibility: enums -/

/-- C10 (failing input): an enum with the single member `open = 1` on ARM and
the members `open = 1`, `close = 2` on x86 is reported input-compatible with
host ARM and guest x86 although the member lists differ in length (only the
host's members are compared), and with host x86 and guest ARM the check panics
on the missing guest member. Swapped values are rejected, as in the package test. -/
theorem IsInputCompatible_enum_ignores_extra_guest_members :
    openFlagsGrown.NumField Arch.Arm = some 1 ∧ openFlagsGrown.NumField Arch.X86 = some 2 ∧
      IsInputCompatible openFlagsGrown Arch.Arm Arch.X86 = Result.ok true ∧
      IsInputCompatible openFlagsGrown Arch.X86 Arch.Arm = Result.panic ∧
      IsInputCompatible openFlagsSwapped Arch.Arm Arch.X86 = Result.ok false := by
  decide

/-! ## Queries through architecture-dependent nodes, and sizes -/

theorem Ty.Kind_resolve : ∀ (t : Ty) (a : Arch), (t.resolve a).Kind a = t.Kind a
  | .archDependentType t0 t1 t2 t3 t4 t5, a => by
    cases a <;> simp only [Ty.resolve, Ty.Kind] <;> apply Ty.Kind_resolve
  | .opaqueType _ _, _ => rfl
  | .aliasType _ _, _ => rfl
  | .fixedType _ _ _ _ _, _ => rfl
  | .constType _, _ => rfl
  | .pointerType _, _ => rfl
  | .functionType _ _, _ => rfl
  | .arrayType _ _, _ => rfl
  | .structType _ _ _ _, _ => rfl
  | .unionType _ _ _ _, _ => rfl
  | .enumType _ _ _, _ => rfl

theorem Ty.Bits_resolve : ∀ (t : Ty) (a : Arch), (t.resolve a).Bits a = t.Bits a
  | .archDependentType t0 t1 t2 t3 t4 t5, a => by
    cases a <;> simp only [Ty.resolve, Ty.Bits] <;> apply Ty.Bits_resolve
  | .opaqueType _ _, _ => rfl
  | .aliasType _ _, _ => rfl
  | .fixedType _ _ _ _ _, _ => rfl
  | .constType _, _ => rfl
  | .pointerType _, _ => rfl
  | .functionType _ _, _ => rfl
  | .arrayType _ _, _ => rfl
  | .structType _ _ _ _, _ => rfl
  | .unionType _ _ _ _, _ => rfl
  | .enumType _ _ _, _ => rfl

theorem Ty.Align_resolve : ∀ (t : Ty) (a : Arch), (t.resolve a).Align a = t.Align a
  | .archDependentType t0 t1 t2 t3 t4 t5, a => by
    cases a <;> simp only [Ty.resolve, Ty.Align] <;> apply Ty.Align_resolve
  | .opaqueType _ _, _ => rfl
  | .aliasType _ _, _ => rfl
  | .fixedType _ _ _ _ _, _ => rfl
  | .constType _, _ => rfl
  | .pointerType _, _ => rfl
  | .functionType _ _, _ => rfl
  | .arrayType _ _, _ => rfl
  | .structType _ _ _ _, _ => rfl
  | .unionType _ _ _ _, _ => rfl
  | .enumType _ _ _, _ => rfl

theorem Ty.Elem_resolve : ∀ (t : Ty) (a : Arch), (t.resolve a).Elem a = t.Elem a
  | .archDependentType t0 t1 t2 t3 t4 t5, a => by
    cases a <;> simp only [Ty.resolve, Ty.Elem] <;> apply Ty.Elem_resolve
  | .opaqueType _ _, _ => rfl
  | .aliasType _ _, _ => rfl
  | .fixedType _ _ _ _ _, _ => rfl
  | .constType _, _ => rfl
  | .pointerType _, _ => rfl
  | .functionType _ _, _ => rfl
  | .arrayType _ _, _ => rfl
  | .structType _ _ _ _, _ => rfl
  | .unionType _ _ _ _, _ => rfl
  | .enumType _ _ _, _ => rfl

theorem Ty.NumField_resolve : ∀ (t : Ty) (a : Arch), (t.resolve a).NumField a = t.NumField a
  | .archDependentType t0 t1 t2 t3 t4 t5, a => by
    cases a <;> simp only [Ty.resolve, Ty.NumField] <;> apply Ty.NumField_resolve
  | .opaqueType _ _, _ => rfl
  | .aliasType _ _, _ => rfl
  | .fixedType _ _ _ _ _, _ => rfl
  | .constType _, _ => rfl
  | .pointerType _, _ => rfl
  | .functionType _ _, _ => rfl
  | .arrayType _ _, _ => rfl
  | .structType _ _ _ _, _ => rfl
  | .unionType _ _ _ _, _ => rfl
  | .enumType _ _ _, _ => rfl

theorem Ty.Name_resolve : ∀ (t : Ty) (a : Arch), (t.resolve a).Name a = t.Name a
  | .archDependentType t0 t1 t2 t3 t4 t5, a => by
    cases a <;> simp only [Ty.resolve, Ty.Name] <;> apply Ty.Name_resolve
  | .opaqueType _ _, _ => rfl
  | .aliasType _ _, _ => rfl
  | .fixedType _ _ _ _ _, _ => rfl
  | .constType _, _ => rfl
  | .pointerType _, _ => rfl
  | .functionType _ _, _ => rfl
  | .arrayType _ _, _ => rfl
  | .structType _ _ _ _, _ => rfl
  | .unionType _ _ _ _, _ => rfl
  | .enumType _ _ _, _ => rfl

theorem Ty.Field_resolve : ∀ (t : Ty) (i : Nat) (a : Arch), (t.resolve a).Field i a = t.Field i a
  | .archDependentType t0 t1 t2 t3 t4 t5, i, a => by
    cases a <;> simp only [Ty.resolve, Ty.Field] <;> apply Ty.Field_resolve
  | .opaqueType _ _, _, _ => rfl
  | .aliasType _ _, _, _ => rfl
  | .fixedType _ _ _ _ _, _, _ => rfl
  | .constType _, _, _ => rfl
  | .pointerType _, _, _ => rfl
  | .functionType _ _, _, _ => rfl
  | .arrayType _ _, _, _ => rfl
  | .structType _ _ _ _, _, _ => rfl
  | .unionType _ _ _ _, _, _ => rfl
  | .enumType _ _ _, _, _ => rfl

theorem Ty.resolve_size_le : ∀ (t : Ty) (a : Arch), (t.resolve a).size ≤ t.size
  | .archDependentType t0 t1 t2 t3 t4 t5, a => by
    have h0 := Ty.resolve_size_le t0 a
    have h1 := Ty.resolve_size_le t1 a
    have h2 := Ty.resolve_size_le t2 a
    have h3 := Ty.resolve_size_le t3 a
    have h4 := Ty.resolve_size_le t4 a
    have h5 := Ty.resolve_size_le t5 a
    cases a <;> simp only [Ty.resolve, Ty.size] <;> omega
  | .opaqueType _ _, _ => le_refl _
  | .aliasType _ _, _ => le_refl _
  | .fixedType _ _ _ _ _, _ => le_refl _
  | .constType _, _ => le_refl _
  | .pointerType _, _ => le_refl _
  | .functionType _ _, _ => le_refl _
  | .arrayType _ _, _ => le_refl _
  | .structType _ _ _ _, _ => le_refl _
  | .unionType _ _ _ _, _ => le_refl _
  | .enumType _ _ _, _ => le_refl _

theorem Ty.resolve_not_archDependent : ∀ (t : Ty) (a : Arch),
    (t.resolve a).isArchDependent = false
  | .archDependentType t0 t1 t2 t3 t4 t5, a => by
    cases a <;> simp only [Ty.resolve] <;> apply Ty.resolve_not_archDependent
  | .opaqueType _ _, _ => rfl
  | .aliasType _ _, _ => rfl
  | .fixedType _ _ _ _ _, _ => rfl
  | .constType _, _ => rfl
  | .pointerType _, _ => rfl
  | .functionType _ _, _ => rfl
  | .arrayType _ _, _ => rfl
  | .structType _ _ _ _, _ => rfl
  | .unionType _ _ _ _, _ => rfl
  | .enumType _ _ _, _ => rfl

theorem mem_fieldsSize (fields : List FieldInfo) (f : FieldInfo) (h : f ∈ fields) :
    f.Typ.size < fieldsSize fields := by
  induction fields with
  | nil => cases h
  | cons g rest ih =>
    rcases List.mem_cons.1 h with rfl | h
    · cases f; simp only [fieldsSize, FieldInfo.size, FieldInfo.Typ]; omega
    · have := ih h; simp only [fieldsSize]; omega

theorem mem_structFieldsSize (fields : List StructFieldInfo) (f : StructFieldInfo)
    (h : f ∈ fields) : f.Typ.size < structFieldsSize fields := by
  induction fields with
  | nil => cases h
  | cons g rest ih =>
    rcases List.mem_cons.1 h with rfl | h
    · obtain ⟨⟨_, _⟩, _⟩ := f
      simp only [structFieldsSize, StructFieldInfo.size, FieldInfo.size, StructFieldInfo.Typ,
        StructFieldInfo.BaseFieldInfo, FieldInfo.Typ]
      omega
    · have := ih h; simp only [structFieldsSize]; omega

theorem mem_enumFieldsSize (fields : List EnumFieldInfo) (f : EnumFieldInfo) (h : f ∈ fields) :
    f.Typ.size < enumFieldsSize fields := by
  induction fields with
  | nil => cases h
  | cons g rest ih =>
    rcases List.mem_cons.1 h with rfl | h
    · cases f; simp only [enumFieldsSize, EnumFieldInfo.size, EnumFieldInfo.Typ]; omega
    · have := ih h; simp only [enumFieldsSize]; omega

theorem Ty.Elem_size : ∀ (t : Ty) (a : Arch) (e : Ty), t.Elem a = some e → e.size < t.size
  | .archDependentType t0 t1 t2 t3 t4 t5, a, e, h => by
    cases a <;> simp only [Ty.Elem] at h <;> have := Ty.Elem_size _ _ e h <;>
      simp only [Ty.size] <;> omega
  | .opaqueType _ _, _, _, h => by simp [Ty.Elem] at h
  | .aliasType _ _, _, _, h => by simp only [Ty.Elem, Option.some.injEq] at h; subst h; simp [Ty.size]
  | .fixedType _ _ _ _ _, _, _, h => by simp [Ty.Elem] at h
  | .constType _, _, _, h => by simp only [Ty.Elem, Option.some.injEq] at h; subst h; simp [Ty.size]
  | .pointerType _, _, _, h => by simp only [Ty.Elem, Option.some.injEq] at h; subst h; simp [Ty.size]
  | .functionType _ _, _, _, h => by
    simp only [Ty.Elem, Option.some.injEq] at h; subst h; simp only [Ty.size]; omega
  | .arrayType _ _, _, _, h => by simp only [Ty.Elem, Option.some.injEq] at h; subst h; simp [Ty.size]
  | .structType _ _ _ _, _, _, h => by simp [Ty.Elem] at h
  | .unionType _ _ _ _, _, _, h => by simp [Ty.Elem] at h
  | .enumType _ _ _, _, _, h => by
    simp only [Ty.Elem, Option.some.injEq] at h; subst h; simp only [Ty.size]; omega

theorem Ty.Field_size : ∀ (t : Ty) (i : Nat) (a : Arch) (f : AnyFieldInfo),
    t.Field i a = some f → f.Typ.size < t.size
  | .archDependentType t0 t1 t2 t3 t4 t5, i, a, f, h => by
    cases a <;> simp only [Ty.Field] at h <;> have := Ty.Field_size _ i _ f h <;>
      simp only [Ty.size] <;> omega
  | .opaqueType _ _, _, _, _, h => by simp [Ty.Field] at h
  | .aliasType _ _, _, _, _, h => by simp [Ty.Field] at h
  | .fixedType _ _ _ _ _, _, _, _, h => by simp [Ty.Field] at h
  | .constType _, _, _, _, h => by simp [Ty.Field] at h
  | .pointerType _, _, _, _, h => by simp [Ty.Field] at h
  | .arrayType _ _, _, _, _, h => by simp [Ty.Field] at h
  | .functionType _ params, i, _, f, h => by
    simp only [Ty.Field, Option.map_eq_some'] at h
    obtain ⟨x, hx, rfl⟩ := h
    have := mem_fieldsSize params x (List.getElem?_mem hx)
    simp only [Ty.size, AnyFieldInfo.Typ]; omega
  | .structType _ fields _ _, i, _, f, h => by
    simp only [Ty.Field, Option.map_eq_some'] at h
    obtain ⟨x, hx, rfl⟩ := h
    have := mem_structFieldsSize fields x (List.getElem?_mem hx)
    simp only [Ty.size, AnyFieldInfo.Typ]; omega
  | .unionType _ fields _ _, i, _, f, h => by
    simp only [Ty.Field, Option.map_eq_some'] at h
    obtain ⟨x, hx, rfl⟩ := h
    have := mem_fieldsSize fields x (List.getElem?_mem hx)
    simp only [Ty.size, AnyFieldInfo.Typ]; omega
  | .enumType _ _ fields, i, _, f, h => by
    simp only [Ty.Field, Option.map_eq_some'] at h
    obtain ⟨x, hx, rfl⟩ := h
    have := mem_enumFieldsSize fields x (List.getElem?_mem hx)
    simp only [Ty.size, AnyFieldInfo.Typ]; omega

/-! ## Compatibility: a type against itself -/

theorem Ty.align_isSome_of_bits : ∀ (t : Ty) (a : Arch), (t.Bits a).isSome → (t.Align a).isSome
  | .opaqueType _ _, _, h => by cases h
  | .aliasType _ b, a, h => Ty.align_isSome_of_bits b a h
  | .fixedType _ _ _ _ _, _, _ => rfl
  | .archDependentType t0 t1 t2 t3 t4 t5, a, h => by
    cases a
    · exact Ty.align_isSome_of_bits t0 _ h
    · exact Ty.align_isSome_of_bits t1 _ h
    · exact Ty.align_isSome_of_bits t2 _ h
    · exact Ty.align_isSome_of_bits t3 _ h
    · exact Ty.align_isSome_of_bits t4 _ h
    · exact Ty.align_isSome_of_bits t5 _ h
  | .constType b, a, h => Ty.align_isSome_of_bits b a h
  | .pointerType _, _, _ => rfl
  | .functionType _ _, _, h => by cases h
  | .arrayType e n, a, h => by
    simp only [Ty.Bits, Option.isSome_map'] at h
    exact Ty.align_isSome_of_bits e a h
  | .structType _ _ _ _, _, _ => rfl
  | .unionType _ _ _ _, _, _ => rfl
  | .enumType _ b _, a, h => Ty.align_isSome_of_bits b a h

theorem Ty.Kind_pick (a : Arch) (t0 t1 t2 t3 t4 t5 : Ty) :
    (Ty.archDependentType t0 t1 t2 t3 t4 t5).Kind a = (a.pick t0 t1 t2 t3 t4 t5).Kind a := by
  cases a <;> rfl

theorem Ty.Elem_pick (a : Arch) (t0 t1 t2 t3 t4 t5 : Ty) :
    (Ty.archDependentType t0 t1 t2 t3 t4 t5).Elem a = (a.pick t0 t1 t2 t3 t4 t5).Elem a := by
  cases a <;> rfl

theorem Ty.core_pick (a : Arch) (t0 t1 t2 t3 t4 t5 : Ty) :
    (Ty.archDependentType t0 t1 t2 t3 t4 t5).core a = (a.pick t0 t1 t2 t3 t4 t5).core a := by
  cases a <;> rfl

theorem Ty.resolve_pick (a : Arch) (t0 t1 t2 t3 t4 t5 : Ty) :
    (Ty.archDependentType t0 t1 t2 t3 t4 t5).resolve a = (a.pick t0 t1 t2 t3 t4 t5).resolve a := by
  cases a <;> rfl

theorem Ty.size_pick (a : Arch) (t0 t1 t2 t3 t4 t5 : Ty) :
    (a.pick t0 t1 t2 t3 t4 t5).size < (Ty.archDependentType t0 t1 t2 t3 t4 t5).size := by
  cases a <;> simp only [Arch.pick, Ty.size] <;> omega

theorem Comparable.elem_of_alias {a : Arch} {t : Ty} (hc : Comparable a t)
    (hk : t.Kind a = Kind.Alias) :
    ∃ e, t.Elem a = some e ∧ e.core a = t.core a ∧ e.size < t.size ∧ Comparable a e := by
  induction hc with
  | opaqueNode name => simp [Ty.Kind] at hk
  | void name => simp [Ty.Kind] at hk
  | fixed size align kind name sign hp =>
    simp only [Ty.Kind] at hk; subst hk; simp [isPrimitiveKind] at hp
  | aliasOf name t ht _ => exact ⟨t, rfl, rfl, by simp [Ty.size], ht⟩
  | archDependent t0 t1 t2 t3 t4 t5 _ ih =>
    rw [Ty.Kind_pick] at hk
    obtain ⟨e, h1, h2, h3, h4⟩ := ih hk
    have := Ty.size_pick a t0 t1 t2 t3 t4 t5
    exact ⟨e, by rw [Ty.Elem_pick]; exact h1, by rw [Ty.core_pick]; exact h2, by omega, h4⟩
  | const t _ _ => simp [Ty.Kind] at hk
  | pointer t _ _ => simp [Ty.Kind] at hk
  | array t size _ _ _ => simp [Ty.Kind] at hk
  | enum name basetype fields _ _ _ => simp [Ty.Kind] at hk
  | struct name fields align bits _ _ => simp [Ty.Kind] at hk
  | union name fields align bits _ _ => simp [Ty.Kind] at hk

theorem Comparable.core_eq_resolve {a : Arch} {t : Ty} (hc : Comparable a t)
    (hk : t.Kind a ≠ Kind.Alias) : t.core a = t.resolve a := by
  induction hc with
  | aliasOf name t ht _ => simp [Ty.Kind] at hk
  | archDependent t0 t1 t2 t3 t4 t5 _ ih =>
    rw [Ty.Kind_pick] at hk
    rw [Ty.core_pick, Ty.resolve_pick]
    exact ih hk
  | _ => rfl

theorem Comparable.resolve {a : Arch} {t : Ty} (hc : Comparable a t) :
    Comparable a (t.resolve a) := by
  induction hc with
  | archDependent t0 t1 t2 t3 t4 t5 _ ih => rw [Ty.resolve_pick]; exact ih
  | opaqueNode name => exact Comparable.opaqueNode name
  | void name => exact Comparable.void name
  | fixed size align kind name sign hp => exact Comparable.fixed size align kind name sign hp
  | aliasOf name t ht _ => exact Comparable.aliasOf name t ht
  | const t ht _ => exact Comparable.const t ht
  | pointer t ht _ => exact Comparable.pointer t ht
  | array t size ht hb _ => exact Comparable.array t size ht hb
  | enum name basetype fields ht hb _ => exact Comparable.enum name basetype fields ht hb
  | struct name fields align bits hf _ => exact Comparable.struct name fields align bits hf
  | union name fields align bits hf _ => exact Comparable.union name fields align bits hf

theorem loopFrom_true {σ : Type} (body : Nat → σ → Result (Bool × σ)) :
    ∀ (count start : Nat) (s : σ),
      (∀ i s, start ≤ i → i < start + count → ∃ s1, body i s = Result.ok (true, s1)) →
      ∃ s1, loopFrom body count start s = Result.ok (true, s1) := by
  intro count
  induction count with
  | zero => intro start s _; exact ⟨s, rfl⟩
  | succ count ih =>
    intro start s hb
    obtain ⟨s1, h1⟩ := hb start s (le_refl _) (by omega)
    simp only [loopFrom, h1]
    exact ih (start + 1) s1 (fun i s hi hlt => hb i s (by omega) (by omega))

theorem isInputCompatibleBody_resolved (again : Checker) (h g : Ty) (a : Arch)
    (ps : List String) (hk : h.Kind a ≠ Kind.Alias) (hk2 : g.Kind a ≠ Kind.Alias) :
    isInputCompatibleBody again h a g a ps =
      isInputCompatibleBody again (h.resolve a) a (g.resolve a) a ps := by
  have e1 : ∀ k, compareField again k (h.resolve a) a (g.resolve a) a =
      compareField again k h a g a := by
    intro k; funext i s; simp only [compareField, Ty.Field_resolve]
  have e2 : compareEnumValue (h.resolve a) a (g.resolve a) a = compareEnumValue h a g a := by
    funext i s; simp only [compareEnumValue, Ty.Field_resolve]
  simp only [isInputCompatibleBody, compareByKind, sameOpaqueName, Ty.Kind_resolve,
    Ty.Bits_resolve, Ty.Align_resolve, Ty.Elem_resolve, Ty.NumField_resolve, Ty.Name_resolve,
    e1, e2, hk, hk2, if_false]

theorem isInputCompatible_self (a : Arch) (n : Nat) :
    ∀ (h g : Ty) (ps : List String), Comparable a h → Comparable a g → h.core a = g.core a →
      h.size + g.size < n → ∃ ps1, isInputCompatible n h a g a ps = Result.ok (true, ps1) := by
  induction n with
  | zero => intro h g ps _ _ _ hn; omega
  | succ n ih =>
    intro h g ps hh hg hs hn
    rw [isInputCompatible]
    by_cases hk : h.Kind a = Kind.Alias
    · obtain ⟨e, he, hcore, hsz, hce⟩ := hh.elem_of_alias hk
      have : isInputCompatibleBody (isInputCompatible n) h a g a ps =
          isInputCompatible n e a g a ps := by
        simp [isInputCompatibleBody, hk, he]
      rw [this]
      exact ih e g ps hce hg (by rw [hcore]; exact hs) (by omega)
    · by_cases hk2 : g.Kind a = Kind.Alias
      · obtain ⟨e, he, hcore, hsz, hce⟩ := hg.elem_of_alias hk2
        have : isInputCompatibleBody (isInputCompatible n) h a g a ps =
            isInputCompatible n h a e a ps := by
          simp [isInputCompatibleBody, hk, hk2, he]
        rw [this]
        exact ih h e ps hh hce (by rw [hcore]; exact hs) (by omega)
      · rw [isInputCompatibleBody_resolved _ _ _ _ _ hk hk2]
        have hr : g.resolve a = h.resolve a := by
          rw [← hh.core_eq_resolve hk, ← hg.core_eq_resolve hk2, hs]
        rw [hr]
        have hc := hh.resolve
        have hnd := Ty.resolve_not_archDependent h a
        have hka : (h.resolve a).Kind a ≠ Kind.Alias := by rw [Ty.Kind_resolve]; exact hk
        have hs1 := Ty.resolve_size_le h a
        have hs2 := Ty.resolve_size_le g a
        rw [hr] at hs2
        generalize h.resolve a = r at hc hnd hka hs1 hs2
        cases hc with
        | opaqueNode name =>
          exact ⟨ps, by simp [isInputCompatibleBody, Ty.Kind, sameOpaqueName, Ty.Name]⟩
        | void name => exact ⟨ps, by simp [isInputCompatibleBody, Ty.Kind]⟩
        | fixed size align kind name sign hp =>
          refine ⟨ps, ?_⟩
          cases kind <;> simp [isPrimitiveKind] at hp <;>
            simp [isInputCompatibleBody, Ty.Kind, sameOpaqueName, Ty.Bits, Ty.Align,
              compareByKind]
        | aliasOf name t ht => simp [Ty.Kind] at hka
        | archDependent t0 t1 t2 t3 t4 t5 _ => simp [Ty.isArchDependent] at hnd
        | const t ht =>
          have := ih t t ps ht ht rfl (by simp only [Ty.size] at hs1 hs2; omega)
          simpa [isInputCompatibleBody, Ty.Kind, Ty.Elem] using this
        | pointer t ht =>
          have := ih t t ps ht ht rfl (by simp only [Ty.size] at hs1 hs2; omega)
          simpa [isInputCompatibleBody, Ty.Kind, Ty.Elem, sameOpaqueName, Ty.Bits, Ty.Align,
            compareByKind] using this
        | array t size ht hb =>
          have := ih t t ps ht ht rfl (by simp only [Ty.size] at hs1 hs2; omega)
          obtain ⟨b, hb1⟩ := Option.isSome_iff_exists.1 hb
          obtain ⟨al, hal⟩ := Option.isSome_iff_exists.1 (Ty.align_isSome_of_bits t a hb)
          simpa [isInputCompatibleBody, Ty.Kind, Ty.Elem, sameOpaqueName, Ty.Bits, Ty.Align,
            compareByKind, hb1, hal, Ty.NumField] using this
        | enum name basetype fields ht hb =>
          obtain ⟨ps1, h1⟩ := ih basetype basetype ps ht ht rfl
            (by simp only [Ty.size] at hs1 hs2; omega)
          obtain ⟨b, hb1⟩ := Option.isSome_iff_exists.1 hb
          obtain ⟨al, hal⟩ := Option.isSome_iff_exists.1 (Ty.align_isSome_of_bits basetype a hb)
          have hloop := loopFrom_true
            (compareEnumValue (Ty.enumType name basetype fields) a
              (Ty.enumType name basetype fields) a) fields.length 0 ps1 (by
              intro i s _ hi
              obtain ⟨f, hf⟩ : ∃ f, fields[i]? = some f :=
                ⟨fields[i], List.getElem?_eq_getElem (by omega)⟩
              exact ⟨s, by simp [compareEnumValue, Ty.Field, hf,
                AnyFieldInfo.asEnumFieldInfo]⟩)
          simpa [isInputCompatibleBody, Ty.Kind, Ty.Elem, sameOpaqueName, Ty.Bits, Ty.Align,
            compareByKind, hb1, hal, Ty.NumField, h1] using hloop
        | struct name fields align bits hf =>
          by_cases hmem : ("struct " ++ name) ∈ ps
          · exact ⟨ps, by simp [isInputCompatibleBody, Ty.Kind, sameOpaqueName, Ty.Bits,
              Ty.Align, compareByKind, Ty.Name, hmem]⟩
          · have hloop := loopFrom_true
              (compareField (isInputCompatible n) Kind.Struct
                (Ty.structType name fields align bits) a
                (Ty.structType name fields align bits) a) fields.length 0
                (("struct " ++ name) :: ps) (by
                intro i s _ hi
                obtain ⟨f, hfi⟩ : ∃ f, fields[i]? = some f :=
                  ⟨fields[i], List.getElem?_eq_getElem (by omega)⟩
                have hfm := List.getElem?_mem hfi
                have hsz := mem_structFieldsSize fields f hfm
                obtain ⟨s1, h1⟩ := ih f.Typ f.Typ s (hf f hfm) (hf f hfm) rfl
                  (by simp only [Ty.size] at hs1 hs2; omega)
                exact ⟨s1, by simp [compareField, Ty.Field, hfi, offsetsDiffer,
                  AnyFieldInfo.asStructFieldInfo, AnyFieldInfo.Typ, h1]⟩)
            simpa [isInputCompatibleBody, Ty.Kind, sameOpaqueName, Ty.Bits, Ty.Align,
              compareByKind, Ty.Name, hmem, Ty.NumField] using hloop
        | union name fields align bits hf =>
          by_cases hmem : ("union " ++ name) ∈ ps
          · exact ⟨ps, by simp [isInputCompatibleBody, Ty.Kind, sameOpaqueName, Ty.Bits,
              Ty.Align, compareByKind, Ty.Name, hmem]⟩
          · have hloop := loopFrom_true
              (compareField (isInputCompatible n) Kind.Union
                (Ty.unionType name fields align bits) a
                (Ty.unionType name fields align bits) a) fields.length 0
                (("union " ++ name) :: ps) (by
                intro i s _ hi
                obtain ⟨f, hfi⟩ : ∃ f, fields[i]? = some f :=
                  ⟨fields[i], List.getElem?_eq_getElem (by omega)⟩
                have hfm := List.getElem?_mem hfi
                have hsz := mem_fieldsSize fields f hfm
                obtain ⟨s1, h1⟩ := ih f.Typ f.Typ s (hf f hfm) (hf f hfm) rfl
                  (by simp only [Ty.size] at hs1 hs2; omega)
                exact ⟨s1, by simp [compareField, Ty.Field, hfi, offsetsDiffer,
                  AnyFieldInfo.Typ, h1]⟩)
            simpa [isInputCompatibleBody, Ty.Kind, sameOpaqueName, Ty.Bits, Ty.Align,
              compareByKind, Ty.Name, hmem, Ty.NumField] using hloop

/-- C8 (counterexample): `IsCompatible(T, a, a)` is `false` for a function type
and panics for an array of an opaque type. -/
theorem IsCompatible_not_reflexive :
    IsCompatible (FunctionType IntType []) Arch.Arm Arch.Arm = Result.ok false ∧
      IsCompatible (ArrayType (OpaqueType "X") 3) Arch.Arm Arch.Arm = Result.panic := by
  decide

/-- C8 (amended): `IsCompatible(T, a, a)` is `true` for every architecture `a`
and every type `T` in which, as seen on `a`, no function type occurs and every
array element type and enum underlying type has a size; and it is `false` for
every function type and every pointer to a function type, with or without
`Alias` and `Const` wrappers around the function type and around the pointers. -/
theorem IsCompatible_self (t : Ty) (a : Arch) :
    (Comparable a t → IsCompatible t a a = Result.ok true) ∧
      (ReachesFunction t → IsCompatible t a a = Result.ok false) := by
  constructor
  · intro h
    obtain ⟨ps1, h1⟩ := isInputCompatible_self a (compatFuel t t) t t [] h h rfl
      (by unfold compatFuel; omega)
    have h2 : IsInputCompatible t a a = Result.ok true := by
      simp [IsInputCompatible, h1, Result.map]
    simp [IsCompatible, h2]
  · intro h
    obtain ⟨ps1, h1⟩ := isInputCompatible_reachesFunction (compatFuel t t) t t a a [] h h rfl
      (by unfold compatFuel; omega)
    have h2 : IsInputCompatible t a a = Result.ok false := by
      simp [IsInputCompatible, h1, Result.map]
    simp [IsCompatible, h2]

/-- C8 (amended) on a pointer to `const uint64_t` seen on x86, and on the pointer to
`int()` of the package test, wrapped in `const` and a typedef. -/
theorem IsCompatible_self_witness :
    IsCompatible (PointerType (ConstType UInt64TType)) Arch.X86 Arch.X86 = Result.ok true ∧
      IsCompatible
        (AliasType "callback" (ConstType (PointerType (FunctionType IntType []))))
        Arch.X86 Arch.X86 = Result.ok false :=
  ⟨(IsCompatible_self _ Arch.X86).1
      (Comparable.pointer _ (Comparable.const _ (Comparable.archDependent _ _ _ _ _ _
        (Comparable.fixed 64 32 Kind.UInt64T "std::uint64_t" (some false) rfl)))),
    (IsCompatible_self _ Arch.X86).2
      (ReachesFunction.aliasOf _ _ (ReachesFunction.const _ (ReachesFunction.pointer _
        (ReachesFunction.function (FunctionType IntType []) (fun _ => rfl)))))⟩

/-! ## Compatibility: the fuel is enough -/

theorem sameOpaqueName_ne_outOfFuel (k : Kind) (h : Ty) (ha : Arch) (g : Ty) (ga : Arch) :
    sameOpaqueName k h ha g ga ≠ Result.outOfFuel := by
  unfold sameOpaqueName
  split
  · split <;> simp
  · simp

theorem offsetsDiffer_ne_outOfFuel (k : Kind) (f1 f2 : AnyFieldInfo) :
    offsetsDiffer k f1 f2 ≠ Result.outOfFuel := by
  unfold offsetsDiffer
  split
  · split <;> simp
  · simp

theorem compareEnumValue_ne_outOfFuel (h : Ty) (ha : Arch) (g : Ty) (ga : Arch) (i : Nat)
    (ps : List String) : compareEnumValue h ha g ga i ps ≠ Result.outOfFuel := by
  unfold compareEnumValue
  split
  · split <;> simp
  · simp

theorem loopFrom_ne_outOfFuel {σ : Type} (body : Nat → σ → Result (Bool × σ))
    (hb : ∀ i s, body i s ≠ Result.outOfFuel) :
    ∀ (count start : Nat) (s : σ), loopFrom body count start s ≠ Result.outOfFuel := by
  intro count
  induction count with
  | zero => intro start s; simp [loopFrom]
  | succ count ih =>
    intro start s
    unfold loopFrom
    split
    · exact ih _ _
    · rename_i r hr
      exact hb start s

theorem compareField_ne_outOfFuel (again : Checker) (k : Kind) (h : Ty) (ha : Arch) (g : Ty)
    (ga : Arch) (i : Nat) (ps : List String)
    (hag : ∀ h1 g1 ps1, h1.size + g1.size < h.size + g.size →
      again h1 ha g1 ga ps1 ≠ Result.outOfFuel) :
    compareField again k h ha g ga i ps ≠ Result.outOfFuel := by
  unfold compareField
  split
  · rename_i f1 f2 hf1 hf2
    have h1 := Ty.Field_size h i ha f1 hf1
    have h2 := Ty.Field_size g i ga f2 hf2
    split
    · simp
    · rename_i hx; exact absurd hx (offsetsDiffer_ne_outOfFuel _ _ _)
    · simp
    · exact hag _ _ _ (by omega)
  · simp

theorem compareByKind_ne_outOfFuel (again : Checker) (k : Kind) (h : Ty) (ha : Arch) (g : Ty)
    (ga : Arch) (ps : List String)
    (hag : ∀ h1 g1 ps1, h1.size + g1.size < h.size + g.size →
      again h1 ha g1 ga ps1 ≠ Result.outOfFuel) :
    compareByKind again k h ha g ga ps ≠ Result.outOfFuel := by
  unfold compareByKind
  split
  · split
    · split
      · simp
      · split
        · rename_i e1 e2 he1 he2
          have h1 := Ty.Elem_size h ha e1 he1
          have h2 := Ty.Elem_size g ga e2 he2
          exact hag _ _ _ (by omega)
        · simp
    · simp
  · split
    · split
      · rename_i e1 e2 he1 he2
        have h1 := Ty.Elem_size h ha e1 he1
        have h2 := Ty.Elem_size g ga e2 he2
        split
        · split
          · simp
          · exact loopFrom_ne_outOfFuel _ (compareEnumValue_ne_outOfFuel h ha g ga) _ _ _
        · rename_i r hr
          exact hag _ _ _ (by omega)
      · simp
    · split
      · split
        · rename_i e1 e2 he1 he2
          have h1 := Ty.Elem_size h ha e1 he1
          have h2 := Ty.Elem_size g ga e2 he2
          exact hag _ _ _ (by omega)
        · simp
      · split
        · split
          · split
            · simp
            · split
              · simp
              · split
                · split
                  · simp
                  · exact loopFrom_ne_outOfFuel _
                      (fun i s => compareField_ne_outOfFuel again k h ha g ga i s hag) _ _ _
                · simp
          · simp
        · simp

theorem isInputCompatibleBody_ne_outOfFuel (again : Checker) (h : Ty) (ha : Arch) (g : Ty)
    (ga : Arch) (ps : List String)
    (hag : ∀ h1 g1 ps1, h1.size + g1.size < h.size + g.size →
      again h1 ha g1 ga ps1 ≠ Result.outOfFuel) :
    isInputCompatibleBody again h ha g ga ps ≠ Result.outOfFuel := by
  unfold isInputCompatibleBody
  simp only []
  split
  · split
    · simp
    · rename_i e he
      have := Ty.Elem_size h ha e he
      exact hag _ _ _ (by omega)
  · split
    · split
      · simp
      · rename_i e he
        have := Ty.Elem_size g ha e he
        exact hag _ _ _ (by omega)
    · split
      · simp
      · split
        · simp
        · split
          · split
            · rename_i e1 e2 he1 he2
              have h1 := Ty.Elem_size h ha e1 he1
              have h2 := Ty.Elem_size g ga e2 he2
              exact hag _ _ _ (by omega)
            · simp
          · split
            · simp
            · split
              · simp
              · rename_i hx; exact absurd hx (sameOpaqueName_ne_outOfFuel _ _ _ _ _)
              · simp
              · split
                · split
                  · simp
                  · split
                    · split
                      · simp
                      · exact compareByKind_ne_outOfFuel again _ h ha g ga ps hag
                    · simp
                · simp

theorem isInputCompatible_ne_outOfFuel (n : Nat) :
    ∀ (h g : Ty) (ha ga : Arch) (ps : List String), h.size + g.size < n →
      isInputCompatible n h ha g ga ps ≠ Result.outOfFuel := by
  induction n with
  | zero => intro h g ha ga ps hn; omega
  | succ n ih =>
    intro h g ha ga ps hn
    rw [isInputCompatible]
    exact isInputCompatibleBody_ne_outOfFuel _ h ha g ga ps
      (fun h1 g1 ps1 hlt => ih h1 g1 ha ga ps1 (by omega))

/-- The check never runs out of the fuel that `IsInputCompatible` provides. -/
theorem IsInputCompatible_ne_outOfFuel (t : Ty) (h g : Arch) :
    IsInputCompatible t h g ≠ Result.outOfFuel := by
  unfold IsInputCompatible
  have := isInputCompatible_ne_outOfFuel (compatFuel t t) t t h g [] (by unfold compatFuel; omega)
  cases hr : isInputCompatible (compatFuel t t) t h t g [] with
  | ok v => simp [Result.map]
  | panic => simp [Result.map]
  | outOfFuel => exact absurd hr this

/-! ## Compatibility: structs -/

theorem loopFrom_false_or_panic {σ : Type} (body : Nat → σ → Result (Bool × σ))
    (hb : ∀ j s, body j s ≠ Result.outOfFuel) (i : Nat)
    (hi : ∀ s, ∃ s1, body i s = Result.ok (false, s1)) :
    ∀ (count start : Nat) (s : σ), start ≤ i → i < start + count →
      (∃ s1, loopFrom body count start s = Result.ok (false, s1)) ∨
        loopFrom body count start s = Result.panic := by
  intro count
  induction count with
  | zero => intro start s h1 h2; omega
  | succ count ih =>
    intro start s h1 h2
    cases hbs : body start s with
    | ok v =>
      obtain ⟨b, s1⟩ := v
      cases b with
      | true =>
        simp only [loopFrom, hbs]
        by_cases he : start = i
        · subst he
          obtain ⟨s2, h3⟩ := hi s
          rw [hbs] at h3; cases h3
        · exact ih (start + 1) s1 (by omega) (by omega)
      | false => exact Or.inl ⟨s1, by simp [loopFrom, hbs]⟩
    | panic => exact Or.inr (by simp [loopFrom, hbs])
    | outOfFuel => exact absurd hbs (hb start s)

/-- C6 (amended): for a type that is a struct node on the host `h` and on the
guest `g`, `IsInputCompatible` is `false` when the field count or the size
differs between `h` and `g`; when some field's offset differs it is never
`true`: it is `false`, unless comparing an earlier field panics first. -/
theorem IsInputCompatible_struct_mismatch (t : Ty) (h g : Arch) (hh : t.IsStructOn h)
    (hg : t.IsStructOn g) :
    ((t.NumField h ≠ t.NumField g ∨ t.Bits h ≠ t.Bits g) →
        IsInputCompatible t h g = Result.ok false) ∧
      ((∃ i f1 f2, t.Field i h = some (AnyFieldInfo.structField f1) ∧
          t.Field i g = some (AnyFieldInfo.structField f2) ∧ f1.Offset ≠ f2.Offset) →
        IsInputCompatible t h g = Result.ok false ∨ IsInputCompatible t h g = Result.panic) := by
  obtain ⟨n1, fs1, al1, b1, hr1⟩ := hh
  obtain ⟨n2, fs2, al2, b2, hr2⟩ := hg
  have hK1 : t.Kind h = Kind.Struct := by rw [← Ty.Kind_resolve, hr1]; rfl
  have hK2 : t.Kind g = Kind.Struct := by rw [← Ty.Kind_resolve, hr2]; rfl
  have hB1 : t.Bits h = some b1 := by rw [← Ty.Bits_resolve, hr1]; rfl
  have hB2 : t.Bits g = some b2 := by rw [← Ty.Bits_resolve, hr2]; rfl
  have hA1 : t.Align h = some al1 := by rw [← Ty.Align_resolve, hr1]; rfl
  have hA2 : t.Align g = some al2 := by rw [← Ty.Align_resolve, hr2]; rfl
  have hN1 : t.NumField h = some fs1.length := by rw [← Ty.NumField_resolve, hr1]; rfl
  have hN2 : t.NumField g = some fs2.length := by rw [← Ty.NumField_resolve, hr2]; rfl
  have hM1 : t.Name h = some ("struct " ++ n1) := by rw [← Ty.Name_resolve, hr1]; rfl
  have hM2 : t.Name g = some ("struct " ++ n2) := by rw [← Ty.Name_resolve, hr2]; rfl
  have hrun : isInputCompatible (compatFuel t t) t h t g [] =
      if b1 ≠ b2 then Result.ok (false, [])
      else if al2 < al1 then Result.ok (false, [])
      else if "struct " ++ n1 ≠ "struct " ++ n2 then Result.ok (false, [])
      else if fs1.length ≠ fs2.length then Result.ok (false, ["struct " ++ n1])
      else loopFrom (compareField (isInputCompatible (t.size + t.size)) Kind.Struct t h t g)
        fs1.length 0 ["struct " ++ n1] := by
    simp [compatFuel, isInputCompatible, isInputCompatibleBody, hK1, hK2, sameOpaqueName, hB1,
      hB2, hA1, hA2, compareByKind, hM1, hM2, hN1, hN2]
  unfold IsInputCompatible
  rw [hrun]
  constructor
  · intro hne
    rw [hN1, hN2, hB1, hB2] at hne
    simp only [ne_eq, Option.some.injEq] at hne
    split_ifs <;> first | rfl | (exfalso; tauto)
  · rintro ⟨i, f1, f2, hf1, hf2, hoff⟩
    have hlt : i < fs1.length := by
      rw [← Ty.Field_resolve, hr1] at hf1
      simp only [Ty.Field, Option.map_eq_some'] at hf1
      obtain ⟨x, hx, _⟩ := hf1
      exact (List.getElem?_eq_some.1 hx).1
    have hloop := loopFrom_false_or_panic
      (compareField (isInputCompatible (t.size + t.size)) Kind.Struct t h t g)
      (fun j s => compareField_ne_outOfFuel _ _ t h t g j s
        (fun h1 g1 ps1 hs => isInputCompatible_ne_outOfFuel _ h1 g1 h g ps1 hs))
      i (fun s => ⟨s, by simp [compareField, hf1, hf2, offsetsDiffer,
        AnyFieldInfo.asStructFieldInfo, hoff]⟩)
      fs1.length 0 ["struct " ++ n1] (Nat.zero_le _) (by omega)
    split_ifs
    · exact Or.inl rfl
    · exact Or.inl rfl
    · exact Or.inl rfl
    · exact Or.inl rfl
    · rcases hloop with ⟨s1, h1⟩ | h1
      · exact Or.inl (by rw [h1]; rfl)
      · exact Or.inr (by rw [h1]; rfl)

theorem StructType_testStructA :
    StructType "Test" [Field "a" UInt64TType, Field "b" UInt32TType] = some testStructA := rfl

theorem StructType_testStructB :
    StructType "Test" [Field "a" UInt32TType, Field "b" UInt64TType] = some testStructB := rfl

/-- C6 (amended) on the structs of the package test: `{uint64_t, uint32_t}`
differs in size between x86 and ARM, so it is not input-compatible; the same
holds in the other direction and for `{uint32_t, uint64_t}`. -/
theorem IsInputCompatible_struct_mismatch_witness :
    IsInputCompatible testStructA Arch.X86 Arch.Arm = Result.ok false ∧
      IsInputCompatible testStructA Arch.Arm Arch.X86 = Result.ok false ∧
      IsInputCompatible testStructB Arch.X86 Arch.Arm = Result.ok false ∧
      IsInputCompatible testStructB Arch.Arm Arch.X86 = Result.ok false :=
  ⟨(IsInputCompatible_struct_mismatch testStructA Arch.X86 Arch.Arm ⟨_, _, _, _, rfl⟩
      ⟨_, _, _, _, rfl⟩).1 (Or.inr (by decide)),
   (IsInputCompatible_struct_mismatch testStructA Arch.Arm Arch.X86 ⟨_, _, _, _, rfl⟩
      ⟨_, _, _, _, rfl⟩).1 (Or.inr (by decide)),
   (IsInputCompatible_struct_mismatch testStructB Arch.X86 Arch.Arm ⟨_, _, _, _, rfl⟩
      ⟨_, _, _, _, rfl⟩).1 (Or.inr (by decide)),
   (IsInputCompatible_struct_mismatch testStructB Arch.Arm Arch.X86 ⟨_, _, _, _, rfl⟩
      ⟨_, _, _, _, rfl⟩).1 (Or.inr (by decide))⟩

theorem StructType_opaqueArrayFields :
    StructType "P" opaqueArrayFields = some opaqueArrayStruct := rfl

/-- C6 (counterexample): the struct built from `opaqueArrayFields` has the same
size on x86 and ARM and places field `b` at offset 32 on x86 and 64 on ARM, yet
`IsInputCompatible` with host x86 and guest ARM does not return `false`: it
panics while comparing field `p`, whose pointee asks an opaque type for its size. -/
theorem IsInputCompatible_struct_offsets_panic :
    ∃ t f1 f2, StructType "P" opaqueArrayFields = some t ∧
      t.IsStructOn Arch.X86 ∧ t.IsStructOn Arch.Arm ∧
      t.NumField Arch.X86 = t.NumField Arch.Arm ∧ t.Bits Arch.X86 = t.Bits Arch.Arm ∧
      t.Field 1 Arch.X86 = some (AnyFieldInfo.structField f1) ∧
      t.Field 1 Arch.Arm = some (AnyFieldInfo.structField f2) ∧
      f1.Offset = 32 ∧ f2.Offset = 64 ∧
      IsInputCompatible t Arch.X86 Arch.Arm = Result.panic :=
  ⟨opaqueArrayStruct, StructFieldInfo.mk (Field "b" UInt64TType) 32,
    StructFieldInfo.mk (Field "b" UInt64TType) 64, rfl, ⟨_, _, _, _, rfl⟩, ⟨_, _, _, _, rfl⟩,
    rfl, rfl, rfl, rfl, rfl, rfl, by decide⟩

/-! ## Rendering: names and declarations -/

theorem Ty.isNamed_Kind : ∀ (t : Ty) (a : Arch), t.isNamed = true →
    t.Kind a ≠ Kind.Ptr ∧ t.Kind a ≠ Kind.Array ∧ t.Kind a ≠ Kind.Func
  | .archDependentType t0 t1 t2 t3 t4 t5, a, h => by
    simp only [Ty.isNamed, Bool.and_eq_true] at h
    obtain ⟨⟨⟨⟨⟨h0, h1⟩, h2⟩, h3⟩, h4⟩, h5⟩ := h
    cases a <;> simp only [Ty.Kind]
    · exact Ty.isNamed_Kind t0 _ h0
    · exact Ty.isNamed_Kind t1 _ h1
    · exact Ty.isNamed_Kind t2 _ h2
    · exact Ty.isNamed_Kind t3 _ h3
    · exact Ty.isNamed_Kind t4 _ h4
    · exact Ty.isNamed_Kind t5 _ h5
  | .fixedType _ _ kind _ _, _, h => by
    simp only [Ty.isNamed] at h
    simp only [Ty.Kind]
    cases kind <;> simp_all [isPrimitiveKind]
  | .aliasType _ _, _, _ => by simp [Ty.Kind]
  | .enumType _ _ _, _, _ => by simp [Ty.Kind]
  | .structType _ _ _ _, _, _ => by simp [Ty.Kind]
  | .unionType _ _ _ _, _, _ => by simp [Ty.Kind]
  | .opaqueType _ _, _, h => by simp [Ty.isNamed] at h
  | .constType _, _, h => by simp [Ty.isNamed] at h
  | .pointerType _, _, h => by simp [Ty.isNamed] at h
  | .functionType _ _, _, h => by simp [Ty.isNamed] at h
  | .arrayType _ _, _, h => by simp [Ty.isNamed] at h

theorem Ty.isNamed_DeclareVar : ∀ (t : Ty) (a : Arch) (n v : String), t.isNamed = true →
    t.Name a = some n → t.DeclareVar v a = some (n ++ " " ++ v)
  | .archDependentType t0 t1 t2 t3 t4 t5, a, n, v, h, hn => by
    simp only [Ty.isNamed, Bool.and_eq_true] at h
    obtain ⟨⟨⟨⟨⟨h0, h1⟩, h2⟩, h3⟩, h4⟩, h5⟩ := h
    cases a <;> simp only [Ty.Name] at hn <;> simp only [Ty.DeclareVar]
    · exact Ty.isNamed_DeclareVar t0 _ n v h0 hn
    · exact Ty.isNamed_DeclareVar t1 _ n v h1 hn
    · exact Ty.isNamed_DeclareVar t2 _ n v h2 hn
    · exact Ty.isNamed_DeclareVar t3 _ n v h3 hn
    · exact Ty.isNamed_DeclareVar t4 _ n v h4 hn
    · exact Ty.isNamed_DeclareVar t5 _ n v h5 hn
  | .fixedType _ _ _ _ _, _, _, _, _, hn => by
    simp only [Ty.Name, Option.some.injEq] at hn; subst hn; rfl
  | .aliasType _ _, _, _, _, _, hn => by
    simp only [Ty.Name, Option.some.injEq] at hn; subst hn; rfl
  | .enumType _ _ _, _, _, _, _, hn => by
    simp only [Ty.Name, Option.some.injEq] at hn; subst hn; rfl
  | .structType _ _ _ _, _, _, _, _, hn => by
    simp only [Ty.Name, Option.some.injEq] at hn; subst hn; rfl
  | .unionType _ _ _ _, _, _, _, _, hn => by
    simp only [Ty.Name, Option.some.injEq] at hn; subst hn; rfl
  | .opaqueType _ _, _, _, _, h, _ => by simp [Ty.isNamed] at h
  | .constType _, _, _, _, h, _ => by simp [Ty.isNamed] at h
  | .pointerType _, _, _, _, h, _ => by simp [Ty.isNamed] at h
  | .functionType _ _, _, _, _, h, _ => by simp [Ty.isNamed] at h
  | .arrayType _ _, _, _, _, h, _ => by simp [Ty.isNamed] at h

/-- Every primitive type of the package is written by its name. -/
theorem primitive_isNamed : ∀ t ∈ primitiveTypes, t.isNamed = true := by decide

/-- The struct and union nodes that `StructType` and `UnionType` return are written by
their name. -/
theorem StructType_isNamed (name : String) (fields : List FieldInfo) (t : Ty)
    (h : StructType name fields = some t) : t.isNamed = true := by
  obtain ⟨_, _, rfl⟩ := (StructType_eq_some_iff name fields t).1 h
  unfold StructLayout.toType
  split <;> rfl

theorem UnionType_isNamed (name : String) (fields : List FieldInfo) (t : Ty)
    (h : UnionType name fields = some t) : t.isNamed = true := by
  obtain ⟨_, rfl⟩ := (UnionType_eq_some_iff name fields t).1 h
  unfold UnionLayout.toType
  split <;> rfl

/-- C14: for every type `T` that is written by its name (primitive, alias, enum,
struct or union) and renders as `n` on architecture `a`, and every count `k`, the
six combinations of `Const`, `Pointer` and `Array` around `T` have the names
`n *const`, `const n *`, `const n *const`, `n (*const)[k]`, `const n (*)[k]` and
`const n (*const)[k]`. -/
theorem Name_const_placement (T : Ty) (a : Arch) (n : String) (k : Nat)
    (hT : T.isNamed = true) (hn : T.Name a = some n) :
    (ConstType (PointerType T)).Name a = some (n ++ " *const") ∧
      (PointerType (ConstType T)).Name a = some ("const " ++ n ++ " *") ∧
      (ConstType (PointerType (ConstType T))).Name a = some ("const " ++ n ++ " *const") ∧
      (ConstType (PointerType (ArrayType T k))).Name a =
        some (n ++ " (*const)[" ++ toString k ++ "]") ∧
      (PointerType (ArrayType (ConstType T) k)).Name a =
        some ("const " ++ n ++ " (*)[" ++ toString k ++ "]") ∧
      (ConstType (PointerType (ArrayType (ConstType T) k))).Name a =
        some ("const " ++ n ++ " (*const)[" ++ toString k ++ "]") := by
  obtain ⟨hk1, hk2, hk3⟩ := Ty.isNamed_Kind T a hT
  have hd := fun v => Ty.isNamed_DeclareVar T a n v hT hn
  have e1 : " *" ++ "const" = " *const" := rfl
  refine ⟨?_, ?_, ?_, ?_, ?_, ?_⟩
  · simp [ConstType, PointerType, Ty.Name, Ty.DeclareVar, Ty.Kind, hk2, hk3, hn,
      String.append_assoc, e1]
  · simp [ConstType, PointerType, Ty.Name, Ty.Kind, hk1, hn]
  · simp [ConstType, PointerType, Ty.Name, Ty.DeclareVar, Ty.Kind, hk1, hn,
      String.append_assoc, e1]
  · simp only [ConstType, PointerType, ArrayType, Ty.Name, Ty.DeclareVar, Ty.Kind, hd,
      sprintfIndex, String.append_assoc, startsWithBracket, Option.map_some', if_true, or_false,
      true_or]
    rfl
  · simp only [ConstType, PointerType, ArrayType, Ty.Name, Ty.DeclareVar, Ty.Kind, hd, hk1,
      sprintfIndex, String.append_assoc, Option.map_some', if_true, if_false, or_false, true_or]
    rfl
  · simp only [ConstType, PointerType, ArrayType, Ty.Name, Ty.DeclareVar, Ty.Kind, hd, hk1,
      sprintfIndex, String.append_assoc, Option.map_some', if_true, if_false, or_false, true_or]
    rfl

/-- C14 on `int` with ten elements, the names of the package tests. -/
theorem Name_const_placement_witness :
    (ConstType (PointerType IntType)).Name FirstArch = some "int *const" ∧
      (PointerType (ConstType IntType)).Name FirstArch = some "const int *" ∧
      (ConstType (PointerType (ConstType IntType))).Name FirstArch = some "const int *const" ∧
      (ConstType (PointerType (ArrayType IntType 10))).Name FirstArch =
        some "int (*const)[10]" ∧
      (PointerType (ArrayType (ConstType IntType) 10)).Name FirstArch =
        some "const int (*)[10]" ∧
      (ConstType (PointerType (ArrayType (ConstType IntType) 10))).Name FirstArch =
        some "const int (*const)[10]" :=
  Name_const_placement IntType FirstArch "int" 10 rfl rfl

theorem declareParams_eq_some (a : Arch) : ∀ (params : List FieldInfo) (ps : List String),
    params.map (fun p => p.Typ.DeclareVar p.Name a) = ps.map some →
      declareParams params a = some ps
  | [], ps, h => by
    cases ps with
    | nil => rfl
    | cons s ss => simp at h
  | .mk name typ :: rest, ps, h => by
    cases ps with
    | nil => simp at h
    | cons s ss =>
      simp only [List.map_cons, List.cons.injEq, FieldInfo.Typ, FieldInfo.Name] at h
      simp only [declareParams, h.1, declareParams_eq_some a rest ss h.2]

/-- C15: when the parameters of a function type render as the declarations `ps`
on architecture `a`, the pointer to the function declares `x` as `void (*x)(P)` if
the result has kind `Void` and as the result's declaration of `(*x)(P)` otherwise,
where `P` is `ps` joined by `", "`; its name is the same with an empty `x`. -/
theorem DeclareVar_function_pointer (R : Ty) (params : List FieldInfo) (x : String) (a : Arch)
    (ps : List String)
    (hP : params.map (fun p => p.Typ.DeclareVar p.Name a) = ps.map some) :
    (PointerType (FunctionType R params)).DeclareVar x a =
        (if R.Kind a = Kind.Void then
          some ("void (*" ++ x ++ ")(" ++ ", ".intercalate ps ++ ")")
        else R.DeclareVar ("(*" ++ x ++ ")(" ++ ", ".intercalate ps ++ ")") a) ∧
      (PointerType (FunctionType R params)).Name a =
        (if R.Kind a = Kind.Void then some ("void (*)(" ++ ", ".intercalate ps ++ ")")
        else R.DeclareVar ("(*)(" ++ ", ".intercalate ps ++ ")") a) := by
  have hp := declareParams_eq_some a params ps hP
  constructor
  · simp only [PointerType, FunctionType, Ty.DeclareVar, Ty.Kind, or_true, if_true, hp,
      declareFunction, String.append_assoc]
    split <;> rfl
  · simp only [PointerType, FunctionType, Ty.Name, Ty.DeclareVar, Ty.Kind, or_true, if_true, hp,
      declareFunction, String.append_assoc]
    split <;> rfl

/-- C15 on the type of `signal`: its name is the one the package test expects. -/
theorem DeclareVar_function_pointer_witness :
    signal.Name FirstArch =
      some "void (*(*)(int sig2, void (*handler)(int sig3)))(int sig1)" :=
  (DeclareVar_function_pointer
    (PointerType (FunctionType VoidType [Field "sig1" IntType]))
    [Field "sig2" IntType,
     Field "handler" (PointerType (FunctionType VoidType [Field "sig3" IntType]))]
    "" FirstArch ["int sig2", "void (*handler)(int sig3)"] rfl).2

/-- C16 (failing input): `arrayType.DeclareVar` appends `[n]` to the finished
declaration of the element instead of declaring the element with the declarator
`x[n]`. An array of three pointers to functions is declared as `void (*x)()[3]`,
where the wrapped declarator gives `void (*x[3])()`; an array of four arrays of
three floats is declared as `float x[3][4]`, where the wrapped declarator gives
`float x[4][3]`. -/
theorem arrayType_DeclareVar_appends_suffix :
    (∀ (E : Ty) (n : Nat) (x : String) (a : Arch),
      (ArrayType E n).DeclareVar x a =
        (E.DeclareVar x a).map (fun s => s ++ "[" ++ toString n ++ "]")) ∧
      (ArrayType voidCallback 3).DeclareVar "x" Arch.Arm = some "void (*x)()[3]" ∧
      voidCallback.DeclareVar ("x" ++ "[3]") Arch.Arm = some "void (*x[3])()" ∧
      (ArrayType (ArrayType Float32Type 3) 4).DeclareVar "x" Arch.Arm = some "float x[3][4]" ∧
      (ArrayType Float32Type 3).DeclareVar ("x" ++ "[4]") Arch.Arm = some "float x[4][3]" :=
  ⟨fun _ _ _ _ => rfl, rfl, rfl, rfl, rfl⟩

/-- C17 (counterexample): declaring a variable of an opaque type, or of void,
panics. -/
theorem VkInstance_DeclareVar_panics :
    (OpaqueType "struct VkInstance_T").DeclareVar "x" Arch.Arm = none ∧
      VoidType.DeclareVar "x" Arch.Arm = none :=
  ⟨rfl, rfl⟩

/-- C17 (amended): for every opaque type with name `n`, and for void, `DeclareVar`
panics for every variable name and architecture, while `Name` and `BaseName`
return the name; a function type with result void is declared as
`void x(params)` without declaring a void variable; primitive, alias and enum
nodes are declared as `TypeName x`. -/
theorem opaqueType_DeclareVar_panics (n x : String) (a : Arch) :
    (OpaqueType n).DeclareVar x a = none ∧ VoidType.DeclareVar x a = none ∧
      (OpaqueType n).Name a = some n ∧ (OpaqueType n).BaseName a = some n ∧
      VoidType.Name a = some "void" ∧
      (FunctionType VoidType []).DeclareVar x a = some ("void " ++ x ++ "()") ∧
      (∀ (size align : Nat) (kind : Kind) (sign : Option Bool),
        (Ty.fixedType size align kind n sign).DeclareVar x a = some (n ++ " " ++ x)) ∧
      (∀ (base : Ty), (AliasType n base).DeclareVar x a = some (n ++ " " ++ x)) ∧
      (∀ (base : Ty) (values : List EnumFieldInfo),
        (EnumType n base values).DeclareVar x a = some (n ++ " " ++ x)) :=
  ⟨rfl, rfl, rfl, rfl, rfl,
    by
      simp only [FunctionType, VoidType, Ty.DeclareVar, declareFunction, declareParams, Ty.Kind,
        if_true, String.append_assoc]
      rfl,
    fun _ _ _ _ => rfl, fun _ => rfl, fun _ _ => rfl⟩

theorem StructType_fooStruct :
    StructType "Foo" [Field "i" UInt32TType] = some fooStruct := rfl

/-- C18 (failing input): `arrayType.BaseName` returns the `Name` of the element,
not its `BaseName`, so the marks of the element stay in the result: the base name
of an array of `int *` is `int *`, of an array of `const int` is `const int`, of
an array of `struct Foo` is `struct Foo`, while the base names of the elements
are `int`, `int` and `Foo`. Pointer and const nodes do pass on the base name of
what they wrap. -/
theorem arrayType_BaseName_keeps_marks :
    (∀ (E : Ty) (n : Nat) (a : Arch), (ArrayType E n).BaseName a = E.Name a) ∧
      (∀ (T : Ty) (a : Arch), (PointerType T).BaseName a = T.BaseName a) ∧
      (∀ (T : Ty) (a : Arch), (ConstType T).BaseName a = T.BaseName a) ∧
      (ArrayType (PointerType IntType) 3).BaseName Arch.Arm = some "int *" ∧
      (PointerType IntType).BaseName Arch.Arm = some "int" ∧
      (ArrayType (ConstType IntType) 3).BaseName Arch.Arm = some "const int" ∧
      (ConstType IntType).BaseName Arch.Arm = some "int" ∧
      (ArrayType fooStruct 1).BaseName Arch.Arm = some "struct Foo" ∧
      fooStruct.BaseName Arch.Arm = some "Foo" :=
  ⟨fun _ _ _ => rfl, fun _ _ => rfl, fun _ _ => rfl, rfl, rfl, rfl, rfl, rfl, rfl⟩

/-! ## Fields by kind -/

theorem getElem?_map_isSome {α β : Type} (l : List α) (f : α → β) (i : Nat) (h : i < l.length) :
    (l[i]?.map f).isSome = true := by
  simp [List.getElem?_eq_getElem h]

theorem toType_NumField_Field (name : String) (st : StructLayout) (a : Arch) :
    ∃ n, (st.toType name).NumField a = some n ∧
      ∀ i, i < n → ((st.toType name).Field i a).isSome = true := by
  unfold StructLayout.toType
  split <;> cases a <;>
    exact ⟨_, rfl, fun i hi => getElem?_map_isSome _ _ i hi⟩

theorem primitive_no_fields : ∀ t ∈ primitiveTypes, ∀ (a : Arch),
    isPrimitiveKind (t.Kind a) = true ∧ t.NumField a = none ∧ ∀ i, t.Field i a = none := by
  intro t ht a
  simp only [primitiveTypes, List.mem_cons, List.mem_singleton, List.not_mem_nil, or_false] at ht
  rcases ht with h | h | h | h | h | h | h | h | h | h | h | h | h | h | h | h | h | h | h | h |
    h | h | h | h | h | h | h | h <;> subst h <;> cases a <;>
    exact ⟨rfl, rfl, fun _ => rfl⟩

/-- C19 (counterexample): an array type answers `NumField` with its element count
and panics on `Field`. -/
theorem arrayType_Field_panics_example :
    (ArrayType IntType 3).Kind Arch.Arm = Kind.Array ∧
      (ArrayType IntType 3).NumField Arch.Arm = some 3 ∧
      (ArrayType IntType 3).Field 0 Arch.Arm = none :=
  ⟨rfl, rfl, rfl⟩

/-- C19 (amended): for every type the package can build and every architecture
`a`: if the kind on `a` is Struct, Union, Enum or Func, `NumField(a)` returns a
count `n` and `Field(i, a)` returns for every `i < n`; if the kind is Array,
`NumField(a)` returns and `Field(i, a)` panics for every `i`; for every other
kind both panic. -/
theorem NumField_Field_by_kind (t : Ty) (hb : Buildable t) (a : Arch) :
    (hasFieldsKind (t.Kind a) = true →
        ∃ n, t.NumField a = some n ∧ ∀ i, i < n → (t.Field i a).isSome = true) ∧
      (t.Kind a = Kind.Array → (t.NumField a).isSome = true ∧ ∀ i, t.Field i a = none) ∧
      (hasFieldsKind (t.Kind a) = false → t.Kind a ≠ Kind.Array →
        t.NumField a = none ∧ ∀ i, t.Field i a = none) := by
  induction hb generalizing a with
  | void => simp [VoidType, Ty.Kind, hasFieldsKind, Ty.NumField, Ty.Field]
  | primitive t ht =>
    obtain ⟨hk, hn, hf⟩ := primitive_no_fields t ht a
    refine ⟨fun h => ?_, fun h => ?_, fun _ _ => ⟨hn, hf⟩⟩
    · revert hk h; cases t.Kind a <;> simp [hasFieldsKind, isPrimitiveKind]
    · rw [h] at hk; cases hk
  | opaqueNamed name => simp [OpaqueType, Ty.Kind, hasFieldsKind, Ty.NumField, Ty.Field]
  | aliasOf name t _ _ => simp [AliasType, Ty.Kind, hasFieldsKind, Ty.NumField, Ty.Field]
  | archDependent t0 t1 t2 t3 t4 t5 _ _ _ _ _ _ ih0 ih1 ih2 ih3 ih4 ih5 =>
    cases a <;> simp only [ArchDependentType, Ty.Kind, Ty.NumField, Ty.Field]
    · exact ih0 _
    · exact ih1 _
    · exact ih2 _
    · exact ih3 _
    · exact ih4 _
    · exact ih5 _
  | const t _ _ => simp [ConstType, Ty.Kind, hasFieldsKind, Ty.NumField, Ty.Field]
  | pointer t _ _ => simp [PointerType, Ty.Kind, hasFieldsKind, Ty.NumField, Ty.Field]
  | function result params _ _ _ _ =>
    refine ⟨fun _ => ⟨_, rfl, fun i hi => getElem?_map_isSome _ _ i hi⟩, ?_, ?_⟩ <;>
      simp [FunctionType, Ty.Kind, hasFieldsKind]
  | array t size _ _ => simp [ArrayType, Ty.Kind, hasFieldsKind, Ty.NumField, Ty.Field]
  | struct name fields t _ ht _ =>
    obtain ⟨_, _, rfl⟩ := (StructType_eq_some_iff name fields t).1 ht
    rw [toType_Kind]
    refine ⟨fun _ => toType_NumField_Field _ _ a, ?_, ?_⟩ <;> simp [hasFieldsKind]
  | union name fields t _ ht _ =>
    obtain ⟨_, rfl⟩ := (UnionType_eq_some_iff name fields t).1 ht
    rw [union_toType_Kind]
    refine ⟨fun _ => ⟨_, union_toType_NumField _ _ _ a, fun i hi => ?_⟩, ?_, ?_⟩
    · rw [union_toType_Field]
      exact getElem?_map_isSome _ _ i hi
    · simp
    · simp [hasFieldsKind]
  | enum name basetype values _ _ _ _ =>
    refine ⟨fun _ => ⟨_, rfl, fun i hi => getElem?_map_isSome _ _ i hi⟩, ?_, ?_⟩ <;>
      simp [EnumType, Ty.Kind, hasFieldsKind]

/-- C19 (amended) on the struct of the package test, on an array and on `int`. -/
theorem NumField_Field_by_kind_witness :
    (∃ n, fooStruct.NumField Arch.Arm = some n ∧
        ∀ i, i < n → (fooStruct.Field i Arch.Arm).isSome = true) ∧
      ((ArrayType IntType 3).NumField Arch.Arm).isSome = true ∧
      (∀ i, (ArrayType IntType 3).Field i Arch.Arm = none) ∧
      IntType.NumField Arch.Arm = none ∧ (∀ i, IntType.Field i Arch.Arm = none) :=
  ⟨(NumField_Field_by_kind fooStruct
      (Buildable.struct "Foo" [Field "i" UInt32TType] fooStruct
        (fun f hf => by
          simp only [List.mem_singleton] at hf
          subst hf
          exact Buildable.primitive UInt32TType (by simp [primitiveTypes]))
        StructType_fooStruct) Arch.Arm).1 rfl,
    ((NumField_Field_by_kind (ArrayType IntType 3)
      (Buildable.array IntType 3 (Buildable.primitive IntType (by simp [primitiveTypes])))
      Arch.Arm).2.1 rfl).1,
    ((NumField_Field_by_kind (ArrayType IntType 3)
      (Buildable.array IntType 3 (Buildable.primitive IntType (by simp [primitiveTypes])))
      Arch.Arm).2.1 rfl).2,
    ((NumField_Field_by_kind IntType (Buildable.primitive IntType (by simp [primitiveTypes]))
      Arch.Arm).2.2 rfl (by decide)).1,
    ((NumField_Field_by_kind IntType (Buildable.primitive IntType (by simp [primitiveTypes]))
      Arch.Arm).2.2 rfl (by decide)).2⟩

/-! ## The primitive table: alignment against size -/

/-- C20 (counterexample): `unsigned long long` is a fifth primitive type whose
alignment on x86, 32, differs from its size, 64. -/
theorem ULongLongType_align_differs_on_x86 :
    ULongLongType ∈ primitiveTypes ∧ ULongLongType.Kind Arch.X86 = Kind.ULongLong ∧
      ULongLongType.Name Arch.X86 = some "unsigned long long" ∧
      ULongLongType.Bits Arch.X86 = some 64 ∧ ULongLongType.Align Arch.X86 = some 32 :=
  ⟨by simp [primitiveTypes], rfl, rfl, rfl, rfl⟩

/-- C20 (amended): over the primitive types of the package and the six
architectures, every type has a size and an alignment, and the alignment differs
from the size exactly on x86 for the five types `long long`,
`unsigned long long`, `int64_t`, `uint64_t` and `double`, which there have size 64
and alignment 32. -/
theorem primitive_align_differs_only_on_x86 (t : Ty) (ht : t ∈ primitiveTypes) (a : Arch) :
    (t.Bits a).isSome = true ∧ (t.Align a).isSome = true ∧
      (t.Align a ≠ t.Bits a ↔ a = Arch.X86 ∧ isUnderAlignedKind (t.Kind a) = true) ∧
      (t.Align a ≠ t.Bits a → t.Bits a = some 64 ∧ t.Align a = some 32) := by
  simp only [primitiveTypes, List.mem_cons, List.mem_singleton, List.not_mem_nil, or_false] at ht
  rcases ht with h | h | h | h | h | h | h | h | h | h | h | h | h | h | h | h | h | h | h | h |
    h | h | h | h | h | h | h | h <;> subst h <;> cases a <;> decide

/-- C20 (amended) on `double`: size 64 and alignment 32 on x86, alignment 64 on x86-64. -/
theorem primitive_align_differs_only_on_x86_witness :
    (Float64Type.Bits Arch.X86 = some 64 ∧ Float64Type.Align Arch.X86 = some 32) ∧
      ¬ (Float64Type.Align Arch.X86_64 ≠ Float64Type.Bits Arch.X86_64) :=
  ⟨(primitive_align_differs_only_on_x86 Float64Type (by simp [primitiveTypes]) Arch.X86).2.2.2
      (by decide),
    fun h => absurd
      ((primitive_align_differs_only_on_x86 Float64Type (by simp [primitiveTypes])
        Arch.X86_64).2.2.1.1 h).1 (by decide)⟩

/-! ## Pointer patching -/

theorem foldlM_unit_eq_some (body : Arch → Option Unit) (l : List Arch) :
    l.foldlM (fun _ arch => body arch) () = some () ↔ ∀ a ∈ l, body a = some () := by
  induction l with
  | nil => simp
  | cons a l ih =>
    rw [List.foldlM_cons]
    cases hb : body a with
    | none => simp [hb]
    | some u => simp [hb, ih]

theorem checkEachArch_eq_some (body : Arch → Option Unit) :
    checkEachArch body = some () ↔ ∀ a, body a = some () := by
  unfold checkEachArch
  rw [foldlM_unit_eq_some]
  exact ⟨fun h a => h a (mem_all a), fun h a _ => h a⟩

theorem checkStructural_eq_some (k : Kind) :
    checkStructural k = some () ↔ k = Kind.Struct ∨ k = Kind.Union := by
  unfold checkStructural
  by_cases h1 : k = Kind.Struct
  · simp [h1]
  · by_cases h2 : k = Kind.Union
    · simp [h2]
    · simp [h1, h2]

theorem replaceElemTurn_eq_some (store : Store) (pointee pointee_type : Node) (a : Arch) :
    replaceElemTurn store pointee pointee_type a = some () ↔
      replaceable store pointee pointee_type a := by
  unfold replaceElemTurn replaceable isConstOpaque
  by_cases hc : pointee.Kind a = Kind.Const
  · simp only [hc, if_true]
    cases he : pointee.Elem store a with
    | none => simp
    | some e =>
      by_cases ho : e.Kind a = Kind.Opaque
      · by_cases hp : pointee_type.Kind a = Kind.Const
        · cases hq : pointee_type.Elem store a with
          | none => simp [ho, hp]
          | some q => simp [ho, hp, checkStructural_eq_some]
        · simp [ho, hp]
      · simp [ho]
  · by_cases ho : pointee.Kind a = Kind.Opaque
    · simp [hc, ho, checkStructural_eq_some]
    · simp [hc, ho]

theorem ReplaceElem_of_replaceable (store : Store) (address : Nat) (pointee pointee_type : Node)
    (h : store[address]? = some pointee)
    (hall : ∀ a, replaceable store pointee pointee_type a) :
    ReplaceElem store address pointee_type = (some (), store.set address pointee_type) := by
  unfold ReplaceElem
  simp only [h]
  have := (checkEachArch_eq_some _).2 (fun a => (replaceElemTurn_eq_some _ _ _ a).2 (hall a))
  rw [this]

theorem ReplaceElem_of_not_replaceable (store : Store) (address : Nat)
    (pointee pointee_type : Node) (h : store[address]? = some pointee)
    (hall : ¬ ∀ a, replaceable store pointee pointee_type a) :
    ReplaceElem store address pointee_type = (none, store) := by
  unfold ReplaceElem
  simp only [h]
  cases hc : checkEachArch (replaceElemTurn store pointee pointee_type) with
  | none => rfl
  | some u =>
    exact absurd (fun a => (replaceElemTurn_eq_some _ _ _ a).1 ((checkEachArch_eq_some _).1 hc a))
      hall

/-- A call of `ReplaceElem` that panics leaves the store as it was. -/
theorem ReplaceElem_panic_store (store : Store) (address : Nat) (pointee_type : Node)
    (h : (ReplaceElem store address pointee_type).1 = none) :
    (ReplaceElem store address pointee_type).2 = store := by
  unfold ReplaceElem at h ⊢
  cases hs : store[address]? with
  | none => rfl
  | some pointee =>
    simp only [hs] at h ⊢
    cases hc : checkEachArch (replaceElemTurn store pointee pointee_type) with
    | none => rfl
    | some u => simp [hc] at h

/-- C12: `ReplaceElem(p)` on the pointer node at `address`, whose pointee is
`pointee`, returns if and only if on every architecture either `pointee` has kind
Opaque and `p` kind Struct or Union, or `pointee` is Const of an Opaque type and
`p` is Const of a type of kind Struct or Union; in every other case it panics;
after a call that returns, `Elem(a)` of the pointer node is `p` on every
architecture. -/
theorem ReplaceElem_succeeds_iff (store : Store) (address : Nat) (pointee p : Node)
    (h : store[address]? = some pointee) :
    ((ReplaceElem store address p).1 = some () ↔ ∀ a, replaceable store pointee p a) ∧
      ((¬ ∀ a, replaceable store pointee p a) → (ReplaceElem store address p).1 = none) ∧
      ((ReplaceElem store address p).1 = some () →
        ∀ a, (Node.pointerType address).Elem (ReplaceElem store address p).2 a = some p) := by
  by_cases hall : ∀ a, replaceable store pointee p a
  · rw [ReplaceElem_of_replaceable store address pointee p h hall]
    refine ⟨⟨fun _ => hall, fun _ => rfl⟩, fun hn => absurd hall hn, fun _ a => ?_⟩
    have hlt : address < store.length := by
      rcases List.getElem?_eq_some.1 h with ⟨hlt, _⟩
      exact hlt
    simp [Node.Elem, List.getElem?_set, hlt]
  · rw [ReplaceElem_of_not_replaceable store address pointee p h hall]
    exact ⟨⟨fun hs => (nomatch hs), fun ha => absurd ha hall⟩, fun _ => rfl,
      fun hs => (nomatch hs)⟩

theorem baseInDeclared_replaceable (a : Arch) :
    replaceable baseInDeclared (Node.constType (Node.opaqueType Kind.Opaque "struct VkBaseInStructure"))
      (Node.constType baseIn) a :=
  Or.inr ⟨rfl, ⟨_, rfl, rfl⟩, rfl, ⟨_, rfl, Or.inl (by cases a <;> rfl)⟩⟩

/-- C12 on `VkBaseInStructure`: the pointer node of `pNext`, declared with a const
opaque pointee, accepts the const struct and then has it as its element; it
rejects the struct without const. -/
theorem ReplaceElem_succeeds_iff_witness :
    (ReplaceElem baseInDeclared 0 (Node.constType baseIn)).1 = some () ∧
      (∀ a, (Node.pointerType 0).Elem (ReplaceElem baseInDeclared 0 (Node.constType baseIn)).2 a =
        some (Node.constType baseIn)) ∧
      (ReplaceElem baseInDeclared 0 baseIn).1 = none :=
  ⟨(ReplaceElem_succeeds_iff baseInDeclared 0 _ (Node.constType baseIn) rfl).1.2
      baseInDeclared_replaceable,
    (ReplaceElem_succeeds_iff baseInDeclared 0 _ (Node.constType baseIn) rfl).2.2
      ((ReplaceElem_succeeds_iff baseInDeclared 0 _ (Node.constType baseIn) rfl).1.2
        baseInDeclared_replaceable),
    (ReplaceElem_succeeds_iff baseInDeclared 0 _ baseIn rfl).2.1 (fun hall => by
      rcases hall Arch.Arm with ⟨h, _⟩ | ⟨_, _, h, _⟩ <;> exact absurd h (by decide))⟩

theorem Node.Elem_of_const (s1 s2 : Store) : ∀ (t : Node) (a : Arch), t.Kind a = Kind.Const →
    t.Elem s1 a = t.Elem s2 a
  | .archDependentType t0 t1 t2 t3 t4 t5, a, h => by
    cases a <;> simp only [Node.Kind] at h <;> simp only [Node.Elem]
    · exact Node.Elem_of_const s1 s2 t0 _ h
    · exact Node.Elem_of_const s1 s2 t1 _ h
    · exact Node.Elem_of_const s1 s2 t2 _ h
    · exact Node.Elem_of_const s1 s2 t3 _ h
    · exact Node.Elem_of_const s1 s2 t4 _ h
    · exact Node.Elem_of_const s1 s2 t5 _ h
  | .opaqueType _ _, _, _ => rfl
  | .aliasType _ _, _, _ => rfl
  | .fixedType _ _ _ _ _, _, _ => rfl
  | .constType _, _, _ => rfl
  | .pointerType _, _, h => by simp [Node.Kind] at h
  | .functionType _ _, _, _ => rfl
  | .arrayType _ _, _, _ => rfl
  | .structType _ _ _ _, _, _ => rfl
  | .unionType _ _ _ _, _, _ => rfl
  | .enumType _ _ _, _, _ => rfl

/-- A pointee that `ReplaceElem` has accepted is not replaceable itself. -/
theorem not_replaceable_of_replaceable (store later : Store) (pointee p q : Node)
    (h : replaceable store pointee p Arch.Arm) : ¬ replaceable later p q Arch.Arm := by
  intro h2
  rcases h with ⟨_, hs | hu⟩ | ⟨_, _, hc, e, he, hs | hu⟩
  · rcases h2 with ⟨h3, _⟩ | ⟨h3, _⟩ <;> rw [hs] at h3 <;> cases h3
  · rcases h2 with ⟨h3, _⟩ | ⟨h3, _⟩ <;> rw [hu] at h3 <;> cases h3
  · rcases h2 with ⟨h3, _⟩ | ⟨_, ⟨e2, he2, ho⟩, _⟩
    · rw [hc] at h3; cases h3
    · rw [Node.Elem_of_const later store p _ hc, he] at he2
      cases he2; rw [hs] at ho; cases ho
  · rcases h2 with ⟨h3, _⟩ | ⟨_, ⟨e2, he2, ho⟩, _⟩
    · rw [hc] at h3; cases h3
    · rw [Node.Elem_of_const later store p _ hc, he] at he2
      cases he2; rw [hu] at ho; cases ho

theorem ReplaceElem_success (store : Store) (address : Nat) (p : Node)
    (h : (ReplaceElem store address p).1 = some ()) :
    ∃ pointee, store[address]? = some pointee ∧ (∀ a, replaceable store pointee p a) ∧
      (ReplaceElem store address p).2 = store.set address p := by
  cases hs : store[address]? with
  | none => simp [ReplaceElem, hs] at h
  | some pointee =>
    by_cases hall : ∀ a, replaceable store pointee p a
    · exact ⟨pointee, rfl, hall, by rw [ReplaceElem_of_replaceable store address pointee p hs hall]⟩
    · rw [ReplaceElem_of_not_replaceable store address pointee p hs hall] at h
      cases h

/-- Once `ReplaceElem` has returned on a pointer node, the node keeps its pointee
in every later store. -/
theorem Store.Later.pointee_kept (store : Store) (address : Nat) (p : Node)
    (h : (ReplaceElem store address p).1 = some ()) (later : Store)
    (hl : Store.Later (ReplaceElem store address p).2 later) : later[address]? = some p := by
  obtain ⟨pointee, hs, hall, hset⟩ := ReplaceElem_success store address p h
  have hlt : address < store.length := (List.getElem?_eq_some.1 hs).1
  induction hl with
  | now => rw [hset]; simp [List.getElem?_set, hlt]
  | pointer later1 pointee_type _ ih =>
    have hlt1 : address < later1.length := (List.getElem?_eq_some.1 ih).1
    simp only [Store.PointerType]
    rw [List.getElem?_append_left hlt1]
    exact ih
  | replaceElem later1 address1 q _ ih =>
    cases hr : (ReplaceElem later1 address1 q).1 with
    | none => rw [ReplaceElem_panic_store later1 address1 q hr]; exact ih
    | some u =>
      obtain ⟨pointee1, hs1, hall1, hset1⟩ := ReplaceElem_success later1 address1 q hr
      rw [hset1]
      by_cases hne : address1 = address
      · subst hne
        rw [ih] at hs1
        cases hs1
        exact absurd (hall1 Arch.Arm) (not_replaceable_of_replaceable _ _ _ _ _ (hall Arch.Arm))
      · rw [List.getElem?_set_ne hne]
        exact ih

/-- C13: after a call of `ReplaceElem` on a pointer node has returned, every
further call of `ReplaceElem` on that node, in whatever store the program has
reached by then, panics; and a call of `ReplaceElem` that panics leaves the
element of the pointer node as it was. -/
theorem ReplaceElem_at_most_once (store : Store) (address : Nat) (p : Node)
    (h : (ReplaceElem store address p).1 = some ()) (later : Store)
    (hl : Store.Later (ReplaceElem store address p).2 later) (q : Node) :
    (ReplaceElem later address q).1 = none ∧
      (∀ a, (Node.pointerType address).Elem (ReplaceElem later address q).2 a = some p) ∧
      ∀ (s : Store) (c : Nat) (r : Node), (ReplaceElem s c r).1 = none →
        ∀ a, (Node.pointerType c).Elem (ReplaceElem s c r).2 a = (Node.pointerType c).Elem s a := by
  have hk := Store.Later.pointee_kept store address p h later hl
  obtain ⟨pointee, _, hall, _⟩ := ReplaceElem_success store address p h
  have hn : ReplaceElem later address q = (none, later) :=
    ReplaceElem_of_not_replaceable later address p q hk
      (fun h2 => not_replaceable_of_replaceable _ _ _ _ _ (hall Arch.Arm) (h2 Arch.Arm))
  refine ⟨by rw [hn], fun a => by rw [hn]; exact hk, fun s c r hr a => ?_⟩
  rw [ReplaceElem_panic_store s c r hr]

/-- C13 on `VkBaseInStructure`: after the pointer node of `pNext` has received the
const struct, a second call with the same argument panics and changes nothing. -/
theorem ReplaceElem_at_most_once_witness :
    (ReplaceElem baseInDeclared 0 (Node.constType baseIn)).1 = some () ∧
      (ReplaceElem (ReplaceElem baseInDeclared 0 (Node.constType baseIn)).2 0
        (Node.constType baseIn)).1 = none ∧
      ∀ a, (Node.pointerType 0).Elem
        (ReplaceElem (ReplaceElem baseInDeclared 0 (Node.constType baseIn)).2 0
          (Node.constType baseIn)).2 a = some (Node.constType baseIn) :=
  ⟨rfl,
    (ReplaceElem_at_most_once baseInDeclared 0 (Node.constType baseIn) rfl _ Store.Later.now
      (Node.constType baseIn)).1,
    (ReplaceElem_at_most_once baseInDeclared 0 (Node.constType baseIn) rfl _ Store.Later.now
      (Node.constType baseIn)).2.1⟩

/-! ## Type graphs: the nodes inside a node -/

theorem mem_fieldsInner (f : NodeFieldInfo) :
    ∀ (fields : List NodeFieldInfo), f ∈ fields → f.Typ.subterms ⊆ fieldsInner fields
  | [], h => by cases h
  | g :: rest, h => by
    rcases List.mem_cons.1 h with rfl | h
    · cases f with
      | mk n t =>
        intro s hs
        simp only [fieldsInner, NodeFieldInfo.inner, List.mem_append]
        exact Or.inl hs
    · intro s hs
      simp only [fieldsInner, List.mem_append]
      exact Or.inr (mem_fieldsInner f rest h hs)

theorem mem_structFieldsInner (f : NodeStructFieldInfo) :
    ∀ (fields : List NodeStructFieldInfo), f ∈ fields →
      f.Typ.subterms ⊆ structFieldsInner fields
  | [], h => by cases h
  | g :: rest, h => by
    rcases List.mem_cons.1 h with rfl | h
    · cases f with
      | mk b o =>
        cases b with
        | mk n t =>
          intro s hs
          simp only [structFieldsInner, NodeStructFieldInfo.inner, NodeFieldInfo.inner,
            List.mem_append]
          exact Or.inl hs
    · intro s hs
      simp only [structFieldsInner, List.mem_append]
      exact Or.inr (mem_structFieldsInner f rest h hs)

theorem mem_enumFieldsInner (f : NodeEnumFieldInfo) :
    ∀ (fields : List NodeEnumFieldInfo), f ∈ fields → f.Typ.subterms ⊆ enumFieldsInner fields
  | [], h => by cases h
  | g :: rest, h => by
    rcases List.mem_cons.1 h with rfl | h
    · cases f with
      | mk n t al v =>
        intro s hs
        simp only [enumFieldsInner, NodeEnumFieldInfo.inner, List.mem_append]
        exact Or.inl hs
    · intro s hs
      simp only [enumFieldsInner, List.mem_append]
      exact Or.inr (mem_enumFieldsInner f rest h hs)

theorem Node.Child.subterms_subset {c t : Node} (h : Node.Child c t) :
    c.subterms ⊆ t.inner := by
  cases h with
  | aliasBase name base_type => exact fun s hs => hs
  | variant a t0 t1 t2 t3 t4 t5 =>
    intro s hs
    cases a <;> simp only [Arch.pick, Node.subterms] at hs <;>
      simp only [Node.inner, List.mem_append] <;> tauto
  | constBase base => exact fun s hs => hs
  | result result params =>
    intro s hs
    simp only [Node.inner, List.mem_append]
    exact Or.inl hs
  | param result params f hf =>
    intro s hs
    simp only [Node.inner, List.mem_append]
    exact Or.inr (mem_fieldsInner f params hf hs)
  | elem elem size => exact fun s hs => hs
  | structField name fields align bits f hf => exact mem_structFieldsInner f fields hf
  | unionField name fields align bits f hf => exact mem_fieldsInner f fields hf
  | basetype name basetype fields =>
    intro s hs
    simp only [Node.inner, List.mem_append]
    exact Or.inl hs
  | enumField name basetype fields f hf =>
    intro s hs
    simp only [Node.inner, List.mem_append]
    exact Or.inr (mem_enumFieldsInner f fields hf hs)

theorem Node.Within.subterms_within {s t : Node} (h : Node.Within s t) :
    s.subterms ⊆ t.subterms := by
  induction h with
  | self => exact fun x hx => hx
  | step c t hc _ ih =>
    exact fun x hx => List.mem_cons_of_mem _ (hc.subterms_subset (ih hx))

theorem Node.Within.trans {s c t : Node} (h1 : Node.Within s c) (h2 : Node.Within c t) :
    Node.Within s t := by
  induction h2 with
  | self => exact h1
  | step d t hd _ ih => exact Node.Within.step d t hd ih

theorem Node.Child.within {c t : Node} (h : Node.Child c t) : Node.Within c t :=
  Node.Within.step c t h Node.Within.self

theorem Node.Elem_within (store : Store) : ∀ (t : Node) (a : Arch) (e : Node),
    t.Elem store a = some e → Node.Within e t ∨ e ∈ store
  | .archDependentType t0 t1 t2 t3 t4 t5, a, e, h => by
    have key : ∀ (b : Arch) (u : Node), u = b.pick t0 t1 t2 t3 t4 t5 →
        (Node.Within e u ∨ e ∈ store) →
        Node.Within e (Node.archDependentType t0 t1 t2 t3 t4 t5) ∨ e ∈ store := by
      intro b u hu hw
      rcases hw with hw | hw
      · subst hu
        exact Or.inl (hw.trans (Node.Child.variant b t0 t1 t2 t3 t4 t5).within)
      · exact Or.inr hw
    cases a <;> simp only [Node.Elem] at h
    · exact key Arch.Arm t0 rfl (Node.Elem_within store t0 _ e h)
    · exact key Arch.Arm64 t1 rfl (Node.Elem_within store t1 _ e h)
    · exact key Arch.Riscv32 t2 rfl (Node.Elem_within store t2 _ e h)
    · exact key Arch.Riscv64 t3 rfl (Node.Elem_within store t3 _ e h)
    · exact key Arch.X86 t4 rfl (Node.Elem_within store t4 _ e h)
    · exact key Arch.X86_64 t5 rfl (Node.Elem_within store t5 _ e h)
  | .aliasType n b, _, e, h => by
    simp only [Node.Elem, Option.some.injEq] at h; subst h
    exact Or.inl (Node.Child.aliasBase n _).within
  | .constType b, _, e, h => by
    simp only [Node.Elem, Option.some.injEq] at h; subst h
    exact Or.inl (Node.Child.constBase _).within
  | .pointerType c, _, e, h => by
    simp only [Node.Elem] at h
    exact Or.inr (List.getElem?_mem h)
  | .functionType r ps, _, e, h => by
    simp only [Node.Elem, Option.some.injEq] at h; subst h
    exact Or.inl (Node.Child.result _ ps).within
  | .arrayType el n, _, e, h => by
    simp only [Node.Elem, Option.some.injEq] at h; subst h
    exact Or.inl (Node.Child.elem _ n).within
  | .enumType n b fs, _, e, h => by
    simp only [Node.Elem, Option.some.injEq] at h; subst h
    exact Or.inl (Node.Child.basetype n _ fs).within
  | .opaqueType _ _, _, _, h => by simp [Node.Elem] at h
  | .fixedType _ _ _ _ _, _, _, h => by simp [Node.Elem] at h
  | .structType _ _ _ _, _, _, h => by simp [Node.Elem] at h
  | .unionType _ _ _ _, _, _, h => by simp [Node.Elem] at h

theorem Node.Field_within : ∀ (t : Node) (i : Nat) (a : Arch) (f : NodeAnyFieldInfo),
    t.Field i a = some f → Node.Within f.Typ t
  | .archDependentType t0 t1 t2 t3 t4 t5, i, a, f, h => by
    cases a <;> simp only [Node.Field] at h
    · exact (Node.Field_within t0 i _ f h).trans
        (Node.Child.variant Arch.Arm t0 t1 t2 t3 t4 t5).within
    · exact (Node.Field_within t1 i _ f h).trans
        (Node.Child.variant Arch.Arm64 t0 t1 t2 t3 t4 t5).within
    · exact (Node.Field_within t2 i _ f h).trans
        (Node.Child.variant Arch.Riscv32 t0 t1 t2 t3 t4 t5).within
    · exact (Node.Field_within t3 i _ f h).trans
        (Node.Child.variant Arch.Riscv64 t0 t1 t2 t3 t4 t5).within
    · exact (Node.Field_within t4 i _ f h).trans
        (Node.Child.variant Arch.X86 t0 t1 t2 t3 t4 t5).within
    · exact (Node.Field_within t5 i _ f h).trans
        (Node.Child.variant Arch.X86_64 t0 t1 t2 t3 t4 t5).within
  | .functionType r ps, i, _, f, h => by
    simp only [Node.Field, Option.map_eq_some'] at h
    obtain ⟨x, hx, rfl⟩ := h
    exact (Node.Child.param r ps x (List.getElem?_mem hx)).within
  | .structType n fs al b, i, _, f, h => by
    simp only [Node.Field, Option.map_eq_some'] at h
    obtain ⟨x, hx, rfl⟩ := h
    exact (Node.Child.structField n fs al b x (List.getElem?_mem hx)).within
  | .unionType n fs al b, i, _, f, h => by
    simp only [Node.Field, Option.map_eq_some'] at h
    obtain ⟨x, hx, rfl⟩ := h
    exact (Node.Child.unionField n fs al b x (List.getElem?_mem hx)).within
  | .enumType n bt fs, i, _, f, h => by
    simp only [Node.Field, Option.map_eq_some'] at h
    obtain ⟨x, hx, rfl⟩ := h
    exact (Node.Child.enumField n bt fs x (List.getElem?_mem hx)).within
  | .opaqueType _ _, _, _, _, h => by simp [Node.Field] at h
  | .aliasType _ _, _, _, _, h => by simp [Node.Field] at h
  | .fixedType _ _ _ _ _, _, _, _, h => by simp [Node.Field] at h
  | .constType _, _, _, _, h => by simp [Node.Field] at h
  | .pointerType _, _, _, _, h => by simp [Node.Field] at h
  | .arrayType _ _, _, _, _, h => by simp [Node.Field] at h

theorem Node.Name_mem_names (t : Node) (a : Arch) (n : String) (h : t.Name a = some n) :
    n ∈ t.names := by
  unfold Node.names
  exact List.mem_filterMap.2 ⟨a, mem_all a, h⟩

/-- A node of kind `Opaque`, `Struct` or `Union` carries its name. -/
theorem Node.Name_isSome : ∀ (t : Node) (a : Arch),
    t.Kind a = Kind.Opaque ∨ t.Kind a = Kind.Struct ∨ t.Kind a = Kind.Union →
      (t.Name a).isSome = true
  | .archDependentType t0 t1 t2 t3 t4 t5, a, h => by
    cases a <;> simp only [Node.Kind] at h <;> simp only [Node.Name]
    · exact Node.Name_isSome t0 _ h
    · exact Node.Name_isSome t1 _ h
    · exact Node.Name_isSome t2 _ h
    · exact Node.Name_isSome t3 _ h
    · exact Node.Name_isSome t4 _ h
    · exact Node.Name_isSome t5 _ h
  | .opaqueType _ _, _, _ => rfl
  | .aliasType _ _, _, _ => rfl
  | .fixedType _ _ _ _ _, _, _ => rfl
  | .structType _ _ _ _, _, _ => rfl
  | .unionType _ _ _ _, _, _ => rfl
  | .enumType _ _ _, _, _ => rfl
  | .constType _, _, h => by simp [Node.Kind] at h
  | .pointerType _, _, h => by simp [Node.Kind] at h
  | .functionType _ _, _, h => by simp [Node.Kind] at h
  | .arrayType _ _, _, h => by simp [Node.Kind] at h

/-! ## Type graphs: potentials -/

theorem Node.potential_Elem (store : Store) (weight : Nat → Nat)
    (hr : store.RankedBy weight) : ∀ (t : Node) (a : Arch) (e : Node),
    t.Elem store a = some e → e.potential weight < t.potential weight
  | .archDependentType t0 t1 t2 t3 t4 t5, a, e, h => by
    have key : ∀ (u : Node), e.potential weight < u.potential weight →
        u.potential weight ∈ [t0.potential weight, t1.potential weight, t2.potential weight,
          t3.potential weight, t4.potential weight, t5.potential weight] →
        e.potential weight < (Node.archDependentType t0 t1 t2 t3 t4 t5).potential weight :=
      fun u hu hm => lt_of_lt_of_le hu (le_maxOf _ _ hm)
    cases a <;> simp only [Node.Elem] at h
    · exact key t0 (Node.potential_Elem store weight hr t0 _ e h) (by simp)
    · exact key t1 (Node.potential_Elem store weight hr t1 _ e h) (by simp)
    · exact key t2 (Node.potential_Elem store weight hr t2 _ e h) (by simp)
    · exact key t3 (Node.potential_Elem store weight hr t3 _ e h) (by simp)
    · exact key t4 (Node.potential_Elem store weight hr t4 _ e h) (by simp)
    · exact key t5 (Node.potential_Elem store weight hr t5 _ e h) (by simp)
  | .aliasType n b, _, e, h => by
    simp only [Node.Elem, Option.some.injEq] at h; subst h
    simp [Node.potential]
  | .constType b, _, e, h => by
    simp only [Node.Elem, Option.some.injEq] at h; subst h
    simp [Node.potential]
  | .pointerType c, _, e, h => by
    simp only [Node.Elem] at h
    have := (hr c e h).1
    simp only [Node.potential]
    omega
  | .functionType r ps, _, e, h => by
    simp only [Node.Elem, Option.some.injEq] at h; subst h
    simp [Node.potential]
  | .arrayType el n, _, e, h => by
    simp only [Node.Elem, Option.some.injEq] at h; subst h
    simp [Node.potential]
  | .enumType n b fs, _, e, h => by
    simp only [Node.Elem, Option.some.injEq] at h; subst h
    simp [Node.potential]
  | .opaqueType _ _, _, _, h => by simp [Node.Elem] at h
  | .fixedType _ _ _ _ _, _, _, h => by simp [Node.Elem] at h
  | .structType _ _ _ _, _, _, h => by simp [Node.Elem] at h
  | .unionType _ _ _ _, _, _, h => by simp [Node.Elem] at h

/-! ## Type graphs: the nodes the check can reach -/

theorem reachable_Elem (store : Store) (root t e : Node) (a : Arch)
    (ht : reachable store root t) (h : t.Elem store a = some e) : reachable store root e := by
  obtain ⟨u, hu, hw⟩ := ht
  rcases Node.Elem_within store t a e h with h1 | h1
  · exact ⟨u, hu, h1.trans hw⟩
  · exact ⟨e, List.mem_cons_of_mem _ h1, Node.Within.self⟩

theorem reachable_mem_allSubterms (store : Store) (root t : Node)
    (ht : reachable store root t) : t ∈ allSubterms store root := by
  obtain ⟨u, hu, hw⟩ := ht
  unfold allSubterms
  exact List.mem_flatMap.2 ⟨u, hu, hw.subterms_within (List.mem_cons_self _ _)⟩

theorem reachable_potential (store : Store) (weight : Nat → Nat) (root t : Node)
    (ht : reachable store root t) : t.potential weight ≤ potentialBound store weight root :=
  le_maxOf _ _ (List.mem_map.2 ⟨t, reachable_mem_allSubterms store root t ht, rfl⟩)

theorem reachable_Field (store : Store) (root t : Node) (i : Nat) (a : Arch)
    (f : NodeAnyFieldInfo) (ht : reachable store root t) (h : t.Field i a = some f) :
    reachable store root f.Typ := by
  obtain ⟨u, hu, hw⟩ := ht
  exact ⟨u, hu, (Node.Field_within t i a f h).trans hw⟩

theorem reachable_Name (store : Store) (root t : Node) (a : Arch) (n : String)
    (ht : reachable store root t) (h : t.Name a = some n) : n ∈ allNames store root := by
  unfold allNames
  exact List.mem_flatMap.2 ⟨t, reachable_mem_allSubterms store root t ht,
    Node.Name_mem_names t a n h⟩

/-! ## Type graphs: the measure of the check -/

theorem addsKeys_refl (ps : List String) : addsKeys ps ps :=
  ⟨⟨[], rfl⟩, fun h => h⟩

theorem addsKeys_trans {ps1 ps2 ps3 : List String} (h1 : addsKeys ps1 ps2)
    (h2 : addsKeys ps2 ps3) : addsKeys ps1 ps3 := by
  obtain ⟨⟨l1, rfl⟩, n1⟩ := h1
  obtain ⟨⟨l2, rfl⟩, n2⟩ := h2
  exact ⟨⟨l2 ++ l1, by simp⟩, fun h => n2 (n1 h)⟩

theorem addsKeys_cons (name : String) (ps : List String) (h : name ∉ ps) :
    addsKeys ps (name :: ps) :=
  ⟨⟨[name], rfl⟩, fun hn => List.nodup_cons.2 ⟨h, hn⟩⟩

theorem unprocessed_le (names : List String) {ps ps1 : List String} (h : addsKeys ps ps1) :
    unprocessed names ps1 ≤ unprocessed names ps := by
  obtain ⟨⟨l, rfl⟩, _⟩ := h
  unfold unprocessed
  apply List.Sublist.length_le
  apply List.monotone_filter_right
  intro n hn
  simp only [List.mem_append, not_or, decide_eq_true_eq] at hn ⊢
  exact hn.2

theorem unprocessed_cons_lt (name : String) (ps : List String) (hp : name ∉ ps) :
    ∀ (names : List String), name ∈ names →
      unprocessed names (name :: ps) < unprocessed names ps
  | [], h => by cases h
  | x :: rest, h => by
    have hle : unprocessed rest (name :: ps) ≤ unprocessed rest ps :=
      unprocessed_le rest (addsKeys_cons name ps hp)
    unfold unprocessed at hle ⊢
    simp only [List.mem_cons] at hle
    by_cases hx : x = name
    · subst hx
      simp only [List.filter_cons, List.mem_cons, true_or, not_true_eq_false, decide_False,
        hp, not_false_eq_true, decide_True, if_true, List.length_cons]
      simp only [Bool.false_eq_true, if_false]
      omega
    · have hr : name ∈ rest := by
        rcases List.mem_cons.1 h with h1 | h1
        · exact absurd h1.symm hx
        · exact h1
      have ih := unprocessed_cons_lt name ps hp rest hr
      unfold unprocessed at ih
      simp only [List.mem_cons] at ih
      by_cases hxp : x ∈ ps
      · simp only [List.filter_cons, List.mem_cons, hx, hxp, or_true, not_true_eq_false,
          decide_False, Bool.false_eq_true, if_false]
        exact ih
      · simp only [List.filter_cons, List.mem_cons, hx, hxp, or_self, not_false_eq_true,
          decide_True, if_true, List.length_cons]
        omega

theorem finishedFrom_ok (ps : List String) (b : Bool) : finishedFrom ps (Result.ok (b, ps)) :=
  ⟨by simp, fun b1 ps1 h => by cases h; exact addsKeys_refl ps⟩

theorem finishedFrom_panic (ps : List String) : finishedFrom ps Result.panic :=
  ⟨by simp, fun b1 ps1 h => by cases h⟩

theorem finishedFrom_of_addsKeys {ps ps1 : List String} {r : Result (Bool × List String)}
    (h : addsKeys ps ps1) (hr : finishedFrom ps1 r) : finishedFrom ps r :=
  ⟨hr.1, fun b ps2 h2 => addsKeys_trans h (hr.2 b ps2 h2)⟩

/-! ## Type graphs: more fuel does not change a result -/

theorem Result.keptBy_refl {α : Type} (r : Result α) : r.keptBy r := fun _ => rfl

theorem loopFrom_keptBy {σ : Type} (body body1 : Nat → σ → Result (Bool × σ))
    (hb : ∀ i s, (body i s).keptBy (body1 i s)) :
    ∀ (count start : Nat) (s : σ),
      (loopFrom body count start s).keptBy (loopFrom body1 count start s) := by
  intro count
  induction count with
  | zero => intro start s; exact Result.keptBy_refl _
  | succ count ih =>
    intro start s hne
    have h1 := hb start s
    unfold loopFrom at hne ⊢
    cases hr : body start s with
    | outOfFuel => simp [hr] at hne
    | panic =>
      rw [h1 (by simp [hr]), hr]
    | ok v =>
      rw [h1 (by simp [hr]), hr]
      obtain ⟨b, s1⟩ := v
      cases b with
      | true =>
        simp only [hr] at hne
        exact ih _ _ hne
      | false => rfl

theorem Node.compareField_keptBy (again again1 : NodeChecker) (ha ga : Arch)
    (hag : ∀ h g ps, (again h ha g ga ps).keptBy (again1 h ha g ga ps))
    (k : CppTypes.Kind) (h g : Node) (i : Nat) (ps : List String) :
    (Node.compareField again k h ha g ga i ps).keptBy
      (Node.compareField again1 k h ha g ga i ps) := by
  unfold Node.compareField
  cases h.Field i ha with
  | none => exact Result.keptBy_refl _
  | some f1 =>
    cases g.Field i ga with
    | none => exact Result.keptBy_refl _
    | some f2 =>
      try simp only []
      cases Node.offsetsDiffer k f1 f2 with
      | panic => exact Result.keptBy_refl _
      | outOfFuel => exact Result.keptBy_refl _
      | ok b =>
        cases b with
        | true => exact Result.keptBy_refl _
        | false => exact hag _ _ _

theorem Node.compareByKind_keptBy (store : Store) (again again1 : NodeChecker) (ha ga : Arch)
    (hag : ∀ h g ps, (again h ha g ga ps).keptBy (again1 h ha g ga ps))
    (k : CppTypes.Kind) (h g : Node) (ps : List String) :
    (Node.compareByKind store again k h ha g ga ps).keptBy
      (Node.compareByKind store again1 k h ha g ga ps) := by
  unfold Node.compareByKind
  by_cases h1 : k = Kind.Array
  · simp only [if_pos h1]
    cases h.NumField ha with
    | none => exact Result.keptBy_refl _
    | some n1 =>
      cases h.NumField ga with
      | none => exact Result.keptBy_refl _
      | some n2 =>
        try simp only []
        by_cases hn : n1 ≠ n2
        · simp only [if_pos hn]; exact Result.keptBy_refl _
        · simp only [if_neg hn]
          cases h.Elem store ha with
          | none => exact Result.keptBy_refl _
          | some e1 =>
            cases g.Elem store ga with
            | none => exact Result.keptBy_refl _
            | some e2 => exact hag _ _ _
  · simp only [if_neg h1]
    by_cases h2 : k = Kind.Enum
    · simp only [if_pos h2]
      cases h.Elem store ha with
      | none => exact Result.keptBy_refl _
      | some e1 =>
        cases g.Elem store ga with
        | none => exact Result.keptBy_refl _
        | some e2 =>
          try simp only []
          intro hne
          have hk := hag e1 e2 ps
          cases hr : again e1 ha e2 ga ps with
          | outOfFuel => simp [hr] at hne
          | panic => rw [hk (by simp [hr]), hr]
          | ok v => rw [hk (by simp [hr]), hr]
    · simp only [if_neg h2]
      by_cases h3 : k = Kind.Ptr
      · simp only [if_pos h3]
        cases h.Elem store ha with
        | none => exact Result.keptBy_refl _
        | some e1 =>
          cases g.Elem store ga with
          | none => exact Result.keptBy_refl _
          | some e2 => exact hag _ _ _
      · simp only [if_neg h3]
        by_cases h4 : k = Kind.Struct ∨ k = Kind.Union
        · simp only [if_pos h4]
          cases h.Name ha with
          | none => exact Result.keptBy_refl _
          | some name =>
            cases g.Name ga with
            | none => exact Result.keptBy_refl _
            | some guest_name =>
              try simp only []
              by_cases hn : name ≠ guest_name
              · simp only [if_pos hn]; exact Result.keptBy_refl _
              · simp only [if_neg hn]
                by_cases hp : name ∈ ps
                · simp only [if_pos hp]; exact Result.keptBy_refl _
                · simp only [if_neg hp]
                  cases h.NumField ha with
                  | none => exact Result.keptBy_refl _
                  | some n =>
                    cases g.NumField ga with
                    | none => exact Result.keptBy_refl _
                    | some guest_n =>
                      try simp only []
                      by_cases hc : n ≠ guest_n
                      · simp only [if_pos hc]; exact Result.keptBy_refl _
                      · simp only [if_neg hc]
                        exact loopFrom_keptBy _ _
                          (fun i s => Node.compareField_keptBy again again1 ha ga hag k h g i s)
                          _ _ _
        · simp only [if_neg h4]; exact Result.keptBy_refl _

theorem Node.isInputCompatibleBody_keptBy (store : Store) (again again1 : NodeChecker)
    (ha ga : Arch) (hag : ∀ h g ps, (again h ha g ga ps).keptBy (again1 h ha g ga ps))
    (h g : Node) (ps : List String) :
    (Node.isInputCompatibleBody store again h ha g ga ps).keptBy
      (Node.isInputCompatibleBody store again1 h ha g ga ps) := by
  unfold Node.isInputCompatibleBody
  try simp only []
  by_cases h1 : h.Kind ha = Kind.Alias
  · simp only [if_pos h1]
    cases h.Elem store ha with
    | none => exact Result.keptBy_refl _
    | some e => exact hag _ _ _
  · simp only [if_neg h1]
    by_cases h2 : g.Kind ga = Kind.Alias
    · simp only [if_pos h2]
      cases g.Elem store ha with
      | none => exact Result.keptBy_refl _
      | some e => exact hag _ _ _
    · simp only [if_neg h2]
      by_cases h3 : h.Kind ha ≠ g.Kind ga
      · simp only [if_pos h3]; exact Result.keptBy_refl _
      · simp only [if_neg h3]
        by_cases h4 : h.Kind ha = Kind.Func
        · simp only [if_pos h4]; exact Result.keptBy_refl _
        · simp only [if_neg h4]
          by_cases h5 : h.Kind ha = Kind.Const
          · simp only [if_pos h5]
            cases h.Elem store ha with
            | none => exact Result.keptBy_refl _
            | some e1 =>
              cases g.Elem store ga with
              | none => exact Result.keptBy_refl _
              | some e2 => exact hag _ _ _
          · simp only [if_neg h5]
            by_cases h6 : h.Kind ha = Kind.Void
            · simp only [if_pos h6]; exact Result.keptBy_refl _
            · simp only [if_neg h6]
              cases Node.sameOpaqueName (h.Kind ha) h ha g ga with
              | panic => exact Result.keptBy_refl _
              | outOfFuel => exact Result.keptBy_refl _
              | ok b =>
                cases b with
                | true => exact Result.keptBy_refl _
                | false =>
                  try simp only []
                  cases h.Bits ha with
                  | none => exact Result.keptBy_refl _
                  | some hb =>
                    cases g.Bits ga with
                    | none => exact Result.keptBy_refl _
                    | some gb =>
                      try simp only []
                      by_cases h7 : hb ≠ gb
                      · simp only [if_pos h7]; exact Result.keptBy_refl _
                      · simp only [if_neg h7]
                        cases g.Align ga with
                        | none => exact Result.keptBy_refl _
                        | some gal =>
                          cases h.Align ha with
                          | none => exact Result.keptBy_refl _
                          | some hal =>
                            try simp only []
                            by_cases h8 : gal < hal
                            · simp only [if_pos h8]; exact Result.keptBy_refl _
                            · simp only [if_neg h8]
                              exact Node.compareByKind_keptBy store again again1 ha ga hag _ h g
                                ps

/-- A result that the check reaches with some fuel is its result with any larger fuel. -/
theorem Node.isInputCompatible_keptBy (store : Store) (ha ga : Arch) :
    ∀ (n m : Nat), n ≤ m → ∀ (h g : Node) (ps : List String),
      (Node.isInputCompatible store n h ha g ga ps).keptBy
        (Node.isInputCompatible store m h ha g ga ps) := by
  intro n
  induction n with
  | zero => intro m _ h g ps hne; exact absurd rfl hne
  | succ n ih =>
    intro m hm h g ps
    cases m with
    | zero => omega
    | succ m =>
      simp only [Node.isInputCompatible]
      exact Node.isInputCompatibleBody_keptBy store _ _ ha ga
        (fun h1 g1 ps1 => ih m (by omega) h1 g1 ps1) h g ps

/-! ## Type graphs: the check finishes -/

theorem checkMeasure_lt_of_potential (weight : Nat → Nat) (bound : Nat) (names ps : List String)
    (h g h1 g1 : Node) (hh : h1.potential weight ≤ h.potential weight)
    (hg : g1.potential weight ≤ g.potential weight)
    (hlt : h1.potential weight < h.potential weight ∨ g1.potential weight < g.potential weight) :
    checkMeasure weight bound names ps h1 g1 < checkMeasure weight bound names ps h g := by
  unfold checkMeasure
  rcases hlt with hlt | hlt <;> omega

theorem checkMeasure_lt_of_field (weight : Nat → Nat) (bound : Nat) (names ps s : List String)
    (name : String) (h g f1 f2 : Node) (hn : name ∈ names) (hp : name ∉ ps)
    (hs : addsKeys (name :: ps) s) (h1 : f1.potential weight ≤ bound)
    (h2 : f2.potential weight ≤ bound) :
    checkMeasure weight bound names s f1 f2 < checkMeasure weight bound names ps h g := by
  have hu1 := unprocessed_le names hs
  have hu2 := unprocessed_cons_lt name ps hp names hn
  have hu : unprocessed names s + 1 ≤ unprocessed names ps := by omega
  have hm := Nat.mul_le_mul_right (2 * bound + 1) hu
  rw [Nat.add_mul] at hm
  unfold checkMeasure
  generalize unprocessed names s * (2 * bound + 1) = x at hm ⊢
  generalize unprocessed names ps * (2 * bound + 1) = y at hm ⊢
  omega

theorem loopFrom_finished (body : Nat → List String → Result (Bool × List String))
    (base : List String) (hb : ∀ i s, addsKeys base s → finishedFrom s (body i s)) :
    ∀ (count start : Nat) (s : List String), addsKeys base s →
      finishedFrom s (loopFrom body count start s) := by
  intro count
  induction count with
  | zero => intro start s _; exact finishedFrom_ok s true
  | succ count ih =>
    intro start s hs
    have h1 := hb start s hs
    unfold loopFrom
    cases hr : body start s with
    | outOfFuel => exact absurd hr h1.1
    | panic => exact finishedFrom_panic s
    | ok v =>
      obtain ⟨b, s1⟩ := v
      have ha := h1.2 b s1 hr
      cases b with
      | true => exact finishedFrom_of_addsKeys ha (ih _ s1 (addsKeys_trans hs ha))
      | false => exact ⟨by simp, fun b2 ps2 h2 => by cases h2; exact ha⟩

theorem Node.compareEnumValue_finished (h : Node) (ha : Arch) (g : Node) (ga : Arch) (i : Nat)
    (s : List String) : finishedFrom s (Node.compareEnumValue h ha g ga i s) := by
  unfold Node.compareEnumValue
  split
  · split
    · exact finishedFrom_ok s false
    · exact finishedFrom_ok s true
  · exact finishedFrom_panic s

theorem Node.compareField_finished (store : Store) (weight : Nat → Nat) (root : Node)
    (again : NodeChecker) (ha ga : Arch) (k : CppTypes.Kind) (h g : Node) (ps : List String)
    (hh : reachable store root h) (hg : reachable store root g)
    (hag : ∀ h1 g1 ps1, reachable store root h1 → reachable store root g1 →
      checkMeasure weight (potentialBound store weight root) (allNames store root) ps1 h1 g1 <
        checkMeasure weight (potentialBound store weight root) (allNames store root) ps h g →
      finishedFrom ps1 (again h1 ha g1 ga ps1))
    (name : String) (hn : name ∈ allNames store root) (hp : name ∉ ps) (i : Nat)
    (s : List String) (hs : addsKeys (name :: ps) s) :
    finishedFrom s (Node.compareField again k h ha g ga i s) := by
  unfold Node.compareField
  cases hf1 : h.Field i ha with
  | none => exact finishedFrom_panic s
  | some f1 =>
    cases hf2 : g.Field i ga with
    | none => exact finishedFrom_panic s
    | some f2 =>
      try simp only []
      have r1 := reachable_Field store root h i ha f1 hh hf1
      have r2 := reachable_Field store root g i ga f2 hg hf2
      cases ho : Node.offsetsDiffer k f1 f2 with
      | panic => exact finishedFrom_panic s
      | outOfFuel =>
        exfalso
        revert ho
        unfold Node.offsetsDiffer
        split
        · split <;> simp
        · simp
      | ok b =>
        cases b with
        | true => exact finishedFrom_ok s false
        | false =>
          exact hag _ _ _ r1 r2
            (checkMeasure_lt_of_field weight _ _ ps s name h g _ _ hn hp hs
              (reachable_potential store weight root _ r1)
              (reachable_potential store weight root _ r2))

theorem Node.compareByKind_finished (store : Store) (weight : Nat → Nat) (root : Node)
    (hr : store.RankedBy weight) (again : NodeChecker) (ha ga : Arch) (k : CppTypes.Kind)
    (h g : Node) (ps : List String)
    (hh : reachable store root h) (hg : reachable store root g)
    (hag : ∀ h1 g1 ps1, reachable store root h1 → reachable store root g1 →
      checkMeasure weight (potentialBound store weight root) (allNames store root) ps1 h1 g1 <
        checkMeasure weight (potentialBound store weight root) (allNames store root) ps h g →
      finishedFrom ps1 (again h1 ha g1 ga ps1)) :
    finishedFrom ps (Node.compareByKind store again k h ha g ga ps) := by
  have helem : ∀ e1 e2, h.Elem store ha = some e1 → g.Elem store ga = some e2 →
      finishedFrom ps (again e1 ha e2 ga ps) := fun e1 e2 he1 he2 =>
    hag e1 e2 ps (reachable_Elem store root h e1 ha hh he1)
      (reachable_Elem store root g e2 ga hg he2)
      (checkMeasure_lt_of_potential weight _ _ ps h g e1 e2
        (le_of_lt (Node.potential_Elem store weight hr h ha e1 he1))
        (le_of_lt (Node.potential_Elem store weight hr g ga e2 he2))
        (Or.inl (Node.potential_Elem store weight hr h ha e1 he1)))
  unfold Node.compareByKind
  by_cases h1 : k = Kind.Array
  · simp only [if_pos h1]
    cases h.NumField ha with
    | none => exact finishedFrom_panic ps
    | some n1 =>
      cases h.NumField ga with
      | none => exact finishedFrom_panic ps
      | some n2 =>
        try simp only []
        by_cases hn : n1 ≠ n2
        · simp only [if_pos hn]; exact finishedFrom_ok ps false
        · simp only [if_neg hn]
          cases he1 : h.Elem store ha with
          | none => exact finishedFrom_panic ps
          | some e1 =>
            cases he2 : g.Elem store ga with
            | none => exact finishedFrom_panic ps
            | some e2 => exact helem e1 e2 he1 he2
  · simp only [if_neg h1]
    by_cases h2 : k = Kind.Enum
    · simp only [if_pos h2]
      cases he1 : h.Elem store ha with
      | none => exact finishedFrom_panic ps
      | some e1 =>
        cases he2 : g.Elem store ga with
        | none => exact finishedFrom_panic ps
        | some e2 =>
          try simp only []
          have hf := helem e1 e2 he1 he2
          cases hres : again e1 ha e2 ga ps with
          | outOfFuel => exact absurd hres hf.1
          | panic => exact finishedFrom_panic ps
          | ok v =>
            obtain ⟨b, ps1⟩ := v
            have hadd := hf.2 b ps1 hres
            cases b with
            | false => exact ⟨by simp, fun b2 ps2 h2 => by cases h2; exact hadd⟩
            | true =>
              try simp only []
              cases h.NumField ha with
              | none => exact finishedFrom_panic ps
              | some n =>
                exact finishedFrom_of_addsKeys hadd
                  (loopFrom_finished _ ps1
                    (fun i s _ => Node.compareEnumValue_finished h ha g ga i s) n 0 ps1
                    (addsKeys_refl ps1))
    · simp only [if_neg h2]
      by_cases h3 : k = Kind.Ptr
      · simp only [if_pos h3]
        cases he1 : h.Elem store ha with
        | none => exact finishedFrom_panic ps
        | some e1 =>
          cases he2 : g.Elem store ga with
          | none => exact finishedFrom_panic ps
          | some e2 => exact helem e1 e2 he1 he2
      · simp only [if_neg h3]
        by_cases h4 : k = Kind.Struct ∨ k = Kind.Union
        · simp only [if_pos h4]
          cases hn1 : h.Name ha with
          | none => exact finishedFrom_panic ps
          | some name =>
            cases g.Name ga with
            | none => exact finishedFrom_panic ps
            | some guest_name =>
              try simp only []
              by_cases hn : name ≠ guest_name
              · simp only [if_pos hn]; exact finishedFrom_ok ps false
              · simp only [if_neg hn]
                by_cases hp : name ∈ ps
                · simp only [if_pos hp]; exact finishedFrom_ok ps true
                · simp only [if_neg hp]
                  have hadd := addsKeys_cons name ps hp
                  cases h.NumField ha with
                  | none => exact finishedFrom_panic ps
                  | some n =>
                    cases g.NumField ga with
                    | none => exact finishedFrom_panic ps
                    | some guest_n =>
                      try simp only []
                      by_cases hc : n ≠ guest_n
                      · simp only [if_pos hc]
                        exact ⟨by simp, fun b2 ps2 h2 => by cases h2; exact hadd⟩
                      · simp only [if_neg hc]
                        exact finishedFrom_of_addsKeys hadd
                          (loopFrom_finished _ (name :: ps)
                            (fun i s hs => Node.compareField_finished store weight root again
                              ha ga k h g ps hh hg hag name
                              (reachable_Name store root h ha name hh hn1) hp i s hs)
                            n 0 (name :: ps) (addsKeys_refl _))
        · simp only [if_neg h4]; exact finishedFrom_ok ps true

theorem Node.sameOpaqueName_finishes (k : CppTypes.Kind) (h : Node) (ha : Arch) (g : Node)
    (ga : Arch) : Node.sameOpaqueName k h ha g ga ≠ Result.outOfFuel := by
  unfold Node.sameOpaqueName
  split
  · split <;> simp
  · simp

theorem Node.isInputCompatibleBody_finished (store : Store) (weight : Nat → Nat) (root : Node)
    (hr : store.RankedBy weight) (again : NodeChecker) (ha ga : Arch)
    (h g : Node) (ps : List String)
    (hh : reachable store root h) (hg : reachable store root g)
    (hag : ∀ h1 g1 ps1, reachable store root h1 → reachable store root g1 →
      checkMeasure weight (potentialBound store weight root) (allNames store root) ps1 h1 g1 <
        checkMeasure weight (potentialBound store weight root) (allNames store root) ps h g →
      finishedFrom ps1 (again h1 ha g1 ga ps1)) :
    finishedFrom ps (Node.isInputCompatibleBody store again h ha g ga ps) := by
  unfold Node.isInputCompatibleBody
  simp only []
  by_cases h1 : h.Kind ha = Kind.Alias
  · simp only [if_pos h1]
    cases he : h.Elem store ha with
    | none => exact finishedFrom_panic ps
    | some e =>
      exact hag e g ps (reachable_Elem store root h e ha hh he) hg
        (checkMeasure_lt_of_potential weight _ _ ps h g e g
          (le_of_lt (Node.potential_Elem store weight hr h ha e he)) (le_refl _)
          (Or.inl (Node.potential_Elem store weight hr h ha e he)))
  · simp only [if_neg h1]
    by_cases h2 : g.Kind ga = Kind.Alias
    · simp only [if_pos h2]
      cases he : g.Elem store ha with
      | none => exact finishedFrom_panic ps
      | some e =>
        exact hag h e ps hh (reachable_Elem store root g e ha hg he)
          (checkMeasure_lt_of_potential weight _ _ ps h g h e (le_refl _)
            (le_of_lt (Node.potential_Elem store weight hr g ha e he))
            (Or.inr (Node.potential_Elem store weight hr g ha e he)))
    · simp only [if_neg h2]
      by_cases h3 : h.Kind ha ≠ g.Kind ga
      · simp only [if_pos h3]; exact finishedFrom_ok ps false
      · simp only [if_neg h3]
        by_cases h4 : h.Kind ha = Kind.Func
        · simp only [if_pos h4]; exact finishedFrom_ok ps false
        · simp only [if_neg h4]
          by_cases h5 : h.Kind ha = Kind.Const
          · simp only [if_pos h5]
            cases he1 : h.Elem store ha with
            | none => exact finishedFrom_panic ps
            | some e1 =>
              cases he2 : g.Elem store ga with
              | none => exact finishedFrom_panic ps
              | some e2 =>
                exact hag e1 e2 ps (reachable_Elem store root h e1 ha hh he1)
                  (reachable_Elem store root g e2 ga hg he2)
                  (checkMeasure_lt_of_potential weight _ _ ps h g e1 e2
                    (le_of_lt (Node.potential_Elem store weight hr h ha e1 he1))
                    (le_of_lt (Node.potential_Elem store weight hr g ga e2 he2))
                    (Or.inl (Node.potential_Elem store weight hr h ha e1 he1)))
          · simp only [if_neg h5]
            by_cases h6 : h.Kind ha = Kind.Void
            · simp only [if_pos h6]; exact finishedFrom_ok ps true
            · simp only [if_neg h6]
              cases hs : Node.sameOpaqueName (h.Kind ha) h ha g ga with
              | panic => exact finishedFrom_panic ps
              | outOfFuel => exact absurd hs (Node.sameOpaqueName_finishes _ _ _ _ _)
              | ok b =>
                cases b with
                | true => exact finishedFrom_ok ps true
                | false =>
                  try simp only []
                  cases h.Bits ha with
                  | none => exact finishedFrom_panic ps
                  | some hb =>
                    cases g.Bits ga with
                    | none => exact finishedFrom_panic ps
                    | some gb =>
                      try simp only []
                      by_cases h7 : hb ≠ gb
                      · simp only [if_pos h7]; exact finishedFrom_ok ps false
                      · simp only [if_neg h7]
                        cases g.Align ga with
                        | none => exact finishedFrom_panic ps
                        | some gal =>
                          cases h.Align ha with
                          | none => exact finishedFrom_panic ps
                          | some hal =>
                            try simp only []
                            by_cases h8 : gal < hal
                            · simp only [if_pos h8]; exact finishedFrom_ok ps false
                            · simp only [if_neg h8]
                              exact Node.compareByKind_finished store weight root hr again ha ga
                                _ h g ps hh hg hag

/-- With more fuel than the measure of a call, the check returns or panics. -/
theorem Node.isInputCompatible_finished (store : Store) (weight : Nat → Nat) (root : Node)
    (hr : store.RankedBy weight) (ha ga : Arch) :
    ∀ (n : Nat) (h g : Node) (ps : List String), reachable store root h →
      reachable store root g →
      checkMeasure weight (potentialBound store weight root) (allNames store root) ps h g < n →
      finishedFrom ps (Node.isInputCompatible store n h ha g ga ps) := by
  intro n
  induction n with
  | zero => intro h g ps _ _ hn; omega
  | succ n ih =>
    intro h g ps hh hg hn
    simp only [Node.isInputCompatible]
    exact Node.isInputCompatibleBody_finished store weight root hr _ ha ga h g ps hh hg
      (fun h1 g1 ps1 r1 r2 hlt => ih h1 g1 ps1 r1 r2 (by omega))

/-! ## Type graphs: the stores a program can build -/

theorem Node.potential_congr (weight weight1 : Nat → Nat) (n : Nat)
    (hw : ∀ c, c < n → weight1 c = weight c) : ∀ (t : Node), t.addressesBelow n →
    t.potential weight1 = t.potential weight
  | .archDependentType t0 t1 t2 t3 t4 t5, h => by
    have hsub : ∀ (a : Arch), (a.pick t0 t1 t2 t3 t4 t5).addressesBelow n := fun a c hc =>
      h c (List.mem_cons_of_mem _ ((Node.Child.variant a t0 t1 t2 t3 t4 t5).subterms_subset hc))
    simp only [Node.potential]
    rw [Node.potential_congr weight weight1 n hw t0 (hsub Arch.Arm),
      Node.potential_congr weight weight1 n hw t1 (hsub Arch.Arm64),
      Node.potential_congr weight weight1 n hw t2 (hsub Arch.Riscv32),
      Node.potential_congr weight weight1 n hw t3 (hsub Arch.Riscv64),
      Node.potential_congr weight weight1 n hw t4 (hsub Arch.X86),
      Node.potential_congr weight weight1 n hw t5 (hsub Arch.X86_64)]
  | .aliasType name b, h => by
    simp only [Node.potential]
    rw [Node.potential_congr weight weight1 n hw b (fun c hc =>
      h c (List.mem_cons_of_mem _ ((Node.Child.aliasBase name b).subterms_subset hc)))]
  | .constType b, h => by
    simp only [Node.potential]
    rw [Node.potential_congr weight weight1 n hw b (fun c hc =>
      h c (List.mem_cons_of_mem _ ((Node.Child.constBase b).subterms_subset hc)))]
  | .pointerType c, h => by
    simp only [Node.potential]
    rw [hw c (h c (List.mem_cons_self _ _))]
  | .functionType r ps, h => by
    simp only [Node.potential]
    rw [Node.potential_congr weight weight1 n hw r (fun c hc =>
      h c (List.mem_cons_of_mem _ ((Node.Child.result r ps).subterms_subset hc)))]
  | .arrayType e size, h => by
    simp only [Node.potential]
    rw [Node.potential_congr weight weight1 n hw e (fun c hc =>
      h c (List.mem_cons_of_mem _ ((Node.Child.elem e size).subterms_subset hc)))]
  | .enumType name b fs, h => by
    simp only [Node.potential]
    rw [Node.potential_congr weight weight1 n hw b (fun c hc =>
      h c (List.mem_cons_of_mem _ ((Node.Child.basetype name b fs).subterms_subset hc)))]
  | .opaqueType _ _, _ => rfl
  | .fixedType _ _ _ _ _, _ => rfl
  | .structType _ _ _ _, _ => rfl
  | .unionType _ _ _ _, _ => rfl

theorem Node.potential_isStructNode (weight : Nat → Nat) : ∀ (t : Node),
    t.isStructNode = true → t.potential weight = 0
  | .archDependentType t0 t1 t2 t3 t4 t5, h => by
    simp only [Node.isStructNode, Bool.and_eq_true] at h
    obtain ⟨⟨⟨⟨⟨h0, h1⟩, h2⟩, h3⟩, h4⟩, h5⟩ := h
    simp [Node.potential, maxOf, Node.potential_isStructNode weight t0 h0,
      Node.potential_isStructNode weight t1 h1, Node.potential_isStructNode weight t2 h2,
      Node.potential_isStructNode weight t3 h3, Node.potential_isStructNode weight t4 h4,
      Node.potential_isStructNode weight t5 h5]
  | .structType _ _ _ _, _ => rfl
  | .unionType _ _ _ _, _ => rfl
  | .opaqueType _ _, h => by simp [Node.isStructNode] at h
  | .aliasType _ _, h => by simp [Node.isStructNode] at h
  | .fixedType _ _ _ _ _, h => by simp [Node.isStructNode] at h
  | .constType _, h => by simp [Node.isStructNode] at h
  | .pointerType _, h => by simp [Node.isStructNode] at h
  | .functionType _ _, h => by simp [Node.isStructNode] at h
  | .arrayType _ _, h => by simp [Node.isStructNode] at h
  | .enumType _ _ _, h => by simp [Node.isStructNode] at h

theorem Node.potential_isStructural (weight : Nat → Nat) : ∀ (t : Node),
    t.isStructural = true → t.potential weight ≤ 1
  | .archDependentType t0 t1 t2 t3 t4 t5, h => by
    simp only [Node.isStructural, Bool.and_eq_true] at h
    obtain ⟨⟨⟨⟨⟨h0, h1⟩, h2⟩, h3⟩, h4⟩, h5⟩ := h
    have p0 := Node.potential_isStructural weight t0 h0
    have p1 := Node.potential_isStructural weight t1 h1
    have p2 := Node.potential_isStructural weight t2 h2
    have p3 := Node.potential_isStructural weight t3 h3
    have p4 := Node.potential_isStructural weight t4 h4
    have p5 := Node.potential_isStructural weight t5 h5
    simp only [Node.potential, maxOf, List.foldr_cons, List.foldr_nil]
    omega
  | .structType _ _ _ _, _ => by simp [Node.potential]
  | .unionType _ _ _ _, _ => by simp [Node.potential]
  | .constType b, h => by
    simp only [Node.isStructural] at h
    simp [Node.potential, Node.potential_isStructNode weight b h]
  | .opaqueType _ _, h => by simp [Node.isStructural] at h
  | .aliasType _ _, h => by simp [Node.isStructural] at h
  | .fixedType _ _ _ _ _, h => by simp [Node.isStructural] at h
  | .pointerType _, h => by simp [Node.isStructural] at h
  | .functionType _ _, h => by simp [Node.isStructural] at h
  | .arrayType _ _, h => by simp [Node.isStructural] at h
  | .enumType _ _ _, h => by simp [Node.isStructural] at h

theorem Node.addressesBelow_mono (t : Node) {n m : Nat} (h : t.addressesBelow n) (hnm : n ≤ m) :
    t.addressesBelow m :=
  fun c hc => lt_of_lt_of_le (h c hc) hnm

/-- In a store that a program has built, weights exist that bound the
potentials of all pointees, and every pointee refers to existing pointer nodes. -/
theorem Store.Built.ranked {store : Store} (hb : Store.Built store) :
    (∃ weight, store.RankedBy weight) ∧ ∀ p ∈ store, p.addressesBelow store.length := by
  induction hb with
  | empty => exact ⟨⟨fun _ => 0, fun c p h => by simp at h⟩, fun p h => by cases h⟩
  | pointer store pointee_type _ hp ih =>
    obtain ⟨⟨weight, hw⟩, hbelow⟩ := ih
    simp only [Store.PointerType]
    refine ⟨⟨Function.update weight store.length (pointee_type.potential weight + 1), ?_⟩, ?_⟩
    · intro c p hc
      have hcongr : ∀ (t : Node), t.addressesBelow store.length →
          t.potential (Function.update weight store.length (pointee_type.potential weight + 1)) =
            t.potential weight := fun t ht =>
        Node.potential_congr weight _ store.length
          (fun c1 hc1 => Function.update_noteq (Nat.ne_of_lt hc1) _ _) t ht
      by_cases hlt : c < store.length
      · rw [List.getElem?_append_left hlt] at hc
        rw [hcongr p (hbelow p (List.getElem?_mem hc)), Function.update_noteq (Nat.ne_of_lt hlt)]
        exact hw c p hc
      · have hlen : c < (store ++ [pointee_type]).length := (List.getElem?_eq_some.1 hc).1
        have hceq : c = store.length := by
          simp only [List.length_append, List.length_singleton] at hlen
          omega
        subst hceq
        simp only [List.getElem?_concat_length, Option.some.injEq] at hc
        subst hc
        rw [hcongr _ hp, Function.update_same]
        omega
    · intro p hmem
      simp only [List.mem_append, List.mem_singleton] at hmem
      rcases hmem with hmem | rfl
      · exact Node.addressesBelow_mono p (hbelow p hmem) (by simp)
      · exact Node.addressesBelow_mono _ hp (by simp)
  | replaceElem store address pointee_type _ hp hs hok ih =>
    obtain ⟨⟨weight, hw⟩, hbelow⟩ := ih
    obtain ⟨pointee, hcur, _, hset⟩ := ReplaceElem_success store address pointee_type hok
    rw [hset]
    have hlt : address < store.length := (List.getElem?_eq_some.1 hcur).1
    refine ⟨⟨weight, ?_⟩, ?_⟩
    · intro c p hc
      by_cases hca : address = c
      · subst hca
        simp only [List.getElem?_set, hlt, if_true, Option.some.injEq] at hc
        rw [← hc]
        have h1 := (hw address pointee hcur).2
        have h2 := Node.potential_isStructural weight pointee_type hs
        exact ⟨by omega, h1⟩
      · rw [List.getElem?_set_ne hca] at hc
        exact hw c p hc
    · intro p hmem
      rw [List.length_set]
      rcases List.mem_or_eq_of_mem_set hmem with h1 | h1
      · exact hbelow p h1
      · rw [h1]; exact hp

/-! ## Type graphs: termination of the check -/

theorem reachable_root (store : Store) (root : Node) : reachable store root root :=
  ⟨root, List.mem_cons_self _ _, Node.Within.self⟩

theorem baseInPatched_built : Store.Built baseInPatched :=
  Store.Built.replaceElem baseInDeclared 0 (Node.constType baseIn)
    (Store.Built.pointer [] (Node.constType (Node.opaqueType Kind.Opaque "struct VkBaseInStructure"))
      Store.Built.empty
      (fun c hc => by simp [Node.subterms, Node.inner] at hc))
    (fun c hc => by
      simp [Node.subterms, Node.inner, baseIn, baseInOn, structFieldsInner,
        NodeStructFieldInfo.inner, NodeFieldInfo.inner, nodeInt32T] at hc
      subst hc
      decide)
    rfl rfl

theorem chainPatched_built : Store.Built chainPatched :=
  Store.Built.replaceElem chainDeclared 0 chain
    (Store.Built.pointer [Node.opaqueType Kind.Opaque "struct Chain"]
      (Node.arrayType (Node.opaqueType Kind.Opaque "X") 3)
      (Store.Built.pointer [] (Node.opaqueType Kind.Opaque "struct Chain") Store.Built.empty
        (fun c hc => by simp [Node.subterms, Node.inner] at hc))
      (fun c hc => by simp [Node.subterms, Node.inner] at hc))
    (fun c hc => by
      simp [Node.subterms, Node.inner, chain, chainOn, structFieldsInner,
        NodeStructFieldInfo.inner, NodeFieldInfo.inner] at hc
      have hl : List.length chainDeclared = 2 := rfl
      rw [hl]
      omega)
    rfl rfl

/-- C11 (counterexample): the struct `Chain`, whose field `next` points back to
the struct after `ReplaceElem`, is not answered with a boolean: with host ARM and
guest x86 the check panics, for every amount of fuel from 3 on, when it asks the
opaque element type of the array behind `data` for its size. -/
theorem IsInputCompatible_self_referential_panics :
    (ReplaceElem chainDeclared 0 chain) = (some (), chainPatched) ∧
      Store.Built chainPatched ∧
      (∀ a, (Node.pointerType 0).Elem chainPatched a = some chain) ∧
      ∀ n, 3 ≤ n → Node.IsInputCompatible chainPatched n chain Arch.Arm Arch.X86 = Result.panic := by
  refine ⟨rfl, chainPatched_built, fun _ => rfl, fun n hn => ?_⟩
  have h3 : Node.isInputCompatible chainPatched 3 chain Arch.Arm chain Arch.X86 [] =
      Result.panic := by decide
  have hk := Node.isInputCompatible_keptBy chainPatched Arch.Arm Arch.X86 3 n hn chain chain []
    (by rw [h3]; simp)
  unfold Node.IsInputCompatible
  rw [hk, h3]
  rfl

/-- C11 (amended): in every store that a program can build, `IsInputCompatible`
terminates on every type, self-referential ones included: from some amount of
fuel on the check has one and the same outcome, which is a boolean or a panic
(never exhausted fuel), and when it returns, the keys it has added to
`processed_structures` are pairwise different, that is, each struct or union
name has been expanded at most once. -/
theorem IsInputCompatible_terminates (store : Store) (typ : Node) (host_arch guest_arch : Arch)
    (hb : Store.Built store) :
    ∃ (fuel : Nat) (r : Result (Bool × List String)),
      r ≠ Result.outOfFuel ∧
      (∀ n, fuel ≤ n →
        Node.isInputCompatible store n typ host_arch typ guest_arch [] = r ∧
        Node.IsInputCompatible store n typ host_arch guest_arch = r.map Prod.fst) ∧
      (∀ b ps, r = Result.ok (b, ps) → ps.Nodup) := by
  obtain ⟨⟨weight, hw⟩, _⟩ := hb.ranked
  have hfin := Node.isInputCompatible_finished store weight typ hw host_arch guest_arch
    (checkMeasure weight (potentialBound store weight typ) (allNames store typ) [] typ typ + 1)
    typ typ [] (reachable_root store typ) (reachable_root store typ) (Nat.lt_succ_self _)
  refine ⟨checkMeasure weight (potentialBound store weight typ) (allNames store typ) [] typ typ
    + 1, _, hfin.1, fun n hn => ?_, fun b ps h => (hfin.2 b ps h).2 List.nodup_nil⟩
  have hk := Node.isInputCompatible_keptBy store host_arch guest_arch _ n hn typ typ [] hfin.1
  exact ⟨hk, by unfold Node.IsInputCompatible; rw [hk]⟩

/-- C11 (amended) on `VkBaseInStructure`, whose field `pNext` points back to the
struct: the check terminates, and it answers `true` between ARM and x86 and
`false` between ARM64 and ARM. -/
theorem IsInputCompatible_terminates_witness :
    Store.Built baseInPatched ∧
      (∀ a, (Node.pointerType 0).Elem baseInPatched a = some (Node.constType baseIn)) ∧
      (∃ (fuel : Nat) (r : Result (Bool × List String)),
        r ≠ Result.outOfFuel ∧
        (∀ n, fuel ≤ n →
          Node.isInputCompatible baseInPatched n baseIn Arch.Arm baseIn Arch.X86 [] = r ∧
          Node.IsInputCompatible baseInPatched n baseIn Arch.Arm Arch.X86 = r.map Prod.fst) ∧
        (∀ b ps, r = Result.ok (b, ps) → ps.Nodup)) ∧
      Node.isInputCompatible baseInPatched 4 baseIn Arch.Arm baseIn Arch.X86 [] =
        Result.ok (true, ["struct VkBaseInStructure"]) ∧
      Node.IsInputCompatible baseInPatched 4 baseIn Arch.Arm64 Arch.Arm = Result.ok false :=
  ⟨baseInPatched_built, fun _ => rfl,
    IsInputCompatible_terminates baseInPatched baseIn Arch.Arm Arch.X86 baseInPatched_built,
    by decide, by decide⟩

/-! ## Primitive types: signedness of char and the rendered names -/

/-- C21 (counterexample): on x86-64 `CharType` is signed, as on x86. -/
theorem CharType_signed_on_x86_64 : CharType.Signed Arch.X86_64 = some true := rfl

/-- C21 (amended): `CharType.Signed` is true on x86 and on x86-64 and false on ARM32,
ARM64, RISC-V32 and RISC-V64. -/
theorem CharType_Signed_by_arch :
    CharType.Signed Arch.X86 = some true ∧ CharType.Signed Arch.X86_64 = some true ∧
    CharType.Signed Arch.Arm = some false ∧ CharType.Signed Arch.Arm64 = some false ∧
    CharType.Signed Arch.Riscv32 = some false ∧ CharType.Signed Arch.Riscv64 = some false :=
  ⟨rfl, rfl, rfl, rfl, rfl, rfl⟩

/-- C22: the primitive of kind `UChar` renders as `signed char`, the name of the
primitive of kind `SChar`, and the primitive of kind `UShort` renders as
`unisigned short`, which is no C type, on every architecture. -/
theorem primitive_names_not_canonical (a : Arch) :
    UCharType ∈ primitiveTypes ∧ UShortType ∈ primitiveTypes ∧ SCharType ∈ primitiveTypes ∧
    UCharType.Kind a = Kind.UChar ∧ UCharType.Name a = some "signed char" ∧
    UCharType.DeclareVar "x" a = some "signed char x" ∧
    SCharType.Kind a = Kind.SChar ∧ SCharType.Name a = some "signed char" ∧
    UShortType.Kind a = Kind.UShort ∧ UShortType.Name a = some "unisigned short" ∧
    UShortType.DeclareVar "x" a = some "unisigned short x" := by
  refine ⟨by simp [primitiveTypes], by simp [primitiveTypes], by simp [primitiveTypes], ?_⟩
  cases a <;> exact ⟨rfl, rfl, rfl, rfl, rfl, rfl, rfl, rfl⟩

/-- Apart from `UChar` and `SChar`, no two primitives of different kinds share a
rendered name. -/
theorem primitive_names_shared_only_by_chars :
    ∀ t ∈ primitiveTypes, ∀ u ∈ primitiveTypes, ∀ a ∈ Arch.all, t.Name a = u.Name a →
      t.Kind a = u.Kind a ∨ (t.Kind a = Kind.UChar ∧ u.Kind a = Kind.SChar) ∨
        (t.Kind a = Kind.SChar ∧ u.Kind a = Kind.UChar) := by
  decide

/-! ## Number parsing of the loader -/

theorem wrapInt64_of_inInt64 (x : Int) (h : inInt64 x) : wrapInt64 x = x := by
  unfold inInt64 at h
  unfold wrapInt64
  omega

theorem wrapInt64_inInt64 (x : Int) : inInt64 (wrapInt64 x) := by
  unfold inInt64 wrapInt64
  omega

theorem le_digitsFrom (base : Nat) (hb : 1 ≤ base) : ∀ (s : List Char) (n : Nat),
    n ≤ digitsFrom base n s
  | [], n => Nat.le_refl n
  | _ :: s, n =>
    Nat.le_trans (Nat.le_trans (Nat.le_mul_of_pos_right n hb) (Nat.le_add_right _ _))
      (le_digitsFrom base hb s _)

theorem strconv.parseUintLoop_eq_ok_iff (base : Nat) (hb : 2 ≤ base) (hb36 : base ≤ 36) :
    ∀ (s : List Char) (n m : Nat), n < uintModulus →
      (strconv.parseUintLoop base ((uintModulus - 1) / base + 1) s n = Outcome.ok m ↔
        allDigits base s = true ∧ digitsFrom base n s = m ∧ m < uintModulus)
  | [], n, m, hn => by
    simp only [strconv.parseUintLoop, allDigits, List.all_nil, digitsFrom, Outcome.ok.injEq,
      true_and]
    constructor
    · intro h; subst h; exact ⟨rfl, hn⟩
    · intro h; exact h.1
  | c :: s, n, m, hn => by
    have ih := strconv.parseUintLoop_eq_ok_iff base hb hb36 s
    simp only [strconv.parseUintLoop, allDigits, List.all_cons, digitsFrom, Bool.and_eq_true]
    cases hd : strconv.digit c with
    | none => simp
    | some d =>
      simp only [Option.getD_some]
      by_cases hdb : d ≥ base
      · simp only [if_pos hdb]
        have : ¬ d < base := by omega
        simp [this]
      · simp only [if_neg hdb]
        have hlt : d < base := by omega
        by_cases hc : n ≥ (uintModulus - 1) / base + 1
        · simp only [if_pos hc]
          have h1 : (uintModulus - 1) / base < n := by omega
          have h2 : uintModulus - 1 < n * base := (Nat.div_lt_iff_lt_mul (by omega)).1 h1
          have h3 := le_digitsFrom base (by omega) s (n * base + d)
          constructor
          · intro h; cases h
          · rintro ⟨_, h4, h5⟩
            exfalso
            unfold uintModulus at *
            omega
        · simp only [if_neg hc]
          have h1 : n ≤ (uintModulus - 1) / base := by omega
          have h2 : n * base ≤ uintModulus - 1 := (Nat.le_div_iff_mul_le (by omega)).1 h1
          have h3 := le_digitsFrom base (by omega) s (n * base + d)
          generalize n * base = x at *
          by_cases hov : x + d < uintModulus
          · have e2 : x % uintModulus = x := by unfold uintModulus at *; omega
            have hno : ¬ (x + d < x ∨ x + d > uintModulus - 1) := by omega
            have e3 : (x + d) % uintModulus = x + d := Nat.mod_eq_of_lt hov
            rw [e2, e3, if_neg hno, ih (x + d) m hov]
            simp [hlt, allDigits]
          · have hyes : ((x % uintModulus + d) % uintModulus < x % uintModulus ∨
                (x % uintModulus + d) % uintModulus > uintModulus - 1) := by
              left; unfold uintModulus at *; omega
            simp only [if_pos hyes]
            constructor
            · intro h; cases h
            · rintro ⟨_, h4, h5⟩
              exfalso
              omega

theorem strconv.parseUintLoop_ok_or_error (base cutoff : Nat) : ∀ (s : List Char) (n : Nat),
    (∃ m, strconv.parseUintLoop base cutoff s n = Outcome.ok m) ∨
      ∃ msg, strconv.parseUintLoop base cutoff s n = Outcome.error msg
  | [], n => Or.inl ⟨n, rfl⟩
  | c :: s, n => by
    simp only [strconv.parseUintLoop]
    cases strconv.digit c with
    | none => exact Or.inr ⟨_, rfl⟩
    | some d =>
      simp only []
      split
      · exact Or.inr ⟨_, rfl⟩
      · split
        · exact Or.inr ⟨_, rfl⟩
        · split
          · exact Or.inr ⟨_, rfl⟩
          · exact strconv.parseUintLoop_ok_or_error base cutoff s _

theorem strconv.ParseUint_ok_or_error (s : List Char) (base : Nat) :
    (∃ m, strconv.ParseUint s base = Outcome.ok m) ∨
      ∃ msg, strconv.ParseUint s base = Outcome.error msg := by
  unfold strconv.ParseUint
  split
  · exact Or.inr ⟨_, rfl⟩
  · split
    · exact strconv.parseUintLoop_ok_or_error _ _ _ _
    · exact Or.inr ⟨_, rfl⟩

theorem strconv.ParseUint_eq_ok_iff (s : List Char) (base m : Nat) (hb : 2 ≤ base)
    (hb36 : base ≤ 36) :
    strconv.ParseUint s base = Outcome.ok m ↔
      s ≠ [] ∧ allDigits base s = true ∧ digitsFrom base 0 s = m ∧ m < uintModulus := by
  unfold strconv.ParseUint
  by_cases hs : s = []
  · simp [hs]
  · simp only [if_neg hs, if_pos (And.intro hb hb36), ne_eq, hs, not_false_eq_true, true_and]
    exact strconv.parseUintLoop_eq_ok_iff base hb hb36 s 0 m (by unfold uintModulus; omega)

theorem strconv.ParseInt_ok_or_error (s : String) (base : Nat) :
    (∃ v, strconv.ParseInt s base = Outcome.ok v) ∨
      ∃ msg, strconv.ParseInt s base = Outcome.error msg := by
  unfold strconv.ParseInt
  cases s.data with
  | nil => exact Or.inr ⟨_, rfl⟩
  | cons c rest =>
    simp only []
    rcases strconv.ParseUint_ok_or_error (if c = '+' ∨ c = '-' then rest else c :: rest) base
      with ⟨m, hm⟩ | ⟨msg, hm⟩
    · rw [hm]
      simp only []
      split
      · exact Or.inr ⟨_, rfl⟩
      · split
        · exact Or.inr ⟨_, rfl⟩
        · exact Or.inl ⟨_, rfl⟩
    · rw [hm]
      exact Or.inr ⟨_, rfl⟩

/-- Function `strconv.ParseInt` accepts exactly the numerals of the base whose
value lies in the `int64` range, and returns that value. -/
theorem strconv.ParseInt_eq_ok_iff (s : String) (base : Nat) (v : Int) (hb : 2 ≤ base)
    (hb36 : base ≤ 36) :
    strconv.ParseInt s base = Outcome.ok v ↔ numeralValue base s = some v ∧ inInt64 v := by
  unfold strconv.ParseInt numeralValue
  cases s.data with
  | nil => simp
  | cons c rest =>
    simp only []
    generalize hdig : (if c = '+' ∨ c = '-' then rest else c :: rest) = digits
    rcases strconv.ParseUint_ok_or_error digits base with ⟨m, hm⟩ | ⟨msg, hm⟩
    · obtain ⟨h1, h2, h3, h4⟩ := (strconv.ParseUint_eq_ok_iff digits base m hb hb36).1 hm
      rw [hm]
      simp only [if_pos (And.intro h1 h2), h3, Option.some.injEq]
      unfold uintModulus at h4
      by_cases hneg : c = '-'
      · simp only [hneg, decide_True, Bool.true_eq_false, false_and, if_false, true_and, if_true]
        by_cases hr : m > 2 ^ 63
        · simp only [if_pos hr]
          constructor
          · intro h; cases h
          · rintro ⟨h5, h6⟩
            unfold inInt64 at h6
            omega
        · simp only [if_neg hr, Outcome.ok.injEq]
          have e : wrapInt64 (-wrapInt64 (m : Int)) = -(m : Int) := by
            unfold wrapInt64; omega
          rw [e]
          constructor
          · intro h; subst h
            exact ⟨rfl, by unfold inInt64; omega⟩
          · intro h; exact h.1
      · simp only [hneg, decide_False, true_and, Bool.false_eq_true, false_and, if_false]
        by_cases hr : m ≥ 2 ^ 63
        · simp only [if_pos hr]
          constructor
          · intro h; cases h
          · rintro ⟨h5, h6⟩
            unfold inInt64 at h6
            omega
        · simp only [if_neg hr, Outcome.ok.injEq]
          have e : wrapInt64 (m : Int) = (m : Int) := by
            unfold wrapInt64; omega
          rw [e]
          constructor
          · intro h; subst h
            exact ⟨rfl, by unfold inInt64; omega⟩
          · intro h; exact h.1
    · rw [hm]
      simp only []
      constructor
      · intro h; cases h
      · rintro ⟨h5, h6⟩
        exfalso
        by_cases hd : digits ≠ [] ∧ allDigits base digits = true
        · have hlt : digitsFrom base 0 digits < uintModulus := by
            rw [if_pos hd] at h5
            unfold inInt64 at h6
            unfold uintModulus
            simp only [Option.some.injEq] at h5
            split at h5 <;> omega
          have := (strconv.ParseUint_eq_ok_iff digits base _ hb hb36).2 ⟨hd.1, hd.2, rfl, hlt⟩
          rw [hm] at this
          cases this
        · rw [if_neg hd] at h5
          cases h5

/-! ## Values of enum members -/

theorem shiftLeftOne_of_le (n : Nat) (h : n ≤ 62) :
    shiftLeftOne (n : Int) = Outcome.ok (2 ^ n) := by
  have h0 : ¬ ((n : Int) < 0) := by omega
  have h1 : ¬ ((n : Int) ≥ 64) := by omega
  simp only [shiftLeftOne, if_neg h0, if_neg h1, Int.toNat_ofNat]
  congr 1
  apply wrapInt64_of_inInt64
  have hp : (2 : Int) ^ n ≤ 2 ^ 62 := pow_le_pow_right₀ (by norm_num) h
  have hq : (0 : Int) < 2 ^ n := by positivity
  unfold inInt64
  constructor <;> omega

theorem shiftLeftOne_inInt64 (n v : Int) (h : shiftLeftOne n = Outcome.ok v) : inInt64 v := by
  unfold shiftLeftOne at h
  split at h
  · cases h
  · split at h
    · cases h; unfold inInt64; omega
    · cases h; exact wrapInt64_inInt64 _

theorem enumFieldValueBody_congr (r1 r2 : Option enumFieldInfo → Outcome Int)
    (enum_field : Option enumFieldInfo) (all_enum_fields : EnumValues) (r : Outcome Int)
    (hrec : ∀ f, r1 f = r → r2 f = r)
    (h : enumFieldValueBody r1 enum_field all_enum_fields = r) :
    enumFieldValueBody r2 enum_field all_enum_fields = r := by
  cases enum_field with
  | none => exact h
  | some f =>
    simp only [enumFieldValueBody] at h ⊢
    split
    · rw [if_pos (by assumption)] at h; exact h
    · rw [if_neg (by assumption)] at h
      split
      · rw [if_pos (by assumption)] at h; exact h
      · rw [if_neg (by assumption)] at h
        split
        · rw [if_pos (by assumption)] at h
          exact hrec _ h
        · rw [if_neg (by assumption)] at h; exact h

/-- More fuel keeps every outcome of `enumFieldValue` but exhausted fuel. -/
theorem enumFieldValue_keptBy (all_enum_fields : EnumValues) (r : Outcome Int)
    (hr : r ≠ Outcome.outOfFuel) :
    ∀ (fuel : Nat) (enum_field : Option enumFieldInfo),
      enumFieldValue fuel enum_field all_enum_fields = r →
        ∀ more, enumFieldValue (fuel + more) enum_field all_enum_fields = r
  | fuel, enum_field, h, 0 => h
  | 0, enum_field, h, more + 1 => by
    rw [Nat.zero_add]
    simp only [enumFieldValue] at h ⊢
    exact enumFieldValueBody_congr _ _ _ _ r (fun f hf => absurd hf.symm hr) h
  | fuel + 1, enum_field, h, more + 1 => by
    have e : fuel + 1 + (more + 1) = (fuel + (more + 1)) + 1 := by omega
    rw [e]
    simp only [enumFieldValue] at h ⊢
    exact enumFieldValueBody_congr _ _ _ _ r
      (fun f hf => enumFieldValue_keptBy all_enum_fields r hr fuel f hf (more + 1)) h

theorem enumFieldValueBody_inInt64 (recurse : Option enumFieldInfo → Outcome Int)
    (enum_field : Option enumFieldInfo) (all_enum_fields : EnumValues) (v : Int)
    (hrec : ∀ f, recurse f = Outcome.ok v → inInt64 v)
    (h : enumFieldValueBody recurse enum_field all_enum_fields = Outcome.ok v) : inInt64 v := by
  cases enum_field with
  | none => cases h
  | some f =>
    simp only [enumFieldValueBody] at h
    split at h
    · split at h
      · exact ((strconv.ParseInt_eq_ok_iff _ 16 v (by omega) (by omega)).1 h).2
      · exact ((strconv.ParseInt_eq_ok_iff _ 10 v (by omega) (by omega)).1 h).2
    · split at h
      · split at h
        · exact shiftLeftOne_inInt64 _ _ h
        · rename_i err hne
          exact absurd h (by
            intro hh
            rcases strconv.ParseInt_ok_or_error f.BitPos 10 with ⟨w, hw⟩ | ⟨msg, hw⟩
            · exact hne w hw
            · rw [hw] at hh; cases hh)
      · split at h
        · exact hrec _ h
        · split at h
          · cases h; exact wrapInt64_inInt64 _
          · cases h; exact wrapInt64_inInt64 _

/-- Every value of `enumFieldValue` is an `int64`. -/
theorem enumFieldValue_inInt64 (all_enum_fields : EnumValues) (v : Int) :
    ∀ (fuel : Nat) (enum_field : Option enumFieldInfo),
      enumFieldValue fuel enum_field all_enum_fields = Outcome.ok v → inInt64 v
  | 0, enum_field, h => by
    simp only [enumFieldValue] at h
    exact enumFieldValueBody_inInt64 (fun _ => Outcome.outOfFuel) _ _ v (fun _ hf => by cases hf) h
  | fuel + 1, enum_field, h => by
    simp only [enumFieldValue] at h
    exact enumFieldValueBody_inInt64 _ _ _ v
      (fun f hf => enumFieldValue_inInt64 all_enum_fields v fuel f hf) h

/-- On the `nil` map one unit of fuel is enough. -/
theorem enumFieldValue_nil_map (enum_field : enumFieldInfo) :
    enumFieldValue 1 (some enum_field) [] ≠ Outcome.outOfFuel := by
  simp only [enumFieldValue, enumFieldValueBody]
  split
  · split
    · rcases strconv.ParseInt_ok_or_error (String.mk (List.drop 2 enum_field.Value.data)) 16
        with ⟨w, hw⟩ | ⟨msg, hw⟩ <;> rw [hw] <;> exact fun h => nomatch h
    · rcases strconv.ParseInt_ok_or_error enum_field.Value 10
        with ⟨w, hw⟩ | ⟨msg, hw⟩ <;> rw [hw] <;> exact fun h => nomatch h
  · split
    · rcases strconv.ParseInt_ok_or_error enum_field.BitPos 10 with ⟨w, hw⟩ | ⟨msg, hw⟩
      · rw [hw]
        simp only [shiftLeftOne]
        split
        · exact fun h => nomatch h
        · split <;> exact fun h => nomatch h
      · rw [hw]; exact fun h => nomatch h
    · split
      · simp only [List.lookup]
        exact fun h => nomatch h
      · split <;> exact fun h => nomatch h

/-- C23: `enumFieldValue` reads a non-empty `value` as a numeral of base 16 after
the prefix `0x` and as a numeral of base 10 otherwise, returns its value when it
lies in the `int64` range and an error for every other text; without a `value`,
a `bitpos` that writes `n ≤ 62` gives `2^n`; without both, an `alias` gives the
outcome of the member it names, with any fuel beyond the one that member needs. -/
theorem enumFieldValue_precedence (fuel : Nat) (enum_field : enumFieldInfo)
    (all_enum_fields : EnumValues) :
    (enum_field.Value ≠ "" →
      (∀ v, enumFieldValue fuel (some enum_field) all_enum_fields = Outcome.ok v ↔
        (if "0x".data.isPrefixOf enum_field.Value.data
          then numeralValue 16 (String.mk (enum_field.Value.data.drop 2))
          else numeralValue 10 enum_field.Value) = some v ∧ inInt64 v) ∧
      ((∃ v, enumFieldValue fuel (some enum_field) all_enum_fields = Outcome.ok v) ∨
        ∃ msg, enumFieldValue fuel (some enum_field) all_enum_fields = Outcome.error msg)) ∧
    (enum_field.Value = "" → enum_field.BitPos ≠ "" → ∀ n : Nat,
      numeralValue 10 enum_field.BitPos = some (n : Int) → n ≤ 62 →
        enumFieldValue fuel (some enum_field) all_enum_fields = Outcome.ok (2 ^ n)) ∧
    (enum_field.Value = "" → enum_field.BitPos = "" → enum_field.Alias ≠ "" →
      ∀ target, all_enum_fields.lookup enum_field.Alias = some target →
        enumFieldValue (fuel + 1) (some enum_field) all_enum_fields =
          enumFieldValue fuel (some target) all_enum_fields ∧
        ∀ v, enumFieldValue fuel (some target) all_enum_fields = Outcome.ok v →
          ∀ more, enumFieldValue (fuel + 1 + more) (some enum_field) all_enum_fields =
            Outcome.ok v) := by
  have hbody : ∀ fuel, enumFieldValue fuel (some enum_field) all_enum_fields =
      enumFieldValueBody (fun target =>
        match fuel with
        | 0 => Outcome.outOfFuel
        | fuel + 1 => enumFieldValue fuel target all_enum_fields) (some enum_field)
        all_enum_fields := by
    intro fuel
    cases fuel <;> simp only [enumFieldValue]
  refine ⟨?_, ?_, ?_⟩
  · intro hv
    rw [hbody]
    simp only [enumFieldValueBody, if_pos hv]
    by_cases hp : "0x".data.isPrefixOf enum_field.Value.data = true
    · simp only [if_pos hp]
      exact ⟨fun v => strconv.ParseInt_eq_ok_iff _ 16 v (by omega) (by omega),
        strconv.ParseInt_ok_or_error _ _⟩
    · simp only [if_neg hp]
      exact ⟨fun v => strconv.ParseInt_eq_ok_iff _ 10 v (by omega) (by omega),
        strconv.ParseInt_ok_or_error _ _⟩
  · intro hv hb n hn hle
    rw [hbody]
    have hv' : ¬ enum_field.Value ≠ "" := fun h => h hv
    simp only [enumFieldValueBody, if_neg hv', if_pos hb]
    have hin : inInt64 (n : Int) := by unfold inInt64; omega
    rw [(strconv.ParseInt_eq_ok_iff _ 10 _ (by omega) (by omega)).2 ⟨hn, hin⟩]
    exact shiftLeftOne_of_le n hle
  · intro hv hb ha target ht
    have hv' : ¬ enum_field.Value ≠ "" := fun h => h hv
    have hb' : ¬ enum_field.BitPos ≠ "" := fun h => h hb
    have e : enumFieldValue (fuel + 1) (some enum_field) all_enum_fields =
        enumFieldValue fuel (some target) all_enum_fields := by
      simp only [enumFieldValue, enumFieldValueBody, if_neg hv', if_neg hb', if_pos ha, ht]
    refine ⟨e, ?_⟩
    intro v hok more
    exact enumFieldValue_keptBy all_enum_fields (Outcome.ok v) (fun h => by cases h) _ _
      (e.trans hok) more

/-- C23 on the members of the package tests: the value `0x100000000`, a value that
is no numeral, bit position 31, and an alias of the member with bit position 31. -/
theorem enumFieldValue_precedence_witness :
    enumFieldValue 0 (some testValue64Bit) [] = Outcome.ok 0x100000000 ∧
    (∃ msg, enumFieldValue 0 (some malformedValue) [] = Outcome.error msg) ∧
    enumFieldValue 0 (some reserved31Bit) [] = Outcome.ok 0x80000000 ∧
    enumFieldValue 1 (some reserved31BitAlias) [("VK_IMAGE_RESERVED_31_BIT", reserved31Bit)] =
      Outcome.ok 0x80000000 :=
  ⟨(((enumFieldValue_precedence 0 testValue64Bit []).1 (by decide)).1 0x100000000).2
      ⟨by decide, by decide⟩,
   (((enumFieldValue_precedence 0 malformedValue []).1 (by decide)).2).resolve_left
      (fun h => h.elim (fun v hv =>
        nomatch ((((enumFieldValue_precedence 0 malformedValue []).1 (by decide)).1 v).1 hv).1)),
   (enumFieldValue_precedence 0 reserved31Bit []).2.1 (by decide) (by decide) 31 (by decide)
      (by decide),
   ((enumFieldValue_precedence 0 reserved31BitAlias
      [("VK_IMAGE_RESERVED_31_BIT", reserved31Bit)]).2.2 (by decide) (by decide) (by decide)
      reserved31Bit (by decide)).2 0x80000000 (by decide) 0⟩

set_option maxRecDepth 10000 in
/-- C24 (counterexample): the member of `TestEnumExtend` with extension
number 158 and offset 1, given `dir="+"`, has the negated value. -/
theorem enumFieldValue_negates_dir_plus :
    bindImageMemoryInfoPlus.Dir = "+" ∧
    enumFieldValue 0 (some bindImageMemoryInfoPlus) [] = Outcome.ok (-1000157001) :=
  ⟨rfl, by decide⟩

/-- C24 (amended): a member with none of `value`, `bitpos` and `alias` has the
value `v = 1000000000 + (extNumber - 1) * 1000 + offset`, negated when its `dir`
is not empty, in `int64` arithmetic (it is `v` or `-v` itself when they lie in the
`int64` range); and a member without a number of its own that an extension adds
to an enum is stored with the number of the extension, and valued with it. -/
theorem enumFieldValue_of_offset (fuel : Nat) (enum_field : enumFieldInfo)
    (all_enum_fields : EnumValues) (hv : enum_field.Value = "") (hb : enum_field.BitPos = "")
    (ha : enum_field.Alias = "") :
    enumFieldValue fuel (some enum_field) all_enum_fields =
      Outcome.ok (wrapInt64
        (if enum_field.Dir = "" then 1000000000 + (enum_field.ExtID - 1) * 1000 + enum_field.Offset
         else -(1000000000 + (enum_field.ExtID - 1) * 1000 + enum_field.Offset))) ∧
    (inInt64 (1000000000 + (enum_field.ExtID - 1) * 1000 + enum_field.Offset) →
      inInt64 (-(1000000000 + (enum_field.ExtID - 1) * 1000 + enum_field.Offset)) →
      enumFieldValue fuel (some enum_field) all_enum_fields =
        Outcome.ok
          (if enum_field.Dir = "" then
            1000000000 + (enum_field.ExtID - 1) * 1000 + enum_field.Offset
           else -(1000000000 + (enum_field.ExtID - 1) * 1000 + enum_field.Offset))) ∧
    (∀ (extension : extensionInfo) (st : EnumValues × EnumTypes), enum_field.ExtID = 0 →
      enum_field.Extends ≠ "" → st.1.lookup enum_field.Name = none →
      ∃ stored : enumFieldInfo,
        parseExtensionField extension st enum_field =
          Outcome.ok (st.1 ++ [(enum_field.Name, stored)],
            appendEnumType st.2 enum_field.Extends stored) ∧
        stored.ExtID = extension.ID ∧
        enumFieldValue fuel (some stored) all_enum_fields =
          Outcome.ok (wrapInt64
            (if enum_field.Dir = "" then 1000000000 + (extension.ID - 1) * 1000 + enum_field.Offset
             else -(1000000000 + (extension.ID - 1) * 1000 + enum_field.Offset)))) := by
  have key : ∀ (f : enumFieldInfo), f.Value = "" → f.BitPos = "" → f.Alias = "" →
      enumFieldValue fuel (some f) all_enum_fields =
        Outcome.ok (wrapInt64
          (if f.Dir = "" then 1000000000 + (f.ExtID - 1) * 1000 + f.Offset
           else -(1000000000 + (f.ExtID - 1) * 1000 + f.Offset))) := by
    intro f hv hb ha
    have hv' : ¬ f.Value ≠ "" := fun h => h hv
    have hb' : ¬ f.BitPos ≠ "" := fun h => h hb
    have ha' : ¬ f.Alias ≠ "" := fun h => h ha
    have e : enumFieldValue fuel (some f) all_enum_fields =
        (if f.Dir = "" then
          Outcome.ok (wrapInt64 (wrapInt64 (1000000000 + wrapInt64 (wrapInt64 (f.ExtID - 1) * 1000))
            + f.Offset))
         else Outcome.ok (wrapInt64 (-(wrapInt64 (wrapInt64 (1000000000 +
            wrapInt64 (wrapInt64 (f.ExtID - 1) * 1000)) + f.Offset))))) := by
      cases fuel <;>
        simp only [enumFieldValue, enumFieldValueBody, if_neg hv', if_neg hb', if_neg ha']
    rw [e]
    by_cases hd : f.Dir = ""
    · simp only [if_pos hd]
      congr 1
      unfold wrapInt64
      omega
    · simp only [if_neg hd]
      congr 1
      unfold wrapInt64
      omega
  refine ⟨key enum_field hv hb ha, ?_, ?_⟩
  · intro h1 h2
    rw [key enum_field hv hb ha]
    congr 1
    by_cases hd : enum_field.Dir = ""
    · simp only [if_pos hd]; exact wrapInt64_of_inInt64 _ h1
    · simp only [if_neg hd]; exact wrapInt64_of_inInt64 _ h2
  · intro extension st hz hext hnew
    refine ⟨{ enum_field with ExtID := extension.ID }, ?_, rfl, ?_⟩
    · simp only [parseExtensionField, if_pos hz, if_pos hext, hnew]
    · exact key { enum_field with ExtID := extension.ID } hv hb ha

/-- C24 (amended) on the members of `TestEnumExtend`: extension number 158 with
offset 1, and offset 1 inside the extension with number 2. -/
theorem enumFieldValue_of_offset_witness :
    enumFieldValue 0 (some bindImageMemoryInfo) [] = Outcome.ok 1000157001 ∧
    ∃ stored : enumFieldInfo,
      parseExtensionField swapchainExtension
          ([("VK_STRUCTURE_TYPE_BIND_IMAGE_MEMORY_INFO", bindImageMemoryInfo)],
           [("VkStructureType", [bindImageMemoryInfo])]) presentInfoKHR =
        Outcome.ok
          ([("VK_STRUCTURE_TYPE_BIND_IMAGE_MEMORY_INFO", bindImageMemoryInfo)] ++
             [("VK_STRUCTURE_TYPE_PRESENT_INFO_KHR", stored)],
           appendEnumType [("VkStructureType", [bindImageMemoryInfo])] "VkStructureType" stored) ∧
      stored.ExtID = 2 ∧ enumFieldValue 0 (some stored) [] = Outcome.ok 1000001001 :=
  ⟨(enumFieldValue_of_offset 0 bindImageMemoryInfo [] rfl rfl rfl).2.1 (by decide) (by decide),
   (enumFieldValue_of_offset 0 presentInfoKHR [] rfl rfl rfl).2.2 swapchainExtension
      ([("VK_STRUCTURE_TYPE_BIND_IMAGE_MEMORY_INFO", bindImageMemoryInfo)],
       [("VkStructureType", [bindImageMemoryInfo])]) rfl (by decide) (by decide)⟩

/-- The loader gives the two members of `TestEnumExtend` the values 1000157001
and 1000001001. -/
theorem parseEnumValues_enumExtendRegistry :
    parseEnumValues enumExtendRegistry = Outcome.ok
      ([("VK_STRUCTURE_TYPE_BIND_IMAGE_MEMORY_INFO", bindImageMemoryInfo),
        ("VK_STRUCTURE_TYPE_PRESENT_INFO_KHR", { presentInfoKHR with ExtID := 2 })],
       [("VkStructureType", [bindImageMemoryInfo, { presentInfoKHR with ExtID := 2 }])]) := by
  decide

/-! ## Underlying type of an enum -/

theorem truncInt32_eq_iff (v : Int) : truncInt32 v = v ↔ -2 ^ 31 ≤ v ∧ v ≤ 2 ^ 31 - 1 := by
  unfold truncInt32
  omega

theorem truncUInt32_eq_iff (v : Int) : truncUInt32 v = v ↔ 0 ≤ v ∧ v ≤ 2 ^ 32 - 1 := by
  unfold truncUInt32
  omega

theorem fits_step (flag : Bool) (v : Int) (values : List Int) (trunc : Int → Int)
    (P : Int → Prop) [DecidablePred P] (h : trunc v = v ↔ P v) :
    ((if trunc v ≠ v then false else flag) && decide (∀ w ∈ values, P w)) =
      (flag && decide (∀ w ∈ v :: values, P w)) := by
  by_cases h1 : P v
  · have : ¬ trunc v ≠ v := fun hne => hne (h.2 h1)
    simp only [if_neg this, List.mem_cons, forall_eq_or_imp, h1, true_and]
  · have : trunc v ≠ v := fun he => h1 (h.1 he)
    simp only [if_pos this, List.mem_cons, forall_eq_or_imp, h1, false_and, decide_False,
      Bool.and_false, Bool.false_and]

/-- The first loop of `vulkanEnumTypeFromXML` over members that all have a value
leaves each flag set exactly when it was set and every value is in its range. -/
theorem enumFits_of_values (fuel : Nat) (enum_values : EnumValues) :
    ∀ (elements : List enumFieldInfo) (values : List Int) (fits_in_int32 fits_in_uint32 : Bool),
      elements.map (fun e => enumFieldValue fuel (some e) enum_values) = values.map Outcome.ok →
      enumFits fuel enum_values elements (fits_in_int32, fits_in_uint32) =
        Outcome.ok
          (fits_in_int32 && decide (∀ v ∈ values, -2 ^ 31 ≤ v ∧ v ≤ 2 ^ 31 - 1),
           fits_in_uint32 && decide (∀ v ∈ values, 0 ≤ v ∧ v ≤ 2 ^ 32 - 1))
  | [], [], a, b, _ => by simp [enumFits]
  | [], _ :: _, _, _, h => by cases h
  | _ :: _, [], _, _, h => by cases h
  | e :: elements, v :: values, a, b, h => by
    simp only [List.map_cons, List.cons.injEq] at h
    simp only [enumFits, h.1]
    rw [enumFits_of_values fuel enum_values elements values _ _ h.2]
    congr 2
    · exact fits_step a v values _ _ (truncInt32_eq_iff v)
    · exact fits_step b v values _ _ (truncUInt32_eq_iff v)

/-- The second loop of `vulkanEnumTypeFromXML` pairs the members with their values
in the order of declaration. -/
theorem enumMembers_of_values (fuel : Nat) (enum_values : EnumValues) (basetype : Ty) :
    ∀ (elements : List enumFieldInfo) (values : List Int),
      elements.map (fun e => enumFieldValue fuel (some e) enum_values) = values.map Outcome.ok →
      elements.map (fun element => EnumField element.Name basetype element.Alias
          (enumFieldValueOrZero fuel element enum_values)) =
        List.zipWith (fun element value => EnumField element.Name basetype element.Alias value)
          elements values
  | [], [], _ => rfl
  | [], _ :: _, h => by cases h
  | _ :: _, [], h => by cases h
  | e :: elements, v :: values, h => by
    simp only [List.map_cons, List.cons.injEq] at h
    rw [List.map_cons, List.zipWith_cons_cons,
      enumMembers_of_values fuel enum_values basetype elements values h.2]
    simp only [enumFieldValueOrZero, h.1]

/-- C25: when every member of the enum has a value, `vulkanEnumTypeFromXML` returns
the enum over `Int32TType` if all values lie in `[-2^31, 2^31 - 1]`, else over
`UInt32TType` if all lie in `[0, 2^32 - 1]`, else over `Int64TType`; its members are
the declared ones in their order with these values, and every value fits the
chosen type on every architecture. -/
theorem vulkanEnumTypeFromXML_underlying (fuel : Nat) (typ : typeInfo)
    (enum_values : EnumValues) (enum_types : EnumTypes) (values : List Int)
    (h : ((enum_types.lookup typ.Name).getD []).map
        (fun e => enumFieldValue fuel (some e) enum_values) = values.map Outcome.ok) :
    ∃ basetype : Ty,
      basetype =
        (if ∀ v ∈ values, -2 ^ 31 ≤ v ∧ v ≤ 2 ^ 31 - 1 then Int32TType
         else if ∀ v ∈ values, 0 ≤ v ∧ v ≤ 2 ^ 32 - 1 then UInt32TType
         else Int64TType) ∧
      vulkanEnumTypeFromXML fuel typ enum_values enum_types =
        Outcome.ok (EnumType typ.Name basetype
          (List.zipWith (fun element value => EnumField element.Name basetype element.Alias value)
            ((enum_types.lookup typ.Name).getD []) values)) ∧
      ∀ v ∈ values, ∀ a : Arch, fitsIn basetype a v := by
  refine ⟨_, rfl, ?_, ?_⟩
  · simp only [vulkanEnumTypeFromXML, enumFits_of_values fuel enum_values _ values true true h,
      Bool.true_and]
    rw [enumMembers_of_values fuel enum_values _ _ values h]
    by_cases h1 : ∀ v ∈ values, -2 ^ 31 ≤ v ∧ v ≤ 2 ^ 31 - 1
    · simp only [decide_eq_false_iff_not, decide_eq_true_eq, if_pos h1,
        if_neg (not_not_intro h1)]
    · by_cases h2 : ∀ v ∈ values, 0 ≤ v ∧ v ≤ 2 ^ 32 - 1
      · simp only [decide_eq_false_iff_not, decide_eq_true_eq, if_pos h1, if_neg h1, if_pos h2]
      · simp only [decide_eq_false_iff_not, decide_eq_true_eq, if_pos h1, if_neg h1, if_neg h2]
  · intro v hv a
    have hin : inInt64 v := by
      have hm : Outcome.ok v ∈ values.map Outcome.ok := List.mem_map_of_mem _ hv
      rw [← h] at hm
      obtain ⟨e, _, he⟩ := List.mem_map.1 hm
      exact enumFieldValue_inInt64 enum_values v fuel _ he
    by_cases h1 : ∀ v ∈ values, -2 ^ 31 ≤ v ∧ v ≤ 2 ^ 31 - 1
    · rw [if_pos h1]
      have := h1 v hv
      cases a <;> simp only [fitsIn, Int32TType, Ty.Bits, Ty.Signed] <;> omega
    · rw [if_neg h1]
      by_cases h2 : ∀ v ∈ values, 0 ≤ v ∧ v ≤ 2 ^ 32 - 1
      · rw [if_pos h2]
        have := h2 v hv
        cases a <;> simp only [fitsIn, UInt32TType, Ty.Bits, Ty.Signed] <;> omega
      · rw [if_neg h2]
        unfold inInt64 at hin
        cases a <;> simp only [fitsIn, Int64TType, Ty.Bits, Ty.Signed] <;> omega

set_option maxRecDepth 10000 in
/-- C25 on the enums of `TestEnumUInt32` and `TestEnum64bit`. -/
theorem vulkanEnumTypeFromXML_underlying_witness :
    (∃ basetype : Ty, basetype = UInt32TType ∧
      vulkanEnumTypeFromXML 0 (typeNamed "VkImageCreateFlagBits" "enum")
          [("VK_IMAGE_RESERVED_31_BIT", reserved31Bit)]
          [("VkImageCreateFlagBits", [reserved31Bit])] =
        Outcome.ok (EnumType "VkImageCreateFlagBits" basetype
          [EnumField "VK_IMAGE_RESERVED_31_BIT" basetype "" 0x80000000]) ∧
      ∀ v ∈ [(0x80000000 : Int)], ∀ a : Arch, fitsIn basetype a v) ∧
    (∃ basetype : Ty, basetype = Int64TType ∧
      vulkanEnumTypeFromXML 0 (typeNamed "Vk64BitEnum" "enum")
          [("VK_64_BIT_ENUM_TEST_VALUE", testValue64Bit)]
          [("Vk64BitEnum", [testValue64Bit])] =
        Outcome.ok (EnumType "Vk64BitEnum" basetype
          [EnumField "VK_64_BIT_ENUM_TEST_VALUE" basetype "" 0x100000000]) ∧
      ∀ v ∈ [(0x100000000 : Int)], ∀ a : Arch, fitsIn basetype a v) :=
  ⟨vulkanEnumTypeFromXML_underlying 0 (typeNamed "VkImageCreateFlagBits" "enum")
      [("VK_IMAGE_RESERVED_31_BIT", reserved31Bit)] [("VkImageCreateFlagBits", [reserved31Bit])]
      [0x80000000] (by decide),
   vulkanEnumTypeFromXML_underlying 0 (typeNamed "Vk64BitEnum" "enum")
      [("VK_64_BIT_ENUM_TEST_VALUE", testValue64Bit)] [("Vk64BitEnum", [testValue64Bit])]
      [0x100000000] (by decide)⟩

/-! ## Repeated names of enum members -/

/-- A member that an extension adds to an enum under a name already declared is
skipped without any comparison of values as soon as one of the two declarations
has no alias. -/
theorem parseExtensionField_skips_without_alias (extension : extensionInfo)
    (st : EnumValues × EnumTypes) (enum_field old_enum_filed : enumFieldInfo)
    (hext : enum_field.Extends ≠ "")
    (hold : st.1.lookup enum_field.Name = some old_enum_filed)
    (halias : enum_field.Alias = "" ∨ old_enum_filed.Alias = "") :
    parseExtensionField extension st enum_field = Outcome.ok st := by
  unfold parseExtensionField
  by_cases hz : enum_field.ExtID = 0
  · simp only [if_pos hz, if_pos hext, hold]
    split <;> rfl
  · simp only [if_neg hz, if_pos hext, hold]
    split <;> rfl

/-- A name declared twice inside `enums` elements is an error whatever the values. -/
theorem parseEnumsField_rejects_repeated (enum : enumInfo) (st : EnumValues × EnumTypes)
    (enum_field old : enumFieldInfo) (hold : st.1.lookup enum_field.Name = some old) :
    parseEnumsField enum st enum_field =
      Outcome.error ("Duplicated enum value \"" ++ enum.Name ++ "\"") := by
  simp only [parseEnumsField, hold, Option.isSome_some, if_true]

/-- A name declared twice by features is an error whatever the values. -/
theorem parseFeatureField_rejects_repeated (st : EnumValues × EnumTypes)
    (enum_field old : enumFieldInfo) (hext : enum_field.Extends ≠ "")
    (hold : st.1.lookup enum_field.Name = some old) :
    parseFeatureField st enum_field =
      Outcome.error ("Duplicated enum value \"" ++ enum_field.Name ++ "\"") := by
  simp only [parseFeatureField, if_pos hext, hold, Option.isSome_some, if_true]

/-- C26: `parseEnumValues` returns no error for the registry in which a feature
and an extension declare `VK_ERROR_A` without alias with the values 1000000001
and 1000000002, and keeps the first declaration; it returns an error for the name
declared twice with the value 1 in one `enums` element, and panics on the name
declared by a feature and by an extension as aliases of two members. -/
theorem parseEnumValues_repeated_name :
    (parseEnumValues repeatedRegistry =
        Outcome.ok ([("VK_ERROR_A", errorAOfFeature)], [("VkResult", [errorAOfFeature])]) ∧
      enumFieldValue 0 (some errorAOfFeature) [] = Outcome.ok 1000000001 ∧
      enumFieldValue 0 (some { errorAOfExtension with ExtID := 1 }) [] =
        Outcome.ok 1000000002) ∧
    parseEnumValues repeatedEnumsRegistry = Outcome.error "Duplicated enum value \"VkA\"" ∧
    parseEnumValues repeatedAliasRegistry = Outcome.panic :=
  ⟨⟨by decide, by decide, by decide⟩, by decide, by decide⟩

/-! ## Handles -/

theorem handle_bodies_differ (name : String) :
    "<type>VK_DEFINE_NON_DISPATCHABLE_HANDLE</type>(<name>" ++ name ++ "</name>)" ≠
      "<type>VK_DEFINE_HANDLE</type>(<name>" ++ name ++ "</name>)" := by
  intro h
  have h2 := congrArg String.data h
  simp only [String.data_append] at h2
  revert h2
  simp

/-- C27: for a record named `N`, the body `VK_DEFINE_HANDLE(N)` yields
`Alias(N, Pointer(Opaque("struct N_T")))`, which is a Vulkan handle and no
non-dispatchable handle; the body `VK_DEFINE_NON_DISPATCHABLE_HANDLE(N)` yields a
type that is `Alias(N, UInt64)` on ARM32, RISC-V32 and x86 and
`Alias(N, Pointer(Opaque("struct N_T")))` on ARM64, RISC-V64 and x86-64, which is a
non-dispatchable handle and no Vulkan handle; any other body is an error. -/
theorem vulkanHandleTypeFromXML_by_body (typ : typeInfo) :
    (typ.RawXML = "<type>VK_DEFINE_HANDLE</type>(<name>" ++ typ.Name ++ "</name>)" →
      vulkanHandleTypeFromXML typ =
        Outcome.ok (AliasType typ.Name (PointerType (OpaqueType ("struct " ++ typ.Name ++ "_T")))) ∧
      IsVulkanHandle
        (AliasType typ.Name (PointerType (OpaqueType ("struct " ++ typ.Name ++ "_T")))) =
          some true ∧
      IsVulkanNondispatchableHandle
        (AliasType typ.Name (PointerType (OpaqueType ("struct " ++ typ.Name ++ "_T")))) =
          some false) ∧
    (typ.RawXML =
        "<type>VK_DEFINE_NON_DISPATCHABLE_HANDLE</type>(<name>" ++ typ.Name ++ "</name>)" →
      ∃ t : Ty, vulkanHandleTypeFromXML typ = Outcome.ok t ∧
        (∀ a, a = Arch.Arm ∨ a = Arch.Riscv32 ∨ a = Arch.X86 →
          t.resolve a = AliasType typ.Name UInt64TType) ∧
        (∀ a, a = Arch.Arm64 ∨ a = Arch.Riscv64 ∨ a = Arch.X86_64 →
          t.resolve a =
            AliasType typ.Name (PointerType (OpaqueType ("struct " ++ typ.Name ++ "_T")))) ∧
        IsVulkanNondispatchableHandle t = some true ∧ IsVulkanHandle t = some false) ∧
    (typ.RawXML ≠ "<type>VK_DEFINE_HANDLE</type>(<name>" ++ typ.Name ++ "</name>)" →
      typ.RawXML ≠
        "<type>VK_DEFINE_NON_DISPATCHABLE_HANDLE</type>(<name>" ++ typ.Name ++ "</name>)" →
      ∃ msg, vulkanHandleTypeFromXML typ = Outcome.error msg) := by
  refine ⟨?_, ?_, ?_⟩
  · intro h
    refine ⟨by simp only [vulkanHandleTypeFromXML, if_pos h], ?_, ?_⟩
    · simp [IsVulkanHandle, Arch.all, isVulkanHandleOnEach, isVulkanHandle, AliasType, PointerType,
        OpaqueType, Ty.Kind, Ty.Elem, Ty.Name]
    · simp [IsVulkanNondispatchableHandle, isVulkanNondispatchableHandle, andThen, AliasType,
        PointerType, OpaqueType, Ty.Kind, Ty.Elem]
  · intro h
    have hne : typ.RawXML ≠ "<type>VK_DEFINE_HANDLE</type>(<name>" ++ typ.Name ++ "</name>)" := by
      rw [h]; exact handle_bodies_differ typ.Name
    refine ⟨_, by unfold vulkanHandleTypeFromXML; rw [if_neg hne, if_pos h], ?_, ?_, ?_, ?_⟩
    · rintro a (rfl | rfl | rfl) <;> rfl
    · rintro a (rfl | rfl | rfl) <;> rfl
    · simp [IsVulkanNondispatchableHandle, isVulkanNondispatchableHandle, isVulkanHandle, andThen,
        ArchDependentType, AliasType, PointerType, OpaqueType, UInt64TType, Ty.Kind, Ty.Elem,
        Ty.Name]
    · simp [IsVulkanHandle, Arch.all, isVulkanHandleOnEach, isVulkanHandle, ArchDependentType,
        AliasType, PointerType, OpaqueType, UInt64TType, Ty.Kind, Ty.Elem, Ty.Name]
  · intro h1 h2
    exact ⟨_, by unfold vulkanHandleTypeFromXML; rw [if_neg h1, if_neg h2]⟩

/-- C27 on the records of `TestHandle` and `TestNondispatchableHandle`, and on a
record whose body names another handle. -/
theorem vulkanHandleTypeFromXML_by_body_witness :
    (vulkanHandleTypeFromXML vkInstanceRecord =
        Outcome.ok (AliasType "VkInstance" (PointerType (OpaqueType "struct VkInstance_T"))) ∧
      IsVulkanHandle (AliasType "VkInstance" (PointerType (OpaqueType "struct VkInstance_T"))) =
        some true ∧
      IsVulkanNondispatchableHandle
        (AliasType "VkInstance" (PointerType (OpaqueType "struct VkInstance_T"))) = some false) ∧
    (∃ t : Ty, vulkanHandleTypeFromXML vkFenceRecord = Outcome.ok t ∧
      (∀ a, a = Arch.Arm ∨ a = Arch.Riscv32 ∨ a = Arch.X86 →
        t.resolve a = AliasType "VkFence" UInt64TType) ∧
      (∀ a, a = Arch.Arm64 ∨ a = Arch.Riscv64 ∨ a = Arch.X86_64 →
        t.resolve a = AliasType "VkFence" (PointerType (OpaqueType "struct VkFence_T"))) ∧
      IsVulkanNondispatchableHandle t = some true ∧ IsVulkanHandle t = some false) ∧
    ∃ msg, vulkanHandleTypeFromXML vkOtherRecord = Outcome.error msg :=
  ⟨(vulkanHandleTypeFromXML_by_body vkInstanceRecord).1 (by decide),
   (vulkanHandleTypeFromXML_by_body vkFenceRecord).2.1 (by decide),
   (vulkanHandleTypeFromXML_by_body vkOtherRecord).2.2 (by decide) (by decide)⟩

/-- The loader's type for `VkFence` is the type `vkFence` of the compatibility check. -/
theorem vulkanHandleTypeFromXML_vkFence :
    vulkanHandleTypeFromXML vkFenceRecord = Outcome.ok vkFence := by
  unfold vulkanHandleTypeFromXML
  rw [if_neg (by decide), if_pos (by decide)]
  rfl

/-! ## Defines -/

theorem api_tables_same_keys (name : String) :
    vulkan_known_defines.lookup name = none ↔ vulkansc_known_defines.lookup name = none := by
  simp only [vulkan_known_defines, vulkansc_known_defines, List.lookup]
  cases name == "VK_DEFINE_HANDLE" <;> cases name == "VK_DEFINE_NON_DISPATCHABLE_HANDLE" <;> simp

theorem checkKnownDefine_ok_iff (typ : typeInfo) (d : String)
    (hd : known_defines.lookup typ.Name = some d) :
    checkKnownDefine typ = Outcome.ok () ↔
      if typ.Name = "VK_HEADER_VERSION" ∨ typ.Name = "VK_HEADER_VERSION_COMPLETE" then
        d.data.isPrefixOf typ.RawXML.data = true
      else typ.RawXML = d ∨ known_defines_obsoleted.lookup typ.Name = some typ.RawXML := by
  unfold checkKnownDefine
  rw [hd]
  simp only []
  by_cases hh : typ.Name = "VK_HEADER_VERSION" ∨ typ.Name = "VK_HEADER_VERSION_COMPLETE"
  · have hn : ¬ (typ.Name ≠ "VK_HEADER_VERSION" ∧ typ.Name ≠ "VK_HEADER_VERSION_COMPLETE") := by
      rintro ⟨h1, h2⟩; rcases hh with h | h
      · exact h1 h
      · exact h2 h
    rw [if_neg hn, if_pos hh]
    by_cases hp : d.data.isPrefixOf typ.RawXML.data = true
    · simp only [hp, not_true_eq_false, if_false]
    · simp only [hp, not_false_eq_true, if_true, unmatchedDefine]
      constructor
      · intro h; cases h
      · intro h; cases h
  · have hn : typ.Name ≠ "VK_HEADER_VERSION" ∧ typ.Name ≠ "VK_HEADER_VERSION_COMPLETE" :=
      ⟨fun h => hh (Or.inl h), fun h => hh (Or.inr h)⟩
    rw [if_pos hn, if_neg hh]
    by_cases he : d = typ.RawXML
    · have : ¬ d ≠ typ.RawXML := fun h => h he
      simp only [if_neg this, true_iff]
      exact Or.inl he.symm
    · rw [if_pos he]
      cases ho : known_defines_obsoleted.lookup typ.Name with
      | none =>
        simp only []
        constructor
        · intro h; cases h
        · rintro (h | h)
          · exact absurd h.symm he
          · cases h
      | some o =>
        simp only []
        by_cases hoe : o = typ.RawXML
        · subst hoe
          simp
        · simp only [if_neg hoe, unmatchedDefine]
          constructor
          · intro h; cases h
          · rintro (h | h)
            · exact absurd h.symm he
            · exact absurd (Option.some.inj h) hoe

theorem checkKnownDefine_ok_or_error (typ : typeInfo) :
    checkKnownDefine typ = Outcome.ok () ∨ ∃ msg, checkKnownDefine typ = Outcome.error msg := by
  unfold checkKnownDefine unmatchedDefine
  split
  · split
    · split
      · split
        · split
          · exact Or.inl rfl
          · exact Or.inr ⟨_, rfl⟩
        · exact Or.inr ⟨_, rfl⟩
      · exact Or.inl rfl
    · split
      · exact Or.inr ⟨_, rfl⟩
      · exact Or.inl rfl
  · exact Or.inr ⟨_, rfl⟩

theorem checkApiDefine_ok_or_error (table : List (String × String)) (typ : typeInfo) :
    checkApiDefine table typ = Outcome.ok () ∨
      ∃ msg, checkApiDefine table typ = Outcome.error msg := by
  unfold checkApiDefine unmatchedDefine
  split
  · split
    · exact Or.inr ⟨_, rfl⟩
    · exact Or.inl rfl
  · exact checkKnownDefine_ok_or_error typ

theorem checkApiDefine_ok_iff (table : List (String × String)) (typ : typeInfo) (d : String)
    (hd : table.lookup typ.Name = some d) :
    checkApiDefine table typ = Outcome.ok () ↔ typ.RawXML = d := by
  unfold checkApiDefine
  rw [hd]
  simp only []
  by_cases he : d = typ.RawXML
  · have : ¬ d ≠ typ.RawXML := fun h => h he
    simp only [if_neg this, true_iff]
    exact he.symm
  · rw [if_pos he]
    unfold unmatchedDefine
    constructor
    · intro h; cases h
    · intro h; exact absurd h.symm he

/-- C30 (counterexample): the body of `VK_NULL_HANDLE` of an older
registry differs from the entry of `known_defines` and is accepted; the body of
the `vulkansc` API is accepted for a record of `VK_DEFINE_HANDLE` without API. -/
theorem obsolete_define_body_accepted :
    known_defines.lookup nullHandleObsolete.Name ≠ some nullHandleObsolete.RawXML ∧
    vulkanDefineTypeFromXML nullHandleObsolete = Outcome.ok () ∧
    vulkan_known_defines.lookup defineHandleNoApi.Name ≠ some defineHandleNoApi.RawXML ∧
    vulkanDefineTypeFromXML defineHandleNoApi = Outcome.ok () := by
  refine ⟨by decide, by decide, by decide, by decide⟩

/-- C30 (amended): a record named in the tables of the two APIs is accepted exactly
when its body is the entry of the table of its API, or of either table when its
API is neither `vulkan` nor `vulkansc`; any other record named in `known_defines`
is accepted exactly when its body is the entry of `known_defines` or the entry of
`known_defines_obsoleted`, or, for `VK_HEADER_VERSION` and
`VK_HEADER_VERSION_COMPLETE`, starts with the entry of `known_defines`; a record
named in no table is an error, and every record that is not accepted is an error. -/
theorem vulkanDefineTypeFromXML_accepts (typ : typeInfo) :
    (∀ d1 d2, vulkan_known_defines.lookup typ.Name = some d1 →
      vulkansc_known_defines.lookup typ.Name = some d2 →
        (vulkanDefineTypeFromXML typ = Outcome.ok () ↔
          if typ.Api = "vulkan" then typ.RawXML = d1
          else if typ.Api = "vulkansc" then typ.RawXML = d2
          else typ.RawXML = d1 ∨ typ.RawXML = d2)) ∧
    (vulkan_known_defines.lookup typ.Name = none →
      (∀ d, known_defines.lookup typ.Name = some d →
        (vulkanDefineTypeFromXML typ = Outcome.ok () ↔
          if typ.Name = "VK_HEADER_VERSION" ∨ typ.Name = "VK_HEADER_VERSION_COMPLETE" then
            d.data.isPrefixOf typ.RawXML.data = true
          else typ.RawXML = d ∨ known_defines_obsoleted.lookup typ.Name = some typ.RawXML)) ∧
      (known_defines.lookup typ.Name = none →
        vulkanDefineTypeFromXML typ =
          Outcome.error ("Unknown define \"" ++ typ.Name ++ "\""))) ∧
    (vulkan_known_defines.lookup typ.Name = none ↔
      vulkansc_known_defines.lookup typ.Name = none) ∧
    (vulkanDefineTypeFromXML typ = Outcome.ok () ∨
      ∃ msg, vulkanDefineTypeFromXML typ = Outcome.error msg) := by
  refine ⟨?_, ?_, api_tables_same_keys typ.Name, ?_⟩
  · intro d1 d2 h1 h2
    unfold vulkanDefineTypeFromXML
    by_cases ha : typ.Api = "vulkan"
    · rw [if_pos ha, if_pos ha]
      exact checkApiDefine_ok_iff _ typ d1 h1
    · rw [if_neg ha, if_neg ha]
      by_cases hb : typ.Api = "vulkansc"
      · rw [if_pos hb, if_pos hb]
        exact checkApiDefine_ok_iff _ typ d2 h2
      · rw [if_neg hb, if_neg hb, h1]
        simp only []
        by_cases he : d1 = typ.RawXML
        · simp only [if_pos he, true_iff]
          exact Or.inl he.symm
        · rw [if_neg he, checkApiDefine_ok_iff _ typ d2 h2]
          constructor
          · intro h; exact Or.inr h
          · rintro (h | h)
            · exact absurd h.symm he
            · exact h
  · intro h1
    have h2 : vulkansc_known_defines.lookup typ.Name = none :=
      (api_tables_same_keys typ.Name).1 h1
    have e : vulkanDefineTypeFromXML typ = checkKnownDefine typ := by
      unfold vulkanDefineTypeFromXML checkApiDefine
      rw [h1, h2]
      simp only [ite_self]
    rw [e]
    refine ⟨fun d hd => checkKnownDefine_ok_iff typ d hd, ?_⟩
    intro hn
    unfold checkKnownDefine
    rw [hn]
  · unfold vulkanDefineTypeFromXML
    split
    · exact checkApiDefine_ok_or_error _ typ
    · split
      · exact checkApiDefine_ok_or_error _ typ
      · split
        · split
          · exact Or.inl rfl
          · exact checkApiDefine_ok_or_error _ typ
        · exact checkApiDefine_ok_or_error _ typ

/-- C30 (amended) on four records: the handle define of the `vulkan` API, a header
version, the body of `VK_NULL_HANDLE` of older registries, and a name of no table. -/
theorem vulkanDefineTypeFromXML_accepts_witness :
    vulkanDefineTypeFromXML defineHandleVulkan = Outcome.ok () ∧
    vulkanDefineTypeFromXML headerVersion300 = Outcome.ok () ∧
    vulkanDefineTypeFromXML nullHandleObsolete = Outcome.ok () ∧
    vulkanDefineTypeFromXML defineUnknown = Outcome.error "Unknown define \"VK_FOO\"" :=
  ⟨((vulkanDefineTypeFromXML_accepts defineHandleVulkan).1 _ _ rfl rfl).2 (by decide),
   (((vulkanDefineTypeFromXML_accepts headerVersion300).2.1 (by decide)).1 _ rfl).2 (by decide),
   (((vulkanDefineTypeFromXML_accepts nullHandleObsolete).2.1 (by decide)).1 _ rfl).2
      (by decide),
   ((vulkanDefineTypeFromXML_accepts defineUnknown).2.1 (by decide)).2 (by decide)⟩

/-! ## Resolution of opaque pointees -/

theorem Node.Elem_of_ptr : ∀ (t : Node) (s : Store) (p : Node), t.Elem s FirstArch = some p →
    t.Kind FirstArch = Kind.Ptr →
    ∃ a, t.address = some a ∧ ∀ s' : Store, t.Elem s' FirstArch = s'[a]?
  | .archDependentType t0 _ _ _ _ _, s, p, he, h => by
    simp only [FirstArch, Node.Kind] at h
    simp only [FirstArch, Node.Elem] at he
    obtain ⟨a, ha, hs⟩ := Node.Elem_of_ptr t0 s p he h
    exact ⟨a, ha, fun s' => by simpa only [FirstArch, Node.Elem] using hs s'⟩
  | .pointerType address, _, _, _, _ => ⟨address, rfl, fun _ => rfl⟩
  | .opaqueType _ _, _, _, he, _ => by simp [Node.Elem] at he
  | .aliasType _ _, _, _, _, h => by simp [Node.Kind] at h
  | .fixedType _ _ _ _ _, _, _, he, _ => by simp [Node.Elem] at he
  | .constType _, _, _, _, h => by simp [Node.Kind] at h
  | .functionType _ _, _, _, _, h => by simp [Node.Kind] at h
  | .arrayType _ _, _, _, _, h => by simp [Node.Kind] at h
  | .structType _ _ _ _, _, _, _, h => by simp [Node.Kind] at h
  | .unionType _ _ _ _, _, _, _, h => by simp [Node.Kind] at h
  | .enumType _ _ _, _, _, _, h => by simp [Node.Kind] at h

theorem Node.Field_lt_NumField : ∀ (t : Node) (i : Nat) (a : Arch) (f : NodeAnyFieldInfo),
    t.Field i a = some f → ∃ n, t.NumField a = some n ∧ i < n
  | .archDependentType t0 t1 t2 t3 t4 t5, i, a, f, h => by
    cases a <;> simp only [Node.Field] at h <;> simp only [Node.NumField]
    · exact Node.Field_lt_NumField t0 i _ f h
    · exact Node.Field_lt_NumField t1 i _ f h
    · exact Node.Field_lt_NumField t2 i _ f h
    · exact Node.Field_lt_NumField t3 i _ f h
    · exact Node.Field_lt_NumField t4 i _ f h
    · exact Node.Field_lt_NumField t5 i _ f h
  | .functionType _ params, i, _, f, h => by
    simp only [Node.Field, Option.map_eq_some'] at h
    obtain ⟨x, hx, _⟩ := h
    exact ⟨_, rfl, (List.getElem?_eq_some.1 hx).1⟩
  | .structType _ fields _ _, i, _, f, h => by
    simp only [Node.Field, Option.map_eq_some'] at h
    obtain ⟨x, hx, _⟩ := h
    exact ⟨_, rfl, (List.getElem?_eq_some.1 hx).1⟩
  | .unionType _ fields _ _, i, _, f, h => by
    simp only [Node.Field, Option.map_eq_some'] at h
    obtain ⟨x, hx, _⟩ := h
    exact ⟨_, rfl, (List.getElem?_eq_some.1 hx).1⟩
  | .enumType _ _ fields, i, _, f, h => by
    simp only [Node.Field, Option.map_eq_some'] at h
    obtain ⟨x, hx, _⟩ := h
    exact ⟨_, rfl, (List.getElem?_eq_some.1 hx).1⟩
  | .opaqueType _ _, _, _, _, h => by simp [Node.Field] at h
  | .aliasType _ _, _, _, _, h => by simp [Node.Field] at h
  | .fixedType _ _ _ _ _, _, _, _, h => by simp [Node.Field] at h
  | .constType _, _, _, _, h => by simp [Node.Field] at h
  | .pointerType _, _, _, _, h => by simp [Node.Field] at h
  | .arrayType _ _, _, _, _, h => by simp [Node.Field] at h

theorem lookup_mem {β : Type} : ∀ (l : List (String × β)) (k : String) (v : β),
    l.lookup k = some v → (k, v) ∈ l
  | [], _, _, h => by cases h
  | (k', v') :: l, k, v, h => by
    simp only [List.lookup] at h
    by_cases hk : k = k'
    · have hb : (k == k') = true := by simp [hk]
      rw [hb] at h
      cases h
      subst hk
      exact List.mem_cons_self _ _
    · have hb : (k == k') = false := by simp [hk]
      rw [hb] at h
      exact List.mem_cons_of_mem _ (lookup_mem l k v h)

theorem Catalog.declares_unique (types : Catalog) (t r1 r2 : Node)
    (h1 : types.declares t r1) (h2 : types.declares t r2) : r1 = r2 := by
  obtain ⟨_, n1, hn1, hl1, _⟩ := h1
  obtain ⟨_, n2, hn2, hl2, _⟩ := h2
  rw [hn1] at hn2
  cases hn2
  rw [hl1] at hl2
  exact Option.some.inj hl2

theorem Catalog.replaces_of_store (types : Catalog) (s s' : Store) (c r : Node)
    (h : types.replaces s c r) : types.replaces s' c r := by
  rcases h with h | ⟨hc, e, ft, he, hd, hr⟩
  · exact Or.inl h
  · exact Or.inr ⟨hc, e, ft, by rw [Node.Elem_of_const s' s c _ hc]; exact he, hd, hr⟩

theorem Catalog.replaces_unique (types : Catalog) (s : Store) (c r1 r2 : Node)
    (h1 : types.replaces s c r1) (h2 : types.replaces s c r2) : r1 = r2 := by
  rcases h1 with h1 | ⟨hc1, e1, ft1, he1, hd1, hr1⟩
  · rcases h2 with h2 | ⟨hc2, _⟩
    · exact Catalog.declares_unique types c r1 r2 h1 h2
    · rw [h1.1] at hc2; cases hc2
  · rcases h2 with h2 | ⟨_, e2, ft2, he2, hd2, hr2⟩
    · rw [h2.1] at hc1; cases hc1
    · rw [he1] at he2
      cases he2
      rw [hr1, hr2, Catalog.declares_unique types e1 ft1 ft2 hd1 hd2]

theorem Node.isSettled_of_store (s s' : Store) (r : Node) (h : r.isSettled s) :
    r.isSettled s' :=
  ⟨h.1, fun hc e he => h.2 hc e (by rw [Node.Elem_of_const s s' r _ hc]; exact he)⟩

theorem Catalog.not_replaces_of_isSettled (types : Catalog) (s : Store) (r q : Node)
    (h : r.isSettled s) : ¬ types.replaces s r q := by
  rintro (hd | ⟨hc, e, ft, he, hd, _⟩)
  · exact h.1 hd.1
  · exact h.2 hc e he hd.1

theorem Node.isSettled_of_replaceable (s s' : Store) (c r : Node)
    (h : replaceable s c r FirstArch) : r.isSettled s' := by
  rcases h with ⟨_, hs | hu⟩ | ⟨_, _, hc, q, hq, hk⟩
  · exact ⟨by rw [hs]; decide, fun h2 => by rw [hs] at h2; cases h2⟩
  · exact ⟨by rw [hu]; decide, fun h2 => by rw [hu] at h2; cases h2⟩
  · refine ⟨by rw [hc]; decide, fun _ e he => ?_⟩
    rw [Node.Elem_of_const s' s r _ hc, hq] at he
    cases he
    rcases hk with hk | hk <;> rw [hk] <;> decide

theorem Catalog.Resolves.refl (types : Catalog) (s : Store) : types.Resolves s s :=
  ⟨rfl, fun _ _ h => Or.inl h⟩

theorem Catalog.Resolves.resolves_trans (types : Catalog) (s1 s2 s3 : Store)
    (h12 : types.Resolves s1 s2) (h23 : types.Resolves s2 s3) : types.Resolves s1 s3 := by
  refine ⟨h23.1.trans h12.1, fun a c hc => ?_⟩
  rcases h12.2 a c hc with h | ⟨r, hr, hs, hl⟩
  · rcases h23.2 a c h with h' | ⟨r, hr, hs, hl⟩
    · exact Or.inl h'
    · exact Or.inr ⟨r, Catalog.replaces_of_store types s2 s1 c r hr,
        Node.isSettled_of_store s2 s1 r hs, hl⟩
  · rcases h23.2 a r hl with h' | ⟨r', hr', _, _⟩
    · exact Or.inr ⟨r, hr, hs, h'⟩
    · exact absurd hr' (Catalog.not_replaces_of_isSettled types s2 r r'
        (Node.isSettled_of_store s1 s2 r hs))

theorem Catalog.settledAt_of_resolves (types : Catalog) (s s' : Store) (a : Nat)
    (hr : types.Resolves s s') (h : types.settledAt s a) : types.settledAt s' a := by
  obtain ⟨p, hp, hn⟩ := h
  rcases hr.2 a p hp with h' | ⟨r, hrep, _, _⟩
  · exact ⟨p, h', fun r hrep => hn r (Catalog.replaces_of_store types s' s p r hrep)⟩
  · exact absurd hrep (hn r)

theorem Catalog.fieldsSettled_of_resolves (types : Catalog) (s s' : Store) (typ : Node)
    (hr : types.Resolves s s') (h : types.fieldsSettled s typ) : types.fieldsSettled s' typ := by
  intro hk i field hf hp
  obtain ⟨a, he, hs⟩ := h hk i field hf hp
  exact ⟨a, he, Catalog.settledAt_of_resolves types s s' a hr hs⟩

theorem lookupDeclared_some_some (types : Catalog) (t ft : Node)
    (h : lookupDeclared types t = some (some ft)) :
    ∃ name, t.Name FirstArch = some name ∧ types.lookup name = some ft ∧
      ft.Kind FirstArch ≠ Kind.Opaque := by
  unfold lookupDeclared at h
  cases hn : t.Name FirstArch with
  | none => rw [hn] at h; cases h
  | some name =>
    rw [hn] at h
    simp only [] at h
    cases hl : types.lookup name with
    | none => rw [hl] at h; cases h
    | some ft' =>
      rw [hl] at h
      simp only [] at h
      by_cases hk : ft'.Kind FirstArch ≠ Kind.Opaque
      · rw [if_pos hk] at h
        cases h
        exact ⟨name, rfl, hl, hk⟩
      · rw [if_neg hk] at h
        cases h

theorem lookupDeclared_some_none (types : Catalog) (t : Node)
    (h : lookupDeclared types t = some none) (ft : Node) : ¬ types.declares t ft := by
  rintro ⟨_, name, hn, hl, hk⟩
  unfold lookupDeclared at h
  rw [hn] at h
  simp only [] at h
  rw [hl] at h
  simp only [] at h
  rw [if_pos hk] at h
  cases h

theorem replaceFieldElem_eq_some (s s' : Store) (field_type r : Node)
    (h : replaceFieldElem s field_type r = some s') :
    ∃ a c, field_type = Node.pointerType a ∧ s[a]? = some c ∧
      (∀ arch, replaceable s c r arch) ∧ s' = s.set a r := by
  cases field_type with
  | pointerType a =>
    simp only [replaceFieldElem] at h
    cases hr : (ReplaceElem s a r).1 with
    | none =>
      have : ReplaceElem s a r = (none, (ReplaceElem s a r).2) := by rw [← hr]
      rw [this] at h
      cases h
    | some u =>
      obtain ⟨c, hc, hall, hset⟩ := ReplaceElem_success s a r hr
      have : ReplaceElem s a r = (some u, s.set a r) := by rw [← hr, ← hset]
      rw [this] at h
      cases h
      exact ⟨a, c, rfl, hc, hall, rfl⟩
  | _ => simp [replaceFieldElem] at h

theorem Catalog.Resolves.set (types : Catalog) (s : Store) (a : Nat) (c r : Node)
    (hc : s[a]? = some c) (hr : types.replaces s c r) (hs : r.isSettled s) :
    types.Resolves s (s.set a r) := by
  refine ⟨List.length_set _ _ _, fun b d hd => ?_⟩
  by_cases hb : a = b
  · subst hb
    rw [hc] at hd
    cases hd
    have hlt : a < s.length := (List.getElem?_eq_some.1 hc).1
    exact Or.inr ⟨r, hr, hs, by simp [List.getElem?_set, hlt]⟩
  · exact Or.inl (by rw [List.getElem?_set_ne hb]; exact hd)

theorem Catalog.settledAt_set (types : Catalog) (s : Store) (a : Nat) (c r : Node)
    (hc : s[a]? = some c) (hs : r.isSettled s) : types.settledAt (s.set a r) a := by
  have hlt : a < s.length := (List.getElem?_eq_some.1 hc).1
  exact ⟨r, by simp [List.getElem?_set, hlt],
    fun q => Catalog.not_replaces_of_isSettled types _ r q (Node.isSettled_of_store s _ r hs)⟩

/-- One turn of the loop over the fields: the store is resolved further, and the
field of the turn, when it is a pointer, has a pointee that the pass does not
replace. -/
theorem resolveField_eq_some (types : Catalog) (typ : Node) (s s' : Store) (i : Nat)
    (h : resolveField types typ s i = some s') :
    types.Resolves s s' ∧
      ∀ field, typ.Field i FirstArch = some field → field.Typ.Kind FirstArch = Kind.Ptr →
        ∃ a, (∀ s0 : Store, field.Typ.Elem s0 FirstArch = s0[a]?) ∧ types.settledAt s' a := by
  unfold resolveField at h
  cases hf : typ.Field i FirstArch with
  | none => rw [hf] at h; cases h
  | some field =>
    rw [hf] at h
    simp only [] at h
    by_cases hp : field.Typ.Kind FirstArch ≠ Kind.Ptr
    · rw [if_pos hp] at h
      cases h
      exact ⟨Catalog.Resolves.refl types s, fun f hf2 hk => by
        cases hf2; exact absurd hk hp⟩
    · rw [if_neg hp] at h
      have hptr : field.Typ.Kind FirstArch = Kind.Ptr := not_not.1 hp
      cases he : field.Typ.Elem s FirstArch with
      | none => rw [he] at h; cases h
      | some c =>
        rw [he] at h
        simp only [] at h
        obtain ⟨a, hadr, hall⟩ := Node.Elem_of_ptr field.Typ s c he hptr
        have hc : s[a]? = some c := by rw [← hall s]; exact he
        suffices hmain : types.Resolves s s' ∧ types.settledAt s' a from
          ⟨hmain.1, fun f hf2 _ => by cases hf2; exact ⟨a, hall, hmain.2⟩⟩
        have hreplaced : ∀ r, types.replaces s c r → replaceFieldElem s field.Typ r = some s' →
            types.Resolves s s' ∧ types.settledAt s' a := by
          intro r hr hrep
          obtain ⟨a', c', hty, hc', hall', hset⟩ := replaceFieldElem_eq_some s s' _ r hrep
          rw [hty] at hadr
          simp only [Node.address, Option.some.injEq] at hadr
          subst hadr
          rw [hc] at hc'
          cases hc'
          have hs : r.isSettled s := Node.isSettled_of_replaceable s s c r (hall' FirstArch)
          rw [hset]
          exact ⟨Catalog.Resolves.set types s a' c r hc hr hs,
            Catalog.settledAt_set types s a' c r hc hs⟩
        by_cases ho : c.Kind FirstArch = Kind.Opaque
        · rw [if_pos ho] at h
          cases hl : lookupDeclared types c with
          | none => rw [hl] at h; cases h
          | some found =>
            cases found with
            | none =>
              rw [hl] at h
              cases h
              refine ⟨Catalog.Resolves.refl types s, c, hc, ?_⟩
              rintro r (hd | ⟨hk, _⟩)
              · exact lookupDeclared_some_none types c hl r hd
              · rw [ho] at hk; cases hk
            | some ft =>
              rw [hl] at h
              simp only [] at h
              obtain ⟨name, hn, hlk, hk⟩ := lookupDeclared_some_some types c ft hl
              exact hreplaced ft (Or.inl ⟨ho, name, hn, hlk, hk⟩) h
        · rw [if_neg ho] at h
          by_cases hk : c.Kind FirstArch = Kind.Const
          · rw [if_pos hk] at h
            cases hce : c.Elem s FirstArch with
            | none => rw [hce] at h; cases h
            | some elem =>
              rw [hce] at h
              simp only [] at h
              by_cases hoe : elem.Kind FirstArch = Kind.Opaque
              · rw [if_pos hoe] at h
                cases hl : lookupDeclared types elem with
                | none => rw [hl] at h; cases h
                | some found =>
                  cases found with
                  | none =>
                    rw [hl] at h
                    cases h
                    refine ⟨Catalog.Resolves.refl types s, c, hc, ?_⟩
                    rintro r (hd | ⟨_, e, ft, he2, hd, _⟩)
                    · exact ho hd.1
                    · rw [hce] at he2
                      cases he2
                      exact lookupDeclared_some_none types elem hl ft hd
                  | some ft =>
                    rw [hl] at h
                    simp only [] at h
                    obtain ⟨name, hn, hlk, hk2⟩ := lookupDeclared_some_some types elem ft hl
                    exact hreplaced (Node.constType ft)
                      (Or.inr ⟨hk, elem, ft, hce, ⟨hoe, name, hn, hlk, hk2⟩, rfl⟩) h
              · rw [if_neg hoe] at h
                cases h
                refine ⟨Catalog.Resolves.refl types s, c, hc, ?_⟩
                rintro r (hd | ⟨_, e, ft, he2, hd, _⟩)
                · exact ho hd.1
                · rw [hce] at he2
                  cases he2
                  exact hoe hd.1
          · rw [if_neg hk] at h
            cases h
            refine ⟨Catalog.Resolves.refl types s, c, hc, ?_⟩
            rintro r (hd | ⟨hk2, _⟩)
            · exact ho hd.1
            · exact hk hk2

theorem resolveFields_eq_some (types : Catalog) (typ : Node) :
    ∀ (l : List Nat) (s s' : Store), l.foldlM (resolveField types typ) s = some s' →
      types.Resolves s s' ∧
        ∀ i ∈ l, ∀ field, typ.Field i FirstArch = some field →
          field.Typ.Kind FirstArch = Kind.Ptr →
          ∃ a, (∀ s0 : Store, field.Typ.Elem s0 FirstArch = s0[a]?) ∧ types.settledAt s' a
  | [], s, s', h => by
    simp only [List.foldlM_nil] at h
    cases h
    exact ⟨Catalog.Resolves.refl types s, fun i hi => by cases hi⟩
  | i :: l, s, s', h => by
    rw [List.foldlM_cons] at h
    cases h1 : resolveField types typ s i with
    | none => rw [h1] at h; cases h
    | some s1 =>
      rw [h1] at h
      simp only [Option.some_bind, Option.bind_eq_bind] at h
      obtain ⟨hr1, hf1⟩ := resolveField_eq_some types typ s s1 i h1
      obtain ⟨hr2, hf2⟩ := resolveFields_eq_some types typ l s1 s' h
      refine ⟨Catalog.Resolves.resolves_trans types s s1 s' hr1 hr2, fun j hj field hfj hk => ?_⟩
      rcases List.mem_cons.1 hj with hji | hjl
      · subst hji
        obtain ⟨a, he, hs⟩ := hf1 field hfj hk
        exact ⟨a, he, Catalog.settledAt_of_resolves types s1 s' a hr2 hs⟩
      · exact hf2 j hjl field hfj hk

theorem resolveEntry_eq_some (types : Catalog) (s s' : Store) (entry : String × Node)
    (h : resolveEntry types s entry = some s') :
    types.Resolves s s' ∧
      ∃ typ, derefPointer s entry.2 = some typ ∧ types.fieldsSettled s' typ := by
  unfold resolveEntry at h
  cases hd : derefPointer s entry.2 with
  | none => rw [hd] at h; cases h
  | some typ =>
    rw [hd] at h
    simp only [] at h
    by_cases hk : typ.Kind FirstArch ≠ Kind.Func ∧ typ.Kind FirstArch ≠ Kind.Struct ∧
        typ.Kind FirstArch ≠ Kind.Union
    · rw [if_pos hk] at h
      cases h
      refine ⟨Catalog.Resolves.refl types s, typ, rfl, fun hk2 => ?_⟩
      rcases hk2 with h1 | h1 | h1
      · exact absurd h1 hk.1
      · exact absurd h1 hk.2.1
      · exact absurd h1 hk.2.2
    · rw [if_neg hk] at h
      cases hn : typ.NumField FirstArch with
      | none => rw [hn] at h; cases h
      | some count =>
        rw [hn] at h
        simp only [] at h
        obtain ⟨hr, hf⟩ := resolveFields_eq_some types typ _ s s' h
        refine ⟨hr, typ, rfl, fun _ i field hfi hp => ?_⟩
        obtain ⟨n, hn2, hlt⟩ := Node.Field_lt_NumField typ i FirstArch field hfi
        rw [hn] at hn2
        cases hn2
        exact hf i (List.mem_range.2 hlt) field hfi hp

theorem resolveEntries_eq_some (types : Catalog) :
    ∀ (l : List (String × Node)) (s s' : Store), l.foldlM (resolveEntry types) s = some s' →
      types.Resolves s s' ∧
        ∀ entry ∈ l, ∃ visited typ, types.Resolves visited s' ∧
          derefPointer visited entry.2 = some typ ∧ types.fieldsSettled s' typ
  | [], s, s', h => by
    simp only [List.foldlM_nil] at h
    cases h
    exact ⟨Catalog.Resolves.refl types s, fun e he => by cases he⟩
  | e :: l, s, s', h => by
    rw [List.foldlM_cons] at h
    cases h1 : resolveEntry types s e with
    | none => rw [h1] at h; cases h
    | some s1 =>
      rw [h1] at h
      simp only [Option.some_bind, Option.bind_eq_bind] at h
      obtain ⟨hr1, typ, hd, hf1⟩ := resolveEntry_eq_some types s s1 e h1
      obtain ⟨hr2, hf2⟩ := resolveEntries_eq_some types l s1 s' h
      refine ⟨Catalog.Resolves.resolves_trans types s s1 s' hr1 hr2, fun x hx => ?_⟩
      rcases List.mem_cons.1 hx with hxe | hxl
      · subst hxe
        exact ⟨s, typ, Catalog.Resolves.resolves_trans types s s1 s' hr1 hr2, hd,
          Catalog.fieldsSettled_of_resolves types s1 s' typ hr2 hf1⟩
      · exact hf2 x hxl

/-- After the pass, the fields of every entry of the catalog, as the entry is
found in the final store, have pointees that the pass does not replace. -/
theorem resolveOpaquePointees_fieldsSettled (types : Catalog) (store later : Store)
    (h : resolveOpaquePointees types store = some later) :
    types.Resolves store later ∧
      ∀ entry ∈ types, ∀ typ, derefPointer later entry.2 = some typ →
        types.fieldsSettled later typ := by
  obtain ⟨hr, hall⟩ := resolveEntries_eq_some types types store later h
  have hplain : ∀ entry ∈ types, entry.2.Kind FirstArch ≠ Kind.Ptr →
      types.fieldsSettled later entry.2 := by
    intro entry he hk
    obtain ⟨visited, typ, _, hd, hf⟩ := hall entry he
    simp only [derefPointer, if_neg hk, Option.some.injEq] at hd
    rw [hd]
    exact hf
  refine ⟨hr, fun entry he typ hd => ?_⟩
  by_cases hk : entry.2.Kind FirstArch = Kind.Ptr
  · obtain ⟨visited, typv, hrv, hdv, hf⟩ := hall entry he
    simp only [derefPointer, if_pos hk] at hd hdv
    obtain ⟨a, _, hel⟩ := Node.Elem_of_ptr entry.2 later typ hd hk
    rw [hel later] at hd
    rw [hel visited] at hdv
    rcases hrv.2 a typv hdv with hsame | ⟨r, hrep, _, hl⟩
    · rw [hsame] at hd
      cases hd
      exact hf
    · rw [hl] at hd
      cases hd
      rcases hrep with ⟨_, name, _, hlk, _⟩ | ⟨_, e, ft, _, _, hr⟩
      · by_cases hkp : typ.Kind FirstArch = Kind.Ptr
        · intro hfsu
          rw [hkp] at hfsu
          rcases hfsu with h1 | h1 | h1 <;> cases h1
        · exact hplain (name, typ) (lookup_mem types name typ hlk) hkp
      · intro hfsu
        rw [hr] at hfsu
        simp only [Node.Kind] at hfsu
        rcases hfsu with h1 | h1 | h1 <;> cases h1
  · simp only [derefPointer, if_neg hk, Option.some.injEq] at hd
    rw [← hd]
    exact hplain entry he hk

/-- C28: after the pass that resolves circular references has returned, every
field of pointer type of every function, struct or union of the catalog (a
pointer entry standing for its pointee) has a pointee, and that pointee is neither
`Opaque(X)` nor `Const(Opaque(X))` for a name `X` under which the catalog holds a
type that is not opaque, a struct or union in particular; a field whose pointee
was such a one before the pass has the catalog's type for `X` in its place,
wrapped in const for the const form. -/
theorem resolveOpaquePointees_resolves (types : Catalog) (store later : Store)
    (h : resolveOpaquePointees types store = some later) :
    ∀ entry ∈ types, ∀ typ, derefPointer later entry.2 = some typ →
      (typ.Kind FirstArch = Kind.Func ∨ typ.Kind FirstArch = Kind.Struct ∨
        typ.Kind FirstArch = Kind.Union) →
      ∀ i field, typ.Field i FirstArch = some field → field.Typ.Kind FirstArch = Kind.Ptr →
        ∃ pointee, field.Typ.Elem later FirstArch = some pointee ∧
          (∀ r, ¬ types.replaces later pointee r) ∧
          (∀ declared r, field.Typ.Elem store FirstArch = some declared →
            types.replaces store declared r → pointee = r) := by
  obtain ⟨hr, hall⟩ := resolveOpaquePointees_fieldsSettled types store later h
  intro entry he typ hd hk i field hf hp
  obtain ⟨a, hel, p, hpl, hn⟩ := hall entry he typ hd hk i field hf hp
  refine ⟨p, by rw [hel later]; exact hpl, hn, fun declared r hdecl hrep => ?_⟩
  rw [hel store] at hdecl
  rcases hr.2 a declared hdecl with hsame | ⟨r', hrep', _, hl⟩
  · rw [hpl] at hsame
    cases hsame
    exact absurd (Catalog.replaces_of_store types store later p r hrep) (hn r)
  · rw [hpl] at hl
    cases hl
    exact Catalog.replaces_unique types store declared p r hrep' hrep

/-- C28 on the catalog of `TestStruct`: the fields `pNext` of `VkBaseInStructure`
and of `VkBaseOutStructure`. -/
theorem resolveOpaquePointees_resolves_witness :
    resolveOpaquePointees testStructCatalog testStructDeclared = some testStructResolved ∧
    (∃ pointee, (Node.pointerType 1).Elem testStructResolved FirstArch = some pointee ∧
      (∀ r, ¬ Catalog.replaces testStructCatalog testStructResolved pointee r) ∧
      (∀ declared r, (Node.pointerType 1).Elem testStructDeclared FirstArch = some declared →
        Catalog.replaces testStructCatalog testStructDeclared declared r → pointee = r)) ∧
    (∃ pointee, (Node.pointerType 0).Elem testStructResolved FirstArch = some pointee ∧
      (∀ r, ¬ Catalog.replaces testStructCatalog testStructResolved pointee r) ∧
      (∀ declared r, (Node.pointerType 0).Elem testStructDeclared FirstArch = some declared →
        Catalog.replaces testStructCatalog testStructDeclared declared r → pointee = r)) :=
  ⟨rfl,
   resolveOpaquePointees_resolves testStructCatalog testStructDeclared testStructResolved rfl
      ("VkBaseInStructure", baseStructure "VkBaseInStructure" 1)
      (List.mem_cons_of_mem _ (List.mem_cons_of_mem _ (List.mem_cons_self _ _)))
      (baseStructure "VkBaseInStructure" 1) rfl (Or.inr (Or.inl rfl)) 1
      (NodeAnyFieldInfo.structField
        (NodeStructFieldInfo.mk (NodeFieldInfo.mk "pNext" (Node.pointerType 1)) 32)) rfl rfl,
   resolveOpaquePointees_resolves testStructCatalog testStructDeclared testStructResolved rfl
      ("VkBaseOutStructure", baseStructure "VkBaseOutStructure" 0)
      (List.mem_cons_of_mem _ (List.mem_cons_self _ _))
      (baseStructure "VkBaseOutStructure" 0) rfl (Or.inr (Or.inl rfl)) 1
      (NodeAnyFieldInfo.structField
        (NodeStructFieldInfo.mk (NodeFieldInfo.mk "pNext" (Node.pointerType 0)) 32)) rfl rfl⟩

/-- On `TestStruct` the field `pNext` of `VkBaseInStructure` ends, on every
architecture, as a pointer to the const of the struct, and `pNext` of
`VkBaseOutStructure` as a pointer to the struct; the order in which the pass
meets the entries makes no difference. -/
theorem resolveOpaquePointees_testStruct :
    resolveOpaquePointees testStructCatalog testStructDeclared = some testStructResolved ∧
    resolveOpaquePointees testStructCatalog.reverse testStructDeclared =
      some testStructResolved ∧
    (∀ a : Arch, ∃ field, (baseStructure "VkBaseInStructure" 1).Field 1 a = some field ∧
      field.Typ.Kind a = Kind.Ptr ∧
      field.Typ.Elem testStructResolved a =
        some (Node.constType (baseStructure "VkBaseInStructure" 1)) ∧
      (baseStructure "VkBaseInStructure" 1).Kind a = Kind.Struct) ∧
    (∀ a : Arch, ∃ field, (baseStructure "VkBaseOutStructure" 0).Field 1 a = some field ∧
      field.Typ.Kind a = Kind.Ptr ∧
      field.Typ.Elem testStructResolved a = some (baseStructure "VkBaseOutStructure" 0) ∧
      (baseStructure "VkBaseOutStructure" 0).Kind a = Kind.Struct) := by
  refine ⟨rfl, rfl, fun a => ?_, fun a => ?_⟩ <;> cases a <;> exact ⟨_, rfl, rfl, rfl, rfl⟩

/-! ## Structs that extend other structs -/

/-- A record without members that extends a struct makes `vulkanStructTypeFromXML`
panic, whatever fields the members gave. -/
theorem vulkanStructTypeFromXML_no_members (typ : typeInfo) (fields_info : List FieldInfo)
    (h : typ.Members = []) :
    vulkanStructTypeFromXML (Outcome.ok fields_info) typ true = Outcome.panic := by
  simp only [vulkanStructTypeFromXML, h, if_true, List.getElem?_nil]

/-- A record whose only field is `VkStructureType sType` and that extends a struct
makes `vulkanStructTypeFromXML` panic. -/
theorem vulkanStructTypeFromXML_one_field (typ : typeInfo) (member0 : structuralMemberInfo)
    (field0 : FieldInfo) (hm : typ.Members[0]? = some member0)
    (ht : member0.Typ = "VkStructureType") (hn : field0.Name = "sType") :
    vulkanStructTypeFromXML (Outcome.ok [field0]) typ true = Outcome.panic := by
  have h1 : ¬ member0.Typ ≠ "VkStructureType" := fun h => h ht
  have h2 : ¬ field0.Name ≠ "sType" := fun h => h hn
  simp only [vulkanStructTypeFromXML, hm, if_true, if_neg h1, List.getElem?_cons_zero, if_neg h2,
    List.getElem?_cons_succ, List.getElem?_nil]

/-- A record that extends a struct and whose first member has not the type
`VkStructureType` gets the error. -/
theorem vulkanStructTypeFromXML_wrong_first (typ : typeInfo) (member0 : structuralMemberInfo)
    (fields_info : List FieldInfo) (hm : typ.Members[0]? = some member0)
    (ht : member0.Typ ≠ "VkStructureType") :
    vulkanStructTypeFromXML (Outcome.ok fields_info) typ true =
      Outcome.error structExtensionError := by
  simp only [vulkanStructTypeFromXML, hm, if_true, if_pos ht]

/-- C29: for the record of a struct that extends `VkDeviceCreateInfo` and has no
members, and for the one whose only member is `VkStructureType sType`,
`vulkanStructTypeFromXML` panics where an error is due; for the one whose only
member is `uint32_t flags` it returns the error. -/
theorem vulkanStructTypeFromXML_short_extension :
    (∀ fields_info : List FieldInfo,
      vulkanStructTypeFromXML (Outcome.ok fields_info) emptyExtension
        (decide (emptyExtension.StructExtends ≠ "")) = Outcome.panic) ∧
    vulkanStructTypeFromXML
        (Outcome.ok [Field "sType" (EnumType "VkStructureType" Int32TType [])])
        sTypeOnlyExtension (decide (sTypeOnlyExtension.StructExtends ≠ "")) = Outcome.panic ∧
    vulkanStructTypeFromXML (Outcome.ok [Field "flags" UInt32TType]) flagsOnlyExtension
        (decide (flagsOnlyExtension.StructExtends ≠ "")) = Outcome.error structExtensionError :=
  ⟨fun fields_info => vulkanStructTypeFromXML_no_members emptyExtension fields_info rfl,
   vulkanStructTypeFromXML_one_field sTypeOnlyExtension (memberNamed "sType" "VkStructureType")
     _ rfl rfl rfl,
   vulkanStructTypeFromXML_wrong_first flagsOnlyExtension (memberNamed "flags" "uint32_t") _ rfl
     (by decide)⟩

/-! ## Compatibility against size, and layouts without fields -/

/-- C36: the type that is an alias of `uint32_t` on ARM32 and an alias of
`uint64_t` on ARM64 is compatible between the two architectures, in both
directions, although its size is 32 bits on the one and 64 bits on the other, and
its alignment likewise. -/
theorem IsCompatible_wordAlias_sizes_differ :
    IsCompatible wordAlias Arch.Arm Arch.Arm64 = Result.ok true ∧
    IsInputCompatible wordAlias Arch.Arm Arch.Arm64 = Result.ok true ∧
    IsInputCompatible wordAlias Arch.Arm64 Arch.Arm = Result.ok true ∧
    wordAlias.Bits Arch.Arm = some 32 ∧ wordAlias.Bits Arch.Arm64 = some 64 ∧
    wordAlias.Align Arch.Arm = some 32 ∧ wordAlias.Align Arch.Arm64 = some 64 := by
  decide

/-- C40: `StructType` on an empty list of fields panics, and so it does on every
list with a field whose type has alignment 0 on some architecture, such as a
union without fields; `UnionType` on an empty list returns the union with
alignment 0 and size 0 on every architecture. -/
theorem StructType_without_fields_panics (name : String) :
    StructType name [] = none ∧
    (∀ (fields : List FieldInfo) (f : FieldInfo) (a : Arch), f ∈ fields →
      f.Typ.Align a = some 0 → StructType name fields = none) ∧
    UnionType name [] = some (emptyUnion name) ∧
    (∀ a : Arch, (emptyUnion name).Align a = some 0 ∧ (emptyUnion name).Bits a = some 0 ∧
      (emptyUnion name).Kind a = Kind.Union ∧ (emptyUnion name).NumField a = some 0) ∧
    (∀ struct_name field_name : String,
      StructType struct_name [Field field_name (emptyUnion name)] = none) := by
  have hzero : ∀ (sname : String) (fields : List FieldInfo) (f : FieldInfo) (a : Arch),
      f ∈ fields → f.Typ.Align a = some 0 → StructType sname fields = none := by
    intro sname fields f a hf hz
    cases h : StructType sname fields with
    | none => rfl
    | some t =>
      obtain ⟨hs, _, _⟩ := (StructType_eq_some_iff sname fields t).1 h
      obtain ⟨al, b, hal, hne, _⟩ := hs f hf a
      rw [hz] at hal
      cases hal
      exact absurd rfl hne
  refine ⟨rfl, hzero name, rfl, fun a => ⟨rfl, rfl, rfl, rfl⟩, fun sname fname => ?_⟩
  exact hzero sname _ (Field fname (emptyUnion name)) Arch.Arm (List.mem_singleton.2 rfl) rfl

/-- C40 on a struct with an `int` and a union without fields. -/
theorem StructType_without_fields_panics_witness :
    StructType "S" [Field "i" IntType, Field "u" (emptyUnion "U")] = none :=
  (StructType_without_fields_panics "U").2.1 [Field "i" IntType, Field "u" (emptyUnion "U")]
    (Field "u" (emptyUnion "U")) Arch.X86
    (List.mem_cons_of_mem _ (List.mem_singleton.2 rfl)) rfl

/-! ## Elements read from the raw XML: `elementFromRawXML` and `Unmarshal` -/

theorem strings.cut_cons (sep : List Char) (c : Char) (s : List Char) :
    strings.cut sep (c :: s) =
      if sep.isPrefixOf (c :: s) then some ([], (c :: s).drop sep.length)
      else (strings.cut sep s).map (fun p => (c :: p.1, p.2)) := rfl

theorem occurrences_cons (sub : List Char) (c : Char) (s : List Char) :
    occurrences sub (c :: s) =
      (if sub.isPrefixOf (c :: s) then 1 else 0) + occurrences sub s := rfl

theorem strings.cut_append (sep : List Char) :
    ∀ (s a b : List Char), strings.cut sep s = some (a, b) → s = a ++ (sep ++ b)
  | [], a, b, h => by
    unfold strings.cut at h
    by_cases hs : sep = []
    · rw [if_pos hs] at h; cases h; simp [hs]
    · rw [if_neg hs] at h; cases h
  | c :: s, a, b, h => by
    rw [strings.cut_cons] at h
    by_cases hp : sep.isPrefixOf (c :: s) = true
    · rw [if_pos hp] at h
      cases h
      have h1 := List.isPrefixOf_iff_prefix.1 hp
      rw [List.prefix_iff_eq_append] at h1
      simpa using h1.symm
    · rw [if_neg hp] at h
      cases hc : strings.cut sep s with
      | none => rw [hc] at h; cases h
      | some p =>
        rw [hc] at h
        obtain ⟨a', b'⟩ := p
        simp only [Option.map_some', Option.some.injEq, Prod.mk.injEq] at h
        obtain ⟨rfl, rfl⟩ := h
        have h1 := strings.cut_append sep s a' b' hc
        rw [List.cons_append, ← h1]

theorem strings.cut_nil_of_ne (sep : List Char) (h : sep ≠ []) : strings.cut sep [] = none := by
  unfold strings.cut
  rw [if_neg h]

theorem occurrences_le_append (sub : List Char) :
    ∀ (a s : List Char), occurrences sub s ≤ occurrences sub (a ++ s)
  | [], s => Nat.le_refl _
  | c :: a, s => by
    rw [List.cons_append, occurrences_cons]
    exact Nat.le_trans (occurrences_le_append sub a s) (Nat.le_add_left _ _)

theorem isPrefixOf_append_self (sub b : List Char) : sub.isPrefixOf (sub ++ b) = true :=
  List.isPrefixOf_iff_prefix.2 (List.prefix_append sub b)

theorem occurrences_instance (sub b : List Char) (h : sub ≠ []) :
    1 + occurrences sub b ≤ occurrences sub (sub ++ b) := by
  have hp := isPrefixOf_append_self sub b
  cases sub with
  | nil => exact absurd rfl h
  | cons c t =>
    rw [List.cons_append] at hp ⊢
    rw [occurrences_cons, if_pos hp]
    exact Nat.add_le_add_left (occurrences_le_append (c :: t) t b) 1

/-- An instance that is the only occurrence is the one that `strings.cut` finds. -/
theorem strings.cut_of_occurrences_one (sub : List Char) (h : sub ≠ []) :
    ∀ (a b : List Char), occurrences sub (a ++ (sub ++ b)) = 1 →
      strings.cut sub (a ++ (sub ++ b)) = some (a, b)
  | [], b, _ => by
    have hp := isPrefixOf_append_self sub b
    cases sub with
    | nil => exact absurd rfl h
    | cons c t =>
      rw [List.nil_append]
      rw [List.cons_append] at hp ⊢
      rw [strings.cut_cons, if_pos hp, ← List.cons_append, List.drop_left]
  | c :: a, b, hocc => by
    have h1 := occurrences_instance sub b h
    have h2 := occurrences_le_append sub a (sub ++ b)
    rw [List.cons_append, occurrences_cons] at hocc
    have hp : ¬ sub.isPrefixOf (c :: (a ++ (sub ++ b))) = true := by
      intro hp
      rw [if_pos hp] at hocc
      omega
    rw [if_neg hp] at hocc
    rw [List.cons_append, strings.cut_cons, if_neg hp,
      strings.cut_of_occurrences_one sub h a b (by omega)]
    rfl

theorem strings.cut_eq_none_iff (sub : List Char) (h : sub ≠ []) :
    ∀ s : List Char, strings.cut sub s = none ↔ occurrences sub s = 0
  | [] => by simp [strings.cut, occurrences, h]
  | c :: s => by
    have ih := strings.cut_eq_none_iff sub h s
    rw [strings.cut_cons, occurrences_cons]
    by_cases hp : sub.isPrefixOf (c :: s) = true
    · rw [if_pos hp, if_pos hp]
      constructor
      · intro h1; cases h1
      · intro h1; omega
    · rw [if_neg hp, if_neg hp, Option.map_eq_none', ih, Nat.zero_add]

theorem strings.cut_length_lt (sub : List Char) (h : sub ≠ []) (s a b : List Char)
    (hc : strings.cut sub s = some (a, b)) : b.length < s.length := by
  have h1 := strings.cut_append sub s a b hc
  have h2 : 0 < sub.length := List.length_pos.2 h
  rw [h1]
  simp only [List.length_append]
  omega

/-- The length of the text is enough fuel for `strings.countN`. -/
theorem strings.countN_fuel (sub : List Char) (h : sub ≠ []) :
    ∀ (fuel : Nat) (s : List Char), s.length ≤ fuel →
      strings.countN sub fuel s = strings.countN sub s.length s
  | 0, s, hl => by
    have : s.length = 0 := by omega
    rw [this]
  | fuel + 1, s, hl => by
    cases s with
    | nil => simp [strings.countN, strings.cut_nil_of_ne sub h]
    | cons c s =>
      simp only [List.length_cons] at hl
      simp only [strings.countN, List.length_cons]
      cases hc : strings.cut sub (c :: s) with
      | none => rfl
      | some p =>
        obtain ⟨a, b⟩ := p
        have hlt := strings.cut_length_lt sub h _ _ _ hc
        simp only [List.length_cons] at hlt
        simp only []
        rw [strings.countN_fuel sub h fuel b (by omega),
          strings.countN_fuel sub h s.length b (by omega)]

/-- The length of the text is enough fuel for `strings.splitN`. -/
theorem strings.splitN_fuel (sep : List Char) (h : sep ≠ []) :
    ∀ (fuel : Nat) (s : List Char), s.length ≤ fuel →
      strings.splitN sep fuel s = strings.splitN sep s.length s
  | 0, s, hl => by
    have : s.length = 0 := by omega
    rw [this]
  | fuel + 1, s, hl => by
    cases s with
    | nil => simp [strings.splitN, strings.cut_nil_of_ne sep h]
    | cons c s =>
      simp only [List.length_cons] at hl
      simp only [strings.splitN, List.length_cons]
      cases hc : strings.cut sep (c :: s) with
      | none => rfl
      | some p =>
        obtain ⟨a, b⟩ := p
        have hlt := strings.cut_length_lt sep h _ _ _ hc
        simp only [List.length_cons] at hlt
        simp only []
        rw [strings.splitN_fuel sep h fuel b (by omega),
          strings.splitN_fuel sep h s.length b (by omega)]
theorem occurrences_skip (d : Char) (t b : List Char) :
    ∀ skipped : List Char, (∀ x ∈ skipped, x ≠ d) →
      occurrences (d :: t) (skipped ++ b) = occurrences (d :: t) b
  | [], _ => rfl
  | x :: skipped, h => by
    have hx : (d == x) = false := by
      have := h x (List.mem_cons_self x skipped)
      simpa using fun e => this e.symm
    have hp : (d :: t).isPrefixOf (x :: (skipped ++ b)) = false := by
      simp [List.isPrefixOf, hx]
    rw [List.cons_append, occurrences_cons, hp,
      occurrences_skip d t b skipped (fun y hy => h y (List.mem_cons_of_mem x hy))]
    simp

/-- For a text whose first character does not come back in it, such as a tag,
`strings.countN` counts the occurrences. -/
theorem strings.countN_eq_occurrences (d : Char) (t : List Char) (hd : d ∉ t) :
    ∀ (fuel : Nat) (s : List Char), s.length ≤ fuel →
      strings.countN (d :: t) fuel s = occurrences (d :: t) s
  | 0, s, hl => by
    have : s = [] := List.length_eq_zero.1 (by omega)
    subst this
    simp [strings.countN, occurrences]
  | fuel + 1, [], _ => by
    simp [strings.countN, strings.cut, occurrences]
  | fuel + 1, c :: s, hl => by
    simp only [List.length_cons] at hl
    have hne : d :: t ≠ [] := by simp
    rw [strings.countN, strings.cut_cons, occurrences_cons]
    by_cases hp : (d :: t).isPrefixOf (c :: s) = true
    · rw [if_pos hp, if_pos hp]
      simp only []
      have h1 := (List.prefix_iff_eq_append.1 (List.isPrefixOf_iff_prefix.1 hp)).symm
      simp only [List.cons_append, List.cons.injEq] at h1
      have hlen : (List.drop (d :: t).length (c :: s)).length ≤ fuel := by
        simp only [List.length_cons, List.drop_succ_cons, List.length_drop]
        omega
      rw [strings.countN_eq_occurrences d t hd fuel _ hlen]
      have h2 : occurrences (d :: t) s =
          occurrences (d :: t) (List.drop (d :: t).length (c :: s)) := by
        conv => lhs; rw [h1.2]
        exact occurrences_skip d t _ t (fun x hx e => hd (e ▸ hx))
      rw [h2]
    · rw [if_neg hp, if_neg hp, Nat.zero_add,
        ← strings.countN_eq_occurrences d t hd fuel s (by omega)]
      cases fuel with
      | zero =>
        have : s = [] := List.length_eq_zero.1 (by omega)
        subst this
        simp [strings.countN, strings.cut]
      | succ m =>
        rw [strings.countN]
        cases hc : strings.cut (d :: t) s with
        | none => rfl
        | some p =>
          obtain ⟨a, b⟩ := p
          have hlt := strings.cut_length_lt (d :: t) hne _ _ _ hc
          simp only [Option.map_some']
          rw [strings.countN_fuel (d :: t) hne (m + 1) b (by omega),
            strings.countN_fuel (d :: t) hne m b (by omega)]

theorem strings.splitN_length (sep : List Char) :
    ∀ (fuel : Nat) (s : List Char),
      (strings.splitN sep fuel s).length = strings.countN sep fuel s + 1
  | 0, _ => rfl
  | fuel + 1, s => by
    rw [strings.splitN, strings.countN]
    cases strings.cut sep s with
    | none => rfl
    | some p =>
      simp only [List.length_cons, strings.splitN_length sep fuel p.2]
      omega

theorem strings.splitN_of_countN_zero (sep : List Char) :
    ∀ (fuel : Nat) (s : List Char), strings.countN sep fuel s = 0 →
      strings.splitN sep fuel s = [s]
  | 0, _, _ => rfl
  | fuel + 1, s, h => by
    rw [strings.countN] at h
    rw [strings.splitN]
    cases hc : strings.cut sep s with
    | none => rfl
    | some p =>
      rw [hc] at h
      simp only [] at h
      omega

theorem openingTag_data (element_name : String) :
    (openingTag element_name).data = '<' :: (element_name.data ++ ['>']) := by
  simp [openingTag, String.data_append]

theorem closingTag_data (element_name : String) :
    (closingTag element_name).data = '<' :: ('/' :: element_name.data ++ ['>']) := by
  simp [closingTag, String.data_append]

/-- The count that `strings.Count` gives for a tag of an element whose name is free of
`<` is the number of the occurrences of the tag. -/
theorem strings.Count_openingTag (element_name raw : String) (h : '<' ∉ element_name.data) :
    strings.Count raw (openingTag element_name) =
      occurrences (openingTag element_name).data raw.data := by
  unfold strings.Count
  rw [openingTag_data, if_neg (by simp)]
  exact strings.countN_eq_occurrences '<' _ (by simpa using h) _ _ (Nat.le_refl _)

theorem strings.Count_closingTag (element_name raw : String) (h : '<' ∉ element_name.data) :
    strings.Count raw (closingTag element_name) =
      occurrences (closingTag element_name).data raw.data := by
  unfold strings.Count
  rw [closingTag_data, if_neg (by simp)]
  exact strings.countN_eq_occurrences '<' _ (by simpa using h) _ _ (Nat.le_refl _)

/-- Two parts come out of `strings.Split` when the separator is counted once: the text
before the instance that `strings.cut` finds and the text after it. -/
theorem strings.Split_of_Count_one (s sep : String) (a b : List Char) (hsep : sep.data ≠ [])
    (hcount : strings.Count s sep = 1) (hcut : strings.cut sep.data s.data = some (a, b)) :
    strings.Split s sep = [String.mk a, String.mk b] := by
  unfold strings.Count at hcount
  unfold strings.Split
  rw [if_neg hsep] at hcount ⊢
  cases hl : s.data.length with
  | zero =>
    rw [hl] at hcount
    simp [strings.countN] at hcount
  | succ n =>
    rw [hl] at hcount
    rw [strings.countN, hcut] at hcount
    rw [strings.splitN, hcut]
    simp only [] at hcount ⊢
    rw [strings.splitN_of_countN_zero sep.data n b (by omega)]
    rfl

/-- The first part that comes out of `strings.Split` is the text before the instance
that `strings.cut` finds. -/
theorem strings.Split_head (s sep : String) (a b : List Char) (hsep : sep.data ≠ [])
    (hcut : strings.cut sep.data s.data = some (a, b)) :
    (strings.Split s sep)[0]? = some (String.mk a) := by
  unfold strings.Split
  rw [if_neg hsep]
  cases hl : s.data.length with
  | zero =>
    have : s.data = [] := List.length_eq_zero.1 hl
    rw [this, strings.cut_nil_of_ne _ hsep] at hcut
    cases hcut
  | succ n =>
    rw [strings.splitN, hcut]
    simp only [List.map_cons, List.getElem?_cons_zero]

/-- Function `elementFromRawXML` never panics: it returns an error when one of the two
counts is not one, and a text otherwise. -/
theorem elementFromRawXML_cases (element_name raw : String) :
    (∃ msg, elementFromRawXML element_name raw = Outcome.error msg ∧
        (strings.Count raw (openingTag element_name) ≠ 1 ∨
          strings.Count raw (closingTag element_name) ≠ 1)) ∨
      (∃ x, elementFromRawXML element_name raw = Outcome.ok x ∧
        strings.Count raw (openingTag element_name) = 1 ∧
          strings.Count raw (closingTag element_name) = 1) := by
  unfold elementFromRawXML
  simp only []
  by_cases h1 : strings.Count raw ("<" ++ element_name ++ ">") ≠ 1
  · rw [if_pos h1]
    exact Or.inl ⟨_, rfl, Or.inl h1⟩
  · rw [if_neg h1]
    by_cases h2 : strings.Count raw ("</" ++ element_name ++ ">") ≠ 1
    · rw [if_pos h2]
      exact Or.inl ⟨_, rfl, Or.inr h2⟩
    · rw [if_neg h2]
      right
      have h1' : strings.Count raw ("<" ++ element_name ++ ">") = 1 := by omega
      have h2' : strings.Count raw ("</" ++ element_name ++ ">") = 1 := by omega
      have hsep : ("<" ++ element_name ++ ">").data ≠ [] := by
        simp [String.data_append]
      have hlen : (strings.Split raw ("<" ++ element_name ++ ">")).length = 2 := by
        unfold strings.Split
        unfold strings.Count at h1'
        rw [if_neg hsep] at h1' ⊢
        rw [List.length_map, strings.splitN_length, h1']
      cases hs : strings.Split raw ("<" ++ element_name ++ ">") with
      | nil => rw [hs] at hlen; cases hlen
      | cons p ps =>
        cases ps with
        | nil => rw [hs] at hlen; cases hlen
        | cons rest ps =>
          simp only [List.getElem?_cons_succ, List.getElem?_cons_zero]
          have hsep2 : ("</" ++ element_name ++ ">").data ≠ [] := by
            simp [String.data_append]
          have hne : strings.Split rest ("</" ++ element_name ++ ">") ≠ [] := by
            unfold strings.Split
            rw [if_neg hsep2]
            intro h
            have := congrArg List.length h
            rw [List.length_map, strings.splitN_length] at this
            simp at this
          cases hs2 : strings.Split rest ("</" ++ element_name ++ ">") with
          | nil => exact absurd hs2 hne
          | cons x xs =>
            simp only [List.getElem?_cons_zero]
            exact ⟨x, rfl, h1', h2'⟩
theorem Outcome.bind_eq_ok {α β : Type} (r : Outcome α) (f : α → Outcome β) (v : β) :
    r.bind f = Outcome.ok v ↔ ∃ a, r = Outcome.ok a ∧ f a = Outcome.ok v := by
  cases r with
  | ok a => simp [Outcome.bind]
  | error msg => simp [Outcome.bind]
  | panic => simp [Outcome.bind]
  | outOfFuel => simp [Outcome.bind]

/-- A loop `forEachIndex` that comes to its end has rewritten each element by the body. -/
theorem forEachIndex_eq_ok {α : Type} (body : α → Outcome α) :
    ∀ (xs ys : List α), forEachIndex body xs = Outcome.ok ys →
      List.Forall₂ (fun x y => body x = Outcome.ok y) xs ys
  | [], ys, h => by
    simp only [forEachIndex, Outcome.ok.injEq] at h
    subst h
    exact List.Forall₂.nil
  | x :: xs, ys, h => by
    rw [forEachIndex, Outcome.bind_eq_ok] at h
    obtain ⟨y, hy, h⟩ := h
    rw [Outcome.bind_eq_ok] at h
    obtain ⟨ys', hys, h⟩ := h
    simp only [Outcome.ok.injEq] at h
    subst h
    exact List.Forall₂.cons hy (forEachIndex_eq_ok body xs ys' hys)

/-- A member or a parameter that `Unmarshal` has completed has the name and the type of
its attributes, and takes from its raw XML the ones that its attributes leave empty. -/
theorem unmarshalMember_fields (member member' : structuralMemberInfo)
    (h : unmarshalMember member = Outcome.ok member') :
    (if member.Name = "" then elementFromRawXML "name" member.RawXML = Outcome.ok member'.Name
      else member'.Name = member.Name) ∧
    (if member.Typ = "" then elementFromRawXML "type" member.RawXML = Outcome.ok member'.Typ
      else member'.Typ = member.Typ) := by
  unfold unmarshalMember at h
  rw [Outcome.bind_eq_ok] at h
  obtain ⟨m1, h1, h⟩ := h
  rw [Outcome.bind_eq_ok] at h
  obtain ⟨m2, h2, h⟩ := h
  have e3 : m2.Name = member'.Name ∧ m2.Typ = member'.Typ := by
    split at h
    · rw [Outcome.bind_eq_ok] at h
      obtain ⟨c, _, h⟩ := h
      cases h
      exact ⟨rfl, rfl⟩
    · cases h
      exact ⟨rfl, rfl⟩
  have e1 : (if member.Name = "" then
        elementFromRawXML "name" member.RawXML = Outcome.ok m1.Name
      else m1.Name = member.Name) ∧ m1.Typ = member.Typ ∧ m1.RawXML = member.RawXML := by
    split at h1
    · rename_i hn
      rw [Outcome.bind_eq_ok] at h1
      obtain ⟨n, hn1, h1⟩ := h1
      cases h1
      rw [if_pos hn]
      exact ⟨hn1, rfl, rfl⟩
    · rename_i hn
      cases h1
      rw [if_neg hn]
      exact ⟨rfl, rfl, rfl⟩
  have e2 : (if m1.Typ = "" then elementFromRawXML "type" m1.RawXML = Outcome.ok m2.Typ
      else m2.Typ = m1.Typ) ∧ m2.Name = m1.Name := by
    split at h2
    · rename_i hn
      rw [Outcome.bind_eq_ok] at h2
      obtain ⟨n, hn1, h2⟩ := h2
      cases h2
      rw [if_pos hn]
      exact ⟨hn1, rfl⟩
    · rename_i hn
      cases h2
      rw [if_neg hn]
      exact ⟨rfl, rfl⟩
  rw [e1.2.1, e1.2.2, e3.2] at e2
  rw [← e3.1, e2.2]
  exact ⟨e1.1, e2.1⟩

theorem unmarshalParam_fields (command : commandInfo) (param param' : structuralMemberInfo)
    (h : unmarshalParam command param = Outcome.ok param') :
    (if param.Name = "" then elementFromRawXML "name" param.RawXML = Outcome.ok param'.Name
      else param'.Name = param.Name) ∧
    (if param.Typ = "" then elementFromRawXML "type" param.RawXML = Outcome.ok param'.Typ
      else param'.Typ = param.Typ) := by
  unfold unmarshalParam at h
  rw [Outcome.bind_eq_ok] at h
  obtain ⟨m1, h1, h⟩ := h
  rw [Outcome.bind_eq_ok] at h
  obtain ⟨m2, h2, h⟩ := h
  have e3 : m2.Name = param'.Name ∧ m2.Typ = param'.Typ := by
    split at h
    · rw [Outcome.bind_eq_ok] at h
      obtain ⟨c, _, h⟩ := h
      cases h
      exact ⟨rfl, rfl⟩
    · cases h
      exact ⟨rfl, rfl⟩
  have e1 : (if param.Name = "" then
        elementFromRawXML "name" param.RawXML = Outcome.ok m1.Name
      else m1.Name = param.Name) ∧ m1.Typ = param.Typ ∧ m1.RawXML = param.RawXML := by
    split at h1
    · rename_i hn
      rw [Outcome.bind_eq_ok] at h1
      obtain ⟨n, hn1, h1⟩ := h1
      cases h1
      rw [if_pos hn]
      exact ⟨hn1, rfl, rfl⟩
    · rename_i hn
      cases h1
      rw [if_neg hn]
      exact ⟨rfl, rfl, rfl⟩
  have e2 : (if m1.Typ = "" then elementFromRawXML "type" m1.RawXML = Outcome.ok m2.Typ
      else m2.Typ = m1.Typ) ∧ m2.Name = m1.Name := by
    split at h2
    · rename_i hn
      rw [Outcome.bind_eq_ok] at h2
      obtain ⟨n, hn1, h2⟩ := h2
      cases h2
      rw [if_pos hn]
      exact ⟨hn1, rfl⟩
    · rename_i hn
      cases h2
      rw [if_neg hn]
      exact ⟨rfl, rfl⟩
  rw [e1.2.1, e1.2.2, e3.2] at e2
  rw [← e3.1, e2.2]
  exact ⟨e1.1, e2.1⟩

/-- A type record that `Unmarshal` has completed has the name of its attribute, or the
text of its nested `name` element when the attribute is empty, and each of its members
is completed by `unmarshalMember`. -/
theorem unmarshalType_fields (typ typ' : typeInfo) (h : unmarshalType typ = Outcome.ok typ') :
    (if typ.Name = "" then elementFromRawXML "name" typ.RawXML = Outcome.ok typ'.Name
      else typ'.Name = typ.Name) ∧
    (typ'.Members = typ.Members ∨
      List.Forall₂ (fun m m' => unmarshalMember m = Outcome.ok m') typ.Members typ'.Members) := by
  unfold unmarshalType at h
  rw [Outcome.bind_eq_ok] at h
  obtain ⟨t1, h1, h⟩ := h
  rw [Outcome.bind_eq_ok] at h
  obtain ⟨t2, h2, h⟩ := h
  have e1 : (if typ.Name = "" then elementFromRawXML "name" typ.RawXML = Outcome.ok t1.Name
      else t1.Name = typ.Name) ∧ t1.Members = typ.Members := by
    split at h1
    · rename_i hn
      rw [Outcome.bind_eq_ok] at h1
      obtain ⟨n, hn1, h1⟩ := h1
      cases h1
      rw [if_pos hn]
      exact ⟨hn1, rfl⟩
    · rename_i hn
      cases h1
      rw [if_neg hn]
      exact ⟨rfl, rfl⟩
  have e2 : t2.Name = t1.Name ∧ t2.Members = t1.Members := by
    split at h2
    · split at h2
      · split at h2
        · cases h2
        · cases h2
          exact ⟨rfl, rfl⟩
      · cases h2
    · cases h2
      exact ⟨rfl, rfl⟩
  have e3 : typ'.Name = t2.Name ∧ (typ'.Members = t2.Members ∨
      List.Forall₂ (fun m m' => unmarshalMember m = Outcome.ok m') t2.Members typ'.Members) := by
    split at h
    · split at h
      · cases h
      · cases h
        exact ⟨rfl, Or.inl rfl⟩
    · rw [Outcome.bind_eq_ok] at h
      obtain ⟨members, hm, h⟩ := h
      cases h
      exact ⟨rfl, Or.inr (forEachIndex_eq_ok _ _ _ hm)⟩
  rw [e2.2, e1.2] at e3
  rw [e3.1, e2.1]
  exact ⟨e1.1, e3.2⟩

/-- A command record that `Unmarshal` has completed has the name of its attribute, or
the text of the `name` element of its prototype when the attribute is empty; its
parameters are completed by `unmarshalParam`; the type of a command that is no alias is
the one of the attribute, or the text of the `type` element of the prototype, unless
the prototype holds a comment element and no comment attribute. -/
theorem unmarshalCommand_fields (command command' : commandInfo)
    (h : unmarshalCommand command = Outcome.ok command') :
    (if command.Name = "" then
        elementFromRawXML "name" command.Proto.RawXML = Outcome.ok command'.Name
      else command'.Name = command.Name) ∧
    (command.Alias = "" →
      (∃ completed, List.Forall₂ (fun p p' => unmarshalParam completed p = Outcome.ok p')
        command.Params command'.Params) ∧
      (¬ (command.Proto.Comment = "" ∧
          strings.Contains command.Proto.RawXML "<comment>" = true) →
        if command.Proto.Typ = "" then
          elementFromRawXML "type" command.Proto.RawXML = Outcome.ok command'.Proto.Typ
        else command'.Proto.Typ = command.Proto.Typ)) := by
  unfold unmarshalCommand at h
  rw [Outcome.bind_eq_ok] at h
  obtain ⟨c1, h1, h⟩ := h
  have e1 : (if command.Name = "" then
        elementFromRawXML "name" command.Proto.RawXML = Outcome.ok c1.Name
      else c1.Name = command.Name) ∧ c1.Proto = command.Proto ∧ c1.Alias = command.Alias ∧
        c1.Params = command.Params := by
    split at h1
    · rename_i hn
      rw [Outcome.bind_eq_ok] at h1
      obtain ⟨n, hn1, h1⟩ := h1
      cases h1
      rw [if_pos hn]
      exact ⟨hn1, rfl, rfl, rfl⟩
    · rename_i hn
      cases h1
      rw [if_neg hn]
      exact ⟨rfl, rfl, rfl, rfl⟩
  obtain ⟨e1n, e1p, e1a, e1q⟩ := e1
  by_cases ha : c1.Alias = ""
  · rw [if_pos ha, Outcome.bind_eq_ok] at h
    obtain ⟨c2, h2, h⟩ := h
    rw [Outcome.bind_eq_ok] at h
    obtain ⟨c3, h3, h⟩ := h
    rw [Outcome.bind_eq_ok] at h
    obtain ⟨params, h4, h⟩ := h
    cases h
    have e2 : (if c1.Proto.Typ = "" then
          elementFromRawXML "type" c1.Proto.RawXML = Outcome.ok c2.Proto.Typ
        else c2.Proto.Typ = c1.Proto.Typ) ∧ c2.Name = c1.Name ∧ c2.Params = c1.Params ∧
          c2.Proto.RawXML = c1.Proto.RawXML ∧ c2.Proto.Comment = c1.Proto.Comment := by
      split at h2
      · rename_i hn
        rw [Outcome.bind_eq_ok] at h2
        obtain ⟨n, hn1, h2⟩ := h2
        cases h2
        rw [if_pos hn]
        exact ⟨hn1, rfl, rfl, rfl, rfl⟩
      · rename_i hn
        cases h2
        rw [if_neg hn]
        exact ⟨rfl, rfl, rfl, rfl, rfl⟩
    obtain ⟨e2t, e2n, e2q, e2r, e2c⟩ := e2
    have e3 : c3.Name = c2.Name ∧ c3.Params = c2.Params ∧
        (¬ (c2.Proto.Comment = "" ∧ strings.Contains c2.Proto.RawXML "<comment>" = true) →
          c3.Proto.Typ = c2.Proto.Typ) := by
      split at h3
      · rename_i hn
        rw [Outcome.bind_eq_ok] at h3
        obtain ⟨n, hn1, h3⟩ := h3
        cases h3
        exact ⟨rfl, rfl, fun hno => absurd hn hno⟩
      · cases h3
        exact ⟨rfl, rfl, fun _ => rfl⟩
    obtain ⟨e3n, e3q, e3t⟩ := e3
    simp only []
    rw [e3n, e2n]
    refine ⟨e1n, fun _ => ⟨⟨c3, ?_⟩, fun hno => ?_⟩⟩
    · have := forEachIndex_eq_ok _ _ _ h4
      rw [e3q, e2q, e1q] at this
      exact this
    · rw [e2r, e2c, e1p] at e3t
      rw [e3t hno]
      rw [e1p] at e2t
      exact e2t
  · rw [if_neg ha] at h
    cases h
    exact ⟨e1n, fun hal => absurd (e1a.trans hal) ha⟩
/-- Function `elementFromRawXML` returns the text between the two tags when each of
them occurs once. -/
theorem elementFromRawXML_between (element_name pre x post : String)
    (h : '<' ∉ element_name.data)
    (hopen : occurrences (openingTag element_name).data
      (pre ++ openingTag element_name ++ x ++ closingTag element_name ++ post).data = 1)
    (hclose : occurrences (closingTag element_name).data
      (pre ++ openingTag element_name ++ x ++ closingTag element_name ++ post).data = 1) :
    elementFromRawXML element_name
      (pre ++ openingTag element_name ++ x ++ closingTag element_name ++ post) =
        Outcome.ok x := by
  have hc1 := strings.Count_openingTag element_name
    (pre ++ openingTag element_name ++ x ++ closingTag element_name ++ post) h
  have hc2 := strings.Count_closingTag element_name
    (pre ++ openingTag element_name ++ x ++ closingTag element_name ++ post) h
  rw [hopen] at hc1
  rw [hclose] at hc2
  have hsep1 : (openingTag element_name).data ≠ [] := by rw [openingTag_data]; simp
  have hsep2 : (closingTag element_name).data ≠ [] := by rw [closingTag_data]; simp
  have hdata : (pre ++ openingTag element_name ++ x ++ closingTag element_name ++ post).data =
      pre.data ++ ((openingTag element_name).data ++
        (x ++ closingTag element_name ++ post).data) := by
    simp only [String.data_append, List.append_assoc]
  have hrest : (x ++ closingTag element_name ++ post).data =
      x.data ++ ((closingTag element_name).data ++ post.data) := by
    simp only [String.data_append, List.append_assoc]
  have hcut1 := strings.cut_of_occurrences_one (openingTag element_name).data hsep1 pre.data
    (x ++ closingTag element_name ++ post).data (by rw [← hdata]; exact hopen)
  rw [← hdata] at hcut1
  have hocc2 : occurrences (closingTag element_name).data
      (x.data ++ ((closingTag element_name).data ++ post.data)) = 1 := by
    have h1 := occurrences_le_append (closingTag element_name).data
      (pre.data ++ (openingTag element_name).data)
      (x.data ++ ((closingTag element_name).data ++ post.data))
    have h2 := occurrences_le_append (closingTag element_name).data x.data
      ((closingTag element_name).data ++ post.data)
    have h3 := occurrences_instance (closingTag element_name).data post.data hsep2
    rw [hdata, hrest] at hclose
    rw [List.append_assoc] at h1
    omega
  have hcut2 := strings.cut_of_occurrences_one (closingTag element_name).data hsep2 x.data
    post.data hocc2
  rw [← hrest] at hcut2
  have hs1 := strings.Split_of_Count_one _ _ _ _ hsep1 hc1 hcut1
  have hs2 := strings.Split_head _ _ _ _ hsep2 hcut2
  have e1 : (String.mk (x ++ closingTag element_name ++ post).data) =
      x ++ closingTag element_name ++ post := rfl
  have e2 : String.mk x.data = x := rfl
  rw [e1] at hs1
  rw [e2] at hs2
  generalize pre ++ openingTag element_name ++ x ++ closingTag element_name ++ post = raw
    at hc1 hc2 hs1 ⊢
  generalize x ++ closingTag element_name ++ post = rest at hs1 hs2
  have e3 : openingTag element_name = "<" ++ element_name ++ ">" := rfl
  have e4 : closingTag element_name = "</" ++ element_name ++ ">" := rfl
  rw [e3] at hc1 hs1
  rw [e4] at hc2 hs2
  unfold elementFromRawXML
  simp only []
  rw [if_neg (by omega), if_neg (by omega), hs1]
  simp only [List.getElem?_cons_succ, List.getElem?_cons_zero]
  rw [hs2]

set_option maxRecDepth 10000 in
/-- C39: for an element name free of `<`, function `elementFromRawXML` returns an error
exactly when the opening tag or the closing tag does not occur exactly once in the raw
XML, and returns the text between the two tags when each occurs once; a type and a
member without the attribute take their name and their type from the nested element,
and the type of `TestUnmarshallNameAsString` is named `int`. A command whose prototype
holds a comment element does not take its type from the nested `type` element:
`Unmarshal` stores the text of the comment as the type. -/
theorem elementFromRawXML_exactly_once (element_name raw : String)
    (h : '<' ∉ element_name.data) :
    ((∃ msg, elementFromRawXML element_name raw = Outcome.error msg) ↔
      (occurrences (openingTag element_name).data raw.data ≠ 1 ∨
        occurrences (closingTag element_name).data raw.data ≠ 1)) ∧
    (∀ pre x post : String,
      raw = pre ++ openingTag element_name ++ x ++ closingTag element_name ++ post →
      occurrences (openingTag element_name).data raw.data = 1 →
      occurrences (closingTag element_name).data raw.data = 1 →
      elementFromRawXML element_name raw = Outcome.ok x) ∧
    (∀ typ typ' : typeInfo, unmarshalType typ = Outcome.ok typ' → typ.Name = "" →
      elementFromRawXML "name" typ.RawXML = Outcome.ok typ'.Name) ∧
    (∀ member member' : structuralMemberInfo, unmarshalMember member = Outcome.ok member' →
      (member.Name = "" → elementFromRawXML "name" member.RawXML = Outcome.ok member'.Name) ∧
      (member.Typ = "" → elementFromRawXML "type" member.RawXML = Outcome.ok member'.Typ)) ∧
    Unmarshal [decodedIntType] [] =
      Outcome.ok ([{ decodedIntType with Name := "int", Category := "vk_platform" }], []) ∧
    (Unmarshal [decodedUnion] []).bind
        (fun r => Outcome.ok (r.1.map (fun typ => typ.Members.map (fun member => member.Name)))) =
      Outcome.ok [["float32", "int32"]] ∧
    elementFromRawXML "type" decodedCommentedCommand.Proto.RawXML = Outcome.ok "void" ∧
    Unmarshal [] [decodedCommentedCommand] =
      Outcome.ok ([], [{ decodedCommentedCommand with
        Name := "vkCmd",
        Proto := { decodedCommentedCommand.Proto with Typ := "returns nothing" } }]) := by
  refine ⟨?_, ?_, ?_, ?_, by decide, by decide, by decide, by decide⟩
  · rw [← strings.Count_openingTag element_name raw h,
      ← strings.Count_closingTag element_name raw h]
    rcases elementFromRawXML_cases element_name raw with ⟨msg, h1, h2⟩ | ⟨x, h1, h2, h3⟩
    · exact ⟨fun _ => h2, fun _ => ⟨msg, h1⟩⟩
    · constructor
      · rintro ⟨msg, hm⟩
        rw [h1] at hm
        cases hm
      · intro hne
        omega
  · intro pre x post hraw hopen hclose
    subst hraw
    exact elementFromRawXML_between element_name pre x post h hopen hclose
  · intro typ typ' ht hn
    have := (unmarshalType_fields typ typ' ht).1
    rw [if_pos hn] at this
    exact this
  · intro member member' hm
    have := unmarshalMember_fields member member' hm
    refine ⟨fun hn => ?_, fun hn => ?_⟩
    · have h1 := this.1
      rw [if_pos hn] at h1
      exact h1
    · have h1 := this.2
      rw [if_pos hn] at h1
      exact h1

set_option maxRecDepth 10000 in
/-- C39 on the record of `<type>This type is <name>int</name></type>` and on the first
member of the union of `TestStructType`. -/
theorem elementFromRawXML_exactly_once_witness :
    ¬ (∃ msg, elementFromRawXML "name" decodedIntType.RawXML = Outcome.error msg) ∧
    elementFromRawXML "name" decodedIntType.RawXML = Outcome.ok "int" ∧
    elementFromRawXML "name" decodedIntType.RawXML =
      Outcome.ok ({ decodedIntType with Name := "int", Category := "vk_platform" } : typeInfo).Name ∧
    elementFromRawXML "name" "<type>float</type> <name>float32</name>[4]" = Outcome.ok "float32" ∧
    elementFromRawXML "type" "<type>float</type> <name>float32</name>[4]" = Outcome.ok "float" :=
  ⟨fun he => ((elementFromRawXML_exactly_once "name" decodedIntType.RawXML (by decide)).1.1 he).elim
      (fun h1 => h1 (by decide)) (fun h2 => h2 (by decide)),
    (elementFromRawXML_exactly_once "name" decodedIntType.RawXML (by decide)).2.1
      "This type is " "int" "" (by decide) (by decide) (by decide),
    (elementFromRawXML_exactly_once "name" decodedIntType.RawXML (by decide)).2.2.1
      decodedIntType _ (by decide) (by decide),
    ((elementFromRawXML_exactly_once "name" decodedIntType.RawXML (by decide)).2.2.2.1
      (decodedMember "<type>float</type> <name>float32</name>[4]")
      { decodedMember "<type>float</type> <name>float32</name>[4]" with
        Name := "float32", Typ := "float" } (by decide)).1 (by decide),
    ((elementFromRawXML_exactly_once "name" decodedIntType.RawXML (by decide)).2.2.2.1
      (decodedMember "<type>float</type> <name>float32</name>[4]")
      { decodedMember "<type>float</type> <name>float32</name>[4]" with
        Name := "float32", Typ := "float" } (by decide)).2 (by decide)⟩

/-! ## Members: the type of a member from the texts around its type name -/

theorem memberDefinitionError_ne_unknownType (name html : String) :
    memberDefinitionError name html ≠ unknownType := by
  intro h
  have h1 := congrArg String.data h
  simp [memberDefinitionError, unknownType, String.data_append] at h1

theorem prefixError_ne_unknownType (name html : String) :
    "Unexpected prefix in \"" ++ name ++ "\": \"" ++ html ++ "\"\"" ≠ unknownType := by
  intro h
  have h1 := congrArg String.data h
  simp [unknownType, String.data_append] at h1

theorem pointerMemberType_spellings (name html after : String) (member_type : Ty) :
    (after = "*" →
      pointerMemberType name html after (some member_type) =
        Outcome.ok (some (PointerType member_type))) ∧
    (after = "**" →
      pointerMemberType name html after (some member_type) =
        Outcome.ok (some (PointerType (PointerType member_type)))) ∧
    (after = "* const*" ∨ after = "* const *" →
      pointerMemberType name html after (some member_type) =
        Outcome.ok (some (PointerType (ConstType (PointerType member_type))))) ∧
    (after ≠ "*" → after ≠ "**" → after ≠ "* const*" → after ≠ "* const *" →
      pointerMemberType name html after (some member_type) =
        Outcome.error (memberDefinitionError name html)) := by
  refine ⟨?_, ?_, ?_, ?_⟩
  · intro h
    subst h
    rfl
  · intro h
    subst h
    rfl
  · intro h
    rcases h with h | h <;> subst h <;> rfl
  · intro h1 h2 h3 h4
    unfold pointerMemberType
    rw [if_neg h1, if_neg h2, if_neg (by rintro (h | h); exact h3 h; exact h4 h)]

/-- The type of a pointer member whose type name is in the map. -/
theorem memberType_known_pointer (name : String) (member : structuralMemberInfo)
    (types : TypeMap) (enum_values : EnumValues) (html before after : String) (T : Ty)
    (hknown : types.lookup member.Typ = some T)
    (hbase : member.Typ ≠ "VkBaseInStructure" ∧ member.Typ ≠ "VkBaseOutStructure")
    (hstar : startsWithStar after = true) :
    memberType name member types enum_values html before after =
      if before = "const" ∨ before = "const struct" then
        pointerMemberType name html after (some (ConstType T))
      else if before ≠ "" ∧ before ≠ "struct" then
        Outcome.error ("Unexpected prefix in \"" ++ name ++ "\": \"" ++ html ++ "\"\"")
      else pointerMemberType name html after (some T) := by
  unfold memberType
  simp only [hknown, hstar, Option.isSome_some, if_true, if_neg (not_or.2 hbase), Option.map_some']

/-- The type of a pointer member whose type name is not in the map. -/
theorem memberType_unknown_pointer (name : String) (member : structuralMemberInfo)
    (types : TypeMap) (enum_values : EnumValues) (html before after : String)
    (hunknown : types.lookup member.Typ = none) (hstar : startsWithStar after = true) :
    memberType name member types enum_values html before after =
      if before = "" ∨ before = "const" then Outcome.error unknownType
      else if before = "const struct" then
        pointerMemberType name html after (some (ConstType (OpaqueType member.Typ)))
      else if before ≠ "struct" then Outcome.error (memberDefinitionError name html)
      else pointerMemberType name html after (some (OpaqueType member.Typ)) := by
  unfold memberType
  simp only [hunknown, hstar, Option.isSome_none, if_true, Bool.false_eq_true, if_false]

/-- A member that is no pointer and whose type name is not in the map. -/
theorem memberType_unknown_value (name : String) (member : structuralMemberInfo)
    (types : TypeMap) (enum_values : EnumValues) (html before after : String)
    (hunknown : types.lookup member.Typ = none) (hstar : startsWithStar after = false) :
    memberType name member types enum_values html before after = Outcome.error unknownType := by
  unfold memberType
  simp only [hunknown, hstar, Option.isSome_none, Bool.false_eq_true, if_false, if_true]
theorem forRange_head_error {α σ : Type} (body : σ → α → Outcome σ) (x : α) (xs : List α)
    (st : σ) (msg : String) (h : body st x = Outcome.error msg) :
    forRange body (x :: xs) st = Outcome.error msg := by
  rw [forRange, h]

/-- A first member whose type is refused makes `vulkanStructuralTypeMembersFromXML`
return the same error. -/
theorem vulkanStructuralTypeMembersFromXML_head_error (name : String)
    (member : structuralMemberInfo) (rest : List structuralMemberInfo) (types : TypeMap)
    (enum_values : EnumValues) (html before after msg : String)
    (htexts : memberTexts name member = Outcome.ok (html, before, after))
    (htype : memberType name member types enum_values html before after = Outcome.error msg) :
    vulkanStructuralTypeMembersFromXML name (member :: rest) types enum_values =
      Outcome.error msg := by
  unfold vulkanStructuralTypeMembersFromXML
  rw [forRange_head_error _ _ _ _ msg]
  · rfl
  · unfold declareMember
    rw [htexts]
    simp only [Outcome.bind]
    rw [htype]

theorem convertCategory_some_category (converters : typeConverters) (types : TypeMap)
    (xml_type : typeInfo) (r : Outcome Ty)
    (h : convertCategory converters types xml_type = some r) :
    xml_type.Category ≠ "define" ∧ xml_type.Category ≠ "include" ∧
      xml_type.Category ≠ "vk_platform" := by
  refine ⟨?_, ?_, ?_⟩ <;>
  · intro hc
    unfold convertCategory at h
    rw [hc] at h
    simp at h

/-- A record whose conversion fails with `unknownType` is put on the list of the next
turn, and the map of the types stays as it is. -/
theorem convertType_requeues (converters : typeConverters) (st : TypeMap × List typeInfo)
    (xml_type : typeInfo) (hnew : st.1.lookup xml_type.Name = none)
    (halias : xml_type.Alias = "")
    (h : convertCategory converters st.1 xml_type = some (Outcome.error unknownType)) :
    convertType converters st xml_type = Outcome.ok (st.1, st.2 ++ [xml_type]) := by
  obtain ⟨h1, h2, h3⟩ := convertCategory_some_category _ _ _ _ h
  unfold convertType
  rw [hnew, h]
  simp only [Option.isSome_none, Bool.false_eq_true, if_false, halias, ne_eq, not_true_eq_false,
    if_neg h1, if_neg h2, if_neg h3, if_true]

/-- C33 (counterexample): the member `const char* const * ppEnabledLayerNames`, whose
text after the type is `* const *` with a blank before the second asterisk, is no error:
its type is a pointer to a constant pointer to `const char`. -/
theorem spaced_const_pointer_accepted :
    memberTexts "VkInstanceCreateInfo" spacedNamesMember =
      Outcome.ok (spacedNamesMember.RawXML, "const", "* const *") ∧
    vulkanStructuralTypeMembersFromXML "VkInstanceCreateInfo" [spacedNamesMember] sampleTypes [] =
      Outcome.ok [⟨Field "ppEnabledLayerNames"
        (PointerType (ConstType (PointerType (ConstType CharType)))), none, none⟩] :=
  ⟨by decide, rfl⟩

/-- C33 (amended): for a member whose type `T` is in the type map and is none of
`VkBaseInStructure` and `VkBaseOutStructure`, and whose text after the type starts with
`*`: with `T'` the type `Const(T)` when the text before the type is `const` or
`const struct` and `T` when it is empty or `struct`, the text `*` after the type gives
`Pointer(T')`, `**` gives `Pointer(Pointer(T'))`, `* const*` and `* const *` give
`Pointer(Const(Pointer(T')))`, and any other text after the type is an error; any other
text before the type is an error. -/
theorem memberType_pointer (name : String) (member : structuralMemberInfo) (types : TypeMap)
    (enum_values : EnumValues) (html before after : String) (T : Ty)
    (hknown : types.lookup member.Typ = some T)
    (hbase : member.Typ ≠ "VkBaseInStructure" ∧ member.Typ ≠ "VkBaseOutStructure")
    (hstar : startsWithStar after = true) :
    (∀ T', (((before = "const" ∨ before = "const struct") ∧ T' = ConstType T) ∨
        ((before = "" ∨ before = "struct") ∧ T' = T)) →
      (after = "*" →
        memberType name member types enum_values html before after =
          Outcome.ok (some (PointerType T'))) ∧
      (after = "**" →
        memberType name member types enum_values html before after =
          Outcome.ok (some (PointerType (PointerType T')))) ∧
      (after = "* const*" ∨ after = "* const *" →
        memberType name member types enum_values html before after =
          Outcome.ok (some (PointerType (ConstType (PointerType T'))))) ∧
      (after ≠ "*" → after ≠ "**" → after ≠ "* const*" → after ≠ "* const *" →
        memberType name member types enum_values html before after =
          Outcome.error (memberDefinitionError name html))) ∧
    (before ≠ "const" → before ≠ "const struct" → before ≠ "" → before ≠ "struct" →
      memberType name member types enum_values html before after =
        Outcome.error ("Unexpected prefix in \"" ++ name ++ "\": \"" ++ html ++ "\"\"")) := by
  have key := memberType_known_pointer name member types enum_values html before after T hknown
    hbase hstar
  constructor
  · intro T' hT
    rcases hT with ⟨hb, rfl⟩ | ⟨hb, rfl⟩
    · rw [key, if_pos hb]
      exact pointerMemberType_spellings name html after (ConstType T)
    · have h1 : ¬ (before = "const" ∨ before = "const struct") := by
        rcases hb with hb | hb <;> subst hb <;> decide
      have h2 : ¬ (before ≠ "" ∧ before ≠ "struct") := by
        rcases hb with hb | hb <;> subst hb <;> decide
      rw [key, if_neg h1, if_neg h2]
      exact pointerMemberType_spellings name html after T'
  · intro h1 h2 h3 h4
    rw [key, if_neg (by rintro (h | h); exact h1 h; exact h2 h), if_pos ⟨h3, h4⟩]

/-- C33 (amended) on the members `const void* pNext` and
`const char* const * ppEnabledLayerNames`. -/
theorem memberType_pointer_witness :
    memberType "S" pNextMember sampleTypes [] pNextMember.RawXML "const" "*" =
      Outcome.ok (some (PointerType (ConstType VoidType))) ∧
    memberType "S" spacedNamesMember sampleTypes [] spacedNamesMember.RawXML "const" "* const *" =
      Outcome.ok (some (PointerType (ConstType (PointerType (ConstType CharType))))) ∧
    memberType "S" pNextMember sampleTypes [] pNextMember.RawXML "const" "*const" =
      Outcome.error (memberDefinitionError "S" pNextMember.RawXML) ∧
    memberType "S" pNextMember sampleTypes [] pNextMember.RawXML "volatile" "*" =
      Outcome.error ("Unexpected prefix in \"" ++ "S" ++ "\": \"" ++ pNextMember.RawXML ++ "\"\"") :=
  ⟨((memberType_pointer "S" pNextMember sampleTypes [] pNextMember.RawXML "const" "*" VoidType
      rfl (by decide) (by decide)).1 _ (Or.inl ⟨Or.inl rfl, rfl⟩)).1 rfl,
    ((memberType_pointer "S" spacedNamesMember sampleTypes [] spacedNamesMember.RawXML "const"
      "* const *" CharType rfl (by decide) (by decide)).1 _
        (Or.inl ⟨Or.inl rfl, rfl⟩)).2.2.1 (Or.inr rfl),
    ((memberType_pointer "S" pNextMember sampleTypes [] pNextMember.RawXML "const" "*const"
      VoidType rfl (by decide) (by decide)).1 _ (Or.inl ⟨Or.inl rfl, rfl⟩)).2.2.2
        (by decide) (by decide) (by decide) (by decide),
    (memberType_pointer "S" pNextMember sampleTypes [] pNextMember.RawXML "volatile" "*"
      VoidType rfl (by decide) (by decide)).2 (by decide) (by decide) (by decide) (by decide)⟩

/-- C37: for a member whose type name is not in the type map, a use that is no pointer
fails with the error `unknownType`, and so does a pointer use whose text before the type
is empty or `const`; a pointer use with `struct` gives the pointer type over
`Opaque(type name)` and one with `const struct` the pointer type over
`Const(Opaque(type name))`, and never fails with `unknownType`. A first member that
fails with `unknownType` makes the conversion of its struct fail with `unknownType`, and
the first loop of `VulkanTypesfromXML` puts a record whose conversion fails so on the
list of its next turn. -/
theorem memberType_unknown_type (name : String) (member : structuralMemberInfo)
    (types : TypeMap) (enum_values : EnumValues) (html before after : String)
    (hunknown : types.lookup member.Typ = none) :
    (startsWithStar after = false →
      memberType name member types enum_values html before after =
        Outcome.error unknownType) ∧
    (startsWithStar after = true → (before = "" ∨ before = "const") →
      memberType name member types enum_values html before after =
        Outcome.error unknownType) ∧
    (startsWithStar after = true →
      ∀ T', ((before = "struct" ∧ T' = OpaqueType member.Typ) ∨
          (before = "const struct" ∧ T' = ConstType (OpaqueType member.Typ))) →
        memberType name member types enum_values html before after ≠
          Outcome.error unknownType ∧
        (after = "*" →
          memberType name member types enum_values html before after =
            Outcome.ok (some (PointerType T'))) ∧
        (after = "**" →
          memberType name member types enum_values html before after =
            Outcome.ok (some (PointerType (PointerType T')))) ∧
        (after = "* const*" ∨ after = "* const *" →
          memberType name member types enum_values html before after =
            Outcome.ok (some (PointerType (ConstType (PointerType T')))))) ∧
    (∀ rest : List structuralMemberInfo,
      memberTexts name member = Outcome.ok (html, before, after) →
      memberType name member types enum_values html before after =
        Outcome.error unknownType →
      vulkanStructuralTypeMembersFromXML name (member :: rest) types enum_values =
        Outcome.error unknownType) ∧
    (∀ (converters : typeConverters) (st : TypeMap × List typeInfo) (xml_type : typeInfo),
      st.1.lookup xml_type.Name = none → xml_type.Alias = "" →
      convertCategory converters st.1 xml_type = some (Outcome.error unknownType) →
      convertType converters st xml_type = Outcome.ok (st.1, st.2 ++ [xml_type])) := by
  refine ⟨fun hstar => memberType_unknown_value _ _ _ _ _ _ _ hunknown hstar, ?_, ?_,
    fun rest ht hm => vulkanStructuralTypeMembersFromXML_head_error _ _ _ _ _ _ _ _ _ ht hm,
    fun converters st xml_type => convertType_requeues converters st xml_type⟩
  · intro hstar hb
    rw [memberType_unknown_pointer _ _ _ _ _ _ _ hunknown hstar, if_pos hb]
  · intro hstar T' hT
    have key := memberType_unknown_pointer name member types enum_values html before after
      hunknown hstar
    have hcases : memberType name member types enum_values html before after =
        pointerMemberType name html after (some T') := by
      rcases hT with ⟨hb, rfl⟩ | ⟨hb, rfl⟩
      · subst hb
        rw [key, if_neg (by decide), if_neg (by decide), if_neg (by decide)]
      · subst hb
        rw [key, if_neg (by decide), if_pos rfl]
    rw [hcases]
    have hs := pointerMemberType_spellings name html after T'
    refine ⟨?_, hs.1, hs.2.1, hs.2.2.1⟩
    unfold pointerMemberType
    split
    · intro h; cases h
    · split
      · intro h; cases h
      · split
        · intro h; cases h
        · intro h
          exact memberDefinitionError_ne_unknownType name html (Outcome.error.inj h)

/-- C37 on the members `VkTransformMatrixKHR transform` and
`struct VkBaseOutStructure* pNext` of `TestStruct`, met before their types are in the
map. -/
theorem memberType_unknown_type_witness :
    vulkanStructuralTypeMembersFromXML "VkAccelerationStructureInstanceKHR"
      accelerationInstanceMembers sampleTypes [] = Outcome.error unknownType ∧
    memberType "VkBaseOutStructure" pNextOutMember sampleTypes [] pNextOutMember.RawXML
      "struct" "*" = Outcome.ok (some (PointerType (OpaqueType "VkBaseOutStructure"))) ∧
    memberType "S" pNextOutMember sampleTypes [] pNextOutMember.RawXML "const" "*" =
      Outcome.error unknownType :=
  ⟨(memberType_unknown_type "VkAccelerationStructureInstanceKHR"
      (memberWith "transform" "VkTransformMatrixKHR"
        "<type>VkTransformMatrixKHR</type> <name>transform</name>") sampleTypes []
      "<type>VkTransformMatrixKHR</type> <name>transform</name>" "" "" rfl).2.2.2.1 _
        (by decide)
        ((memberType_unknown_type "VkAccelerationStructureInstanceKHR"
          (memberWith "transform" "VkTransformMatrixKHR"
            "<type>VkTransformMatrixKHR</type> <name>transform</name>") sampleTypes []
          "<type>VkTransformMatrixKHR</type> <name>transform</name>" "" "" rfl).1 (by decide)),
    ((memberType_unknown_type "VkBaseOutStructure" pNextOutMember sampleTypes []
      pNextOutMember.RawXML "struct" "*" rfl).2.2.1 (by decide) _
        (Or.inl ⟨rfl, rfl⟩)).2.1 rfl,
    (memberType_unknown_type "S" pNextOutMember sampleTypes [] pNextOutMember.RawXML
      "const" "*" rfl).2.1 (by decide) (Or.inr rfl)⟩
/-! ## Members: bitfields -/

/-- The type of a member that is no pointer, up to the test of its text after the type. -/
theorem memberType_value (name : String) (member : structuralMemberInfo) (types : TypeMap)
    (enum_values : EnumValues) (html before after : String)
    (hstar : startsWithStar after = false) :
    memberType name member types enum_values html before after =
      if (types.lookup member.Typ).isSome = false then Outcome.error unknownType
      else if before ≠ "const" ∧ before ≠ "" then Outcome.error (memberDefinitionError name html)
      else if after = ":8" then
        if member.Typ ≠ "uint32_t" ∧ member.Typ ≠ "VkGeometryInstanceFlagsKHR" then
          Outcome.error ("Unsupported bitfield type name \"" ++ name ++ "\": \"" ++ html ++ "\"\"")
        else Outcome.ok (some UInt8TType)
      else if after = ":24" then
        if member.Typ ≠ "uint32_t" then
          Outcome.error ("Unsupported bitfield type name \"" ++ name ++ "\": \"" ++ html ++ "\"\"")
        else Outcome.ok (some (ArrayType UInt8TType 3))
      else
        (arrayIndexes enum_values (after.data.length + 1) after []).bind (fun rest =>
          if rest.1 ≠ "" then Outcome.error (memberDefinitionError name html)
          else
            Outcome.ok ((if before = "const" then
                (if member.Typ = "VkBaseInStructure" ∨ member.Typ = "VkBaseOutStructure" then
                  types.lookup member.Validstructs else types.lookup member.Typ).map ConstType
              else if member.Typ = "VkBaseInStructure" ∨ member.Typ = "VkBaseOutStructure" then
                types.lookup member.Validstructs else types.lookup member.Typ).map
              (fun member_type =>
                rest.2.reverse.foldl (fun t size => ArrayType t size) member_type))) := by
  unfold memberType
  simp only [hstar, Bool.false_eq_true, if_false]
  by_cases hk : (types.lookup member.Typ).isSome = false
  · rw [if_pos hk, if_pos hk]
  · rw [if_neg hk, if_neg hk]
    by_cases hc : before = "const"
    · subst hc
      simp only [if_true, Outcome.bind, ne_eq, not_true_eq_false, false_and, if_false]
    · rw [if_neg hc]
      by_cases he : before = ""
      · simp only [hc, if_false]
        subst he
        simp only [ne_eq, not_true_eq_false, if_false, Outcome.bind, and_false]
      · rw [if_pos he, if_pos (show before ≠ "const" ∧ before ≠ "" from ⟨hc, he⟩)]
        rfl

theorem roundUp_of_dvd (offset al : Nat) (h : al ∣ offset) : roundUp offset al = offset := by
  unfold roundUp
  rw [if_neg (by simp [Nat.mod_eq_zero_of_dvd h])]

theorem fieldsFrom_append (arch : Arch) : ∀ (pre rest : List FieldInfo) (offset : Nat),
    fieldsFrom arch (pre ++ rest) offset =
      fieldsFrom arch pre offset ++ fieldsFrom arch rest (offsetAfter arch pre offset)
  | [], _, _ => rfl
  | f :: pre, rest, offset => by
    rw [List.cons_append, fieldsFrom, fieldsFrom, fieldsFrom_append arch pre rest]
    rfl

theorem fieldsFrom_length (arch : Arch) : ∀ (fields : List FieldInfo) (offset : Nat),
    (fieldsFrom arch fields offset).length = fields.length
  | [], _ => rfl
  | f :: fields, offset => by
    simp only [fieldsFrom, List.length_cons, fieldsFrom_length arch fields]

/-- Layout of a pair of bitfields whatever comes before it: the field of 24 bits starts
on a byte, the field of 8 bits follows it at once, and the running offset after the pair
is 32 bits after the start. -/
theorem fieldsFrom_bitfield_pair (arch : Arch) (a b : String) (post : List FieldInfo)
    (offset : Nat) :
    fieldsFrom arch (Field a (ArrayType UInt8TType 3) :: Field b UInt8TType :: post) offset =
      StructFieldInfo.mk (Field a (ArrayType UInt8TType 3)) (roundUp offset 8) ::
        StructFieldInfo.mk (Field b UInt8TType) ((roundUp offset 8 + 24) % uintModulus) ::
          fieldsFrom arch post ((roundUp offset 8 + 32) % uintModulus) := by
  have ha : (ArrayType UInt8TType 3).Align arch = some 8 := by cases arch <;> rfl
  have hb : UInt8TType.Align arch = some 8 := by cases arch <;> rfl
  have hab : (ArrayType UInt8TType 3).Bits arch = some 24 := by cases arch <;> rfl
  have hbb : UInt8TType.Bits arch = some 8 := by cases arch <;> rfl
  have h8 : 8 ∣ roundUp offset 8 := roundUp_dvd offset 8 (by decide) (by decide)
  have h24 : 8 ∣ (roundUp offset 8 + 24) % uintModulus := by
    rw [Nat.dvd_mod_iff (by decide)]
    exact Nat.dvd_add h8 (by decide)
  simp only [fieldsFrom, fieldStart, fieldEnd, Field, FieldInfo.Typ, ha, hb, hab, hbb,
    Option.getD_some, roundUp_of_dvd _ _ h24]
  have e : ((roundUp offset 8 + 24) % uintModulus + 8) % uintModulus =
      (roundUp offset 8 + 32) % uintModulus := by
    unfold uintModulus
    omega
  rw [e]
theorem fieldsFrom_pair_getElem (reported : Arch) (a b : String) (pre post : List FieldInfo) :
    (fieldsFrom reported
        (pre ++ Field a (ArrayType UInt8TType 3) :: Field b UInt8TType :: post) 0)[pre.length]? =
      some (StructFieldInfo.mk (Field a (ArrayType UInt8TType 3))
        (roundUp (offsetAfter reported pre 0) 8)) ∧
    (fieldsFrom reported
        (pre ++ Field a (ArrayType UInt8TType 3) :: Field b UInt8TType :: post) 0)[pre.length + 1]? =
      some (StructFieldInfo.mk (Field b UInt8TType)
        ((roundUp (offsetAfter reported pre 0) 8 + 24) % uintModulus)) ∧
    ∀ i, (fieldsFrom reported
        (pre ++ Field a (ArrayType UInt8TType 3) :: Field b UInt8TType :: post) 0)[pre.length + 2 + i]? =
      (fieldsFrom reported post
        ((roundUp (offsetAfter reported pre 0) 8 + 32) % uintModulus))[i]? := by
  rw [fieldsFrom_append, fieldsFrom_bitfield_pair]
  have hl := fieldsFrom_length reported pre 0
  refine ⟨?_, ?_, fun i => ?_⟩
  · rw [List.getElem?_append_right (by omega), hl, Nat.sub_self]
    rfl
  · rw [List.getElem?_append_right (by omega), hl, Nat.add_sub_cancel_left]
    simp only [List.getElem?_cons_succ, List.getElem?_cons_zero]
  · rw [List.getElem?_append_right (by omega), hl]
    have e : pre.length + 2 + i - pre.length = i + 1 + 1 := by omega
    rw [e]
    simp only [List.getElem?_cons_succ]

/-- Fields that `StructType` reports for a pair of bitfields on an architecture. -/
theorem StructType_bitfield_pair (struct_name a b : String) (pre post : List FieldInfo)
    (t : Ty)
    (h : StructType struct_name
      (pre ++ Field a (ArrayType UInt8TType 3) :: Field b UInt8TType :: post) = some t)
    (arch : Arch) :
    ∃ (reported : Arch) (offset : Nat),
      t.Field pre.length arch = some (AnyFieldInfo.structField
        (StructFieldInfo.mk (Field a (ArrayType UInt8TType 3)) offset)) ∧
      t.Field (pre.length + 1) arch = some (AnyFieldInfo.structField
        (StructFieldInfo.mk (Field b UInt8TType) ((offset + 24) % uintModulus))) ∧
      ∀ i, t.Field (pre.length + 2 + i) arch =
        ((fieldsFrom reported post ((offset + 32) % uintModulus))[i]?).map
          AnyFieldInfo.structField := by
  obtain ⟨_, _, rfl⟩ := (StructType_eq_some_iff _ _ _).1 h
  cases hf : (StructLayout.final (pre ++ Field a (ArrayType UInt8TType 3) ::
      Field b UInt8TType :: post)).arch_dependent_layout with
  | true =>
    obtain ⟨h1, h2, h3⟩ := fieldsFrom_pair_getElem arch a b pre post
    refine ⟨arch, roundUp (offsetAfter arch pre 0) 8, ?_, ?_, fun i => ?_⟩
    · rw [toType_Field, hf, if_pos rfl, final_fields, h1]
      rfl
    · rw [toType_Field, hf, if_pos rfl, final_fields, h2]
      rfl
    · rw [toType_Field, hf, if_pos rfl, final_fields, h3]
  | false =>
    obtain ⟨h1, h2, h3⟩ := fieldsFrom_pair_getElem FirstArch a b pre post
    refine ⟨FirstArch, roundUp (offsetAfter FirstArch pre 0) 8, ?_, ?_, fun i => ?_⟩
    · rw [toType_Field, hf, if_neg (by decide), final_fields, h1]
      rfl
    · rw [toType_Field, hf, if_neg (by decide), final_fields, h2]
      rfl
    · rw [toType_Field, hf, if_neg (by decide), final_fields, h3]

set_option maxRecDepth 100000 in
/-- C31: a member whose text after the type is `:8` gets the type `UInt8` when its type
name is `uint32_t` or `VkGeometryInstanceFlagsKHR`, and one with `:24` gets
`Array(UInt8, 3)` when its type name is `uint32_t` (the type name being in the map and
the text before the type empty or `const`); any other type name is an error. In a struct
a field `Array(UInt8, 3)` followed by a field `UInt8` lies with the second field 24 bits
after the first and the running offset 32 bits after it, on every architecture. The
fields of `VkAccelerationStructureInstanceKHR` of `TestStruct` lie at the bit offsets 0,
384, 408, 416, 440 and 448 on every architecture. -/
theorem memberType_bitfield (name : String) (member : structuralMemberInfo) (types : TypeMap)
    (enum_values : EnumValues) (html before : String) :
    ((types.lookup member.Typ).isSome = true → (before = "" ∨ before = "const") →
      ((member.Typ = "uint32_t" ∨ member.Typ = "VkGeometryInstanceFlagsKHR") →
        memberType name member types enum_values html before ":8" =
          Outcome.ok (some UInt8TType)) ∧
      (member.Typ = "uint32_t" →
        memberType name member types enum_values html before ":24" =
          Outcome.ok (some (ArrayType UInt8TType 3)))) ∧
    (member.Typ ≠ "uint32_t" → member.Typ ≠ "VkGeometryInstanceFlagsKHR" →
      ∃ msg, memberType name member types enum_values html before ":8" = Outcome.error msg) ∧
    (member.Typ ≠ "uint32_t" →
      ∃ msg, memberType name member types enum_values html before ":24" = Outcome.error msg) ∧
    (∀ (struct_name a b : String) (pre post : List FieldInfo) (t : Ty),
      StructType struct_name
        (pre ++ Field a (ArrayType UInt8TType 3) :: Field b UInt8TType :: post) = some t →
      ∀ arch, ∃ (reported : Arch) (offset : Nat),
        t.Field pre.length arch = some (AnyFieldInfo.structField
          (StructFieldInfo.mk (Field a (ArrayType UInt8TType 3)) offset)) ∧
        t.Field (pre.length + 1) arch = some (AnyFieldInfo.structField
          (StructFieldInfo.mk (Field b UInt8TType) ((offset + 24) % uintModulus))) ∧
        ∀ i, t.Field (pre.length + 2 + i) arch =
          ((fieldsFrom reported post ((offset + 32) % uintModulus))[i]?).map
            AnyFieldInfo.structField) ∧
    (convertTypes (loaderConverters 0 [] []) 3 [] instanceRecords instanceTypes).bind
        (fun types => Outcome.ok
          ((types.lookup "VkAccelerationStructureInstanceKHR").map (fun t =>
            Arch.all.map (fun a => (fieldOffsets t a, t.Bits a))))) =
      Outcome.ok (some (Arch.all.map (fun _ =>
        ([some ("transform", 0), some ("instanceCustomIndex", 384), some ("mask", 408),
          some ("instanceShaderBindingTableRecordOffset", 416), some ("flags", 440),
          some ("accelerationStructureReference", 448)], some 512)))) := by
  have h8 := memberType_value name member types enum_values html before ":8" (by decide)
  have h24 := memberType_value name member types enum_values html before ":24" (by decide)
  simp only [if_true, show ¬ (":24" : String) = ":8" by decide, if_false] at h8 h24
  refine ⟨?_, ?_, ?_, fun struct_name a b pre post t h arch =>
    StructType_bitfield_pair struct_name a b pre post t h arch, rfl⟩
  · intro hk hb
    have hk' : ¬ (types.lookup member.Typ).isSome = false := by simp [hk]
    have hb' : ¬ (before ≠ "const" ∧ before ≠ "") := by
      rcases hb with hb | hb <;> subst hb <;> decide
    constructor
    · intro ht
      have ht' : ¬ (member.Typ ≠ "uint32_t" ∧ member.Typ ≠ "VkGeometryInstanceFlagsKHR") := by
        rcases ht with ht | ht <;> simp [ht]
      rw [h8, if_neg hk', if_neg hb', if_neg ht']
    · intro ht
      rw [h24, if_neg hk', if_neg hb', if_neg (not_not.2 ht)]
  · intro h1 h2
    rw [h8]
    split
    · exact ⟨_, rfl⟩
    · split
      · exact ⟨_, rfl⟩
      · rw [if_pos ⟨h1, h2⟩]
        exact ⟨_, rfl⟩
  · intro h1
    rw [h24]
    split
    · exact ⟨_, rfl⟩
    · split
      · exact ⟨_, rfl⟩
      · exact ⟨_, rfl⟩


set_option maxRecDepth 100000 in
/-- C31 on the members `uint32_t mask:8` and `uint32_t instanceCustomIndex:24` of
`TestStruct`, on a member `float mask:8`, and on a struct that starts with a pair of
bitfields. -/
theorem memberType_bitfield_witness :
    memberType "S" (memberWith "mask" "uint32_t" "") sampleTypes [] "" "" ":8" =
      Outcome.ok (some UInt8TType) ∧
    memberType "S" (memberWith "instanceCustomIndex" "uint32_t" "") sampleTypes [] "" "" ":24" =
      Outcome.ok (some (ArrayType UInt8TType 3)) ∧
    (∃ msg, memberType "S" (memberWith "mask" "float" "") sampleTypes [] "" "" ":8" =
      Outcome.error msg) ∧
    (∃ msg, memberType "S" (memberWith "mask" "float" "") sampleTypes [] "" "" ":24" =
      Outcome.error msg) ∧
    ∃ (reported : Arch) (offset : Nat),
      bitfieldPairStruct.Field 1 Arch.X86_64 = some (AnyFieldInfo.structField
        (StructFieldInfo.mk (Field "instanceCustomIndex" (ArrayType UInt8TType 3)) offset)) ∧
      bitfieldPairStruct.Field (1 + 1) Arch.X86_64 = some (AnyFieldInfo.structField
        (StructFieldInfo.mk (Field "mask" UInt8TType) ((offset + 24) % uintModulus))) ∧
      ∀ i, bitfieldPairStruct.Field (1 + 2 + i) Arch.X86_64 =
        ((fieldsFrom reported [Field "reference" UInt64TType]
          ((offset + 32) % uintModulus))[i]?).map AnyFieldInfo.structField :=
  ⟨((memberType_bitfield "S" (memberWith "mask" "uint32_t" "") sampleTypes [] "" "").1
      rfl (Or.inl rfl)).1 (Or.inl rfl),
    ((memberType_bitfield "S" (memberWith "instanceCustomIndex" "uint32_t" "") sampleTypes []
      "" "").1 rfl (Or.inl rfl)).2 rfl,
    (memberType_bitfield "S" (memberWith "mask" "float" "") sampleTypes [] "" "").2.1
      (by decide) (by decide),
    (memberType_bitfield "S" (memberWith "mask" "float" "") sampleTypes [] "" "").2.2.1
      (by decide),
    (memberType_bitfield "S" (memberWith "mask" "float" "") sampleTypes [] "" "").2.2.2.1
      "VkPair" "instanceCustomIndex" "mask" [Field "flag" UInt8TType]
      [Field "reference" UInt64TType] bitfieldPairStruct rfl Arch.X86_64⟩
/-! ## Number parsing with a bit size -/

theorem strconv.parseUintLoopMax_eq_ok_iff (base maxVal : Nat) (hb : 2 ≤ base)
    (hb36 : base ≤ 36) (hmax : maxVal < uintModulus) :
    ∀ (s : List Char) (n m : Nat), n ≤ maxVal →
      (strconv.parseUintLoopMax base ((uintModulus - 1) / base + 1) maxVal s n = Outcome.ok m ↔
        allDigits base s = true ∧ digitsFrom base n s = m ∧ m ≤ maxVal)
  | [], n, m, hn => by
    simp only [strconv.parseUintLoopMax, allDigits, List.all_nil, digitsFrom, Outcome.ok.injEq,
      true_and]
    constructor
    · intro h; subst h; exact ⟨rfl, hn⟩
    · intro h; exact h.1
  | c :: s, n, m, hn => by
    have ih := strconv.parseUintLoopMax_eq_ok_iff base maxVal hb hb36 hmax s
    simp only [strconv.parseUintLoopMax, allDigits, List.all_cons, digitsFrom, Bool.and_eq_true]
    cases hd : strconv.digit c with
    | none => simp
    | some d =>
      simp only [Option.getD_some]
      by_cases hdb : d ≥ base
      · simp only [if_pos hdb]
        have : ¬ d < base := by omega
        simp [this]
      · simp only [if_neg hdb]
        have hlt : d < base := by omega
        by_cases hc : n ≥ (uintModulus - 1) / base + 1
        · simp only [if_pos hc]
          have h1 : (uintModulus - 1) / base < n := by omega
          have h2 : uintModulus - 1 < n * base := (Nat.div_lt_iff_lt_mul (by omega)).1 h1
          have h3 := le_digitsFrom base (by omega) s (n * base + d)
          constructor
          · intro h; cases h
          · rintro ⟨_, h4, h5⟩
            exfalso
            unfold uintModulus at *
            omega
        · simp only [if_neg hc]
          have h1 : n ≤ (uintModulus - 1) / base := by omega
          have h2 : n * base ≤ uintModulus - 1 := (Nat.le_div_iff_mul_le (by omega)).1 h1
          have h3 := le_digitsFrom base (by omega) s (n * base + d)
          generalize n * base = x at *
          by_cases hov : x + d ≤ maxVal
          · have e2 : x % uintModulus = x := by unfold uintModulus at *; omega
            have hno : ¬ (x + d < x ∨ x + d > maxVal) := by omega
            have e3 : (x + d) % uintModulus = x + d := Nat.mod_eq_of_lt (by omega)
            rw [e2, e3, if_neg hno, ih (x + d) m hov]
            simp [hlt, allDigits]
          · have hyes : ((x % uintModulus + d) % uintModulus < x % uintModulus ∨
                (x % uintModulus + d) % uintModulus > maxVal) := by
              have e2 : x % uintModulus = x := by unfold uintModulus at *; omega
              rw [e2]
              by_cases hw : x + d < uintModulus
              · right
                rw [Nat.mod_eq_of_lt hw]
                omega
              · left
                unfold uintModulus at *
                omega
            simp only [if_pos hyes]
            constructor
            · intro h; cases h
            · rintro ⟨_, h4, h5⟩
              exfalso
              omega

theorem strconv.parseUintLoopMax_ok_or_error (base cutoff maxVal : Nat) :
    ∀ (s : List Char) (n : Nat),
      (∃ m, strconv.parseUintLoopMax base cutoff maxVal s n = Outcome.ok m) ∨
        ∃ msg, strconv.parseUintLoopMax base cutoff maxVal s n = Outcome.error msg
  | [], n => Or.inl ⟨n, rfl⟩
  | c :: s, n => by
    simp only [strconv.parseUintLoopMax]
    cases strconv.digit c with
    | none => exact Or.inr ⟨_, rfl⟩
    | some d =>
      simp only []
      split
      · exact Or.inr ⟨_, rfl⟩
      · split
        · exact Or.inr ⟨_, rfl⟩
        · split
          · exact Or.inr ⟨_, rfl⟩
          · exact strconv.parseUintLoopMax_ok_or_error base cutoff maxVal s _

theorem strconv.ParseUintBits_ok_or_error (s : List Char) (base bitSize : Nat) :
    (∃ m, strconv.ParseUintBits s base bitSize = Outcome.ok m) ∨
      ∃ msg, strconv.ParseUintBits s base bitSize = Outcome.error msg := by
  unfold strconv.ParseUintBits
  split
  · exact Or.inr ⟨_, rfl⟩
  · split
    · split
      · exact strconv.parseUintLoopMax_ok_or_error _ _ _ _ _
      · exact Or.inr ⟨_, rfl⟩
    · exact Or.inr ⟨_, rfl⟩

/-- Function `strconv.ParseUint` with the bit size 32 accepts exactly the texts of
digits of the base whose value is below `2^32`. -/
theorem strconv.ParseUintBits_eq_ok_iff (s : List Char) (base m : Nat) (hb : 2 ≤ base)
    (hb36 : base ≤ 36) :
    strconv.ParseUintBits s base 32 = Outcome.ok m ↔
      s ≠ [] ∧ allDigits base s = true ∧ digitsFrom base 0 s = m ∧ m ≤ 2 ^ 32 - 1 := by
  unfold strconv.ParseUintBits
  by_cases hs : s = []
  · simp [hs]
  · simp only [if_neg hs, if_pos (And.intro hb hb36), ne_eq, hs, not_false_eq_true, true_and]
    rw [if_pos (show 1 ≤ 32 ∧ 32 ≤ 64 by decide)]
    exact strconv.parseUintLoopMax_eq_ok_iff base (2 ^ 32 - 1) hb hb36 (by decide) s 0 m
      (by decide)

theorem strconv.ParseIntBits_ok_or_error (s : String) (base bitSize : Nat) :
    (∃ v, strconv.ParseIntBits s base bitSize = Outcome.ok v) ∨
      ∃ msg, strconv.ParseIntBits s base bitSize = Outcome.error msg := by
  unfold strconv.ParseIntBits
  cases s.data with
  | nil => exact Or.inr ⟨_, rfl⟩
  | cons c rest =>
    simp only []
    rcases strconv.ParseUintBits_ok_or_error (if c = '+' ∨ c = '-' then rest else c :: rest)
      base bitSize with ⟨m, hm⟩ | ⟨msg, hm⟩
    · rw [hm]
      simp only []
      split
      · exact Or.inr ⟨_, rfl⟩
      · split
        · exact Or.inr ⟨_, rfl⟩
        · exact Or.inl ⟨_, rfl⟩
    · rw [hm]
      exact Or.inr ⟨_, rfl⟩

/-- Function `strconv.ParseInt` with the bit size 32 accepts exactly the numerals of the
base whose value lies in the `int32` range, and returns that value. -/
theorem strconv.ParseIntBits_eq_ok_iff (s : String) (base : Nat) (v : Int) (hb : 2 ≤ base)
    (hb36 : base ≤ 36) :
    strconv.ParseIntBits s base 32 = Outcome.ok v ↔
      numeralValue base s = some v ∧ -2 ^ 31 ≤ v ∧ v < 2 ^ 31 := by
  unfold strconv.ParseIntBits numeralValue
  cases s.data with
  | nil => simp
  | cons c rest =>
    simp only []
    generalize hdig : (if c = '+' ∨ c = '-' then rest else c :: rest) = digits
    rcases strconv.ParseUintBits_ok_or_error digits base 32 with ⟨m, hm⟩ | ⟨msg, hm⟩
    · obtain ⟨h1, h2, h3, h4⟩ := (strconv.ParseUintBits_eq_ok_iff digits base m hb hb36).1 hm
      rw [hm]
      simp only [if_pos (And.intro h1 h2), h3, Option.some.injEq]
      by_cases hneg : c = '-'
      · simp only [hneg, decide_True, Bool.true_eq_false, false_and, if_false, true_and, if_true]
        by_cases hr : m > 2 ^ (32 - 1)
        · simp only [if_pos hr]
          constructor
          · intro h; cases h
          · rintro ⟨h5, h6⟩
            simp only [Nat.add_one_sub_one] at hr
            omega
        · simp only [if_neg hr, Outcome.ok.injEq]
          simp only [Nat.add_one_sub_one] at hr
          have e : wrapInt64 (-wrapInt64 (m : Int)) = -(m : Int) := by
            unfold wrapInt64; omega
          rw [e]
          constructor
          · intro h; subst h
            exact ⟨rfl, by omega⟩
          · intro h; exact h.1
      · simp only [hneg, decide_False, true_and, Bool.false_eq_true, false_and, if_false]
        by_cases hr : m ≥ 2 ^ (32 - 1)
        · simp only [if_pos hr]
          constructor
          · intro h; cases h
          · rintro ⟨h5, h6⟩
            simp only [Nat.add_one_sub_one] at hr
            omega
        · simp only [if_neg hr, Outcome.ok.injEq]
          simp only [Nat.add_one_sub_one] at hr
          have e : wrapInt64 (m : Int) = (m : Int) := by
            unfold wrapInt64; omega
          rw [e]
          constructor
          · intro h; subst h
            exact ⟨rfl, by omega⟩
          · intro h; exact h.1
    · rw [hm]
      simp only []
      constructor
      · intro h; cases h
      · rintro ⟨h5, h6, h7⟩
        exfalso
        by_cases hd : digits ≠ [] ∧ allDigits base digits = true
        · have hlt : digitsFrom base 0 digits ≤ 2 ^ 32 - 1 := by
            rw [if_pos hd] at h5
            simp only [Option.some.injEq] at h5
            split at h5 <;> omega
          have := (strconv.ParseUintBits_eq_ok_iff digits base _ hb hb36).2 ⟨hd.1, hd.2, rfl, hlt⟩
          rw [hm] at this
          cases this
        · rw [if_neg hd] at h5
          cases h5
/-! ## Members: arrays -/

theorem sliceString_middle (s : String) (a b c : List Char) (low high : Int)
    (hs : s.data = a ++ (b ++ c)) (hl : low = a.length) (hh : high = a.length + b.length) :
    sliceString s low high = some (String.mk b) := by
  subst hl hh
  unfold sliceString
  have hb : (0 : Int) ≤ a.length ∧ (a.length : Int) ≤ a.length + b.length ∧
      (a.length : Int) + b.length ≤ s.data.length := by
    rw [hs]
    simp only [List.length_append, Nat.cast_add]
    omega
  rw [if_pos hb]
  have e1 : ((a.length : Int) + (b.length : Int)).toNat = a.length + b.length := by omega
  have e2 : ((a.length : Int)).toNat = a.length := by omega
  rw [e1, e2, hs, ← List.append_assoc, List.take_left' (by simp), List.drop_left]

theorem strings.lastIndex_absent (c : Char) : ∀ s : List Char, c ∉ s →
    strings.lastIndex [c] s = -1
  | [], _ => by simp [strings.lastIndex]
  | x :: s, h => by
    have h1 : c ≠ x := fun e => h (e ▸ List.mem_cons_self _ _)
    have h2 : c ∉ s := fun e => h (List.mem_cons_of_mem _ e)
    rw [strings.lastIndex, strings.lastIndex_absent c s h2]
    simp [List.isPrefixOf, h1]

theorem strings.lastIndex_last (c : Char) (rest : List Char) (h : c ∉ rest) :
    ∀ pre : List Char, strings.lastIndex [c] (pre ++ c :: rest) = pre.length
  | [] => by
    rw [List.nil_append, strings.lastIndex, strings.lastIndex_absent c rest h]
    simp [List.isPrefixOf]
  | x :: pre => by
    rw [List.cons_append, strings.lastIndex, strings.lastIndex_last c rest h pre]
    simp

theorem strings.HasSuffix_bracket (text : String) (l : List Char) (h : text.data = l ++ [']']) :
    strings.HasSuffix text "]" = true := by
  unfold strings.HasSuffix
  rw [h]
  simp [List.isSuffixOf, List.isPrefixOf]

theorem digit_of_numeral (base : Nat) (d : String) (v : Int)
    (h : numeralValue base d = some v) :
    ∃ c rest, d.data = c :: rest ∧
      ∀ x ∈ d.data, x = '+' ∨ x = '-' ∨ (strconv.digit x).isSome = true := by
  unfold numeralValue at h
  cases hd : d.data with
  | nil => rw [hd] at h; cases h
  | cons c rest =>
    rw [hd] at h
    simp only [] at h
    refine ⟨c, rest, rfl, ?_⟩
    by_cases hdig : (if c = '+' ∨ c = '-' then rest else c :: rest) ≠ [] ∧
        allDigits base (if c = '+' ∨ c = '-' then rest else c :: rest) = true
    · have hall : ∀ x ∈ (if c = '+' ∨ c = '-' then rest else c :: rest),
          (strconv.digit x).isSome = true := by
        intro x hx
        have := hdig.2
        unfold allDigits at this
        rw [List.all_eq_true] at this
        have hx' := this x hx
        cases hdx : strconv.digit x with
        | none => rw [hdx] at hx'; cases hx'
        | some _ => rfl
      intro x hx
      by_cases hc : c = '+' ∨ c = '-'
      · rw [if_pos hc] at hall
        rcases List.mem_cons.1 hx with rfl | hx
        · rcases hc with hc | hc
          · exact Or.inl hc
          · exact Or.inr (Or.inl hc)
        · exact Or.inr (Or.inr (hall x hx))
      · rw [if_neg hc] at hall
        exact Or.inr (Or.inr (hall x hx))
    · rw [if_neg hdig] at h
      cases h

/-- The size text of a dimension that is a number is the dimension itself, and the one of
`<enum>K</enum>` is the value of the constant `K`; no bracket opens in a dimension. -/
theorem arraySizeText_of_IsDimension (enum_values : EnumValues) (d : String) (n : Nat)
    (h : IsDimension enum_values d n) :
    '[' ∉ d.data ∧
      ∃ size_text, arraySizeText enum_values d = Outcome.ok size_text ∧
        strconv.ParseIntBits size_text 10 32 = Outcome.ok (n : Int) := by
  cases h with
  | number d n hv hn =>
    obtain ⟨c, rest, hd, hall⟩ := digit_of_numeral 10 d n hv
    refine ⟨?_, d, ?_, ?_⟩
    · intro hm
      rcases hall _ hm with h1 | h1 | h1
      · exact absurd h1 (by decide)
      · exact absurd h1 (by decide)
      · exact absurd h1 (by decide)
    · unfold arraySizeText strings.HasPrefix
      have hc : c ≠ '<' := by
        intro e
        rcases hall c (by rw [hd]; exact List.mem_cons_self _ _) with h1 | h1 | h1
        · rw [e] at h1; exact absurd h1 (by decide)
        · rw [e] at h1; exact absurd h1 (by decide)
        · rw [e] at h1; exact absurd h1 (by decide)
      have hp : ("<enum>".data.isPrefixOf d.data) = false := by
        rw [hd]
        have : "<enum>".data = ['<', 'e', 'n', 'u', 'm', '>'] := rfl
        rw [this]
        simp only [List.isPrefixOf, Bool.and_eq_false_imp, beq_iff_eq]
        intro e
        exact absurd e.symm hc
      simp [hp]
    · exact (strconv.ParseIntBits_eq_ok_iff d 10 n (by decide) (by decide)).2
        ⟨hv, by omega, by omega⟩
  | constant K enum_field n hK hlook hv hn =>
    have hdata : ("<enum>" ++ K ++ "</enum>").data =
        ['<', 'e', 'n', 'u', 'm', '>'] ++ (K.data ++ ['<', '/', 'e', 'n', 'u', 'm', '>']) := by
      simp only [String.data_append, List.append_assoc]
    refine ⟨?_, enum_field.Value, ?_, ?_⟩
    · rw [hdata]
      simp only [List.mem_append, List.mem_cons, List.mem_singleton, List.not_mem_nil, or_false,
        not_or]
      exact ⟨by decide, hK, by decide⟩
    · unfold arraySizeText
      have hp : strings.HasPrefix ("<enum>" ++ K ++ "</enum>") "<enum>" = true := by
        unfold strings.HasPrefix
        rw [hdata]
        exact isPrefixOf_append_self _ _
      have hsuf : strings.HasSuffix ("<enum>" ++ K ++ "</enum>") "</enum>" = true := by
        unfold strings.HasSuffix
        rw [hdata, List.isSuffixOf, ← List.append_assoc, List.reverse_append]
        exact isPrefixOf_append_self _ _
      have hslice := sliceString_middle ("<enum>" ++ K ++ "</enum>")
        ['<', 'e', 'n', 'u', 'm', '>'] K.data ['<', '/', 'e', 'n', 'u', 'm', '>'] 6
        ((("<enum>" ++ K ++ "</enum>").data.length : Int) - 7) hdata rfl
        (by rw [hdata]; simp only [List.length_append, List.length_cons, List.length_nil,
              Nat.cast_add]; omega)
      rw [hp, hsuf, hslice]
      simp only [if_true, Bool.true_eq_false, if_false]
      have e : String.mk K.data = K := rfl
      rw [e, hlook]
    · exact (strconv.ParseIntBits_eq_ok_iff enum_field.Value 10 n (by decide) (by decide)).2
        ⟨hv, by omega, by omega⟩

/-- One turn of the loop over the dimensions: the last dimension is taken off the text. -/
theorem arrayIndexesBody_last (recurse : String → List Nat → Outcome (String × List Nat))
    (enum_values : EnumValues) (text d : String) (pre : List Char) (n : Nat)
    (indexes : List Nat) (htext : text.data = pre ++ '[' :: (d.data ++ [']']))
    (hd : IsDimension enum_values d n) :
    arrayIndexesBody recurse enum_values text indexes =
      recurse (String.mk pre) (indexes ++ [n]) := by
  obtain ⟨hbr, size_text, hsize, hparse⟩ := arraySizeText_of_IsDimension enum_values d n hd
  have hsuf : strings.HasSuffix text "]" = true :=
    strings.HasSuffix_bracket text (pre ++ '[' :: d.data) (by rw [htext]; simp)
  have hlast : strings.LastIndex text "[" = pre.length := by
    unfold strings.LastIndex
    rw [htext]
    have : "[".data = ['['] := rfl
    rw [this]
    exact strings.lastIndex_last '[' (d.data ++ [']']) (by simp [hbr]) pre
  have hlen : (text.data.length : Int) = pre.length + 1 + d.data.length + 1 := by
    rw [htext]
    simp only [List.length_append, List.length_cons, List.length_nil, Nat.cast_add,
      Nat.cast_one]
    omega
  have hs1 := sliceString_middle text (pre ++ ['[']) d.data [']']
    (strings.LastIndex text "[" + 1) ((text.data.length : Int) - 1)
    (by rw [htext]; simp)
    (by rw [hlast]; simp)
    (by rw [hlen]; simp only [List.length_append, List.length_cons, List.length_nil,
          Nat.cast_add, Nat.cast_one]; omega)
  have e : String.mk d.data = d := rfl
  rw [e] at hs1
  have hs2 := sliceString_middle text [] pre ('[' :: (d.data ++ [']'])) 0
    ((text.data.length : Int) - (d.data.length : Int) - 2)
    (by rw [htext]; rfl) rfl
    (by rw [hlen]; simp only [List.length_nil, Nat.cast_zero]; omega)
  unfold arrayIndexesBody
  rw [hsuf, if_pos rfl, hs1]
  simp only []
  rw [hs2]
  simp only []
  rw [hsize]
  simp only [Outcome.bind]
  rw [hparse]
  simp only []
  have e2 : ((n : Int) % (uintModulus : Int)).toNat = n := by
    have : n < 2 ^ 31 := by
      cases hd with
      | number _ _ _ hn => exact hn
      | constant _ _ _ _ _ _ hn => exact hn
    unfold uintModulus
    omega
  rw [e2]
theorem dimensionsText_append (ds : List String) (d : String) :
    (dimensionsText (ds ++ [d])).data = (dimensionsText ds).data ++ '[' :: (d.data ++ [']']) := by
  simp [dimensionsText]

theorem dimensionsText_head (ds : List String) :
    (dimensionsText ds).data = [] ∨ ∃ r, (dimensionsText ds).data = '[' :: r := by
  cases ds with
  | nil => exact Or.inl rfl
  | cons d ds => exact Or.inr ⟨_, by simp [dimensionsText]; rfl⟩

theorem dimensionsText_length (ds : List String) :
    ds.length ≤ (dimensionsText ds).data.length := by
  induction ds with
  | nil => exact Nat.zero_le _
  | cons d ds ih =>
    have : (dimensionsText (d :: ds)).data =
        '[' :: (d.data ++ [']']) ++ (dimensionsText ds).data := by
      simp [dimensionsText]
    rw [this]
    simp only [List.length_append, List.length_cons, List.length_nil]
    omega

/-- The loop over the dimensions reads them all, the rightmost first, and leaves no
text; fuel above the number of the dimensions is enough. -/
theorem arrayIndexes_dimensions (enum_values : EnumValues) (dims : List (String × Nat)) :
    ∀ (fuel : Nat) (indexes : List Nat), dims.length < fuel →
      (∀ p ∈ dims, IsDimension enum_values p.1 p.2) →
      arrayIndexes enum_values fuel (dimensionsText (dims.map Prod.fst)) indexes =
        Outcome.ok ("", indexes ++ (dims.map Prod.snd).reverse) := by
  induction dims using List.reverseRecOn with
  | nil =>
    intro fuel indexes hf _
    cases fuel with
    | zero => omega
    | succ f =>
      rw [arrayIndexes]
      simp only [List.map_nil, List.reverse_nil, List.append_nil]
      rfl
  | append_singleton ds p ih =>
    intro fuel indexes hf hd
    cases fuel with
    | zero => omega
    | succ f =>
      rw [arrayIndexes]
      rw [List.length_append, List.length_singleton] at hf
      have htext := dimensionsText_append (ds.map Prod.fst) p.1
      have hp : IsDimension enum_values p.1 p.2 := hd p (by simp)
      rw [List.map_append, List.map_singleton,
        arrayIndexesBody_last _ enum_values _ p.1 _ p.2 indexes htext hp]
      have e : String.mk (dimensionsText (ds.map Prod.fst)).data =
          dimensionsText (ds.map Prod.fst) := rfl
      rw [e, ih f (indexes ++ [p.2]) (by omega) (fun q hq => hd q (by simp [hq]))]
      simp

set_option maxRecDepth 100000 in
/-- C32: for a member whose type `T` is in the type map and whose text after the type is
the list of dimensions `[d1][d2]...[dk]`, each a decimal number or `<enum>K</enum>` for
an enum constant with a decimal value, the parsed type is
`Array(...Array(Array(T, n1), n2)..., nk)` (over `Const(T)` when the text before the
type is `const`): the count of the outermost array is the rightmost dimension. The member
`float matrix[3][4]` gets an array of 4 elements whose element is an array of 3 elements
of `Float32`. -/
theorem memberType_array (name : String) (member : structuralMemberInfo) (types : TypeMap)
    (enum_values : EnumValues) (html : String) (T : Ty) (dims : List (String × Nat))
    (hknown : types.lookup member.Typ = some T)
    (hbase : member.Typ ≠ "VkBaseInStructure" ∧ member.Typ ≠ "VkBaseOutStructure")
    (hdims : ∀ p ∈ dims, IsDimension enum_values p.1 p.2) :
    memberType name member types enum_values html "" (dimensionsText (dims.map Prod.fst)) =
      Outcome.ok (some (dims.foldl (fun t p => ArrayType t p.2) T)) ∧
    memberType name member types enum_values html "const" (dimensionsText (dims.map Prod.fst)) =
      Outcome.ok (some (dims.foldl (fun t p => ArrayType t p.2) (ConstType T))) ∧
    vulkanStructuralTypeMembersFromXML "VkTransformMatrixKHR" [matrixMember] sampleTypes [] =
      Outcome.ok [⟨Field "matrix" (ArrayType (ArrayType Float32Type 3) 4), none, none⟩] ∧
    (∀ arch, (ArrayType (ArrayType Float32Type 3) 4).NumField arch = some 4 ∧
      ((ArrayType (ArrayType Float32Type 3) 4).Elem arch).bind (fun t => t.NumField arch) =
        some 3 ∧
      (((ArrayType (ArrayType Float32Type 3) 4).Elem arch).bind (fun t => t.Elem arch)).map
        (fun t => t.Kind arch) = some Kind.Float32) := by
  have hhead := dimensionsText_head (dims.map Prod.fst)
  have hstar : startsWithStar (dimensionsText (dims.map Prod.fst)) = false := by
    unfold startsWithStar
    rcases hhead with h | ⟨r, h⟩ <;> rw [h]
    rfl
  have h8 : dimensionsText (dims.map Prod.fst) ≠ ":8" := by
    intro e
    have e1 := congrArg String.data e
    rcases hhead with h | ⟨r, h⟩ <;> rw [h] at e1 <;> cases e1
  have h24 : dimensionsText (dims.map Prod.fst) ≠ ":24" := by
    intro e
    have e1 := congrArg String.data e
    rcases hhead with h | ⟨r, h⟩ <;> rw [h] at e1 <;> cases e1
  have hloop := arrayIndexes_dimensions enum_values dims
    ((dimensionsText (dims.map Prod.fst)).data.length + 1) []
    (by have := dimensionsText_length (dims.map Prod.fst)
        rw [List.length_map] at this
        omega) hdims
  have hfold : ∀ T' : Ty, List.foldl (fun t size => ArrayType t size) T'
      (List.map Prod.snd dims).reverse.reverse = dims.foldl (fun t p => ArrayType t p.2) T' := by
    intro T'
    rw [List.reverse_reverse, List.foldl_map]
  refine ⟨?_, ?_, rfl, fun arch => ⟨rfl, rfl, rfl⟩⟩
  · rw [memberType_value _ _ _ _ _ _ _ hstar, hknown]
    simp only [Option.isSome_some, Bool.true_eq_false, if_false, ne_eq, not_true_eq_false,
      and_false, if_neg h8, if_neg h24, hloop, Outcome.bind, List.nil_append,
      if_neg (not_or.2 hbase), Option.map_some', hfold, show ¬ ("" : String) = "const" by decide]
  · rw [memberType_value _ _ _ _ _ _ _ hstar, hknown]
    simp only [Option.isSome_some, Bool.true_eq_false, if_false, ne_eq, not_true_eq_false,
      false_and, if_neg h8, if_neg h24, hloop, Outcome.bind, List.nil_append,
      if_neg (not_or.2 hbase), Option.map_some', hfold, if_true]

set_option maxRecDepth 100000 in
/-- C32 on the dimensions of `float matrix[3][4]` and of
`uint8_t pipelineCacheUUID[VK_UUID_SIZE]`. -/
theorem memberType_array_witness :
    memberType "VkTransformMatrixKHR" matrixMember sampleTypes [] matrixMember.RawXML ""
        (dimensionsText ["3", "4"]) =
      Outcome.ok (some (ArrayType (ArrayType Float32Type 3) 4)) ∧
    memberType "S" uuidMember (("uint8_t", UInt8TType) :: sampleTypes) uuidSizeValues
        uuidMember.RawXML "const" (dimensionsText ["<enum>VK_UUID_SIZE</enum>"]) =
      Outcome.ok (some (ArrayType (ConstType UInt8TType) 16)) ∧
    memberTexts "S" uuidMember =
      Outcome.ok (uuidMember.RawXML, "", dimensionsText ["<enum>VK_UUID_SIZE</enum>"]) ∧
    vulkanStructuralTypeMembersFromXML "S" [uuidMember] (("uint8_t", UInt8TType) :: sampleTypes)
        uuidSizeValues =
      Outcome.ok [⟨Field "pipelineCacheUUID" (ArrayType UInt8TType 16), none, none⟩] :=
  ⟨(memberType_array "VkTransformMatrixKHR" matrixMember sampleTypes [] matrixMember.RawXML
      Float32Type [("3", 3), ("4", 4)] rfl (by decide)
      (fun p hp => by
        rcases List.mem_cons.1 hp with rfl | hp
        · exact IsDimension.number "3" 3 (by decide) (by decide)
        · rcases List.mem_cons.1 hp with rfl | hp
          · exact IsDimension.number "4" 4 (by decide) (by decide)
          · cases hp)).1,
    (memberType_array "S" uuidMember (("uint8_t", UInt8TType) :: sampleTypes) uuidSizeValues
      uuidMember.RawXML UInt8TType [("<enum>VK_UUID_SIZE</enum>", 16)] rfl (by decide)
      (fun p hp => by
        rcases List.mem_cons.1 hp with rfl | hp
        · exact IsDimension.constant "VK_UUID_SIZE"
            { enumNamed "VK_UUID_SIZE" with Value := "16" } 16 (by decide) rfl (by decide)
            (by decide)
        · cases hp)).2.1,
    by decide, rfl⟩
/-! ## The loader functions return: no fuel runs out -/

theorem Outcome.bind_ne_outOfFuel {α β : Type} (r : Outcome α) (f : α → Outcome β)
    (hr : r ≠ Outcome.outOfFuel) (hf : ∀ v, r = Outcome.ok v → f v ≠ Outcome.outOfFuel) :
    r.bind f ≠ Outcome.outOfFuel := by
  cases r with
  | ok v => exact hf v rfl
  | error msg => intro h; cases h
  | panic => intro h; cases h
  | outOfFuel => exact absurd rfl hr

theorem forRange_ne_outOfFuel {α σ : Type} (body : σ → α → Outcome σ)
    (h : ∀ st x, body st x ≠ Outcome.outOfFuel) :
    ∀ (xs : List α) (st : σ), forRange body xs st ≠ Outcome.outOfFuel
  | [], _ => by intro e; cases e
  | x :: xs, st => by
    rw [forRange]
    cases hb : body st x with
    | ok st1 => exact forRange_ne_outOfFuel body h xs st1
    | error msg => intro e; cases e
    | panic => intro e; cases e
    | outOfFuel => exact absurd hb (h st x)

theorem sliceString_length (s t : String) (low high : Int)
    (h : sliceString s low high = some t) : (t.data.length : Int) = high - low := by
  unfold sliceString at h
  split at h
  · rename_i hb
    cases h
    simp only [List.length_drop, List.length_take]
    omega
  · cases h

theorem strconv.ParseIntBits_ne_outOfFuel (s : String) (base bitSize : Nat) :
    strconv.ParseIntBits s base bitSize ≠ Outcome.outOfFuel := by
  rcases strconv.ParseIntBits_ok_or_error s base bitSize with ⟨v, h⟩ | ⟨msg, h⟩ <;> rw [h] <;>
    intro e <;> cases e

theorem arraySizeText_ne_outOfFuel (enum_values : EnumValues) (text : String) :
    arraySizeText enum_values text ≠ Outcome.outOfFuel := by
  unfold arraySizeText
  repeat' split
  all_goals intro e; cases e

/-- Fuel above the length of the text is never exhausted by the loop over the
dimensions. -/
theorem arrayIndexes_ne_outOfFuel (enum_values : EnumValues) :
    ∀ (fuel : Nat) (text : String) (indexes : List Nat), text.data.length < fuel →
      arrayIndexes enum_values fuel text indexes ≠ Outcome.outOfFuel
  | 0, _, _, h => by omega
  | fuel + 1, text, indexes, h => by
    rw [arrayIndexes]
    unfold arrayIndexesBody
    split
    · split
      · intro e; cases e
      · rename_i array_size_text hs1
        split
        · intro e; cases e
        · rename_i rest hs2
          have hl := sliceString_length _ _ _ _ hs2
          refine Outcome.bind_ne_outOfFuel _ _ (arraySizeText_ne_outOfFuel _ _) (fun v _ => ?_)
          refine Outcome.bind_ne_outOfFuel _ _ (strconv.ParseIntBits_ne_outOfFuel _ _ _)
            (fun v _ => ?_)
          exact arrayIndexes_ne_outOfFuel enum_values fuel rest _ (by omega)
    · intro e; cases e

theorem withoutElement_ne_outOfFuel (s opening closing : String) :
    withoutElement s opening closing ≠ Outcome.outOfFuel := by
  unfold withoutElement
  split <;> intro e <;> cases e

theorem memberTexts_ne_outOfFuel (name : String) (member : structuralMemberInfo) :
    memberTexts name member ≠ Outcome.outOfFuel := by
  unfold memberTexts
  refine Outcome.bind_ne_outOfFuel _ _ ?_ (fun html _ => ?_)
  · repeat' split
    all_goals first | exact withoutElement_ne_outOfFuel _ _ _ | (intro e; cases e)
  · split
    · intro e; cases e
    · split
      · refine Outcome.bind_ne_outOfFuel _ _ ?_ (fun v _ => by intro e; cases e)
        repeat' split
        all_goals first | exact withoutElement_ne_outOfFuel _ _ _ | (intro e; cases e)
      · intro e; cases e

theorem pointerMemberType_ne_outOfFuel (name html after : String) (member_type : Option Ty) :
    pointerMemberType name html after member_type ≠ Outcome.outOfFuel := by
  unfold pointerMemberType
  repeat' split
  all_goals intro e; cases e

theorem memberType_ne_outOfFuel (name : String) (member : structuralMemberInfo)
    (types : TypeMap) (enum_values : EnumValues) (html before after : String) :
    memberType name member types enum_values html before after ≠ Outcome.outOfFuel := by
  unfold memberType
  simp only []
  split
  · repeat' split
    all_goals first | exact pointerMemberType_ne_outOfFuel _ _ _ _ | (intro e; cases e)
  · split
    · intro e; cases e
    · refine Outcome.bind_ne_outOfFuel _ _ ?_ (fun member_type _ => ?_)
      · repeat' split
        all_goals intro e; cases e
      · split
        · split <;> intro e <;> cases e
        · split
          · split <;> intro e <;> cases e
          · refine Outcome.bind_ne_outOfFuel _ _
              (arrayIndexes_ne_outOfFuel _ _ _ _ (Nat.lt_succ_self _)) (fun rest _ => ?_)
            split <;> intro e <;> cases e

theorem declareMember_ne_outOfFuel (name : String) (types : TypeMap) (enum_values : EnumValues)
    (st : List extendedField × List (String × Nat)) (member : structuralMemberInfo) :
    declareMember name types enum_values st member ≠ Outcome.outOfFuel := by
  unfold declareMember
  refine Outcome.bind_ne_outOfFuel _ _ (memberTexts_ne_outOfFuel _ _) (fun texts _ => ?_)
  refine Outcome.bind_ne_outOfFuel _ _ (memberType_ne_outOfFuel _ _ _ _ _ _ _) (fun t _ => ?_)
  repeat' split
  all_goals intro e; cases e

theorem setLength_ne_outOfFuel (field_map : List (String × Nat))
    (fields_info : List extendedField) (name : String) (length : Nat) :
    setLength field_map fields_info name length ≠ Outcome.outOfFuel := by
  unfold setLength
  split <;> intro e <;> cases e

theorem setNestedField_ne_outOfFuel (field_map : List (String × Nat))
    (fields_info : List extendedField) (name : String) (field : AnyFieldInfo) :
    setNestedField field_map fields_info name field ≠ Outcome.outOfFuel := by
  unfold setNestedField
  split <;> intro e <;> cases e

theorem recordNamed_ne_outOfFuel (field_map : List (String × Nat))
    (fields_info : List extendedField) (name : String) :
    recordNamed field_map fields_info name ≠ Outcome.outOfFuel := by
  unfold recordNamed
  repeat' split
  all_goals intro e; cases e

theorem elemFirstArch_ne_outOfFuel (t : Ty) : elemFirstArch t ≠ Outcome.outOfFuel := by
  unfold elemFirstArch
  split <;> intro e <;> cases e

theorem nestedLength_ne_outOfFuel (member : structuralMemberInfo)
    (field_map : List (String × Nat)) (fields_info : List extendedField) :
    nestedLength member field_map fields_info ≠ Outcome.outOfFuel := by
  unfold nestedLength
  simp only []
  split
  · intro e; cases e
  · split
    · intro e; cases e
    · split
      · intro e; cases e
      · refine Outcome.bind_ne_outOfFuel _ _ (setLength_ne_outOfFuel _ _ _ _) (fun f1 _ => ?_)
        split
        · intro e; cases e
        · split
          · intro e; cases e
          · refine Outcome.bind_ne_outOfFuel _ _ (elemFirstArch_ne_outOfFuel _) (fun t1 _ => ?_)
            refine Outcome.bind_ne_outOfFuel _ _ ?_ (fun t2 _ => ?_)
            · split
              · exact elemFirstArch_ne_outOfFuel _
              · intro e; cases e
            · split
              · intro e; cases e
              · split
                · intro e; cases e
                · refine Outcome.bind_ne_outOfFuel _ _ ?_ (fun f2 _ => ?_)
                  · apply forRange_ne_outOfFuel
                    intro st i
                    repeat' split
                    all_goals first
                      | exact setNestedField_ne_outOfFuel _ _ _ _
                      | (intro e; cases e)
                  · refine Outcome.bind_ne_outOfFuel _ _ (recordNamed_ne_outOfFuel _ _ _)
                      (fun r _ => ?_)
                    split <;> intro e <;> cases e

theorem altLength_ne_outOfFuel (member : structuralMemberInfo)
    (field_map : List (String × Nat)) (fields_info : List extendedField) :
    altLength member field_map fields_info ≠ Outcome.outOfFuel := by
  unfold altLength
  refine Outcome.bind_ne_outOfFuel _ _ (recordNamed_ne_outOfFuel _ _ _) (fun r _ => ?_)
  split
  · intro e; cases e
  · refine Outcome.bind_ne_outOfFuel _ _ (elemFirstArch_ne_outOfFuel _) (fun t1 _ => ?_)
    refine Outcome.bind_ne_outOfFuel _ _ ?_ (fun t2 _ => ?_)
    · split
      · exact elemFirstArch_ne_outOfFuel _
      · intro e; cases e
    · refine Outcome.bind_ne_outOfFuel _ _ ?_ (fun t3 _ => ?_)
      · split
        · exact elemFirstArch_ne_outOfFuel _
        · intro e; cases e
      · split <;> intro e <;> cases e

theorem memberLength_ne_outOfFuel (field_map : List (String × Nat))
    (fields_info : List extendedField) (member : structuralMemberInfo) :
    memberLength field_map fields_info member ≠ Outcome.outOfFuel := by
  unfold memberLength
  repeat' split
  all_goals first
    | exact setLength_ne_outOfFuel _ _ _ _
    | exact nestedLength_ne_outOfFuel _ _ _
    | exact altLength_ne_outOfFuel _ _ _
    | (intro e; cases e)

/-- Function `vulkanStructuralTypeMembersFromXML` returns on every input: the fuel that
the model supplies to the loop over the dimensions is enough. -/
theorem vulkanStructuralTypeMembersFromXML_ne_outOfFuel (name : String)
    (members : List structuralMemberInfo) (types : TypeMap) (enum_values : EnumValues) :
    vulkanStructuralTypeMembersFromXML name members types enum_values ≠ Outcome.outOfFuel := by
  unfold vulkanStructuralTypeMembersFromXML
  refine Outcome.bind_ne_outOfFuel _ _
    (forRange_ne_outOfFuel _ (declareMember_ne_outOfFuel name types enum_values) _ _)
    (fun st _ => ?_)
  exact forRange_ne_outOfFuel _ (memberLength_ne_outOfFuel st.2) _ _

/-! ## The first loop of `VulkanTypesfromXML` terminates -/

/-- The body of the inner loop leaves the list of the next turn as it is or appends the
record that it was given. -/
theorem convertType_next (converters : typeConverters) (st st1 : TypeMap × List typeInfo)
    (xml_type : typeInfo) (h : convertType converters st xml_type = Outcome.ok st1) :
    st1.2 = st.2 ∨ st1.2 = st.2 ++ [xml_type] := by
  unfold convertType at h
  split at h
  · split at h
    · cases h; exact Or.inl rfl
    · split at h
      · cases h; exact Or.inl rfl
      · cases h
  · split at h
    · split at h
      · cases h; exact Or.inl rfl
      · cases h; exact Or.inr rfl
    · split at h
      · rw [Outcome.bind_eq_ok] at h
        obtain ⟨_, _, h⟩ := h
        cases h; exact Or.inl rfl
      · split at h
        · cases h; exact Or.inl rfl
        · split at h
          · cases h
          · split at h
            · cases h
            · cases h; exact Or.inl rfl
            · split at h
              · cases h; exact Or.inr rfl
              · cases h
            · cases h
            · cases h

theorem forRange_cons_ok {α σ : Type} (body : σ → α → Outcome σ) (x : α) (xs : List α)
    (st st2 : σ) (h : forRange body (x :: xs) st = Outcome.ok st2) :
    ∃ st1, body st x = Outcome.ok st1 ∧ forRange body xs st1 = Outcome.ok st2 := by
  rw [forRange] at h
  cases hb : body st x with
  | ok st1 => rw [hb] at h; exact ⟨st1, rfl, h⟩
  | error msg => rw [hb] at h; cases h
  | panic => rw [hb] at h; cases h
  | outOfFuel => rw [hb] at h; cases h

/-- The list of the next turn grows in a turn by records of the list of the turn, in
their order. -/
theorem forRange_convertType_next (converters : typeConverters) :
    ∀ (list : List typeInfo) (st st1 : TypeMap × List typeInfo),
      forRange (convertType converters) list st = Outcome.ok st1 →
      ∃ requeued, st1.2 = st.2 ++ requeued ∧ requeued.Sublist list
  | [], st, st1, h => by
    cases h
    exact ⟨[], by simp, List.Sublist.refl _⟩
  | x :: xs, st, st2, h => by
    obtain ⟨st1, h1, h2⟩ := forRange_cons_ok _ _ _ _ _ h
    obtain ⟨requeued, hr, hs⟩ := forRange_convertType_next converters xs st1 st2 h2
    rcases convertType_next converters st st1 x h1 with e | e
    · exact ⟨requeued, by rw [hr, e], List.Sublist.cons x hs⟩
    · exact ⟨x :: requeued, by rw [hr, e]; simp, List.Sublist.cons₂ x hs⟩

/-- A turn leaves a sublist of its list for the next turn: strictly fewer records, or
every record of the turn. -/
theorem convertTypes_turn_shrinks (converters : typeConverters) (list : List typeInfo)
    (types : TypeMap) (st : TypeMap × List typeInfo)
    (h : forRange (convertType converters) list (types, []) = Outcome.ok st) :
    st.2.Sublist list ∧ (st.2.length < list.length ∨ st.2 = list) := by
  obtain ⟨requeued, hr, hs⟩ := forRange_convertType_next converters list _ st h
  simp only [List.nil_append] at hr
  rw [hr]
  refine ⟨hs, ?_⟩
  rcases Nat.lt_or_ge requeued.length list.length with hlt | hge
  · exact Or.inl hlt
  · exact Or.inr (hs.eq_of_length (Nat.le_antisymm hs.length_le hge))

theorem convertTypes_succ (converters : typeConverters) (fuel : Nat)
    (xml_types_list next_xml_types_list : List typeInfo) (types : TypeMap) :
    convertTypes converters (fuel + 1) xml_types_list next_xml_types_list types =
      if next_xml_types_list.length > 0 then
        if xml_types_list.length = next_xml_types_list.length then
          match xml_types_list[0]? with
          | none => Outcome.panic
          | some first => Outcome.error (noProgressError first)
        else
          (forRange (convertType converters) next_xml_types_list (types, [])).bind (fun st =>
            convertTypes converters fuel next_xml_types_list st.2 st.1)
      else Outcome.ok types := rfl

/-- More fuel than enough does not change the result of `convertTypes`. -/
theorem convertTypes_fuel (converters : typeConverters) :
    ∀ (fuel1 fuel2 : Nat) (prev next : List typeInfo) (types : TypeMap),
      convertTypes.enough fuel1 prev next → convertTypes.enough fuel2 prev next →
      convertTypes converters fuel1 prev next types =
        convertTypes converters fuel2 prev next types
  | 0, _, _, _, _, h1, _ => by unfold convertTypes.enough at h1; omega
  | _ + 1, 0, _, _, _, _, h2 => by unfold convertTypes.enough at h2; omega
  | a + 1, b + 1, prev, next, types, h1, h2 => by
    rw [convertTypes_succ, convertTypes_succ]
    by_cases hn : next.length > 0
    · rw [if_pos hn, if_pos hn]
      by_cases he : prev.length = next.length
      · rw [if_pos he, if_pos he]
      · rw [if_neg he, if_neg he]
        cases hr : forRange (convertType converters) next (types, []) with
        | ok st =>
          simp only [Outcome.bind]
          have hs := (convertTypes_turn_shrinks converters next types st hr).2
          unfold convertTypes.enough at h1 h2
          apply convertTypes_fuel converters a b next st.2 st.1
          · unfold convertTypes.enough
            rcases hs with hs | hs
            · left; omega
            · right; rw [hs]; exact ⟨rfl, by omega⟩
          · unfold convertTypes.enough
            rcases hs with hs | hs
            · left; omega
            · right; rw [hs]; exact ⟨rfl, by omega⟩
        | error msg => rfl
        | panic => rfl
        | outOfFuel => rfl
    · rw [if_neg hn, if_neg hn]

theorem convertType_ne_outOfFuel (converters : typeConverters) (hret : converters.Returns)
    (st : TypeMap × List typeInfo) (xml_type : typeInfo) :
    convertType converters st xml_type ≠ Outcome.outOfFuel := by
  have h1 := (hret xml_type st.1).1
  have h2 := (hret xml_type st.1).2
  unfold convertType
  split
  · repeat' split
    all_goals intro e; cases e
  · split
    · split <;> intro e <;> cases e
    · split
      · exact Outcome.bind_ne_outOfFuel _ _ h2 (fun _ _ => by intro e; cases e)
      · split
        · intro e; cases e
        · split
          · intro e; cases e
          · split
            · intro e; cases e
            · intro e; cases e
            · split <;> intro e <;> cases e
            · intro e; cases e
            · rename_i hc
              exact absurd hc h1

/-- With converters that return, enough fuel is never exhausted by `convertTypes`. -/
theorem convertTypes_ne_outOfFuel (converters : typeConverters) (hret : converters.Returns) :
    ∀ (fuel : Nat) (prev next : List typeInfo) (types : TypeMap),
      convertTypes.enough fuel prev next →
      convertTypes converters fuel prev next types ≠ Outcome.outOfFuel
  | 0, _, _, _, h => by unfold convertTypes.enough at h; omega
  | fuel + 1, prev, next, types, h => by
    rw [convertTypes_succ]
    by_cases hn : next.length > 0
    · rw [if_pos hn]
      by_cases he : prev.length = next.length
      · rw [if_pos he]
        split <;> intro e <;> cases e
      · rw [if_neg he]
        refine Outcome.bind_ne_outOfFuel _ _
          (forRange_ne_outOfFuel _ (convertType_ne_outOfFuel converters hret) _ _)
          (fun st hr => ?_)
        have hs := (convertTypes_turn_shrinks converters next types st hr).2
        unfold convertTypes.enough at h
        apply convertTypes_ne_outOfFuel converters hret fuel next st.2 st.1
        unfold convertTypes.enough
        rcases hs with hs | hs
        · left; omega
        · right; rw [hs]; exact ⟨rfl, by omega⟩
    · rw [if_neg hn]
      intro e; cases e

/-- The loop starts at most one turn more than it has records to convert, and one turn
when the lists of two turns in a row have the same length. -/
theorem convertTypes_turns_le (converters : typeConverters) :
    ∀ (fuel : Nat) (prev next : List typeInfo) (types : TypeMap),
      convertTypes.turns converters fuel prev next types ≤ next.length + 1 ∧
        (prev.length = next.length → convertTypes.turns converters fuel prev next types ≤ 1)
  | 0, _, _, _ => ⟨Nat.zero_le _, fun _ => Nat.zero_le _⟩
  | fuel + 1, prev, next, types => by
    rw [convertTypes.turns]
    by_cases hn : next.length > 0
    · rw [if_pos hn]
      by_cases he : prev.length = next.length
      · rw [if_pos he]
        exact ⟨by omega, fun _ => Nat.le_refl _⟩
      · rw [if_neg he]
        refine ⟨?_, fun h => absurd h he⟩
        cases hr : forRange (convertType converters) next (types, []) with
        | ok st =>
          simp only []
          have hs := (convertTypes_turn_shrinks converters next types st hr).2
          have ih := convertTypes_turns_le converters fuel next st.2 st.1
          rcases hs with hs | hs
          · have := ih.1
            omega
          · have := ih.2 (by rw [hs])
            omega
        | error msg => simp only []; omega
        | panic => simp only []; omega
        | outOfFuel => simp only []; omega
    · rw [if_neg hn]
      exact ⟨Nat.zero_le _, fun _ => Nat.zero_le _⟩
theorem vulkanDefineTypeFromXML_ne_outOfFuel (typ : typeInfo) :
    vulkanDefineTypeFromXML typ ≠ Outcome.outOfFuel := by
  have h1 := checkApiDefine_ok_or_error vulkan_known_defines typ
  have h2 := checkApiDefine_ok_or_error vulkansc_known_defines typ
  unfold vulkanDefineTypeFromXML
  repeat' split
  all_goals first
    | (intro e; cases e)
    | (rcases h1 with h | ⟨msg, h⟩ <;> rw [h] <;> intro e <;> cases e)
    | (rcases h2 with h | ⟨msg, h⟩ <;> rw [h] <;> intro e <;> cases e)

theorem vulkanStructTypeFromXML_ne_outOfFuel (members : Outcome (List FieldInfo))
    (typ : typeInfo) (optional_struct : Bool) (h : members ≠ Outcome.outOfFuel) :
    vulkanStructTypeFromXML members typ optional_struct ≠ Outcome.outOfFuel := by
  unfold vulkanStructTypeFromXML extendedStructOf
  repeat' split
  all_goals first
    | exact absurd rfl h
    | (intro e; cases e)

theorem vulkanHandleTypeFromXML_ne_outOfFuel (typ : typeInfo) :
    vulkanHandleTypeFromXML typ ≠ Outcome.outOfFuel := by
  unfold vulkanHandleTypeFromXML
  repeat' split
  all_goals intro e; cases e

theorem structTypeFromXML_ne_outOfFuel (enum_values : EnumValues) (typ : typeInfo)
    (optional_struct : Bool) (types : TypeMap) :
    structTypeFromXML enum_values typ optional_struct types ≠ Outcome.outOfFuel := by
  unfold structTypeFromXML
  refine Outcome.bind_ne_outOfFuel _ _ ?_ (fun _ _ => by intro e; cases e)
  apply vulkanStructTypeFromXML_ne_outOfFuel
  exact Outcome.bind_ne_outOfFuel _ _
    (vulkanStructuralTypeMembersFromXML_ne_outOfFuel _ _ _ _) (fun _ _ => by intro e; cases e)

theorem vulkanUnionTypeFromXML_ne_outOfFuel (enum_values : EnumValues) (typ : typeInfo)
    (types : TypeMap) : vulkanUnionTypeFromXML enum_values typ types ≠ Outcome.outOfFuel := by
  unfold vulkanUnionTypeFromXML
  refine Outcome.bind_ne_outOfFuel _ _
    (vulkanStructuralTypeMembersFromXML_ne_outOfFuel _ _ _ _) (fun _ _ => ?_)
  split <;> intro e <;> cases e

theorem some_ne_some {α : Type} {a b : α} (h : a ≠ b) : some a ≠ some b :=
  fun e => h (Option.some.inj e)

/-! ## The functions of the first loop return, but for a chain of aliases without end -/

theorem ite_ne_outOfFuel {α : Type} (c : Prop) [Decidable c] (a b : Outcome α)
    (ha : a ≠ Outcome.outOfFuel) (hb : b ≠ Outcome.outOfFuel) :
    (if c then a else b) ≠ Outcome.outOfFuel := by
  split
  · exact ha
  · exact hb

theorem vulkanBaseTypeFromXML_ne_outOfFuel (typ : typeInfo) :
    vulkanBaseTypeFromXML typ ≠ Outcome.outOfFuel := by
  unfold vulkanBaseTypeFromXML
  repeat' apply ite_ne_outOfFuel
  all_goals intro e; cases e

theorem vulkanBitmaskTypeFromXML_ne_outOfFuel (typ : typeInfo) (types : TypeMap) :
    vulkanBitmaskTypeFromXML typ types ≠ Outcome.outOfFuel := by
  unfold vulkanBitmaskTypeFromXML
  simp only []
  repeat' split
  all_goals intro e; cases e

theorem funcPointerParameter_ne_outOfFuel (types : TypeMap) (parameter_types : List FieldInfo)
    (parameter : String) :
    funcPointerParameter types parameter_types parameter ≠ Outcome.outOfFuel := by
  unfold funcPointerParameter
  simp only []
  repeat' split
  all_goals intro e; cases e

theorem funcPointerReturnType_ne_outOfFuel (types : TypeMap) (return_type_string : String) :
    funcPointerReturnType types return_type_string ≠ Outcome.outOfFuel := by
  unfold funcPointerReturnType
  repeat' split
  all_goals intro e; cases e

theorem vulkanFuncPoiterTypeFromXML_ne_outOfFuel (typ : typeInfo) (types : TypeMap) :
    vulkanFuncPoiterTypeFromXML typ types ≠ Outcome.outOfFuel := by
  unfold vulkanFuncPoiterTypeFromXML
  simp only []
  split
  · intro e; cases e
  · split
    · intro e; cases e
    · split
      · intro e; cases e
      · refine Outcome.bind_ne_outOfFuel _ _ (funcPointerReturnType_ne_outOfFuel _ _)
          (fun return_type _ => ?_)
        split
        · intro e; cases e
        · split
          · intro e; cases e
          · split
            · intro e; cases e
            · exact Outcome.bind_ne_outOfFuel _ _
                (forRange_ne_outOfFuel _ (fun st x => funcPointerParameter_ne_outOfFuel _ st x)
                  _ _)
                (fun _ _ => by intro e; cases e)

/-- The body of `enumFieldValue` does not return only when the member is an alias and
the call for the member that the alias names does not return. -/
theorem enumFieldValueBody_outOfFuel (recurse : Option enumFieldInfo → Outcome Int)
    (enum_field : Option enumFieldInfo) (all_enum_fields : EnumValues) :
    enumFieldValueBody recurse enum_field all_enum_fields = Outcome.outOfFuel ↔
      ∃ x, enum_field = some x ∧ x.isAlias ∧
        recurse (all_enum_fields.lookup x.Alias) = Outcome.outOfFuel := by
  cases enum_field with
  | none =>
    constructor
    · intro h; cases h
    · rintro ⟨x, hx, _⟩; cases hx
  | some x =>
    unfold enumFieldValueBody
    simp only []
    by_cases hv : x.Value ≠ ""
    · rw [if_pos hv]
      constructor
      · intro h
        exfalso
        split at h
        · rcases strconv.ParseInt_ok_or_error (String.mk (x.Value.data.drop 2)) 16 with
            ⟨v, e⟩ | ⟨msg, e⟩ <;> rw [e] at h <;> cases h
        · rcases strconv.ParseInt_ok_or_error x.Value 10 with ⟨v, e⟩ | ⟨msg, e⟩ <;>
            rw [e] at h <;> cases h
      · rintro ⟨y, hy, ha, _⟩
        cases hy
        exact absurd ha.1 hv
    · rw [if_neg hv]
      by_cases hb : x.BitPos ≠ ""
      · rw [if_pos hb]
        constructor
        · intro h
          exfalso
          rcases strconv.ParseInt_ok_or_error x.BitPos 10 with ⟨v, e⟩ | ⟨msg, e⟩
          · rw [e] at h
            simp only [shiftLeftOne] at h
            split at h
            · cases h
            · split at h <;> cases h
          · rw [e] at h
            cases h
        · rintro ⟨y, hy, ha, _⟩
          cases hy
          exact absurd ha.2.1 hb
      · rw [if_neg hb]
        by_cases ha : x.Alias ≠ ""
        · rw [if_pos ha]
          constructor
          · intro h
            exact ⟨x, rfl, ⟨not_not.1 hv, not_not.1 hb, ha⟩, h⟩
          · rintro ⟨y, hy, _, h⟩
            cases hy
            exact h
        · rw [if_neg ha]
          constructor
          · intro h
            exfalso
            simp only [] at h
            split at h <;> cases h
          · rintro ⟨y, hy, hy2, _⟩
            cases hy
            exact absurd hy2.2.2 ha

/-- The call of `enumFieldValue` for a member returns with the fuel `n` exactly when
the chain of aliases from the member ends after at most `n` steps. -/
theorem enumFieldValue_returns_iff (all_enum_fields : EnumValues) :
    ∀ (fuel : Nat) (enum_field : Option enumFieldInfo),
      enumFieldValue fuel enum_field all_enum_fields ≠ Outcome.outOfFuel ↔
        aliasEnds all_enum_fields fuel enum_field
  | 0, enum_field => by
    rw [enumFieldValue, Ne, enumFieldValueBody_outOfFuel]
    constructor
    · intro h
      cases enum_field with
      | none => exact aliasEnds.missing 0
      | some x => exact aliasEnds.value 0 x (fun ha => h ⟨x, rfl, ha, rfl⟩)
    · rintro h ⟨x, hx, ha, _⟩
      subst hx
      cases h with
      | value _ _ hn => exact hn ha
  | fuel + 1, enum_field => by
    rw [enumFieldValue, Ne, enumFieldValueBody_outOfFuel]
    constructor
    · intro h
      cases enum_field with
      | none => exact aliasEnds.missing _
      | some x =>
        by_cases ha : x.isAlias
        · refine aliasEnds.step fuel x ha
            ((enumFieldValue_returns_iff all_enum_fields fuel _).1 (fun e => ?_))
          exact h ⟨x, rfl, ha, e⟩
        · exact aliasEnds.value _ x ha
    · rintro h ⟨x, hx, ha, hout⟩
      subst hx
      cases h with
      | value _ _ hn => exact hn ha
      | step _ _ _ hrest =>
        exact (enumFieldValue_returns_iff all_enum_fields fuel _).2 hrest hout

theorem enumFits_ne_outOfFuel (fuel : Nat) (enum_values : EnumValues) :
    ∀ (elements : List enumFieldInfo) (fits : Bool × Bool),
      (∀ e ∈ elements, aliasEnds enum_values fuel (some e)) →
      enumFits fuel enum_values elements fits ≠ Outcome.outOfFuel
  | [], _, _ => by intro e; cases e
  | element :: rest, (a, b), h => by
    rw [enumFits]
    have h1 := (enumFieldValue_returns_iff enum_values fuel (some element)).2
      (h element (List.mem_cons_self _ _))
    split
    · exact enumFits_ne_outOfFuel fuel enum_values rest _
        (fun e he => h e (List.mem_cons_of_mem _ he))
    · intro e; cases e
    · intro e; cases e
    · rename_i hout
      exact absurd hout h1

theorem vulkanEnumTypeFromXML_ne_outOfFuel (fuel : Nat) (typ : typeInfo)
    (enum_values : EnumValues) (enum_types : EnumTypes)
    (h : ∀ e ∈ (enum_types.lookup typ.Name).getD [], aliasEnds enum_values fuel (some e)) :
    vulkanEnumTypeFromXML fuel typ enum_values enum_types ≠ Outcome.outOfFuel := by
  unfold vulkanEnumTypeFromXML
  simp only []
  have h1 := enumFits_ne_outOfFuel fuel enum_values _ (true, true) h
  split
  · intro e; cases e
  · intro e; cases e
  · intro e; cases e
  · rename_i hout
    exact absurd hout h1

/-- The functions of the first loop return when the chain of aliases of every member of
every enum ends within the fuel. -/
theorem loaderConverters_Returns (fuel : Nat) (enum_values : EnumValues)
    (enum_types : EnumTypes)
    (h : ∀ name, ∀ e ∈ (enum_types.lookup name).getD [], aliasEnds enum_values fuel (some e)) :
    (loaderConverters fuel enum_values enum_types).Returns := by
  intro xml_type types
  refine ⟨?_, vulkanDefineTypeFromXML_ne_outOfFuel xml_type⟩
  unfold convertCategory loaderConverters
  simp only []
  repeat' split
  all_goals first
    | exact some_ne_some (vulkanBaseTypeFromXML_ne_outOfFuel _)
    | exact some_ne_some (vulkanBitmaskTypeFromXML_ne_outOfFuel _ _)
    | exact some_ne_some (vulkanEnumTypeFromXML_ne_outOfFuel _ _ _ _ (h _))
    | exact some_ne_some (vulkanFuncPoiterTypeFromXML_ne_outOfFuel _ _)
    | exact some_ne_some (vulkanHandleTypeFromXML_ne_outOfFuel _)
    | exact some_ne_some (structTypeFromXML_ne_outOfFuel _ _ _ _)
    | exact some_ne_some (vulkanUnionTypeFromXML_ne_outOfFuel _ _ _)
    | (intro e; cases e)

/-- The first loop of `VulkanTypesfromXML`, run on `n` type records with converters
that return, returns: `n + 1` tests of its condition are enough fuel and more fuel
changes nothing, and it starts at most `n + 1` turns. A turn that runs to its end leaves
for the next turn a sublist of its records, strictly shorter than its list or the whole
list; the loop ends with the map when nothing is left, ends with the error
`Cannot make any progress` when the turn has put back every record that it was given,
and goes on with the shorter list otherwise; an error of a turn is the error of the
load. The first turn never ends with `Cannot make any progress`. -/
theorem convertTypes_of_Returns (converters : typeConverters) (hret : converters.Returns)
    (records : List typeInfo) (types : TypeMap) :
    convertTypes converters (records.length + 1) [] records types ≠ Outcome.outOfFuel ∧
    (∀ fuel, records.length + 1 ≤ fuel →
      convertTypes converters fuel [] records types =
        convertTypes converters (records.length + 1) [] records types) ∧
    (∀ fuel, convertTypes.turns converters fuel [] records types ≤ records.length + 1) ∧
    (∀ (fuel : Nat) (prev next rest : List typeInfo) (first : typeInfo) (types1 : TypeMap),
      next = first :: rest → prev.length ≠ next.length →
      (∀ st, forRange (convertType converters) next (types1, []) = Outcome.ok st →
        st.2.Sublist next ∧ (st.2.length < next.length ∨ st.2 = next) ∧
        (st.2 = [] → convertTypes converters (fuel + 2) prev next types1 = Outcome.ok st.1) ∧
        (st.2 = next →
          convertTypes converters (fuel + 2) prev next types1 =
            Outcome.error (noProgressError first)) ∧
        (st.2 ≠ [] → st.2 ≠ next →
          convertTypes converters (fuel + 2) prev next types1 =
            convertTypes converters (fuel + 1) next st.2 st.1)) ∧
      (∀ msg, forRange (convertType converters) next (types1, []) = Outcome.error msg →
        convertTypes converters (fuel + 2) prev next types1 = Outcome.error msg)) := by
  refine ⟨convertTypes_ne_outOfFuel converters hret _ _ _ _ (Or.inl (Nat.le_refl _)),
    fun fuel hf => convertTypes_fuel converters _ _ _ _ _ (Or.inl hf) (Or.inl (Nat.le_refl _)),
    fun fuel => (convertTypes_turns_le converters fuel [] records types).1, ?_⟩
  intro fuel prev next rest first types1 hnext hne
  have hpos : next.length > 0 := by rw [hnext]; simp
  have hstep : convertTypes converters (fuel + 2) prev next types1 =
      (forRange (convertType converters) next (types1, [])).bind (fun st =>
        convertTypes converters (fuel + 1) next st.2 st.1) := by
    rw [convertTypes_succ, if_pos hpos, if_neg hne]
  constructor
  · intro st hst
    obtain ⟨hsub, hlen⟩ := convertTypes_turn_shrinks converters next types1 st hst
    have hgo : convertTypes converters (fuel + 2) prev next types1 =
        convertTypes converters (fuel + 1) next st.2 st.1 := by
      rw [hstep, hst]
      rfl
    refine ⟨hsub, hlen, ?_, ?_, fun _ _ => hgo⟩
    · intro he
      rw [hgo, convertTypes_succ, he]
      rfl
    · intro he
      rw [hgo, convertTypes_succ, he, if_pos hpos, if_pos rfl, hnext]
      simp only [List.getElem?_cons_zero]
  · intro msg hmsg
    rw [hstep, hmsg]
    rfl

set_option maxRecDepth 100000 in
/-- The first loop on the two struct records of `TestStruct`, of which the first is put back in the
first turn and converted in the second, and on the first record alone, which is put back
in its only turn. -/
theorem convertTypes_testStruct :
    convertTypes (loaderConverters 0 [] []) 3 [] instanceRecords instanceTypes ≠ Outcome.outOfFuel ∧
    convertTypes (loaderConverters 0 [] []) 7 [] instanceRecords instanceTypes =
      convertTypes (loaderConverters 0 [] []) 3 [] instanceRecords instanceTypes ∧
    convertTypes.turns (loaderConverters 0 [] []) 7 [] instanceRecords instanceTypes ≤ 3 ∧
    convertTypes (loaderConverters 0 [] []) 3 [] instanceRecords instanceTypes =
      convertTypes (loaderConverters 0 [] []) 2 instanceRecords [accelerationInstanceRecord]
        (("VkTransformMatrixKHR", transformMatrixType) :: instanceTypes) ∧
    convertTypes (loaderConverters 0 [] []) 2 [] [accelerationInstanceRecord] instanceTypes =
      Outcome.error (noProgressError accelerationInstanceRecord) :=
  ⟨(convertTypes_of_Returns (loaderConverters 0 [] [])
      (loaderConverters_Returns 0 [] [] (fun _ _ he => absurd he (List.not_mem_nil _)))
      instanceRecords instanceTypes).1,
    (convertTypes_of_Returns (loaderConverters 0 [] [])
      (loaderConverters_Returns 0 [] [] (fun _ _ he => absurd he (List.not_mem_nil _)))
      instanceRecords instanceTypes).2.1 7 (by decide),
    (convertTypes_of_Returns (loaderConverters 0 [] [])
      (loaderConverters_Returns 0 [] [] (fun _ _ he => absurd he (List.not_mem_nil _)))
      instanceRecords instanceTypes).2.2.1 7,
    (((convertTypes_of_Returns (loaderConverters 0 [] [])
      (loaderConverters_Returns 0 [] [] (fun _ _ he => absurd he (List.not_mem_nil _)))
      instanceRecords instanceTypes).2.2.2 1 [] instanceRecords [transformMatrixRecord]
        accelerationInstanceRecord instanceTypes rfl (by decide)).1
        ((("VkTransformMatrixKHR", transformMatrixType) :: instanceTypes),
          [accelerationInstanceRecord]) rfl).2.2.2.2 (by decide) (by decide),
    (((convertTypes_of_Returns (loaderConverters 0 [] [])
      (loaderConverters_Returns 0 [] [] (fun _ _ he => absurd he (List.not_mem_nil _)))
      instanceRecords instanceTypes).2.2.2 0 [] [accelerationInstanceRecord] []
        accelerationInstanceRecord instanceTypes rfl (by decide)).1
        (instanceTypes, [accelerationInstanceRecord]) rfl).2.2.2.1 rfl⟩

/-! ## Members: the attribute `len` -/

theorem sameBut_refl (k : Nat) (fields_info : List extendedField) :
    sameBut k fields_info fields_info :=
  ⟨rfl, fun _ _ => rfl, fun _ => rfl⟩

theorem sameBut_trans (k : Nat) (a b c : List extendedField) (h1 : sameBut k a b)
    (h2 : sameBut k b c) : sameBut k a c :=
  ⟨h2.1.trans h1.1, fun i hi => (h2.2.1 i hi).trans (h1.2.1 i hi),
    fun i => (h2.2.2 i).trans (h1.2.2 i)⟩

theorem sameBut_modify (k : Nat) (fields_info : List extendedField)
    (f : extendedField → extendedField) (hf : ∀ r, (f r).field_info = r.field_info) :
    sameBut k fields_info (fields_info.modify f k) := by
  refine ⟨List.length_modify f k fields_info, fun i hi => ?_, fun i => ?_⟩
  · rw [List.getElem?_modify]
    cases fields_info[i]? with
    | none => rfl
    | some r =>
      have hne : ¬ k = i := fun e => hi e.symm
      simp [hne]
  · rw [List.getElem?_modify]
    cases fields_info[i]? with
    | none => rfl
    | some r =>
      by_cases e : k = i
      · simp [e, hf]
      · simp [e]

theorem setLength_eq_ok (field_map : List (String × Nat)) (fields_info changed : List extendedField)
    (name : String) (length k : Nat) (hk : field_map.lookup name = some k)
    (h : setLength field_map fields_info name length = Outcome.ok changed) :
    changed = fields_info.modify (fun f => { f with length := some length }) k := by
  unfold setLength at h
  rw [hk] at h
  cases h
  rfl

theorem setNestedField_eq_ok (field_map : List (String × Nat))
    (fields_info changed : List extendedField) (name : String) (field : AnyFieldInfo) (k : Nat)
    (hk : field_map.lookup name = some k)
    (h : setNestedField field_map fields_info name field = Outcome.ok changed) :
    changed = fields_info.modify (fun f => { f with nested_field := some field }) k := by
  unfold setNestedField at h
  rw [hk] at h
  cases h
  rfl

/-- The record at the position of the assignment after `setLength`. -/
theorem setLength_record (field_map : List (String × Nat))
    (fields_info changed : List extendedField) (name : String) (length k : Nat)
    (hk : field_map.lookup name = some k)
    (h : setLength field_map fields_info name length = Outcome.ok changed) :
    sameBut k fields_info changed ∧
      ∀ r, fields_info[k]? = some r → changed[k]? = some { r with length := some length } := by
  have e := setLength_eq_ok _ _ _ _ _ _ hk h
  subst e
  refine ⟨sameBut_modify k fields_info _ (fun _ => rfl), fun r hr => ?_⟩
  rw [List.getElem?_modify, hr]
  simp

/-- The loop over the fields of the struct that a length `P->F` points into: the record
keeps its length, and its nested field stays as it is or becomes a field of the struct
that is named `F`. -/
theorem nestedFieldLoop (field_map : List (String × Nat)) (name : String) (k : Nat)
    (hk : field_map.lookup name = some k) (pointee : Ty) (field_name : Option String)
    (body : List extendedField → Nat → Outcome (List extendedField))
    (hbody : ∀ fields_info i changed, body fields_info i = Outcome.ok changed →
      changed = fields_info ∨
        ∃ f F, pointee.Field i FirstArch = some f ∧ field_name = some F ∧ f.Name = F ∧
          setNestedField field_map fields_info name f = Outcome.ok changed) :
    ∀ (indexes : List Nat) (fields_info changed : List extendedField),
      forRange body indexes fields_info = Outcome.ok changed →
      sameBut k fields_info changed ∧
        ∀ r, fields_info[k]? = some r →
          ∃ r1, changed[k]? = some r1 ∧ r1.length = r.length ∧
            (r1.nested_field = r.nested_field ∨
              ∃ i f F, pointee.Field i FirstArch = some f ∧ field_name = some F ∧
                f.Name = F ∧ r1.nested_field = some f)
  | [], fields_info, changed, h => by
    cases h
    exact ⟨sameBut_refl _ _, fun r hr => ⟨r, hr, rfl, Or.inl rfl⟩⟩
  | i :: indexes, fields_info, changed, h => by
    obtain ⟨mid, h1, h2⟩ := forRange_cons_ok _ _ _ _ _ h
    obtain ⟨hs2, hr2⟩ := nestedFieldLoop field_map name k hk pointee field_name body hbody
      indexes mid changed h2
    rcases hbody _ _ _ h1 with e | ⟨field, F, hfield, hF, hname, hset⟩
    · subst e
      exact ⟨hs2, hr2⟩
    · have e := setNestedField_eq_ok _ _ _ _ _ _ hk hset
      subst e
      refine ⟨sameBut_trans k _ _ _ (sameBut_modify k fields_info
          (fun f => { f with nested_field := some field }) (fun _ => rfl)) hs2,
        fun r hr => ?_⟩
      have hmid : (List.modify (fun f => { f with nested_field := some field }) k
          fields_info)[k]? = some { r with nested_field := some field } := by
        rw [List.getElem?_modify, hr]
        simp
      obtain ⟨r1, hr1, hl, hn⟩ := hr2 _ hmid
      refine ⟨r1, hr1, hl, Or.inr ?_⟩
      rcases hn with hn | hn
      · exact ⟨i, field, F, hfield, hF, hname, hn⟩
      · exact hn

theorem recordNamed_eq_ok (field_map : List (String × Nat)) (fields_info : List extendedField)
    (name : String) (k : Nat) (record : extendedField)
    (hk : field_map.lookup name = some k)
    (h : recordNamed field_map fields_info name = Outcome.ok record) :
    fields_info[k]? = some record := by
  unfold recordNamed at h
  rw [hk] at h
  simp only [] at h
  split at h
  · cases h
  · rename_i f hf
    cases h
    exact hf

theorem elemFirstArch_eq_ok (t elem : Ty) (h : elemFirstArch t = Outcome.ok elem) :
    t.Elem FirstArch = some elem := by
  unfold elemFirstArch at h
  split at h
  · cases h
  · rename_i e he
    cases h
    exact he

/-- A length `P->F` that is accepted: `P` names a record whose type points to a struct
or a union, the length of the record of the member is the record of `P`, and its nested
field is a field of that struct or union named `F`. -/
theorem nestedLength_eq_ok (member : structuralMemberInfo) (field_map : List (String × Nat))
    (fields_info changed : List extendedField) (k : Nat)
    (hk : field_map.lookup member.Name = some k)
    (h : nestedLength member field_map fields_info = Outcome.ok changed) :
    sameBut k fields_info changed ∧
      ∀ r, fields_info[k]? = some r → r.nested_field = none →
        ∃ (P F : String) (j : Nat) (pointer pointee : Ty) (i : Nat) (f : AnyFieldInfo)
          (r1 : extendedField),
          (strings.Split member.Length "->").length ≤ 2 ∧
          (strings.Split member.Length "->")[0]? = some P ∧
          (strings.Split member.Length "->")[1]? = some F ∧
          field_map.lookup P = some j ∧
          (fields_info[j]?).map (fun f => f.field_info.Typ) = some pointer ∧
          pointsToStructure pointer pointee ∧
          pointee.Field i FirstArch = some f ∧ f.Name = F ∧
          changed[k]? = some r1 ∧ r1.length = some j ∧ r1.nested_field = some f := by
  unfold nestedLength at h
  simp only [] at h
  split at h
  · cases h
  · rename_i hlen
    split at h
    · cases h
    · rename_i P hP
      split at h
      · cases h
      · rename_i j hj
        rw [Outcome.bind_eq_ok] at h
        obtain ⟨fi1, hset, h⟩ := h
        obtain ⟨hs1, hr1⟩ := setLength_record _ _ _ _ _ _ hk hset
        split at h
        · cases h
        · rename_i length_field hlf
          split at h
          · cases h
          · rename_i hptr
            rw [Outcome.bind_eq_ok] at h
            obtain ⟨t1, ht1, h⟩ := h
            rw [Outcome.bind_eq_ok] at h
            obtain ⟨t2, ht2, h⟩ := h
            split at h
            · cases h
            · rename_i hkind
              split at h
              · cases h
              · rename_i count hcount
                rw [Outcome.bind_eq_ok] at h
                obtain ⟨fi2, hloop, h⟩ := h
                rw [Outcome.bind_eq_ok] at h
                obtain ⟨record, hrec, h⟩ := h
                split at h
                · cases h
                · rename_i hnested
                  cases h
                  obtain ⟨hs2, hr2⟩ := nestedFieldLoop field_map member.Name k hk t2
                    ((strings.Split member.Length "->")[1]?) _ (by
                      intro fields_info i changed hb
                      split at hb
                      · rename_i field F hfield hF
                        split at hb
                        · rename_i hname
                          exact Or.inr ⟨field, F, hfield, hF, hname, hb⟩
                        · cases hb
                          exact Or.inl rfl
                      · cases hb) (List.range count) _ _ hloop
                  refine ⟨sameBut_trans k _ _ _ hs1 hs2, fun r hr hnone => ?_⟩
                  obtain ⟨r1, hr1', hl, hn⟩ := hr2 _ (hr1 r hr)
                  have hrecord := recordNamed_eq_ok _ _ _ _ _ hk hrec
                  rw [hr1'] at hrecord
                  have hrr : record = r1 := (Option.some.inj hrecord).symm
                  subst hrr
                  rcases hn with hn | ⟨i, f, F, hf, hF, hname, hn⟩
                  · simp only [] at hn
                    rw [hnone] at hn
                    rw [hn] at hnested
                    exact absurd rfl hnested
                  · have hty : (fields_info[j]?).map (fun f => f.field_info.Typ) =
                        some length_field.Typ := by
                      have := hs1.2.2 j
                      rw [hlf] at this
                      cases hfj : fields_info[j]? with
                      | none => rw [hfj] at this; cases this
                      | some x =>
                        rw [hfj] at this
                        simp only [Option.map_some', Option.some.injEq] at this ⊢
                        unfold extendedField.Typ
                        rw [this]
                    have hpoints : pointsToStructure length_field.Typ t2 := by
                      refine ⟨⟨by simpa using hptr, ?_⟩, ?_⟩
                      · have e1 := elemFirstArch_eq_ok _ _ ht1
                        split at ht2
                        · rename_i hconst
                          exact Or.inr ⟨t1, e1, hconst, elemFirstArch_eq_ok _ _ ht2⟩
                        · rename_i hconst
                          cases ht2
                          exact Or.inl ⟨e1, hconst⟩
                      · by_cases hst : t2.Kind FirstArch = Kind.Struct
                        · exact Or.inl hst
                        · by_cases hun : t2.Kind FirstArch = Kind.Union
                          · exact Or.inr hun
                          · exact absurd ⟨hst, hun⟩ hkind
                    exact ⟨P, F, j, length_field.Typ, t2, i, f, record, by omega, hP, hF, hj, hty,
                      hpoints, hf, hname, hr1', hl, hn⟩

theorem altLength_eq_ok (member : structuralMemberInfo) (field_map : List (String × Nat))
    (fields_info changed : List extendedField)
    (h : altLength member field_map fields_info = Outcome.ok changed) :
    changed = fields_info := by
  unfold altLength at h
  rw [Outcome.bind_eq_ok] at h
  obtain ⟨record, _, h⟩ := h
  split at h
  · cases h
  · rw [Outcome.bind_eq_ok] at h
    obtain ⟨t1, _, h⟩ := h
    rw [Outcome.bind_eq_ok] at h
    obtain ⟨t2, _, h⟩ := h
    rw [Outcome.bind_eq_ok] at h
    obtain ⟨t3, _, h⟩ := h
    split at h
    · cases h
    · cases h
      rfl

/-- A turn of the second loop changes at most the pointers of the record of its
member. -/
theorem memberLength_sameBut (field_map : List (String × Nat))
    (fields_info changed : List extendedField) (member : structuralMemberInfo) (k : Nat)
    (hk : field_map.lookup member.Name = some k)
    (h : memberLength field_map fields_info member = Outcome.ok changed) :
    sameBut k fields_info changed := by
  unfold memberLength at h
  split at h
  · split at h
    · cases h
    · split at h
      · exact (setLength_record _ _ _ _ _ _ hk h).1
      · cases h
  · split at h
    · exact (nestedLength_eq_ok _ _ _ _ _ hk h).1
    · split at h
      · rw [altLength_eq_ok _ _ _ _ h]
        exact sameBut_refl _ _
      · split at h
        · cases h
          exact sameBut_refl _ _
        · split at h
          · split at h
            · exact (setLength_record _ _ _ _ _ _ hk h).1
            · cases h
          · cases h
            exact sameBut_refl _ _

/-! ### Texts of the attribute `len` -/

theorem strings.cut_none_of_not_mem (sep : List Char) (x : Char) (hx : x ∈ sep) :
    ∀ s : List Char, x ∉ s → strings.cut sep s = none
  | [], _ => strings.cut_nil_of_ne sep (List.ne_nil_of_mem hx)
  | c :: s, hs => by
    rw [strings.cut_cons]
    have hp : ¬ sep.isPrefixOf (c :: s) = true := fun hp =>
      hs ((List.isPrefixOf_iff_prefix.1 hp).subset hx)
    rw [if_neg hp, strings.cut_none_of_not_mem sep x hx s
      (fun h => hs (List.mem_cons_of_mem c h))]
    rfl

theorem strings.Contains_of_not_mem (s sep : String) (x : Char) (hx : x ∈ sep.data)
    (hs : x ∉ s.data) : strings.Contains s sep = false := by
  unfold strings.Contains
  rw [strings.cut_none_of_not_mem sep.data x hx s.data hs]
  rfl

theorem strings.HasSuffix_of_not_mem (s suffix : String) (x : Char) (hx : x ∈ suffix.data)
    (hs : x ∉ s.data) : strings.HasSuffix s suffix = false := by
  unfold strings.HasSuffix
  cases h : suffix.data.isSuffixOf s.data with
  | false => rfl
  | true => exact absurd ((List.isSuffixOf_iff_suffix.1 h).subset hx) hs

theorem strings.HasSuffix_append (s suffix : String) :
    strings.HasSuffix (s ++ suffix) suffix = true := by
  unfold strings.HasSuffix
  rw [String.data_append]
  exact List.isSuffixOf_iff_suffix.2 (List.suffix_append _ _)

theorem sliceString_without_suffix (s suffix : String) :
    sliceString (s ++ suffix) 0
      (((s ++ suffix).data.length : Int) - (suffix.data.length : Int)) = some s := by
  have h := sliceString_middle (s ++ suffix) [] s.data suffix.data 0
    (((s ++ suffix).data.length : Int) - (suffix.data.length : Int))
    (by rw [String.data_append]; rfl) rfl
    (by rw [String.data_append, List.length_append]; simp)
  exact h

theorem occurrences_arrow (P F : List Char) (hP : '-' ∉ P) (hF : '-' ∉ F) :
    occurrences ['-', '>'] (P ++ (['-', '>'] ++ F)) = 1 := by
  rw [occurrences_skip '-' ['>'] _ P (fun x hx e => hP (e ▸ hx))]
  have h0 : occurrences ['-', '>'] F = 0 := by
    have := occurrences_skip '-' ['>'] [] F (fun x hx e => hF (e ▸ hx))
    rw [List.append_nil] at this
    rw [this]
    rfl
  have h1 : occurrences ['-', '>'] ('>' :: F) = occurrences ['-', '>'] F :=
    occurrences_skip '-' ['>'] F ['>'] (fun x hx => by
      rw [List.mem_singleton] at hx
      subst hx
      decide)
  have hp : List.isPrefixOf ['-', '>'] ('-' :: '>' :: F) = true := by
    simp [List.isPrefixOf]
  show occurrences ['-', '>'] ('-' :: '>' :: F) = 1
  rw [occurrences_cons, if_pos hp, h1, h0]

/-- The text `P->F` is split into `P` and `F`. -/
theorem strings.Split_arrow (P F : String) (hP : '-' ∉ P.data) (hF : '-' ∉ F.data) :
    strings.Split (P ++ "->" ++ F) "->" = [P, F] := by
  have hdata : (P ++ "->" ++ F).data = P.data ++ (['-', '>'] ++ F.data) := by
    rw [String.data_append, String.data_append, List.append_assoc]
  have hocc := occurrences_arrow P.data F.data hP hF
  have hne : ['-', '>'] ≠ [] := by simp
  have hcut : strings.cut "->".data (P ++ "->" ++ F).data = some (P.data, F.data) := by
    rw [hdata]
    exact strings.cut_of_occurrences_one ['-', '>'] hne P.data F.data hocc
  have hcount : strings.Count (P ++ "->" ++ F) "->" = 1 := by
    unfold strings.Count
    rw [if_neg (show ¬ "->".data = [] from hne)]
    show strings.countN ['-', '>'] _ _ = 1
    rw [strings.countN_eq_occurrences '-' ['>'] (by decide) _ _ (Nat.le_refl _), hdata]
    exact hocc
  exact strings.Split_of_Count_one (P ++ "->" ++ F) "->" P.data F.data hne hcount hcut

theorem strings.Contains_arrow (P F : String) :
    strings.Contains (P ++ "->" ++ F) "->" = true := by
  unfold strings.Contains
  cases h : strings.cut "->".data (P ++ "->" ++ F).data with
  | some p => rfl
  | none =>
    have hne : ['-', '>'] ≠ [] := by simp
    have h0 := (strings.cut_eq_none_iff ['-', '>'] hne _).1 h
    have hdata : (P ++ "->" ++ F).data = P.data ++ (['-', '>'] ++ F.data) := by
      rw [String.data_append, String.data_append, List.append_assoc]
    rw [hdata] at h0
    have h1 := occurrences_instance ['-', '>'] F.data hne
    have h2 := occurrences_le_append ['-', '>'] P.data (['-', '>'] ++ F.data)
    omega

/-! ### The branches of the second loop -/

theorem memberLength_of_lengthNames (field_map : List (String × Nat))
    (fields_info : List extendedField) (member : structuralMemberInfo) (L : String)
    (hL : lengthNames member L) :
    (∀ j, field_map.lookup L = some j →
        memberLength field_map fields_info member =
          setLength field_map fields_info member.Name j) ∧
      (field_map.lookup L = none →
        memberLength field_map fields_info member = Outcome.error (lenFieldError member)) := by
  rcases hL with h | ⟨h, halt, hne, hone, hcomma, hdash⟩
  · have hs : sliceString (L ++ ",1") 0 (((L ++ ",1").data.length : Int) - 2) = some L :=
      sliceString_without_suffix L ",1"
    constructor
    · intro j hj
      unfold memberLength
      rw [h, if_pos (strings.HasSuffix_append L ",1"), hs]
      simp only [hj]
    · intro hj
      unfold memberLength
      rw [h, if_pos (strings.HasSuffix_append L ",1"), hs]
      simp only [hj]
  · have h1 : ¬ strings.HasSuffix member.Length ",1" = true := by
      rw [h, strings.HasSuffix_of_not_mem L ",1" ',' (by decide) hcomma]
      decide
    have h2 : ¬ strings.Contains member.Length "->" = true := by
      rw [h, strings.Contains_of_not_mem L "->" '-' (by decide) hdash]
      decide
    have h3 : ¬ member.AltLength ≠ "" := fun e => e halt
    have h4 : ¬ member.Length = "1" := by rw [h]; exact hone
    have h5 : member.Length ≠ "" ∧ member.Length ≠ "null-terminated" ∧
        strings.HasSuffix member.Length ",null-terminated" = false := by
      rw [h]
      refine ⟨hne, ?_, strings.HasSuffix_of_not_mem L ",null-terminated" ',' (by decide) hcomma⟩
      intro e
      rw [e] at hdash
      exact hdash (by decide)
    constructor
    · intro j hj
      unfold memberLength
      rw [if_neg h1, if_neg h2, if_neg h3, if_neg h4, if_pos h5, h]
      simp only [hj]
    · intro hj
      unfold memberLength
      rw [if_neg h1, if_neg h2, if_neg h3, if_neg h4, if_pos h5, h]
      simp only [hj]

theorem memberLength_of_lengthNamesField (field_map : List (String × Nat))
    (fields_info : List extendedField) (member : structuralMemberInfo) (P F : String)
    (h : lengthNamesField member P F) :
    memberLength field_map fields_info member = nestedLength member field_map fields_info ∧
      strings.Split member.Length "->" = [P, F] := by
  obtain ⟨h, hPc, hPd, hFc, hFd⟩ := h
  have h1 : ¬ strings.HasSuffix member.Length ",1" = true := by
    rw [h, strings.HasSuffix_of_not_mem (P ++ "->" ++ F) ",1" ',' (by decide) (by
      rw [String.data_append, String.data_append]
      simp only [List.mem_append, not_or]
      exact ⟨⟨hPc, by decide⟩, hFc⟩)]
    decide
  have h2 : strings.Contains member.Length "->" = true := by
    rw [h]
    exact strings.Contains_arrow P F
  constructor
  · unfold memberLength
    rw [if_neg h1, if_pos h2]
  · rw [h]
    exact strings.Split_arrow P F hPd hFd

theorem memberLength_of_lengthIsNone (field_map : List (String × Nat))
    (fields_info changed : List extendedField) (member : structuralMemberInfo)
    (hnone : lengthIsNone member)
    (h : memberLength field_map fields_info member = Outcome.ok changed) :
    changed = fields_info := by
  have key : ¬ strings.HasSuffix member.Length ",1" = true ∧
      ¬ strings.Contains member.Length "->" = true ∧
      (member.Length = "1" ∨ ¬ (member.Length ≠ "" ∧ member.Length ≠ "null-terminated" ∧
        strings.HasSuffix member.Length ",null-terminated" = false)) := by
    rcases hnone with e | e | ⟨X, e, hX⟩
    · rw [e]
      exact ⟨by decide, by decide, Or.inl rfl⟩
    · rw [e]
      exact ⟨by decide, by decide, Or.inr (fun c => c.2.1 rfl)⟩
    · rw [e]
      refine ⟨?_, ?_, Or.inr (fun c => ?_)⟩
      · have : strings.HasSuffix (X ++ ",null-terminated") ",1" = false := by
          unfold strings.HasSuffix List.isSuffixOf
          rw [String.data_append, List.reverse_append]
          rfl
        rw [this]
        decide
      · rw [strings.Contains_of_not_mem (X ++ ",null-terminated") "->" '>' (by decide) (by
          rw [String.data_append]
          simp only [List.mem_append, not_or]
          exact ⟨hX, by decide⟩)]
        decide
      · have := strings.HasSuffix_append X ",null-terminated"
        rw [c.2.2] at this
        cases this
  obtain ⟨h1, h2, h3⟩ := key
  unfold memberLength at h
  rw [if_neg h1, if_neg h2] at h
  split at h
  · exact altLength_eq_ok _ _ _ _ h
  · split at h
    · cases h
      rfl
    · rcases h3 with h3 | h3
      · rename_i hx
        exact absurd h3 hx
      · rw [if_neg h3] at h
        cases h
        rfl

/-! ### The two loops of `vulkanStructuralTypeMembersFromXML` -/

theorem declareMember_eq_ok (name : String) (types : TypeMap) (enum_values : EnumValues)
    (st st1 : List extendedField × List (String × Nat)) (member : structuralMemberInfo)
    (hapi : member.Api ≠ "vulkansc")
    (h : declareMember name types enum_values st member = Outcome.ok st1) :
    ∃ ty, st1 = (st.1 ++ [⟨Field member.Name ty, none, none⟩],
      (member.Name, st.1.length) :: st.2) := by
  unfold declareMember at h
  rw [Outcome.bind_eq_ok] at h
  obtain ⟨texts, _, h⟩ := h
  rw [Outcome.bind_eq_ok] at h
  obtain ⟨member_type, _, h⟩ := h
  rw [if_pos hapi] at h
  split at h
  · cases h
  · cases h
    exact ⟨_, rfl⟩

/-- The first loop over members that are all recorded: a record without pointers for
each member, in the order of the members, and a map from the names to the positions
of the records. -/
theorem declareMembers_records (name : String) (types : TypeMap) (enum_values : EnumValues) :
    ∀ (members : List structuralMemberInfo) (st st1 : List extendedField × List (String × Nat)),
      (∀ m ∈ members, m.Api ≠ "vulkansc") →
      forRange (declareMember name types enum_values) members st = Outcome.ok st1 →
      st1.1.length = st.1.length + members.length ∧
        (∀ i, i < st.1.length → st1.1[i]? = st.1[i]?) ∧
        (∀ i m, members[i]? = some m →
          ∃ ty, st1.1[st.1.length + i]? = some ⟨Field m.Name ty, none, none⟩) ∧
        (∀ L, (∀ m ∈ members, m.Name ≠ L) → st1.2.lookup L = st.2.lookup L) ∧
        ((members.map (fun m => m.Name)).Nodup →
          ∀ i m, members[i]? = some m → st1.2.lookup m.Name = some (st.1.length + i))
  | [], st, st1, _, h => by
    cases h
    refine ⟨rfl, fun _ _ => rfl, fun i m hm => ?_, fun _ _ => rfl, fun _ i m hm => ?_⟩
    · cases hm
    · cases hm
  | member :: members, st, st1, hall, h => by
    obtain ⟨mid, h1, h2⟩ := forRange_cons_ok _ _ _ _ _ h
    obtain ⟨ty, hmid⟩ := declareMember_eq_ok _ _ _ _ _ _
      (hall member (List.mem_cons_self _ _)) h1
    subst hmid
    obtain ⟨ih1, ih2, ih3, ih4, ih5⟩ := declareMembers_records name types enum_values members
      _ st1 (fun m hm => hall m (List.mem_cons_of_mem _ hm)) h2
    simp only [List.length_append, List.length_singleton] at ih1 ih2 ih3 ih5
    have hhead : st1.1[st.1.length]? = some ⟨Field member.Name ty, none, none⟩ := by
      rw [ih2 st.1.length (by omega), List.getElem?_append_right (Nat.le_refl _)]
      simp
    refine ⟨by simp only [List.length_cons]; omega, fun i hi => ?_, fun i m hm => ?_,
      fun L hL => ?_, fun hnodup i m hm => ?_⟩
    · rw [ih2 i (by omega), List.getElem?_append_left hi]
    · cases i with
      | zero =>
        simp only [List.getElem?_cons_zero, Option.some.injEq] at hm
        subst hm
        exact ⟨ty, hhead⟩
      | succ i =>
        simp only [List.getElem?_cons_succ] at hm
        obtain ⟨ty1, h3⟩ := ih3 i m hm
        refine ⟨ty1, ?_⟩
        rw [← h3]
        congr 1
        omega
    · rw [ih4 L (fun m hm => hL m (List.mem_cons_of_mem _ hm))]
      have hne : (L == member.Name) = false := by
        have := hL member (List.mem_cons_self _ _)
        simpa using fun e => this e.symm
      simp only [List.lookup_cons, hne]
    · simp only [List.map_cons, List.nodup_cons, List.mem_map, not_exists, not_and] at hnodup
      cases i with
      | zero =>
        simp only [List.getElem?_cons_zero, Option.some.injEq] at hm
        subst hm
        rw [ih4 member.Name (fun m1 hm1 => hnodup.1 m1 hm1)]
        simp only [List.lookup_cons, beq_self_eq_true]
        rfl
      | succ i =>
        simp only [List.getElem?_cons_succ] at hm
        rw [ih5 hnodup.2 i m hm]
        congr 1
        omega

/-- The second loop on members whose records stand at the positions from `b` on: the
turn of a member starts from records that hold, at the position of the member, what the
loop started from, and it leaves there what the loop ends with. -/
theorem memberLengths_steps (field_map : List (String × Nat)) :
    ∀ (members : List structuralMemberInfo) (b : Nat) (fields_info changed : List extendedField),
      (∀ i m, members[i]? = some m → field_map.lookup m.Name = some (b + i)) →
      forRange (memberLength field_map) members fields_info = Outcome.ok changed →
      changed.length = fields_info.length ∧
        (∀ j : Nat, (changed[j]?).map (fun f => f.field_info) =
          (fields_info[j]?).map (fun f => f.field_info)) ∧
        (∀ j : Nat, (j < b ∨ b + members.length ≤ j) → changed[j]? = fields_info[j]?) ∧
        ∀ i m, members[i]? = some m →
          ∃ before after : List extendedField,
            memberLength field_map before m = Outcome.ok after ∧
            before.length = fields_info.length ∧
            (∀ j : Nat, (before[j]?).map (fun f => f.field_info) =
              (fields_info[j]?).map (fun f => f.field_info)) ∧
            before[b + i]? = fields_info[b + i]? ∧ changed[b + i]? = after[b + i]?
  | [], b, fields_info, changed, _, h => by
    cases h
    refine ⟨rfl, fun _ => rfl, fun _ _ => rfl, fun i m hm => ?_⟩
    cases hm
  | member :: members, b, fields_info, changed, hpos, h => by
    obtain ⟨mid, h1, h2⟩ := forRange_cons_ok _ _ _ _ _ h
    have hstep := memberLength_sameBut field_map fields_info mid member b
      (hpos 0 member (List.getElem?_cons_zero ..)) h1
    obtain ⟨ih1, ih2, ih3, ih4⟩ := memberLengths_steps field_map members (b + 1) mid changed
      (fun i m hm => by
        have := hpos (i + 1) m (by simpa using hm)
        rw [this]
        congr 1
        omega) h2
    refine ⟨ih1.trans hstep.1, fun j => (ih2 j).trans (hstep.2.2 j), fun j hj => ?_,
      fun i m hm => ?_⟩
    · simp only [List.length_cons] at hj
      rw [ih3 j (by omega), hstep.2.1 j (by omega)]
    · cases i with
      | zero =>
        simp only [List.getElem?_cons_zero, Option.some.injEq] at hm
        subst hm
        exact ⟨fields_info, mid, h1, rfl, fun _ => rfl, rfl, ih3 (b + 0) (by omega)⟩
      | succ i =>
        simp only [List.getElem?_cons_succ] at hm
        obtain ⟨before, after, hs, hl, hf, hb, ha⟩ := ih4 i m hm
        have e : b + 1 + i = b + (i + 1) := by omega
        rw [e] at hb ha
        exact ⟨before, after, hs, hl.trans hstep.1, fun j => (hf j).trans (hstep.2.2 j),
          hb.trans (hstep.2.1 _ (by omega)), ha⟩

theorem forRange_append {α σ : Type} (body : σ → α → Outcome σ) :
    ∀ (xs ys : List α) (st : σ),
      forRange body (xs ++ ys) st = (forRange body xs st).bind (forRange body ys)
  | [], _, _ => rfl
  | x :: xs, ys, st => by
    rw [List.cons_append, forRange, forRange]
    cases body st x with
    | ok st1 => exact forRange_append body xs ys st1
    | error msg => rfl
    | panic => rfl
    | outOfFuel => rfl

/-! ### A length `P->F` that is refused -/

theorem forRange_unchanged {α σ : Type} (body : σ → α → Outcome σ) (st : σ) :
    ∀ xs : List α, (∀ x ∈ xs, body st x = Outcome.ok st) → forRange body xs st = Outcome.ok st
  | [], _ => rfl
  | x :: xs, h => by
    rw [forRange, h x (List.mem_cons_self _ _)]
    exact forRange_unchanged body st xs (fun y hy => h y (List.mem_cons_of_mem _ hy))

theorem nestedLength_no_sibling (member : structuralMemberInfo)
    (field_map : List (String × Nat)) (fields_info : List extendedField) (P F : String)
    (hsplit : strings.Split member.Length "->" = [P, F]) (hP : field_map.lookup P = none) :
    nestedLength member field_map fields_info = Outcome.error (lenFieldError member) := by
  unfold nestedLength
  simp only [hsplit, List.length_cons, List.length_nil, List.getElem?_cons_zero, hP]
  rfl

/-- The turn of a member with the length `P->F` up to the test of the type of `P`. -/
theorem nestedLength_pointer (member : structuralMemberInfo)
    (field_map : List (String × Nat)) (fields_info : List extendedField) (P F : String)
    (k j : Nat) (r rj : extendedField)
    (hsplit : strings.Split member.Length "->" = [P, F])
    (hk : field_map.lookup member.Name = some k) (hP : field_map.lookup P = some j)
    (hr : fields_info[k]? = some r) (hrj : fields_info[j]? = some rj) :
    (rj.Typ.Kind FirstArch ≠ Kind.Ptr →
      nestedLength member field_map fields_info = Outcome.error (lenFieldError member)) ∧
    ∀ target, pointsTo rj.Typ target →
      (target.Kind FirstArch ≠ Kind.Struct → target.Kind FirstArch ≠ Kind.Union →
        nestedLength member field_map fields_info = Outcome.error (lenFieldError member)) ∧
      ((target.Kind FirstArch = Kind.Struct ∨ target.Kind FirstArch = Kind.Union) →
        ∀ count, target.NumField FirstArch = some count → r.nested_field = none →
        (∀ n, n < count → ∃ f, target.Field n FirstArch = some f ∧ f.Name ≠ F) →
        nestedLength member field_map fields_info =
          Outcome.error ("Unexpected field referred by len in \"" ++ member.Name ++ "\"")) := by
  have hset : setLength field_map fields_info member.Name j =
      Outcome.ok (fields_info.modify (fun f => { f with length := some j }) k) := by
    unfold setLength
    rw [hk]
  obtain ⟨hs, hrec⟩ := setLength_record _ _ _ _ _ _ hk hset
  have hk1 := hrec r hr
  obtain ⟨rj1, hrj1, htyp⟩ : ∃ rj1,
      (fields_info.modify (fun f => { f with length := some j }) k)[j]? = some rj1 ∧
        rj1.Typ = rj.Typ := by
    have h := hs.2.2 j
    rw [hrj] at h
    cases hx : (fields_info.modify (fun f => { f with length := some j }) k)[j]? with
    | none => rw [hx] at h; cases h
    | some x =>
      rw [hx] at h
      simp only [Option.map_some', Option.some.injEq] at h
      refine ⟨x, rfl, ?_⟩
      unfold extendedField.Typ
      rw [h]
  have hstart : nestedLength member field_map fields_info =
      if rj.Typ.Kind FirstArch ≠ Kind.Ptr then Outcome.error (lenFieldError member)
      else
        (elemFirstArch rj.Typ).bind (fun length_type =>
        (if length_type.Kind FirstArch = Kind.Const then elemFirstArch length_type
          else Outcome.ok length_type).bind (fun length_type =>
        if length_type.Kind FirstArch ≠ Kind.Struct ∧
            length_type.Kind FirstArch ≠ Kind.Union then
          Outcome.error (lenFieldError member)
        else
          match length_type.NumField FirstArch with
          | none => Outcome.panic
          | some count =>
            (forRange (fun fields_info i =>
                match length_type.Field i FirstArch, some F with
                | some field, some field_name =>
                  if field.Name = field_name then
                    setNestedField field_map fields_info member.Name field
                  else Outcome.ok fields_info
                | _, _ => Outcome.panic)
              (List.range count)
              (fields_info.modify (fun f => { f with length := some j }) k)).bind
              (fun fields_info =>
            (recordNamed field_map fields_info member.Name).bind (fun record =>
            if record.nested_field.isNone then
              Outcome.error
                ("Unexpected field referred by len in \"" ++ member.Name ++ "\"")
            else Outcome.ok fields_info)))) := by
    unfold nestedLength
    simp only [hsplit, List.length_cons, List.length_nil, List.getElem?_cons_zero,
      List.getElem?_cons_succ, hP, hset, Outcome.bind, hrj1, htyp]
    rfl
  refine ⟨fun hptr => ?_, fun target ht => ?_⟩
  · rw [hstart, if_pos hptr]
  · obtain ⟨hptr, helem⟩ := ht
    have hmid : ((elemFirstArch rj.Typ).bind (fun length_type =>
        (if length_type.Kind FirstArch = Kind.Const then elemFirstArch length_type
          else Outcome.ok length_type))) = Outcome.ok target := by
      rcases helem with ⟨he, hc⟩ | ⟨constant, he, hc, he2⟩
      · unfold elemFirstArch
        rw [he]
        simp only [Outcome.bind]
        rw [if_neg hc]
      · unfold elemFirstArch
        rw [he]
        simp only [Outcome.bind]
        rw [if_pos hc, he2]
    have hstart2 : nestedLength member field_map fields_info =
        if target.Kind FirstArch ≠ Kind.Struct ∧ target.Kind FirstArch ≠ Kind.Union then
          Outcome.error (lenFieldError member)
        else
          match target.NumField FirstArch with
          | none => Outcome.panic
          | some count =>
            (forRange (fun fields_info i =>
                match target.Field i FirstArch, some F with
                | some field, some field_name =>
                  if field.Name = field_name then
                    setNestedField field_map fields_info member.Name field
                  else Outcome.ok fields_info
                | _, _ => Outcome.panic)
              (List.range count)
              (fields_info.modify (fun f => { f with length := some j }) k)).bind
              (fun fields_info =>
            (recordNamed field_map fields_info member.Name).bind (fun record =>
            if record.nested_field.isNone then
              Outcome.error
                ("Unexpected field referred by len in \"" ++ member.Name ++ "\"")
            else Outcome.ok fields_info)) := by
      rw [hstart, if_neg (by simpa using hptr)]
      cases he1 : elemFirstArch rj.Typ with
      | ok t1 =>
        rw [he1] at hmid
        simp only [Outcome.bind] at hmid ⊢
        rw [hmid]
      | error msg => rw [he1] at hmid; cases hmid
      | panic => rw [he1] at hmid; cases hmid
      | outOfFuel => rw [he1] at hmid; cases hmid
    refine ⟨fun h1 h2 => ?_, fun hstruct count hcount hnone hfields => ?_⟩
    · rw [hstart2, if_pos ⟨h1, h2⟩]
    · have hkind : ¬ (target.Kind FirstArch ≠ Kind.Struct ∧
          target.Kind FirstArch ≠ Kind.Union) := fun c =>
        hstruct.elim (fun e => c.1 e) (fun e => c.2 e)
      rw [hstart2, if_neg hkind, hcount]
      simp only []
      rw [forRange_unchanged _ _ _ (fun n hn => by
        obtain ⟨f, hf, hname⟩ := hfields n (List.mem_range.1 hn)
        simp only [hf, if_neg hname])]
      simp only [Outcome.bind]
      unfold recordNamed
      rw [hk]
      simp only [hk1, Option.isNone, hnone]
      rfl

/-! ### The lengths that `vulkanStructuralTypeMembersFromXML` records -/

/-- An entry of the map of the first loop stands for the member of that name. -/
theorem declareMembers_sibling (name : String) (types : TypeMap) (enum_values : EnumValues)
    (members : List structuralMemberInfo) (st : List extendedField × List (String × Nat))
    (hall : ∀ m ∈ members, m.Api ≠ "vulkansc")
    (hnodup : (members.map (fun m => m.Name)).Nodup)
    (h : forRange (declareMember name types enum_values) members ([], []) = Outcome.ok st)
    (L : String) (j : Nat) (hj : st.2.lookup L = some j) :
    ∃ sibling, members[j]? = some sibling ∧ sibling.Name = L := by
  obtain ⟨_, _, _, i4, i5⟩ := declareMembers_records name types enum_values members _ st hall h
  by_cases hex : ∃ s ∈ members, s.Name = L
  · obtain ⟨s, hs, hname⟩ := hex
    obtain ⟨n, hn⟩ := List.getElem?_of_mem hs
    have := i5 hnodup n s hn
    rw [hname, hj] at this
    simp only [List.length_nil, Nat.zero_add, Option.some.injEq] at this
    subst this
    exact ⟨s, hn, hname⟩
  · have := i4 L (fun m hm e => hex ⟨m, hm, e⟩)
    rw [hj] at this
    cases this

/-- The record at a position of the slice of the first loop is the record of the member
at that position. -/
theorem declareMembers_member (name : String) (types : TypeMap) (enum_values : EnumValues)
    (members : List structuralMemberInfo) (st : List extendedField × List (String × Nat))
    (hall : ∀ m ∈ members, m.Api ≠ "vulkansc")
    (h : forRange (declareMember name types enum_values) members ([], []) = Outcome.ok st)
    (j : Nat) (rj : extendedField) (hj : st.1[j]? = some rj) :
    ∃ sibling, members[j]? = some sibling ∧ sibling.Name = rj.Name := by
  obtain ⟨i1, _, i3, _, _⟩ := declareMembers_records name types enum_values members _ st hall h
  simp only [List.length_nil, Nat.zero_add] at i1 i3
  have hlt : j < members.length := by
    rw [← i1]
    exact (List.getElem?_eq_some_iff.1 hj).1
  obtain ⟨ty, hty⟩ := i3 j members[j] (List.getElem?_eq_getElem hlt)
  rw [hj] at hty
  cases hty
  exact ⟨members[j], List.getElem?_eq_getElem hlt, rfl⟩

/-- The lengths of members that are all recorded and have distinct names: the records
that `vulkanStructuralTypeMembersFromXML` returns stand in the order of the members, and the
record of a member `m` holds: for a `len` that names `L` (followed by `,1` or not), the
length is the record of the sibling `L` and there is no nested field; for a `len`
`P->F`, the length is the record of the sibling `P`, whose type points to a struct or
union, constant or not, and the nested field is a field of it named `F`; for `1`,
`null-terminated` and `...,null-terminated` there is no length. When the members before
`m` pass, the function ends with the error `Unexpected len field` for an `L` or a `P`
that no sibling has as its name and for a `P` whose type is no such pointer, and with the
error `Unexpected field referred by len` for an `F` that no field of the struct has as
its name. -/
theorem memberLength_records (name : String) (members : List structuralMemberInfo)
    (types : TypeMap) (enum_values : EnumValues)
    (hall : ∀ m ∈ members, m.Api ≠ "vulkansc")
    (hnodup : (members.map (fun m => m.Name)).Nodup) :
    (∀ fields,
      vulkanStructuralTypeMembersFromXML name members types enum_values = Outcome.ok fields →
      fields.length = members.length ∧
      ∀ (i : Nat) (m : structuralMemberInfo), members[i]? = some m →
        ∃ r : extendedField, fields[i]? = some r ∧ r.Name = m.Name ∧
          (∀ L, lengthNames m L →
            ∃ (j : Nat) (sibling : structuralMemberInfo),
              members[j]? = some sibling ∧ sibling.Name = L ∧
              r.Length = some j ∧ r.NestedField = none) ∧
          (∀ P F, lengthNamesField m P F →
            ∃ (j : Nat) (sibling : structuralMemberInfo) (rj : extendedField) (pointee : Ty)
                (n : Nat) (f : AnyFieldInfo),
              members[j]? = some sibling ∧ sibling.Name = P ∧
              r.Length = some j ∧ fields[j]? = some rj ∧ pointsToStructure rj.Typ pointee ∧
              pointee.Field n FirstArch = some f ∧ f.Name = F ∧ r.NestedField = some f) ∧
          (lengthIsNone m → r.Length = none ∧ r.NestedField = none)) ∧
    (∀ st pre m post fields_info, members = pre ++ m :: post →
      forRange (declareMember name types enum_values) members ([], []) = Outcome.ok st →
      forRange (memberLength st.2) pre st.1 = Outcome.ok fields_info →
      (∀ L, lengthNames m L → (∀ s ∈ members, s.Name ≠ L) →
        vulkanStructuralTypeMembersFromXML name members types enum_values =
          Outcome.error (lenFieldError m)) ∧
      (∀ P F, lengthNamesField m P F →
        ((∀ s ∈ members, s.Name ≠ P) →
          vulkanStructuralTypeMembersFromXML name members types enum_values =
            Outcome.error (lenFieldError m)) ∧
        ∀ (j : Nat) (rj : extendedField), st.1[j]? = some rj → rj.Name = P →
          (rj.Typ.Kind FirstArch ≠ Kind.Ptr →
            vulkanStructuralTypeMembersFromXML name members types enum_values =
              Outcome.error (lenFieldError m)) ∧
          ∀ target, pointsTo rj.Typ target →
            (target.Kind FirstArch ≠ Kind.Struct → target.Kind FirstArch ≠ Kind.Union →
              vulkanStructuralTypeMembersFromXML name members types enum_values =
                Outcome.error (lenFieldError m)) ∧
            ((target.Kind FirstArch = Kind.Struct ∨ target.Kind FirstArch = Kind.Union) →
              ∀ count, target.NumField FirstArch = some count →
              (∀ n, n < count → ∃ f, target.Field n FirstArch = some f ∧ f.Name ≠ F) →
              vulkanStructuralTypeMembersFromXML name members types enum_values =
                Outcome.error
                  ("Unexpected field referred by len in \"" ++ m.Name ++ "\"")))) := by
  constructor
  · intro fields h
    unfold vulkanStructuralTypeMembersFromXML at h
    rw [Outcome.bind_eq_ok] at h
    obtain ⟨st, h1, h2⟩ := h
    obtain ⟨i1, _, i3, i4, i5⟩ :=
      declareMembers_records name types enum_values members _ st hall h1
    simp only [List.length_nil, Nat.zero_add] at i1 i3 i5
    obtain ⟨s1, s2, _, s4⟩ := memberLengths_steps st.2 members 0 st.1 fields
      (fun i m hm => by rw [i5 hnodup i m hm, Nat.zero_add]) h2
    refine ⟨s1.trans i1, fun i m hm => ?_⟩
    obtain ⟨before, after, hstep, _, hf, hb, ha⟩ := s4 i m hm
    simp only [Nat.zero_add] at hb ha
    obtain ⟨ty, hty⟩ := i3 i m hm
    have hk := i5 hnodup i m hm
    rw [hty] at hb
    have hsame := memberLength_sameBut st.2 before after m i hk hstep
    obtain ⟨r, hr, hrf⟩ : ∃ r, after[i]? = some r ∧ r.field_info = Field m.Name ty := by
      have := hsame.2.2 i
      rw [hb] at this
      exact Option.map_eq_some'.1 this
    rw [hr] at ha
    refine ⟨r, ha, ?_, fun L hL => ?_, fun P F hPF => ?_, fun hnone => ?_⟩
    · unfold extendedField.Name
      rw [hrf]
      rfl
    · obtain ⟨e1, e2⟩ := memberLength_of_lengthNames st.2 before m L hL
      cases hlk : st.2.lookup L with
      | none =>
        rw [e2 hlk] at hstep
        cases hstep
      | some j =>
        rw [e1 j hlk] at hstep
        have := (setLength_record _ _ _ _ _ _ hk hstep).2 _ hb
        rw [hr] at this
        cases this
        obtain ⟨sibling, hs, hname⟩ :=
          declareMembers_sibling name types enum_values members st hall hnodup h1 L j hlk
        exact ⟨j, sibling, hs, hname, rfl, rfl⟩
    · obtain ⟨e1, e2⟩ := memberLength_of_lengthNamesField st.2 before m P F hPF
      rw [e1] at hstep
      obtain ⟨P1, F1, j, pointer, pointee, n, f, r1, _, hP1, hF1, hj, hptr, hpoints, hfield,
        hfname, hr1, hlen, hnested⟩ := (nestedLength_eq_ok m st.2 before after i hk hstep).2
          _ hb rfl
      rw [e2] at hP1 hF1
      simp only [List.getElem?_cons_zero, List.getElem?_cons_succ, Option.some.injEq]
        at hP1 hF1
      subst hP1 hF1
      rw [hr] at hr1
      cases hr1
      obtain ⟨sibling, hs, hname⟩ :=
        declareMembers_sibling name types enum_values members st hall hnodup h1 _ j hj
      obtain ⟨bj, hbj, hbt⟩ := Option.map_eq_some'.1 hptr
      obtain ⟨rj, hrj, hrjf⟩ : ∃ rj, fields[j]? = some rj ∧ rj.field_info = bj.field_info := by
        have := (s2 j).trans (hf j).symm
        rw [hbj] at this
        exact Option.map_eq_some'.1 this
      refine ⟨j, sibling, rj, pointee, n, f, hs, hname, hlen, hrj, ?_, hfield, hfname,
        hnested⟩
      unfold extendedField.Typ
      rw [hrjf, hbt]
      exact hpoints
    · have := memberLength_of_lengthIsNone st.2 before after m hnone hstep
      subst this
      rw [hb] at hr
      cases hr
      exact ⟨rfl, rfl⟩
  · intro st pre m post fields_info hmembers h1 hpre
    obtain ⟨i1, _, i3, i4, i5⟩ :=
      declareMembers_records name types enum_values members _ st hall h1
    simp only [List.length_nil, Nat.zero_add] at i1 i3 i5
    have hlift : ∀ msg, memberLength st.2 fields_info m = Outcome.error msg →
        vulkanStructuralTypeMembersFromXML name members types enum_values =
          Outcome.error msg := by
      intro msg hmsg
      unfold vulkanStructuralTypeMembersFromXML
      rw [h1]
      show forRange (memberLength st.2) members st.1 = _
      rw [hmembers, forRange_append, hpre]
      exact forRange_head_error _ _ _ _ _ hmsg
    have hm : members[pre.length]? = some m := by
      rw [hmembers, List.getElem?_append_right (Nat.le_refl _)]
      simp
    have hk := i5 hnodup _ m hm
    obtain ⟨ty, hty⟩ := i3 _ m hm
    obtain ⟨_, s2, s3, _⟩ := memberLengths_steps st.2 pre 0 st.1 fields_info
      (fun i x hx => by
        have hlt := (List.getElem?_eq_some_iff.1 hx).1
        have : members[i]? = some x := by
          rw [hmembers, List.getElem?_append_left hlt]
          exact hx
        rw [i5 hnodup i x this, Nat.zero_add]) hpre
    have hr : fields_info[pre.length]? = some ⟨Field m.Name ty, none, none⟩ := by
      rw [s3 pre.length (Or.inr (by omega)), hty]
    refine ⟨fun L hL hno => ?_, fun P F hPF => ?_⟩
    · exact hlift _ ((memberLength_of_lengthNames st.2 fields_info m L hL).2
        ((i4 L hno).trans rfl))
    · obtain ⟨e1, e2⟩ := memberLength_of_lengthNamesField st.2 fields_info m P F hPF
      refine ⟨fun hno => ?_, fun j rj hj hname => ?_⟩
      · apply hlift
        rw [e1]
        exact nestedLength_no_sibling m st.2 fields_info P F e2 ((i4 P hno).trans rfl)
      · obtain ⟨sibling, hs, hsname⟩ :=
          declareMembers_member name types enum_values members st hall h1 j rj hj
        have hP : st.2.lookup P = some j := by
          rw [← hname, ← hsname]
          exact i5 hnodup j sibling hs
        obtain ⟨rj1, hrj1, hrjf⟩ : ∃ rj1, fields_info[j]? = some rj1 ∧
            rj1.field_info = rj.field_info := by
          have := s2 j
          rw [hj] at this
          exact Option.map_eq_some'.1 this
        have htyp : rj1.Typ = rj.Typ := by
          unfold extendedField.Typ
          rw [hrjf]
        obtain ⟨p1, p2⟩ := nestedLength_pointer m st.2 fields_info P F _ j _ rj1 e2 hk hP hr
          hrj1
        rw [htyp] at p1 p2
        refine ⟨fun hkind => ?_, fun target htarget => ⟨fun n1 n2 => ?_,
          fun hstruct count hcount hfields => ?_⟩⟩
        · apply hlift
          rw [e1]
          exact p1 hkind
        · apply hlift
          rw [e1]
          exact (p2 target htarget).1 n1 n2
        · apply hlift
          rw [e1]
          exact (p2 target htarget).2 hstruct count hcount rfl hfields

set_option maxRecDepth 100000 in
/-- The lengths of the parameters of `vkAllocateDescriptorSets`, where the length of
`pDescriptorSets` is `pAllocateInfo->descriptorSetCount`, on the parameters of
`vkCmdSetBlendConstants`, where the length of `blendConstants` is `blendConstantsLen`,
and on a member whose length names no sibling. -/
theorem memberLength_records_witness :
    vulkanStructuralTypeMembersFromXML "vkAllocateDescriptorSets" allocateParams
        allocateTypes [] = Outcome.ok allocateFields ∧
    (∃ r : extendedField, allocateFields[2]? = some r ∧
      ∃ (j : Nat) (sibling : structuralMemberInfo) (rj : extendedField) (pointee : Ty)
          (n : Nat) (f : AnyFieldInfo),
        allocateParams[j]? = some sibling ∧ sibling.Name = "pAllocateInfo" ∧
          r.Length = some j ∧ allocateFields[j]? = some rj ∧
          pointsToStructure rj.Typ pointee ∧ pointee.Field n FirstArch = some f ∧
          f.Name = "descriptorSetCount" ∧ r.NestedField = some f) ∧
    (∃ r : extendedField, blendConstantsFields[2]? = some r ∧
      ∃ (j : Nat) (sibling : structuralMemberInfo),
        blendConstantsParams[j]? = some sibling ∧ sibling.Name = "blendConstantsLen" ∧
          r.Length = some j ∧ r.NestedField = none) ∧
    vulkanStructuralTypeMembersFromXML "S" [dataMember] sampleTypes [] =
      Outcome.error (lenFieldError dataMember) := by
  refine ⟨rfl, ?_, ?_, ?_⟩
  · obtain ⟨r, hr, _, _, h, _⟩ :=
      ((memberLength_records "vkAllocateDescriptorSets" allocateParams allocateTypes []
        (by decide) (by decide)).1 allocateFields rfl).2 2 _ rfl
    exact ⟨r, hr, h "pAllocateInfo" "descriptorSetCount"
      ⟨rfl, by decide, by decide, by decide, by decide⟩⟩
  · obtain ⟨r, hr, _, h, _, _⟩ :=
      ((memberLength_records "vkCmdSetBlendConstants" blendConstantsParams
        blendConstantsTypes [] (by decide) (by decide)).1 blendConstantsFields rfl).2 2 _ rfl
    exact ⟨r, hr, h "blendConstantsLen"
      (Or.inr ⟨rfl, rfl, by decide, by decide, by decide, by decide⟩)⟩
  · exact ((memberLength_records "S" [dataMember] sampleTypes [] (by decide) (by decide)).2
      ([⟨Field "pData" (PointerType (ConstType Float32Type)), none, none⟩], [("pData", 0)])
      [] dataMember [] _ rfl rfl rfl).1 "dataCount"
      (Or.inr ⟨rfl, rfl, by decide, by decide, by decide, by decide⟩) (by decide)

/-! ## Commands: arrays among the parameters -/

/-- The loop that fills `params_info`, when every type of the kind `Array` has an
element: a parameter for each record, in the order of the records. -/
theorem decayParams_eq_ok :
    ∀ fields_info : List extendedField,
      (∀ f ∈ fields_info, f.Typ.Kind FirstArch = Kind.Array →
        ∃ elem, f.Typ.Elem FirstArch = some elem) →
      ∃ params_info, decayParams fields_info = Outcome.ok params_info ∧
        params_info.length = fields_info.length ∧
        ∀ (i : Nat) (f : extendedField), fields_info[i]? = some f →
          (∀ elem, f.Typ.Kind FirstArch = Kind.Array → f.Typ.Elem FirstArch = some elem →
            params_info[i]? =
              some (ExtendedField f.Name (PointerType elem) f.Length f.NestedField)) ∧
          (f.Typ.Kind FirstArch ≠ Kind.Array → params_info[i]? = some f)
  | [], _ => ⟨[], rfl, rfl, fun i f hf => by cases hf⟩
  | field_info :: fields_info, h => by
    obtain ⟨rest, hrest, hlen, hall⟩ := decayParams_eq_ok fields_info
      (fun f hf => h f (List.mem_cons_of_mem _ hf))
    by_cases hkind : field_info.Typ.Kind FirstArch = Kind.Array
    · obtain ⟨elem, helem⟩ := h field_info (List.mem_cons_self _ _) hkind
      refine ⟨ExtendedField field_info.Name (PointerType elem) field_info.Length
        field_info.NestedField :: rest, ?_, by simp only [List.length_cons, hlen],
        fun i f hf => ?_⟩
      · rw [decayParams, if_pos hkind]
        unfold elemFirstArch
        rw [helem, hrest]
        rfl
      · cases i with
        | zero =>
          simp only [List.getElem?_cons_zero, Option.some.injEq] at hf
          subst hf
          refine ⟨fun e _ he => ?_, fun hne => absurd hkind hne⟩
          rw [helem] at he
          cases he
          exact List.getElem?_cons_zero ..
        | succ i =>
          simp only [List.getElem?_cons_succ] at hf ⊢
          exact hall i f hf
    · refine ⟨field_info :: rest, ?_, by simp only [List.length_cons, hlen],
        fun i f hf => ?_⟩
      · rw [decayParams, if_neg hkind, hrest]
        rfl
      · cases i with
        | zero =>
          simp only [List.getElem?_cons_zero, Option.some.injEq] at hf
          subst hf
          exact ⟨fun _ hk _ => absurd hk hkind, fun _ => List.getElem?_cons_zero ..⟩
        | succ i =>
          simp only [List.getElem?_cons_succ] at hf ⊢
          exact hall i f hf

/-- C34: for a command whose prototype is accepted and whose parameters
`vulkanStructuralTypeMembersFromXML` records as `fields_info`, every type of the kind
`Array` among them having an element, the signature holds a parameter for each record,
in the order of the records, with the name, the length and the nested field of the
record; the parameter of a record whose type is an array is built by `ExtendedField` with
the type `PointerType` of the element of the array, whatever the element is, and the
parameter of any other record is the record itself. -/
theorem commandSignature_params (command : commandInfo) (types : TypeMap)
    (enum_values : EnumValues) (result_type : Ty) (fields_info : List extendedField)
    (hresult : types.lookup command.Proto.Typ = some result_type)
    (hproto : space.ReplaceAllString command.Proto.RawXML " " =
      "<type>" ++ command.Proto.Typ ++ "</type> <name>" ++ command.Name ++ "</name>")
    (hfields : vulkanStructuralTypeMembersFromXML command.Name command.Params types
      enum_values = Outcome.ok fields_info)
    (harrays : ∀ f ∈ fields_info, f.Typ.Kind FirstArch = Kind.Array →
      ∃ elem, f.Typ.Elem FirstArch = some elem) :
    ∃ params_info,
      commandSignature command types enum_values =
        Outcome.ok (result_type, fields_info, params_info) ∧
      params_info.length = fields_info.length ∧
      ∀ (i : Nat) (f : extendedField), fields_info[i]? = some f →
        ∃ p : extendedField, params_info[i]? = some p ∧ p.Name = f.Name ∧
          p.Length = f.Length ∧ p.NestedField = f.NestedField ∧
          (∀ elem size, f.Typ = ArrayType elem size → p.Typ = PointerType elem) ∧
          (∀ elem, f.Typ.Kind FirstArch = Kind.Array → f.Typ.Elem FirstArch = some elem →
            p = ExtendedField f.Name (PointerType elem) f.Length f.NestedField) ∧
          (f.Typ.Kind FirstArch ≠ Kind.Array → p = f) := by
  obtain ⟨params_info, hparams, hlen, hall⟩ := decayParams_eq_ok fields_info harrays
  refine ⟨params_info, ?_, hlen, fun i f hf => ?_⟩
  · unfold commandSignature
    rw [hresult]
    simp only []
    rw [if_neg (fun c => c hproto), hfields]
    simp only [Outcome.bind]
    rw [hparams]
  · obtain ⟨h1, h2⟩ := hall i f hf
    by_cases hkind : f.Typ.Kind FirstArch = Kind.Array
    · obtain ⟨elem, helem⟩ := harrays f (List.mem_iff_getElem?.2 ⟨i, hf⟩) hkind
      refine ⟨_, h1 elem hkind helem, rfl, rfl, rfl, fun e size he => ?_,
        fun e _ he => ?_, fun hne => absurd hkind hne⟩
      · rw [he] at helem
        cases helem
        rfl
      · rw [helem] at he
        cases he
        rfl
    · refine ⟨f, h2 hkind, rfl, rfl, rfl, fun e size he => ?_, fun _ hk _ => absurd hk hkind,
        fun _ => rfl⟩
      rw [he] at hkind
      exact absurd rfl hkind

set_option maxRecDepth 100000 in
/-- C34 on the command `vkCmdSetBlendConstants` of `TestCommand`: the parameter
`const float blendConstants[4]` has the type `PointerType (ConstType Float32Type)` and
its length is the record at the position 1, the one of `blendConstantsLen`. -/
theorem commandSignature_params_witness :
    commandSignature setBlendConstantsCommand blendConstantsTypes [] =
      Outcome.ok (VoidType, blendConstantsFields,
        [⟨Field "commandBuffer" (handleNamed "VkCommandBuffer"), none, none⟩,
          ⟨Field "blendConstantsLen" UInt32TType, none, none⟩,
          ExtendedField "blendConstants" (PointerType (ConstType Float32Type)) (some 1)
            none]) ∧
    (blendConstantsFields[1]?).map extendedField.Name = some "blendConstantsLen" ∧
    ∃ params_info,
      commandSignature setBlendConstantsCommand blendConstantsTypes [] =
        Outcome.ok (VoidType, blendConstantsFields, params_info) ∧
      params_info.length = 3 ∧
      ∃ p : extendedField, params_info[2]? = some p ∧ p.Name = "blendConstants" ∧
        p.Length = some 1 ∧ p.Typ = PointerType (ConstType Float32Type) := by
  refine ⟨rfl, rfl, ?_⟩
  obtain ⟨params_info, h1, h2, h3⟩ := commandSignature_params setBlendConstantsCommand
    blendConstantsTypes [] VoidType blendConstantsFields rfl (by decide) rfl
    (fun f hf hkind => by
      simp only [blendConstantsFields, List.mem_cons, List.mem_singleton, List.not_mem_nil,
        or_false] at hf
      rcases hf with rfl | rfl | rfl
      · cases hkind
      · cases hkind
      · exact ⟨_, rfl⟩)
  obtain ⟨p, hp, hname, hlength, _, htyp, _, _⟩ := h3 2 _ rfl
  exact ⟨params_info, h1, h2, p, hp, hname, hlength, htyp (ConstType Float32Type) 4 rfl⟩

/-! ### Members for the API `vulkansc` in the second loop -/

set_option maxRecDepth 100000 in
/-- C35 (failing input): the second loop of `vulkanStructuralTypeMembersFromXML` also
runs for the members with `api="vulkansc"`, which the first loop does not record. For
the members `uint32_t dataCount` and, for `vulkansc` only, `const float* pData` with
`len="dataCount"`, the first loop passes with the record of `dataCount` alone, and the
assignment `field_map[member.Name].length = length` of the second loop dereferences
`nil`: the function panics, where the same members without the attribute `api` give the
length of `pData` as the record of `dataCount`. For the members `countA`, `countB`,
`pData` with `len="countA"` for `vulkan` and `pData` with `len="countB"` for `vulkansc`,
the length of the one record of `pData` is the record at the position 1, the one of
`countB`, although the `len` of the recorded member names `countA`; without the member
for `vulkansc` it is the record at the position 0. -/
theorem memberLength_vulkansc_member :
    forRange (declareMember "S" sampleTypes []) scOnlyMembers ([], []) =
      Outcome.ok ([⟨Field "dataCount" UInt32TType, none, none⟩], [("dataCount", 0)]) ∧
    vulkanStructuralTypeMembersFromXML "S" scOnlyMembers sampleTypes [] = Outcome.panic ∧
    vulkanStructuralTypeMembersFromXML "S" [dataCountMember, dataMember] sampleTypes [] =
      Outcome.ok [⟨Field "dataCount" UInt32TType, none, none⟩,
        ⟨Field "pData" (PointerType (ConstType Float32Type)), some 0, none⟩] ∧
    vulkanStructuralTypeMembersFromXML "S" scVariantMembers sampleTypes [] =
      Outcome.ok [⟨Field "countA" UInt32TType, none, none⟩,
        ⟨Field "countB" UInt32TType, none, none⟩,
        ⟨Field "pData" (PointerType (ConstType Float32Type)), some 1, none⟩] ∧
    vulkanStructuralTypeMembersFromXML "S" (scVariantMembers.take 3) sampleTypes [] =
      Outcome.ok [⟨Field "countA" UInt32TType, none, none⟩,
        ⟨Field "countB" UInt32TType, none, none⟩,
        ⟨Field "pData" (PointerType (ConstType Float32Type)), some 0, none⟩] :=
  ⟨rfl, rfl, rfl, rfl, rfl⟩

/-! ## The first loop: an enum whose members are aliases of each other -/

/-- The first loop of `VulkanTypesfromXML` with the functions of the source returns when
the chain of aliases of every member of every enum ends within the fuel of
`enumFieldValue`: the statements of `convertTypes_of_Returns` hold for it. -/
theorem convertTypes_loader_returns (fuel : Nat) (enum_values : EnumValues)
    (enum_types : EnumTypes)
    (h : ∀ name, ∀ e ∈ (enum_types.lookup name).getD [], aliasEnds enum_values fuel (some e))
    (records : List typeInfo) (types : TypeMap) :
    convertTypes (loaderConverters fuel enum_values enum_types) (records.length + 1) []
        records types ≠ Outcome.outOfFuel ∧
      (∀ loop_fuel, records.length + 1 ≤ loop_fuel →
        convertTypes (loaderConverters fuel enum_values enum_types) loop_fuel [] records types =
          convertTypes (loaderConverters fuel enum_values enum_types) (records.length + 1) []
            records types) ∧
      ∀ loop_fuel,
        convertTypes.turns (loaderConverters fuel enum_values enum_types) loop_fuel []
          records types ≤ records.length + 1 :=
  let all := convertTypes_of_Returns (loaderConverters fuel enum_values enum_types)
    (loaderConverters_Returns fuel enum_values enum_types h) records types
  ⟨all.1, all.2.1, all.2.2.1⟩

theorem enumFieldValue_loop :
    ∀ fuel : Nat,
      enumFieldValue fuel (some { enumNamed "VK_A" with Alias := "VK_B" }) loopEnumValues =
          Outcome.outOfFuel ∧
        enumFieldValue fuel (some { enumNamed "VK_B" with Alias := "VK_A" }) loopEnumValues =
          Outcome.outOfFuel
  | 0 => ⟨rfl, rfl⟩
  | fuel + 1 =>
    have ih := enumFieldValue_loop fuel
    have ha : enumFieldValue (fuel + 1) (some { enumNamed "VK_A" with Alias := "VK_B" })
        loopEnumValues =
        enumFieldValue fuel (some { enumNamed "VK_B" with Alias := "VK_A" })
          loopEnumValues := rfl
    have hb : enumFieldValue (fuel + 1) (some { enumNamed "VK_B" with Alias := "VK_A" })
        loopEnumValues =
        enumFieldValue fuel (some { enumNamed "VK_A" with Alias := "VK_B" })
          loopEnumValues := rfl
    ⟨ha.trans ih.2, hb.trans ih.1⟩

/-- C38 (failing input): for the registry with the type `VkLoop` of the category `enum`
and the element `enums` of that name whose member `VK_A` is an alias of `VK_B` and whose
member `VK_B` is an alias of `VK_A`, `parseEnumValues` returns the two maps, and in the
first turn of the first loop of `VulkanTypesfromXML` the call of `vulkanEnumTypeFromXML`
does not return: `enumFieldValue` calls itself for `VK_B`, then for `VK_A`, and so on, so
that no depth of the recursion gives a value, and the loop gives no result whatever fuel
it has. The chain of aliases of `VK_A` ends after no number of steps. The loop started
its first turn and no other. With the value `1` for `VK_B` the loop returns in its
second test of the loop condition with the enum type of the two members. -/
theorem convertTypes_enum_alias_cycle :
    parseEnumValues loopRegistry = Outcome.ok (loopEnumValues, loopEnumTypes) ∧
    (∀ fuel : Nat,
      enumFieldValue fuel (some { enumNamed "VK_A" with Alias := "VK_B" }) loopEnumValues =
        Outcome.outOfFuel) ∧
    (∀ n : Nat, ¬ aliasEnds loopEnumValues n (some { enumNamed "VK_A" with Alias := "VK_B" })) ∧
    (∀ fuel : Nat,
      vulkanEnumTypeFromXML fuel loopEnumRecord loopEnumValues loopEnumTypes =
        Outcome.outOfFuel) ∧
    (∀ fuel loop_fuel : Nat,
      convertTypes (loaderConverters fuel loopEnumValues loopEnumTypes) loop_fuel []
        loopRegistry.Types sampleTypes = Outcome.outOfFuel) ∧
    (∀ fuel loop_fuel : Nat,
      convertTypes.turns (loaderConverters fuel loopEnumValues loopEnumTypes) (loop_fuel + 1) []
        loopRegistry.Types sampleTypes = 1) ∧
    convertTypes
        (loaderConverters 1
          [("VK_A", { enumNamed "VK_A" with Alias := "VK_B" }),
            ("VK_B", { enumNamed "VK_B" with Value := "1" })]
          [("VkLoop", [{ enumNamed "VK_A" with Alias := "VK_B" },
            { enumNamed "VK_B" with Value := "1" }])])
        2 [] loopRegistry.Types sampleTypes =
      Outcome.ok (("VkLoop", EnumType "VkLoop" Int32TType
        [EnumField "VK_A" Int32TType "VK_B" 1, EnumField "VK_B" Int32TType "" 1]) ::
          sampleTypes) := by
  have henum : ∀ fuel : Nat,
      vulkanEnumTypeFromXML fuel loopEnumRecord loopEnumValues loopEnumTypes =
        Outcome.outOfFuel := by
    intro fuel
    have h := (enumFieldValue_loop fuel).1
    show (match enumFits fuel loopEnumValues
        [{ enumNamed "VK_A" with Alias := "VK_B" }, { enumNamed "VK_B" with Alias := "VK_A" }]
        (true, true) with
      | Outcome.ok (fits_in_int32, fits_in_uint32) => _
      | Outcome.error msg => Outcome.error msg
      | Outcome.panic => Outcome.panic
      | Outcome.outOfFuel => Outcome.outOfFuel) = Outcome.outOfFuel
    have hfits : enumFits fuel loopEnumValues
        [{ enumNamed "VK_A" with Alias := "VK_B" }, { enumNamed "VK_B" with Alias := "VK_A" }]
        (true, true) = Outcome.outOfFuel := by
      rw [enumFits, h]
    rw [hfits]
  have hturn : ∀ fuel : Nat,
      forRange (convertType (loaderConverters fuel loopEnumValues loopEnumTypes))
        loopRegistry.Types (sampleTypes, []) = Outcome.outOfFuel := by
    intro fuel
    have hc : convertType (loaderConverters fuel loopEnumValues loopEnumTypes)
        (sampleTypes, []) loopEnumRecord =
        match some (vulkanEnumTypeFromXML fuel loopEnumRecord loopEnumValues loopEnumTypes) with
        | none => Outcome.error ("Unknown type category \"" ++ loopEnumRecord.Category ++ "\"")
        | some (Outcome.ok c_type) =>
          Outcome.ok ((loopEnumRecord.Name, c_type) :: sampleTypes, [])
        | some (Outcome.error msg) =>
          if msg = unknownType then Outcome.ok (sampleTypes, [] ++ [loopEnumRecord])
          else Outcome.error msg
        | some Outcome.panic => Outcome.panic
        | some Outcome.outOfFuel => Outcome.outOfFuel := rfl
    show forRange _ [loopEnumRecord] (sampleTypes, []) = Outcome.outOfFuel
    rw [forRange, hc, henum]
  refine ⟨by decide, fun fuel => (enumFieldValue_loop fuel).1, fun n hn => ?_, henum,
    fun fuel loop_fuel => ?_, fun fuel loop_fuel => ?_, rfl⟩
  · exact (enumFieldValue_returns_iff loopEnumValues n _).2 hn (enumFieldValue_loop n).1
  · cases loop_fuel with
    | zero => rfl
    | succ loop_fuel =>
      rw [convertTypes_succ]
      show (forRange _ loopRegistry.Types (sampleTypes, [])).bind _ = Outcome.outOfFuel
      rw [hturn]
      rfl
  · have e : convertTypes.turns (loaderConverters fuel loopEnumValues loopEnumTypes)
        (loop_fuel + 1) [] loopRegistry.Types sampleTypes =
        match forRange (convertType (loaderConverters fuel loopEnumValues loopEnumTypes))
            loopRegistry.Types (sampleTypes, []) with
        | Outcome.ok st =>
          1 + convertTypes.turns (loaderConverters fuel loopEnumValues loopEnumTypes)
            loop_fuel loopRegistry.Types st.2 st.1
        | _ => 1 := rfl
    rw [e, hturn]

end CppTypes
